import Mathlib

/-!
# NetworkResourceLoader (Source/WebKit/NetworkProcess/NetworkResourceLoader.cpp)

A shallow embedding of the per-request resource loader of the network process.
The loader is a record of its member variables; every member function is a
function from a loader (and its arguments) to the new loader and the list of
calls it made on its collaborators (cache, transport, client connection, load
checker, sandbox extensions), in program order.  A member function that
dereferences a pointer that is null in the given state has no result (`none`).

Collaborators whose code is not part of the sources (URL, ResourceRequest,
ResourceResponse, NetworkCache, NetworkLoad, NetworkLoadChecker, ...) appear
only through the observations the loader makes of them: as fields of the
values it inspects, or as functions of the environment `Env`.
-/

namespace WebKit

/-! ## Values the loader inspects -/

/-- Bytes of a WebCore::SharedBuffer, in order. -/
abbrev SharedBuffer := List Nat

/-- WebCore::URL, reduced to what the loader asks of it. -/
structure URL where
  string : String
  protocolIsInHTTPFamily : Bool
  protocolIsBlob : Bool
  host : String
deriving DecidableEq, Repr

/-- WebCore::ResourceRequestCachePolicy: the two enumerators the loader tests,
the others kept apart by an index. -/
inductive ResourceRequestCachePolicy where
  | DoNotUseAnyCache
  | RefreshAnyCacheData
  | otherPolicy (index : Nat)
deriving DecidableEq, Repr

/-- HTTP header names read or written by the loader. -/
inductive HTTPHeaderName where
  | FromOrigin
  | ETag
  | LastModified
  | IfNoneMatch
  | IfModifiedSince
  | otherName (name : String)
deriving DecidableEq, Repr

/-- A header map as an association list; the first binding of a name wins. -/
abbrev HTTPHeaderMap := List (HTTPHeaderName × String)

/-- The value of a header field, the empty string when the field is absent. -/
def httpHeaderFieldOf (headers : HTTPHeaderMap) (name : HTTPHeaderName) : String :=
  match headers.find? (fun p => p.1 == name) with
  | some p => p.2
  | none => ""

/-- HTTPHeaderMap::set: replaces the binding of a name. -/
def setHTTPHeaderFieldOf (headers : HTTPHeaderMap) (name : HTTPHeaderName) (value : String) :
    HTTPHeaderMap :=
  (name, value) :: headers.filter (fun p => !(p.1 == name))

/-- One element of a request body; only encoded blobs matter to the loader. -/
structure FormDataElement where
  isEncodedBlob : Bool
  m_url : URL
deriving DecidableEq, Repr

/-- WebCore::ResourceRequest, reduced to what the loader asks of it.
`isConditional` and `requesterIsMain` are the results of
`ResourceRequest::isConditional()` and of the test
`requester() == Requester::Main` behind `isMainResource()`. -/
structure ResourceRequest where
  url : URL
  cachePolicy : ResourceRequestCachePolicy
  cachePartition : String
  isConditional : Bool
  requesterIsMain : Bool
  httpHeaderFields : HTTPHeaderMap
  httpBody : Option (List FormDataElement)
deriving DecidableEq, Repr

namespace ResourceRequest

def setCachePolicy (r : ResourceRequest) (p : ResourceRequestCachePolicy) : ResourceRequest :=
  { r with cachePolicy := p }

def setCachePartition (r : ResourceRequest) (p : String) : ResourceRequest :=
  { r with cachePartition := p }

def setHTTPHeaderField (r : ResourceRequest) (name : HTTPHeaderName) (value : String) :
    ResourceRequest :=
  { r with httpHeaderFields := setHTTPHeaderFieldOf r.httpHeaderFields name value }

end ResourceRequest

/-- WebCore::ResourceResponse, reduced to what the loader asks of it. -/
structure ResourceResponse where
  isNull : Bool
  url : URL
  httpStatusCode : Int
  isMultipart : Bool
  httpHeaderFields : HTTPHeaderMap
  hasCertificateInfo : Bool
deriving DecidableEq, Repr

namespace ResourceResponse

def httpHeaderField (r : ResourceResponse) (name : HTTPHeaderName) : String :=
  httpHeaderFieldOf r.httpHeaderFields name

/-- A default-constructed response. -/
def null : ResourceResponse :=
  { isNull := true
    url := { string := "", protocolIsInHTTPFamily := false, protocolIsBlob := false, host := "" }
    httpStatusCode := 0
    isMultipart := false
    httpHeaderFields := []
    hasCertificateInfo := false }

end ResourceResponse

/-- ResourceResponse::SanitizationType. -/
inductive SanitizationType where
  | Redirection
  | RemoveCookies
  | CrossOriginSafe
deriving DecidableEq, Repr

/-- ResourceError::Type. -/
inductive ResourceErrorType where
  | Null
  | General
  | AccessControl
  | Cancellation
  | Timeout
deriving DecidableEq, Repr

/-- WebCore::ResourceError. -/
structure ResourceError where
  domain : String
  errorCode : Int
  failingURL : URL
  localizedDescription : String
  type : ResourceErrorType
deriving DecidableEq, Repr

namespace ResourceError

/-- A default-constructed error. -/
def null : ResourceError :=
  { domain := ""
    errorCode := 0
    failingURL := { string := "", protocolIsInHTTPFamily := false, protocolIsBlob := false,
                    host := "" }
    localizedDescription := ""
    type := ResourceErrorType.Null }

/-- Modelled from the spec: an error is null when nothing failed (a
default-constructed error). -/
def isNull (e : ResourceError) : Bool := e.type == ResourceErrorType.Null

/-- Modelled from the spec: the `isCancellation` predicate tells cancellations
from the other kinds of error. -/
def isCancellation (e : ResourceError) : Bool := e.type == ResourceErrorType.Cancellation

end ResourceError

/-- WebCore::SecurityOrigin; comparisons between origins are functions of `Env`. -/
structure SecurityOrigin where
  ident : Nat
  isUnique : Bool
  host : String
deriving DecidableEq, Repr

/-- WebCore::FromOriginDisposition, the result of parsing a From-Origin header. -/
inductive FromOriginDisposition where
  | None
  | Same
  | SameSite
  | Invalid
deriving DecidableEq, Repr

/-- FetchOptions::Destination: the enumerators the loader tests, the others kept
apart by an index. -/
inductive Destination where
  | EmptyString
  | Audio
  | Video
  | otherDestination (index : Nat)
deriving DecidableEq, Repr

inductive ClientCredentialPolicy where
  | CannotAskClientForCredentials
  | MayAskClientForCredentials
deriving DecidableEq, Repr

inductive StoredCredentialsPolicy where
  | DoNotUse
  | Use
deriving DecidableEq, Repr

/-- PAL::SessionID. -/
structure SessionID where
  sessionID : Nat
  isEphemeral : Bool
deriving DecidableEq, Repr

/-- A sandbox extension handle, known by its identity. -/
structure SandboxExtension where
  ident : Nat
deriving DecidableEq, Repr

/-- WebCore::BlobDataFileReference, known by its identity. -/
structure BlobDataFileReference where
  ident : Nat
deriving DecidableEq, Repr

/-- WebCore::NetworkLoadMetrics, known by its identity. -/
structure NetworkLoadMetrics where
  ident : Nat
deriving DecidableEq, Repr

/-- The metrics `sendResultForCacheEntry` builds: complete, every byte count zero. -/
def completeZeroMetrics : NetworkLoadMetrics := { ident := 0 }

/-- NetworkCache::Entry. -/
structure Entry where
  response : ResourceResponse
  buffer : SharedBuffer
  redirectRequest : Option ResourceRequest
  needsValidation : Bool
  bodyHash : Option Nat
  shareableResourceHandle : Option Nat
deriving DecidableEq, Repr

/-- NetworkCache::DataKey. -/
structure DataKey where
  partition : String
  type : String
  bodyHash : Nat
deriving DecidableEq, Repr

/-- The network cache of the process, known by its identity. -/
structure Cache where
  ident : Nat
deriving DecidableEq, Repr

/-- NetworkResourceLoadParameters (with the NetworkLoadParameters it extends). -/
structure NetworkResourceLoadParameters where
  identifier : Nat
  webPageID : Nat
  webFrameID : Nat
  sessionID : SessionID
  request : ResourceRequest
  defersLoading : Bool
  clientCredentialPolicy : ClientCredentialPolicy
  storedCredentialsPolicy : StoredCredentialsPolicy
  needsCertificateInfo : Bool
  shouldRestrictHTTPResponseAccess : Bool
  shouldEnableFromOriginResponseHeader : Bool
  destination : Destination
  sourceOrigin : Option SecurityOrigin
  frameAncestorOrigins : List SecurityOrigin
  maximumBufferingTime : Int
  derivedCachedDataTypesToRetrieve : List String
  requestBodySandboxExtensions : List SandboxExtension
  resourceSandboxExtension : Option SandboxExtension
  blobFileReferences : List BlobDataFileReference
deriving DecidableEq, Repr

/-- Modelled from the spec: the Transport (NetworkLoad, whose code is not part
of the sources) is constructed with the parameters of the load and answers
`currentRequest()`.  Whether it exists is `m_networkLoad`; its current request
is the request it was created with until the transport moves on
(`Event.transportRequestChanged`). -/
structure NetworkLoad where
  currentRequest : ResourceRequest
deriving DecidableEq, Repr

/-- Modelled from the spec: the LoadChecker (NetworkLoadChecker, whose code is
not part of the sources), as far as the loader sees it: its
`storedCredentialsPolicy()`.  What `check`, `checkRedirection` and
`validateResponse` answer is given by the events and by `Env`. -/
structure NetworkLoadChecker where
  storedCredentialsPolicy : StoredCredentialsPolicy
deriving DecidableEq, Repr

/-- NetworkResourceLoader::SynchronousLoadData; `delayedReply` is null once the
reply has been sent. -/
structure SynchronousLoadData where
  currentRequest : Option ResourceRequest
  delayedReply : Bool
  response : ResourceResponse
  error : ResourceError
deriving DecidableEq, Repr

/-! ## Calls on collaborators -/

/-- Messages to the web process (WebResourceLoader and NetworkProcessConnection). -/
inductive Message where
  | WillSendRequest (redirectRequest : ResourceRequest) (redirectResponse : ResourceResponse)
  | DidReceiveResponse (response : ResourceResponse) (needsContinueDidReceiveResponseMessage : Bool)
  | DidReceiveData (data : SharedBuffer) (encodedDataLength : Nat)
  | DidReceiveResource (handle : Nat)
  | DidRetrieveDerivedData (type : String) (data : SharedBuffer)
  | DidSendData (bytesSent totalBytesToBeSent : Nat)
  | DidBlockAuthenticationChallenge
  | DidFinishResourceLoad (metrics : NetworkLoadMetrics)
  | DidFailResourceLoad (error : ResourceError)
  | DidCacheResource (request : ResourceRequest) (handle : Nat) (sessionID : SessionID)
deriving DecidableEq, Repr

/-- One call the loader makes on a collaborator. -/
inductive Effect where
  | send (message : Message)
  | sendSynchronousReply (error : ResourceError) (response : ResourceResponse)
      (responseBuffer : SharedBuffer)
  | cacheRetrieve (request : ResourceRequest) (webPageID webFrameID : Nat)
  | cacheUpdate (request : ResourceRequest) (webPageID webFrameID : Nat) (existing : Entry)
      (response : ResourceResponse)
  | cacheStore (request : ResourceRequest) (response : ResourceResponse) (body : SharedBuffer)
  | cacheStoreRedirect (request : ResourceRequest) (response : ResourceResponse)
      (redirectRequest : ResourceRequest)
  | cacheRemove (request : ResourceRequest)
  | cacheRetrieveData (key : DataKey) (entry : Entry) (retrieveCount : Nat)
  | networkLoadCreate (parameters : NetworkResourceLoadParameters)
  | networkLoadCancel
  | networkLoadSetDefersLoading (defers : Bool)
  | networkLoadContinueWillSendRequest (request : ResourceRequest)
  | networkLoadContinueDidReceiveResponse
  | convertNetworkLoadToDownload (downloadID : Nat) (hadNetworkLoad : Bool)
      (fileReferences : List BlobDataFileReference) (request : ResourceRequest)
      (response : ResourceResponse)
  | extensionConsume (extension : SandboxExtension)
  | extensionRevoke (extension : SandboxExtension)
  | prepareForFileAccess (file : BlobDataFileReference)
  | revokeFileAccess (file : BlobDataFileReference)
  | didCleanupResourceLoader
  | loadCheckerCheck (request : ResourceRequest)
  | loadCheckerCheckRedirection (redirectResponse : ResourceResponse)
      (redirectRequest : ResourceRequest) (storedCredentialsPolicy : StoredCredentialsPolicy)
      (request : ResourceRequest)
  | dispatchDidFailLoading (error : ResourceError)
  | addWebsiteDataStore (sessionID : SessionID)
  | logInvalidSessionID (webPageID : Nat)
  | addNetworkLoadInformationResponse (identifier : Nat) (response : ResourceResponse)
  | addNetworkLoadInformationMetrics (identifier : Nat) (metrics : NetworkLoadMetrics)
  | removeNetworkLoadInformation (identifier : Nat)
deriving DecidableEq, Repr

/-- What the loader asks of the rest of the process and of WebCore: functions
whose code is outside NetworkResourceLoader.cpp, and build flags. -/
structure Env where
  /-- The result of `NetworkProcess::singleton().cache()`. -/
  processCache : Option Cache
  /-- The result of `NetworkBlobRegistry::singleton().filesInBlob(connection, url)`. -/
  filesInBlob : URL → List BlobDataFileReference
  /-- Whether `SessionTracker::networkSession(id)` is non-null. -/
  hasNetworkSession : SessionID → Bool
  /-- The same lookup after `addWebsiteDataStore` for that session. -/
  hasNetworkSessionAfterAdd : SessionID → Bool
  /-- The result of `m_connection->captureExtraNetworkLoadMetricsEnabled()`. -/
  captureExtraNetworkLoadMetricsEnabled : Bool
  /-- The function `WebCore::parseFromOriginHeader`. -/
  parseFromOriginHeader : String → FromOriginDisposition
  /-- The result of `SecurityOrigin::create(url)`. -/
  securityOriginCreate : URL → SecurityOrigin
  /-- The result of `a->isSameOriginAs(b)`. -/
  isSameOriginAs : SecurityOrigin → SecurityOrigin → Bool
  /-- The result of `origin->canRequest(url)`. -/
  canRequest : SecurityOrigin → URL → Bool
  /-- The result of `protocolHostAndPortAreEqual(a, b)`. -/
  protocolHostAndPortAreEqual : URL → URL → Bool
  /-- The result of `ResourceRequest::partitionName(host)`. -/
  partitionName : String → String
  /-- The build flag ENABLE(PUBLIC_SUFFIX_LIST). -/
  enablePublicSuffixList : Bool
  /-- The build flag ENABLE(SHAREABLE_RESOURCE). -/
  enableShareableResource : Bool
  /-- The response after `response.sanitizeHTTPHeaderFields(type)`. -/
  sanitizeHTTPHeaderFields : ResourceResponse → SanitizationType → ResourceResponse
  /-- The result of `m_networkLoadChecker->validateResponse(response)`. -/
  validateResponse : NetworkLoadChecker → ResourceResponse → ResourceError
  /-- The result of `m_cache->update(request, ids, existingEntry, response)`. -/
  cacheUpdate : ResourceRequest → Nat → Nat → Entry → ResourceResponse → Entry
  /-- The error `internalError(url)` of WebErrors. -/
  internalError : URL → ResourceError
  /-- Whether `convertNetworkLoadToDownload` moves the file references it is
  handed out of the vector of the loader. -/
  downloadTakesFileReferences : Bool

/-! ## The loader -/

/-- The member variables of NetworkResourceLoader.  `m_bufferingTimer` is
whether the timer is active; `m_connection` is not a field: calls on it are
effects.  The counters are natural numbers: `m_redirectCount` counts redirect
hops, which the transport bounds (the comment at line 170 speaks of a little
over 30), and the byte counters count bytes of buffers held in memory, so none
of them comes near the size of its machine word. -/
structure NetworkResourceLoader where
  m_parameters : NetworkResourceLoadParameters
  m_networkLoad : Option NetworkLoad
  m_response : ResourceResponse
  m_bufferedData : Option SharedBuffer
  m_bufferedDataForCache : Option SharedBuffer
  m_bufferedDataEncodedDataLength : Nat
  m_numBytesReceived : Nat
  m_bytesReceived : Nat
  m_redirectCount : Nat
  m_retrievedDerivedDataCount : Nat
  m_didConsumeSandboxExtensions : Bool
  m_defersLoading : Bool
  m_wasStarted : Bool
  m_isAllowedToAskUserForCredentials : Bool
  m_isWaitingContinueWillSendRequestForCachedRedirect : Bool
  m_bufferingTimer : Bool
  m_cache : Option Cache
  m_cacheEntryForValidation : Option Entry
  m_cacheEntryWaitingForContinueDidReceiveResponse : Option Entry
  m_fileReferences : List BlobDataFileReference
  m_networkLoadChecker : Option NetworkLoadChecker
  m_synchronousLoadData : Option SynchronousLoadData
deriving DecidableEq, Repr

/-- The result of a member function: the loader afterwards and the calls made,
or nothing when the function dereferences a null pointer. -/
abbrev Outcome := Option (NetworkResourceLoader × List Effect)

/-- Runs `f` on the loader an outcome left, appending its calls. -/
def Outcome.andThen (o : Outcome) (f : NetworkResourceLoader → Outcome) : Outcome :=
  match o with
  | none => none
  | some (l, es) =>
    match f l with
    | none => none
    | some (l', es') => some (l', es ++ es')

namespace NetworkResourceLoader

def originalRequest (l : NetworkResourceLoader) : ResourceRequest := l.m_parameters.request

def sessionID (l : NetworkResourceLoader) : SessionID := l.m_parameters.sessionID

def isMainResource (l : NetworkResourceLoader) : Bool := l.m_parameters.request.requesterIsMain

def identifier (l : NetworkResourceLoader) : Nat := l.m_parameters.identifier

/-- Lines 178-181. -/
def isSynchronous (l : NetworkResourceLoader) : Bool := l.m_synchronousLoadData.isSome

/-- Lines 93-110. -/
def shouldUseNetworkLoadChecker (isSynchronous : Bool)
    (parameters : NetworkResourceLoadParameters) : Bool :=
  if isSynchronous then true
  else if !parameters.shouldRestrictHTTPResponseAccess then false
  else
    match parameters.destination with
    | Destination.Audio => true
    | Destination.Video => true
    | _ => false

/-- The file references the constructor collects from the encoded blobs of the
request body (lines 125-130). -/
def constructorFileReferences (env : Env) (request : ResourceRequest) :
    List BlobDataFileReference :=
  match request.httpBody with
  | none => []
  | some elements =>
    (elements.filter (fun e => e.isEncodedBlob)).flatMap (fun e => env.filesInBlob e.m_url)

/-- The constructor (lines 112-142).  `synchronousReply` is whether a delayed
reply was passed; the members without an initializer in the constructor start
at their zero values. -/
def create (env : Env) (parameters : NetworkResourceLoadParameters) (synchronousReply : Bool) :
    NetworkResourceLoader :=
  { m_parameters := parameters
    m_networkLoad := none
    m_response := ResourceResponse.null
    m_bufferedData := none
    m_bufferedDataForCache := none
    m_bufferedDataEncodedDataLength := 0
    m_numBytesReceived := 0
    m_bytesReceived := 0
    m_redirectCount := 0
    m_retrievedDerivedDataCount := 0
    m_didConsumeSandboxExtensions := false
    m_defersLoading := parameters.defersLoading
    m_wasStarted := false
    m_isAllowedToAskUserForCredentials :=
      parameters.clientCredentialPolicy == ClientCredentialPolicy.MayAskClientForCredentials
    m_isWaitingContinueWillSendRequestForCachedRedirect := false
    m_bufferingTimer := false
    m_cache := if parameters.sessionID.isEphemeral then none else env.processCache
    m_cacheEntryForValidation := none
    m_cacheEntryWaitingForContinueDidReceiveResponse := none
    m_fileReferences := constructorFileReferences env parameters.request
    m_networkLoadChecker :=
      if shouldUseNetworkLoadChecker synchronousReply parameters then
        some { storedCredentialsPolicy := parameters.storedCredentialsPolicy }
      else none
    m_synchronousLoadData :=
      if synchronousReply then
        some { currentRequest := none, delayedReply := true, response := ResourceResponse.null,
               error := ResourceError.null }
      else none }

/-- Lines 151-163. -/
def canUseCache (l : NetworkResourceLoader) (request : ResourceRequest) : Bool :=
  if l.m_cache.isNone then false
  else if !request.url.protocolIsInHTTPFamily then false
  else if l.originalRequest.cachePolicy == ResourceRequestCachePolicy.DoNotUseAnyCache then false
  else true

def maximumCachedRedirectCount : Nat := 5

/-- Lines 165-176. -/
def canUseCachedRedirect (l : NetworkResourceLoader) (request : ResourceRequest) : Bool :=
  if !l.canUseCache request then false
  else if l.m_redirectCount > maximumCachedRedirectCount then false
  else true


/-- The value of `(size_t)-1`, what `sendBuffer(*m_bufferedData, -1)` passes on a
64-bit build. -/
def sizeTMinusOne : Nat := 2 ^ 64 - 1

/-- Lines 696-702. -/
def sendBuffer (l : NetworkResourceLoader) (buffer : SharedBuffer) (encodedDataLength : Nat) :
    NetworkResourceLoader × List Effect :=
  (l, [Effect.send (Message.DidReceiveData buffer encodedDataLength)])

/-- Lines 857-871. -/
def consumeSandboxExtensions (l : NetworkResourceLoader) : NetworkResourceLoader × List Effect :=
  ({ l with m_didConsumeSandboxExtensions := true },
   l.m_parameters.requestBodySandboxExtensions.map Effect.extensionConsume
     ++ (match l.m_parameters.resourceSandboxExtension with
         | some extension => [Effect.extensionConsume extension]
         | none => [])
     ++ l.m_fileReferences.map Effect.prepareForFileAccess)

/-- Lines 873-887. -/
def invalidateSandboxExtensions (l : NetworkResourceLoader) :
    NetworkResourceLoader × List Effect :=
  if l.m_didConsumeSandboxExtensions then
    ({ l with m_didConsumeSandboxExtensions := false, m_fileReferences := [] },
     l.m_parameters.requestBodySandboxExtensions.map Effect.extensionRevoke
       ++ (match l.m_parameters.resourceSandboxExtension with
           | some extension => [Effect.extensionRevoke extension]
           | none => [])
       ++ l.m_fileReferences.map Effect.revokeFileAccess)
  else
    ({ l with m_fileReferences := [] }, [])

/-- Lines 326-338. -/
def cleanup (l : NetworkResourceLoader) : NetworkResourceLoader × List Effect :=
  let l1 := { l with m_bufferingTimer := false }
  let r := l1.invalidateSandboxExtensions
  ({ r.1 with m_networkLoad := none }, r.2 ++ [Effect.didCleanupResourceLoader])

end NetworkResourceLoader

/-- Lines 80-91: sends the delayed reply and clears it; no result when the
reply is already null. -/
def sendReplyToSynchronousRequest (data : SynchronousLoadData) (buffer : Option SharedBuffer) :
    Option (SynchronousLoadData × List Effect) :=
  let responseBuffer : SharedBuffer :=
    match buffer with
    | some b => if b.length ≠ 0 then b else []
    | none => []
  if data.delayedReply then
    some ({ data with delayedReply := false },
          [Effect.sendSynchronousReply data.error data.response responseBuffer])
  else none

/-- Lines 365-377. -/
def areFrameAncestorsSameSite (env : Env) (response : ResourceResponse)
    (frameAncestorOrigins : List SecurityOrigin) : Bool :=
  if env.enablePublicSuffixList then
    let responsePartition := env.partitionName response.url.host
    !(frameAncestorOrigins.any
        (fun item => item.isUnique || env.partitionName item.host != responsePartition))
  else false

/-- Lines 379-384. -/
def areFrameAncestorsSameOrigin (env : Env) (response : ResourceResponse)
    (frameAncestorOrigins : List SecurityOrigin) : Bool :=
  let responseOrigin := env.securityOriginCreate response.url
  !(frameAncestorOrigins.any (fun item => !env.isSameOriginAs item responseOrigin))

/-- Lines 386-398. -/
def shouldCancelCrossOriginLoad (env : Env) (response : ResourceResponse)
    (frameAncestorOrigins : List SecurityOrigin) : Bool :=
  match env.parseFromOriginHeader (response.httpHeaderField HTTPHeaderName.FromOrigin) with
  | FromOriginDisposition.None => false
  | FromOriginDisposition.Invalid => false
  | FromOriginDisposition.Same => !areFrameAncestorsSameOrigin env response frameAncestorOrigins
  | FromOriginDisposition.SameSite => !areFrameAncestorsSameSite env response frameAncestorOrigins

/-- The constant `errorDomainWebKitInternal` of WebCore. -/
def errorDomainWebKitInternal : String := "WebKitInternal"

/-- Lines 400-403. -/
def fromOriginResourceError (url : URL) : ResourceError :=
  { domain := errorDomainWebKitInternal
    errorCode := 0
    failingURL := url
    localizedDescription :=
      "Cancelled load because it violates the resource" ++ String.singleton (Char.ofNat 39)
        ++ "s From-Origin response header."
    type := ResourceErrorType.AccessControl }

/-- The value a checker (or a cache lookup of the checker kind) hands to its
completion handler: `Expected<ResourceRequest, ResourceError>`. -/
abbrev RequestOrError := Except ResourceError ResourceRequest

/-- The enumeration FirstLoad of the loader. -/
inductive FirstLoad where
  | No
  | Yes
deriving DecidableEq, Repr

namespace NetworkResourceLoader

/-- Lines 609-622. -/
def sanitizeResponseIfPossible (env : Env) (l : NetworkResourceLoader)
    (response : ResourceResponse) (type : SanitizationType) : ResourceResponse :=
  if l.m_parameters.shouldRestrictHTTPResponseAccess then
    let type1 :=
      if type = SanitizationType.CrossOriginSafe then
        let isSameOrigin :=
          match l.m_parameters.sourceOrigin with
          | some origin => env.canRequest origin response.url
          | none => env.protocolHostAndPortAreEqual response.url l.m_parameters.request.url
        if isSameOrigin && l.m_parameters.destination == Destination.EmptyString then
          SanitizationType.RemoveCookies
        else type
      else type
    env.sanitizeHTTPHeaderFields response type1
  else response

/-- Lines 535-553. -/
def didFailLoading (env : Env) (l : NetworkResourceLoader) (error : ResourceError) : Outcome :=
  let capture : List Effect :=
    if env.captureExtraNetworkLoadMetricsEnabled then
      [Effect.removeNetworkLoadInformation l.identifier]
    else []
  let l1 := { l with m_cacheEntryForValidation := none }
  match l1.m_synchronousLoadData with
  | some data =>
    match sendReplyToSynchronousRequest { data with error := error } none with
    | none => none
    | some (data1, es) =>
      let r := cleanup { l1 with m_synchronousLoadData := some data1 }
      some (r.1, capture ++ es ++ r.2)
  | none =>
    let r := cleanup l1
    some (r.1, capture ++ [Effect.send (Message.DidFailResourceLoad error)] ++ r.2)

/-- Lines 262-272 of `startNetworkLoad`: what is done for a first attempt only. -/
def firstLoadSetup (l : NetworkResourceLoader) (request : ResourceRequest) :
    NetworkResourceLoader × List Effect :=
  let r := l.consumeSandboxExtensions
  let l1 :=
    { r.1 with
      m_bufferedData :=
        if r.1.isSynchronous || decide (r.1.m_parameters.maximumBufferingTime > 0) then some []
        else r.1.m_bufferedData }
  let l2 :=
    { l1 with
      m_bufferedDataForCache :=
        if l1.canUseCache request then some [] else l1.m_bufferedDataForCache }
  (l2, r.2)

/-- Lines 274-280 and 295 of `startNetworkLoad`: the parameters of the transport. -/
def networkLoadParameters (env : Env) (l : NetworkResourceLoader) (request : ResourceRequest) :
    NetworkResourceLoadParameters :=
  { l.m_parameters with
    defersLoading := l.m_defersLoading
    storedCredentialsPolicy :=
      match l.m_networkLoadChecker with
      | some checker => checker.storedCredentialsPolicy
      | none => l.m_parameters.storedCredentialsPolicy
    blobFileReferences :=
      if request.url.protocolIsBlob then env.filesInBlob l.originalRequest.url
      else l.m_parameters.blobFileReferences
    request := request }

/-- Lines 282-286 of `startNetworkLoad`: whether a session is found, creating the
one of an ephemeral session on demand. -/
def lookUpNetworkSession (env : Env) (sessionID : SessionID) : Bool × List Effect :=
  if !env.hasNetworkSession sessionID && sessionID.isEphemeral then
    (env.hasNetworkSessionAfterAdd sessionID, [Effect.addWebsiteDataStore sessionID])
  else (env.hasNetworkSession sessionID, [])

/-- Lines 260-302. -/
def startNetworkLoad (env : Env) (l : NetworkResourceLoader) (request : ResourceRequest)
    (load : FirstLoad) : Outcome :=
  let first : NetworkResourceLoader × List Effect :=
    if load = FirstLoad.Yes then l.firstLoadSetup request else (l, [])
  let lookup := lookUpNetworkSession env first.1.m_parameters.sessionID
  if !lookup.1 then
    Outcome.andThen
      (some (first.1,
             first.2 ++ lookup.2 ++ [Effect.logInvalidSessionID first.1.m_parameters.webPageID]))
      (fun l1 => didFailLoading env l1 (env.internalError request.url))
  else
    some ({ first.1 with m_networkLoad := some { currentRequest := request } },
          first.2 ++ lookup.2 ++ [Effect.networkLoadCreate (networkLoadParameters env first.1 request)])

/-- Lines 222-227: the call of `m_cache->retrieve`; its completion handler is
`retrieveCacheEntryCompletion`. -/
def retrieveCacheEntry (l : NetworkResourceLoader) (request : ResourceRequest) : Outcome :=
  match l.m_cache with
  | none => none
  | some _ =>
    some (l, [Effect.cacheRetrieve request l.m_parameters.webPageID l.m_parameters.webFrameID])

/-- Lines 183-220: `start()` up to the calls it makes; the completion handler of
the checker is `startCheckCompletion`. -/
def start (env : Env) (l : NetworkResourceLoader) : Outcome :=
  if l.m_defersLoading then some (l, [])
  else
    let l1 := { l with m_wasStarted := true }
    match l1.m_networkLoadChecker with
    | some _ => some (l1, [Effect.loadCheckerCheck l1.originalRequest])
    | none =>
      if l1.canUseCache l1.originalRequest then l1.retrieveCacheEntry l1.originalRequest
      else startNetworkLoad env l1 l1.originalRequest FirstLoad.Yes

/-- Lines 196-209: the completion handler `start()` gives to the checker. -/
def startCheckCompletion (env : Env) (l : NetworkResourceLoader) (result : RequestOrError) :
    Outcome :=
  match result with
  | Except.error error =>
    if !error.isCancellation then didFailLoading env l error else some (l, [])
  | Except.ok value =>
    if l.canUseCache l.originalRequest then l.retrieveCacheEntry l.originalRequest
    else startNetworkLoad env l value FirstLoad.Yes

/-- Lines 304-324. -/
def setDefersLoading (env : Env) (l : NetworkResourceLoader) (defers : Bool) : Outcome :=
  if l.m_defersLoading = defers then some (l, [])
  else
    let l1 := { l with m_defersLoading := defers }
    match l1.m_networkLoad with
    | some _ => some (l1, [Effect.networkLoadSetDefersLoading defers])
    | none =>
      if !l1.m_defersLoading && !l1.m_wasStarted then start env l1 else some (l1, [])

/-- Lines 340-344. -/
def convertToDownload (env : Env) (l : NetworkResourceLoader) (downloadID : Nat)
    (request : ResourceRequest) (response : ResourceResponse) :
    NetworkResourceLoader × List Effect :=
  ({ l with
     m_networkLoad := none
     m_fileReferences := if env.downloadTakesFileReferences then [] else l.m_fileReferences },
   [Effect.convertNetworkLoadToDownload downloadID l.m_networkLoad.isSome l.m_fileReferences
      request response])

/-- Lines 346-363. -/
def abort (l : NetworkResourceLoader) : NetworkResourceLoader × List Effect :=
  let es : List Effect :=
    match l.m_networkLoad with
    | some networkLoad =>
      (if l.canUseCache networkLoad.currentRequest then
         if !l.m_response.isNull then [Effect.cacheRemove networkLoad.currentRequest] else []
       else [])
        ++ [Effect.networkLoadCancel]
    | none => []
  let r := l.cleanup
  (r.1, es ++ r.2)

/-- The result of `didReceiveResponse`: ShouldContinueDidReceiveResponse. -/
inductive ShouldContinueDidReceiveResponse where
  | No
  | Yes
deriving DecidableEq, Repr

/-- Lines 421-430 of `didReceiveResponse`: the pending validation entry after
the status of the response has been looked at, with the call of
`m_cache->update`. -/
def revalidate (env : Env) (l : NetworkResourceLoader) :
    Option (Option Entry × List Effect) :=
  match l.m_cacheEntryForValidation with
  | none => some (none, [])
  | some entry =>
    if l.m_response.httpStatusCode = 304 then
      match l.m_cache with
      | none => none
      | some _ =>
        let updated :=
          env.cacheUpdate l.originalRequest l.m_parameters.webPageID l.m_parameters.webFrameID
            entry l.m_response
        let es :=
          [Effect.cacheUpdate l.originalRequest l.m_parameters.webPageID
             l.m_parameters.webFrameID entry l.m_response]
        if l.originalRequest.isConditional then some (none, es) else some (some updated, es)
    else some (none, [])

/-- Lines 436-441 of `didReceiveResponse` and 725-730 of `didRetrieveCacheEntry`:
the error of the From-Origin check and of the checker, null when both pass. -/
def responseError (env : Env) (l : NetworkResourceLoader) (response : ResourceResponse) :
    ResourceError :=
  let error :=
    if l.m_parameters.shouldEnableFromOriginResponseHeader
        && shouldCancelCrossOriginLoad env response l.m_parameters.frameAncestorOrigins then
      fromOriginResourceError response.url
    else ResourceError.null
  match l.m_networkLoadChecker with
  | some checker => if error.isNull then env.validateResponse checker response else error
  | none => error

/-- Lines 405-468.  The task given to `RunLoop::main().dispatch` is the effect
`dispatchDidFailLoading`; it runs later, as `dispatchedDidFailLoading`. -/
def didReceiveResponse (env : Env) (l : NetworkResourceLoader)
    (receivedResponse : ResourceResponse) :
    Option (NetworkResourceLoader × List Effect × ShouldContinueDidReceiveResponse) :=
  let l1 := { l with m_response := receivedResponse }
  let capture : List Effect :=
    if env.captureExtraNetworkLoadMetricsEnabled then
      [Effect.addNetworkLoadInformationResponse l1.identifier l1.m_response]
    else []
  let l2 :=
    { l1 with
      m_bufferedData :=
        if !l1.isSynchronous && l1.m_response.isMultipart then none else l1.m_bufferedData }
  let l3 :=
    { l2 with
      m_bufferedDataForCache :=
        if l2.m_response.isMultipart then none else l2.m_bufferedDataForCache }
  match revalidate env l3 with
  | none => none
  | some (entry, updates) =>
    let l4 := { l3 with m_cacheEntryForValidation := entry }
    let shouldSendDidReceiveResponse := l4.m_cacheEntryForValidation.isNone
    let shouldWaitContinueDidReceiveResponse := l4.isMainResource
    let shouldContinueDidReceiveResponse :=
      !shouldWaitContinueDidReceiveResponse || l4.m_cacheEntryForValidation.isSome
    let result :=
      if shouldContinueDidReceiveResponse then ShouldContinueDidReceiveResponse.Yes
      else ShouldContinueDidReceiveResponse.No
    if shouldSendDidReceiveResponse then
      let error := responseError env l4 l4.m_response
      if !error.isNull then
        some (l4, capture ++ updates ++ [Effect.dispatchDidFailLoading error],
              ShouldContinueDidReceiveResponse.No)
      else
        let response :=
          sanitizeResponseIfPossible env l4 l4.m_response SanitizationType.CrossOriginSafe
        match l4.m_synchronousLoadData with
        | some data =>
          some ({ l4 with m_synchronousLoadData := some { data with response := response } },
                capture ++ updates, result)
        | none =>
          some (l4,
                capture ++ updates
                  ++ [Effect.send
                        (Message.DidReceiveResponse response shouldWaitContinueDidReceiveResponse)],
                result)
    else some (l4, capture ++ updates, result)

/-- Lines 444-447: the task `didReceiveResponse` dispatched to the main run loop. -/
def dispatchedDidFailLoading (env : Env) (l : NetworkResourceLoader) (error : ResourceError) :
    Outcome :=
  match l.m_networkLoad with
  | some _ => didFailLoading env l error
  | none => some (l, [])

/-- Lines 670-677. -/
def startBufferingTimerIfNeeded (l : NetworkResourceLoader) : NetworkResourceLoader :=
  if l.isSynchronous then l
  else if l.m_bufferingTimer then l
  else { l with m_bufferingTimer := true }

def maximumCacheBufferSize : Nat := 10 * 1024 * 1024

/-- Lines 470-498.  `reportedEncodedDataLength` is an `int`; the local
`encodedDataLength` is an `unsigned`, hence the reduction modulo 2^32. -/
def didReceiveBuffer (l : NetworkResourceLoader) (buffer : SharedBuffer)
    (reportedEncodedDataLength : Int) : NetworkResourceLoader × List Effect :=
  let l1 := { l with m_numBytesReceived := l.m_numBytesReceived + buffer.length }
  let l2 :=
    { l1 with
      m_bufferedDataForCache :=
        match l1.m_bufferedDataForCache with
        | some forCache =>
          if forCache.length + buffer.length ≤ maximumCacheBufferSize then some (forCache ++ buffer)
          else none
        | none => none }
  let encodedDataLength : Nat :=
    if reportedEncodedDataLength ≥ 0 then reportedEncodedDataLength.toNat % 2 ^ 32
    else buffer.length % 2 ^ 32
  let l3 := { l2 with m_bytesReceived := l2.m_bytesReceived + buffer.length }
  match l3.m_bufferedData with
  | some buffered =>
    (startBufferingTimerIfNeeded
       { l3 with
         m_bufferedData := some (buffered ++ buffer)
         m_bufferedDataEncodedDataLength := l3.m_bufferedDataEncodedDataLength + encodedDataLength },
     [])
  | none => sendBuffer l3 buffer encodedDataLength

/-- Lines 679-694; no result when `m_bufferedData` is null. -/
def bufferingTimerFired (l : NetworkResourceLoader) : Outcome :=
  match l.m_bufferedData with
  | none => none
  | some buffered =>
    if buffered.isEmpty then some (l, [])
    else
      some ({ l with m_bufferedData := some [], m_bufferedDataEncodedDataLength := 0 },
            [Effect.send (Message.DidReceiveData buffered l.m_bufferedDataEncodedDataLength)])

/-- Lines 704-719; no result when `m_networkLoad` is null.  The buffer is handed
over to the cache. -/
def tryStoreAsCacheEntry (l : NetworkResourceLoader) : Outcome :=
  match l.m_networkLoad with
  | none => none
  | some networkLoad =>
    if !l.canUseCache networkLoad.currentRequest then some (l, [])
    else
      match l.m_bufferedDataForCache with
      | none => some (l, [])
      | some body =>
        some ({ l with m_bufferedDataForCache := none },
              [Effect.cacheStore networkLoad.currentRequest l.m_response body])

/-- Lines 711-718: the completion handler given to `m_cache->store`; `handle` is
the shareable resource handle of the mapped body, if any. -/
def storeCompletion (env : Env) (l : NetworkResourceLoader) (handle : Option Nat) :
    NetworkResourceLoader × List Effect :=
  if env.enableShareableResource then
    match handle with
    | none => (l, [])
    | some h => (l, [Effect.send (Message.DidCacheResource l.originalRequest h l.sessionID)])
  else (l, [])

/-- Lines 787-811. -/
def sendResultForCacheEntry (env : Env) (l : NetworkResourceLoader) (entry : Entry) :
    NetworkResourceLoader × List Effect :=
  match (if env.enableShareableResource then entry.shareableResourceHandle else none) with
  | some handle => (l, [Effect.send (Message.DidReceiveResource handle)])
  | none =>
    let r := sendBuffer l entry.buffer entry.buffer.length
    (r.1, r.2 ++ [Effect.send (Message.DidFinishResourceLoad completeZeroMetrics)])

/-- Lines 754-785; the completion handler of each `retrieveData` is
`retrieveDataCompletion`.  No result when data is to be retrieved and
`m_cache` is null. -/
def continueProcessingCachedEntryAfterDidReceiveResponse (env : Env) (l : NetworkResourceLoader)
    (entry : Entry) : Outcome :=
  match entry.bodyHash with
  | some bodyHash =>
    if !l.m_parameters.derivedCachedDataTypesToRetrieve.isEmpty then
      match l.m_cache with
      | none => none
      | some _ =>
        let retrieveCount := l.m_parameters.derivedCachedDataTypesToRetrieve.length
        some (l, l.m_parameters.derivedCachedDataTypesToRetrieve.map (fun type =>
                Effect.cacheRetrieveData
                  { partition := l.originalRequest.cachePartition, type := type,
                    bodyHash := bodyHash }
                  entry retrieveCount))
    else
      let r := sendResultForCacheEntry env l entry
      let c := r.1.cleanup
      some (c.1, r.2 ++ c.2)
  | none =>
    let r := sendResultForCacheEntry env l entry
    let c := r.1.cleanup
    some (c.1, r.2 ++ c.2)

/-- Lines 763-777: the completion handler of one `retrieveData`. -/
def retrieveDataCompletion (env : Env) (l : NetworkResourceLoader) (hasOneRef : Bool)
    (entry : Entry) (type : String) (retrieveCount : Nat) (data : Option SharedBuffer) :
    NetworkResourceLoader × List Effect :=
  let l1 := { l with m_retrievedDerivedDataCount := l.m_retrievedDerivedDataCount + 1 }
  let retrievedAll := l1.m_retrievedDerivedDataCount == retrieveCount
  if hasOneRef then (l1, [])
  else
    let sent : List Effect :=
      match data with
      | some d => [Effect.send (Message.DidRetrieveDerivedData type d)]
      | none => []
    if retrievedAll then
      let r := sendResultForCacheEntry env l1 entry
      let c := r.1.cleanup
      (c.1, sent ++ r.2 ++ c.2)
    else (l1, sent)

/-- Lines 721-752. -/
def didRetrieveCacheEntry (env : Env) (l : NetworkResourceLoader) (entry : Entry) : Outcome :=
  let error := responseError env l entry.response
  if !error.isNull then didFailLoading env l error
  else
    let response :=
      sanitizeResponseIfPossible env l entry.response SanitizationType.CrossOriginSafe
    match l.m_synchronousLoadData with
    | some data =>
      match sendReplyToSynchronousRequest { data with response := response } (some entry.buffer)
      with
      | none => none
      | some (data1, es) =>
        let c := cleanup { l with m_synchronousLoadData := some data1 }
        some (c.1, es ++ c.2)
    | none =>
      let needsContinueDidReceiveResponseMessage := l.isMainResource
      let sent :=
        [Effect.send (Message.DidReceiveResponse response needsContinueDidReceiveResponseMessage)]
      if needsContinueDidReceiveResponseMessage then
        some ({ l with m_cacheEntryWaitingForContinueDidReceiveResponse := some entry }, sent)
      else
        Outcome.andThen (some (l, sent))
          (fun l1 => continueProcessingCachedEntryAfterDidReceiveResponse env l1 entry)

/-- Lines 500-533. -/
def didFinishLoading (env : Env) (l : NetworkResourceLoader) (metrics : NetworkLoadMetrics) :
    Outcome :=
  let capture : List Effect :=
    if env.captureExtraNetworkLoadMetricsEnabled then
      [Effect.addNetworkLoadInformationMetrics l.identifier metrics]
    else []
  match l.m_cacheEntryForValidation with
  | some entry =>
    Outcome.andThen (some ({ l with m_cacheEntryForValidation := none }, capture))
      (fun l1 => didRetrieveCacheEntry env l1 entry)
  | none =>
    let replied : Outcome :=
      match l.m_synchronousLoadData with
      | some data =>
        match sendReplyToSynchronousRequest data l.m_bufferedData with
        | none => none
        | some (data1, es) => some ({ l with m_synchronousLoadData := some data1 }, capture ++ es)
      | none =>
        let flushed : List Effect :=
          match l.m_bufferedData with
          | some buffered =>
            if !buffered.isEmpty then (sendBuffer l buffered sizeTMinusOne).2 else []
          | none => []
        some (l, capture ++ flushed ++ [Effect.send (Message.DidFinishResourceLoad metrics)])
    Outcome.andThen (Outcome.andThen replied tryStoreAsCacheEntry) (fun l1 => some l1.cleanup)

/-- Lines 555-558. -/
def didBlockAuthenticationChallenge (l : NetworkResourceLoader) :
    NetworkResourceLoader × List Effect :=
  (l, [Effect.send Message.DidBlockAuthenticationChallenge])

/-- Lines 664-668. -/
def didSendData (l : NetworkResourceLoader) (bytesSent totalBytesToBeSent : Nat) :
    NetworkResourceLoader × List Effect :=
  if !l.isSynchronous then (l, [Effect.send (Message.DidSendData bytesSent totalBytesToBeSent)])
  else (l, [])

/-- Lines 594-607. -/
def continueWillSendRedirectedRequest (env : Env) (l : NetworkResourceLoader)
    (request redirectRequest : ResourceRequest) (redirectResponse : ResourceResponse) : Outcome :=
  let stored : List Effect :=
    if l.canUseCachedRedirect request then
      [Effect.cacheStoreRedirect request redirectResponse redirectRequest]
    else []
  if l.m_parameters.shouldEnableFromOriginResponseHeader
      && shouldCancelCrossOriginLoad env redirectResponse l.m_parameters.frameAncestorOrigins
      && l.m_networkLoad.isSome then
    Outcome.andThen (some (l, stored))
      (fun l1 => didFailLoading env l1 (fromOriginResourceError redirectResponse.url))
  else
    some (l, stored
            ++ [Effect.send
                  (Message.WillSendRequest redirectRequest
                    (sanitizeResponseIfPossible env l redirectResponse
                      SanitizationType.Redirection))])

/-- Lines 560-592: `willSendRedirectedRequest` up to the calls it makes; the
completion handler of the checker is `checkRedirectionCompletion`. -/
def willSendRedirectedRequest (env : Env) (l : NetworkResourceLoader)
    (request redirectRequest : ResourceRequest) (redirectResponse : ResourceResponse) : Outcome :=
  let l1 := { l with m_redirectCount := l.m_redirectCount + 1 }
  match l1.m_networkLoadChecker with
  | some checker =>
    some (l1, [Effect.loadCheckerCheckRedirection redirectResponse redirectRequest
                 checker.storedCredentialsPolicy request])
  | none => continueWillSendRedirectedRequest env l1 request redirectRequest redirectResponse

/-- Lines 624-649. -/
def continueWillSendRequest (env : Env) (l : NetworkResourceLoader) (newRequest : ResourceRequest)
    (isAllowedToAskUserForCredentials : Bool) : Outcome :=
  let l1 := { l with m_isAllowedToAskUserForCredentials := isAllowedToAskUserForCredentials }
  let newRequest1 :=
    (newRequest.setCachePolicy l1.originalRequest.cachePolicy).setCachePartition
      l1.originalRequest.cachePartition
  if l1.m_isWaitingContinueWillSendRequestForCachedRedirect then
    let l2 := { l1 with m_isWaitingContinueWillSendRequestForCachedRedirect := false }
    if l2.canUseCachedRedirect newRequest1 then l2.retrieveCacheEntry newRequest1
    else startNetworkLoad env l2 newRequest1 FirstLoad.Yes
  else
    match l1.m_networkLoad with
    | some _ => some (l1, [Effect.networkLoadContinueWillSendRequest newRequest1])
    | none => some (l1, [])

/-- Lines 565-588: the completion handler `willSendRedirectedRequest` gives to
the checker, with the values it captured.  No result when a pointer it
dereferences (`m_networkLoadChecker`, `m_networkLoad`) is null. -/
def checkRedirectionCompletion (env : Env) (l : NetworkResourceLoader)
    (storedCredentialsPolicy : StoredCredentialsPolicy) (request : ResourceRequest)
    (redirectResponse : ResourceResponse) (result : RequestOrError) : Outcome :=
  match result with
  | Except.error error =>
    if error.isCancellation then some (l, []) else didFailLoading env l error
  | Except.ok value =>
    match l.m_networkLoadChecker with
    | none => none
    | some checker =>
      if storedCredentialsPolicy ≠ checker.storedCredentialsPolicy then
        match l.m_networkLoad with
        | none => none
        | some _ =>
          Outcome.andThen (some (l, [Effect.networkLoadCancel]))
            (fun l1 => startNetworkLoad env l1 value FirstLoad.No)
      else if l.isSynchronous then continueWillSendRequest env l value false
      else continueWillSendRedirectedRequest env l request value redirectResponse

/-- Lines 651-662. -/
def continueDidReceiveResponse (env : Env) (l : NetworkResourceLoader) : Outcome :=
  match l.m_cacheEntryWaitingForContinueDidReceiveResponse with
  | some entry =>
    continueProcessingCachedEntryAfterDidReceiveResponse env
      { l with m_cacheEntryWaitingForContinueDidReceiveResponse := none } entry
  | none =>
    match l.m_networkLoad with
    | some _ => some (l, [Effect.networkLoadContinueDidReceiveResponse])
    | none => some (l, [])

/-- Lines 813-832. -/
def validateCacheEntry (env : Env) (l : NetworkResourceLoader) (entry : Entry) : Outcome :=
  let revalidationRequest :=
    if !l.originalRequest.isConditional then
      let eTag := entry.response.httpHeaderField HTTPHeaderName.ETag
      let lastModified := entry.response.httpHeaderField HTTPHeaderName.LastModified
      let r1 :=
        if !eTag.isEmpty then l.originalRequest.setHTTPHeaderField HTTPHeaderName.IfNoneMatch eTag
        else l.originalRequest
      if !lastModified.isEmpty then
        r1.setHTTPHeaderField HTTPHeaderName.IfModifiedSince lastModified
      else r1
    else l.originalRequest
  startNetworkLoad env { l with m_cacheEntryForValidation := some entry } revalidationRequest
    FirstLoad.Yes

/-- Lines 834-850; no result when the entry has no redirect request. -/
def dispatchWillSendRequestForCacheEntry (env : Env) (l : NetworkResourceLoader)
    (entry : Entry) : Outcome :=
  if l.m_parameters.shouldEnableFromOriginResponseHeader
      && shouldCancelCrossOriginLoad env entry.response l.m_parameters.frameAncestorOrigins
      && l.m_networkLoad.isSome then
    didFailLoading env l (fromOriginResourceError entry.response.url)
  else
    match entry.redirectRequest with
    | none => none
    | some redirectRequest =>
      some ({ l with
              m_redirectCount := l.m_redirectCount + 1
              m_isWaitingContinueWillSendRequestForCachedRedirect := true },
            [Effect.send
               (Message.WillSendRequest redirectRequest
                 (sanitizeResponseIfPossible env l entry.response SanitizationType.Redirection))])

/-- Lines 227-257: the completion handler `retrieveCacheEntry` gives to the
cache.  `hasOneRef` is the result of `loader->hasOneRef()` when it runs. -/
def retrieveCacheEntryCompletion (env : Env) (l : NetworkResourceLoader) (hasOneRef : Bool)
    (request : ResourceRequest) (entry : Option Entry) : Outcome :=
  if hasOneRef then some (l, [])
  else
    match entry with
    | none => startNetworkLoad env l request FirstLoad.Yes
    | some e =>
      if e.redirectRequest.isSome then dispatchWillSendRequestForCacheEntry env l e
      else if l.m_parameters.needsCertificateInfo && !e.response.hasCertificateInfo then
        startNetworkLoad env l request FirstLoad.Yes
      else if e.needsValidation
          || request.cachePolicy == ResourceRequestCachePolicy.RefreshAnyCacheData then
        validateCacheEntry env l e
      else didRetrieveCacheEntry env l e

end NetworkResourceLoader

/-! ## The loader among its collaborators

Completion handlers and dispatched tasks run after the member function that
handed them out has returned.  A `System` is a loader together with the
handlers that are still outstanding, the reference the connection holds on the
loader, and every call made so far. -/

/-- A completion handler or task that was handed out and has not run yet, with
the values it captured. -/
inductive Pending where
  | check (request : ResourceRequest)
  | checkRedirection (redirectResponse : ResourceResponse) (redirectRequest : ResourceRequest)
      (storedCredentialsPolicy : StoredCredentialsPolicy) (request : ResourceRequest)
  | retrieve (request : ResourceRequest)
  | dispatchedFailure (error : ResourceError)
  | retrieveData (type : String) (entry : Entry) (retrieveCount : Nat)
  | store
deriving DecidableEq, Repr

/-- The handler a call leaves outstanding, if any. -/
def Effect.pending : Effect → Option Pending
  | Effect.loadCheckerCheck request => some (Pending.check request)
  | Effect.loadCheckerCheckRedirection redirectResponse redirectRequest policy request =>
    some (Pending.checkRedirection redirectResponse redirectRequest policy request)
  | Effect.cacheRetrieve request _ _ => some (Pending.retrieve request)
  | Effect.dispatchDidFailLoading error => some (Pending.dispatchedFailure error)
  | Effect.cacheRetrieveData key entry retrieveCount =>
    some (Pending.retrieveData key.type entry retrieveCount)
  | Effect.cacheStore _ _ _ => some Pending.store
  | _ => none

/-- Whether the handler keeps the loader alive: every lambda of the file
captures a `Ref` or `RefPtr` of the loader, except the one `start()` gives to
the checker, which captures only `this`. -/
def Pending.holdsReference : Pending → Bool
  | Pending.check _ => false
  | _ => true

/-- What the connection, the transport, the timer and the collaborators can do
to a loader. -/
inductive Event where
  | start
  | setDefersLoading (defers : Bool)
  | abort
  | convertToDownload (downloadID : Nat) (request : ResourceRequest) (response : ResourceResponse)
  | continueWillSendRequest (newRequest : ResourceRequest) (isAllowedToAskUserForCredentials : Bool)
  | continueDidReceiveResponse
  | didReceiveResponse (response : ResourceResponse)
  | didReceiveBuffer (buffer : SharedBuffer) (reportedEncodedDataLength : Int)
  | didFinishLoading (metrics : NetworkLoadMetrics)
  | didFailLoading (error : ResourceError)
  | willSendRedirectedRequest (request redirectRequest : ResourceRequest)
      (redirectResponse : ResourceResponse)
  | didSendData (bytesSent totalBytesToBeSent : Nat)
  | didBlockAuthenticationChallenge
  | transportRequestChanged (request : ResourceRequest)
  | bufferingTimerFired
  | checkCompleted (index : Nat) (result : RequestOrError)
  | checkRedirectionCompleted (index : Nat) (result : RequestOrError)
      (checkerPolicy : StoredCredentialsPolicy)
  | retrieveCompleted (index : Nat) (entry : Option Entry)
  | dispatchedTaskRun (index : Nat)
  | retrieveDataCompleted (index : Nat) (data : Option SharedBuffer)
  | storeCompleted (index : Nat) (handle : Option Nat)
deriving Repr

/-- A loader among its collaborators. -/
structure System where
  loader : NetworkResourceLoader
  pending : List Pending
  registered : Bool
  trace : List Effect
deriving DecidableEq, Repr

namespace System

/-- A freshly constructed loader, registered with its connection. -/
def init (env : Env) (parameters : NetworkResourceLoadParameters) (synchronousReply : Bool) :
    System :=
  { loader := NetworkResourceLoader.create env parameters synchronousReply
    pending := []
    registered := true
    trace := [] }

/-- The loader exists as long as somebody holds a reference on it. -/
def alive (s : System) : Bool := s.registered || s.pending.any Pending.holdsReference

/-- The result of `hasOneRef()` inside the handler at `index`: nobody else holds
a reference. -/
def hasOneRef (s : System) (index : Nat) : Bool :=
  !s.registered && !((s.pending.eraseIdx index).any Pending.holdsReference)

/-- Records the outcome of a member function: the calls join the trace, the
handlers they leave join the outstanding ones, and `didCleanupResourceLoader`
makes the connection drop its reference (line 336: the call causes the loader
to be destroyed, once no handler holds it any more). -/
def record (s : System) (pending : List Pending) (o : NetworkResourceLoader × List Effect) :
    System :=
  { loader := o.1
    pending := pending ++ o.2.filterMap Effect.pending
    registered := s.registered && !(o.2.contains Effect.didCleanupResourceLoader)
    trace := s.trace ++ o.2 }

/-- The run of one member function or handler in answer to an event; none when
the event cannot happen in this state (no such handler outstanding, no
transport to send it, loader destroyed or not registered) or when the code
dereferences a null pointer. -/
def step (env : Env) (s : System) (ev : Event) : Option System :=
  if !s.alive then none
  else
    let l := s.loader
    match ev with
    | Event.start =>
      if s.registered then (l.start env).map (s.record s.pending) else none
    | Event.setDefersLoading defers =>
      if s.registered then (l.setDefersLoading env defers).map (s.record s.pending) else none
    | Event.abort =>
      if s.registered then some (s.record s.pending l.abort) else none
    | Event.convertToDownload downloadID request response =>
      if s.registered then
        some (s.record s.pending (l.convertToDownload env downloadID request response))
      else none
    | Event.continueWillSendRequest newRequest allowed =>
      if s.registered then
        (l.continueWillSendRequest env newRequest allowed).map (s.record s.pending)
      else none
    | Event.continueDidReceiveResponse =>
      if s.registered then (l.continueDidReceiveResponse env).map (s.record s.pending) else none
    | Event.didReceiveResponse response =>
      if l.m_networkLoad.isSome then
        (l.didReceiveResponse env response).map (fun r => s.record s.pending (r.1, r.2.1))
      else none
    | Event.didReceiveBuffer buffer reported =>
      if l.m_networkLoad.isSome then some (s.record s.pending (l.didReceiveBuffer buffer reported))
      else none
    | Event.didFinishLoading metrics =>
      if l.m_networkLoad.isSome then (l.didFinishLoading env metrics).map (s.record s.pending)
      else none
    | Event.didFailLoading error =>
      if l.m_networkLoad.isSome then (l.didFailLoading env error).map (s.record s.pending)
      else none
    | Event.willSendRedirectedRequest request redirectRequest redirectResponse =>
      if l.m_networkLoad.isSome then
        (l.willSendRedirectedRequest env request redirectRequest redirectResponse).map
          (s.record s.pending)
      else none
    | Event.didSendData bytesSent totalBytesToBeSent =>
      if l.m_networkLoad.isSome then
        some (s.record s.pending (l.didSendData bytesSent totalBytesToBeSent))
      else none
    | Event.didBlockAuthenticationChallenge =>
      if l.m_networkLoad.isSome then some (s.record s.pending l.didBlockAuthenticationChallenge)
      else none
    | Event.transportRequestChanged request =>
      match l.m_networkLoad with
      | some _ =>
        some (s.record s.pending ({ l with m_networkLoad := some { currentRequest := request } }, []))
      | none => none
    | Event.bufferingTimerFired =>
      if l.m_bufferingTimer then
        (NetworkResourceLoader.bufferingTimerFired { l with m_bufferingTimer := false }).map
          (s.record s.pending)
      else none
    | Event.checkCompleted index result =>
      match s.pending.get? index with
      | some (Pending.check _) =>
        (l.startCheckCompletion env result).map (s.record (s.pending.eraseIdx index))
      | _ => none
    | Event.checkRedirectionCompleted index result checkerPolicy =>
      match s.pending.get? index with
      | some (Pending.checkRedirection redirectResponse _ policy request) =>
        let l1 :=
          { l with
            m_networkLoadChecker :=
              l.m_networkLoadChecker.map (fun _ => { storedCredentialsPolicy := checkerPolicy }) }
        (l1.checkRedirectionCompletion env policy request redirectResponse result).map
          (s.record (s.pending.eraseIdx index))
      | _ => none
    | Event.retrieveCompleted index entry =>
      match s.pending.get? index with
      | some (Pending.retrieve request) =>
        (l.retrieveCacheEntryCompletion env (s.hasOneRef index) request entry).map
          (s.record (s.pending.eraseIdx index))
      | _ => none
    | Event.dispatchedTaskRun index =>
      match s.pending.get? index with
      | some (Pending.dispatchedFailure error) =>
        (l.dispatchedDidFailLoading env error).map (s.record (s.pending.eraseIdx index))
      | _ => none
    | Event.retrieveDataCompleted index data =>
      match s.pending.get? index with
      | some (Pending.retrieveData type entry retrieveCount) =>
        some (s.record (s.pending.eraseIdx index)
                (l.retrieveDataCompletion env (s.hasOneRef index) entry type retrieveCount data))
      | _ => none
    | Event.storeCompleted index handle =>
      match s.pending.get? index with
      | some Pending.store =>
        some (s.record (s.pending.eraseIdx index) (l.storeCompletion env handle))
      | _ => none

/-- The run of a sequence of events; it ends at the first event that cannot
happen. -/
def run (env : Env) (s : System) : List Event → System
  | [] => s
  | ev :: rest =>
    match s.step env ev with
    | some s1 => run env s1 rest
    | none => s

end System

/-! ## Vocabulary of the properties -/

/-- A call of `CacheStore.retrieve`. -/
def Effect.isRetrieve : Effect → Bool
  | Effect.cacheRetrieve _ _ _ => true
  | _ => false

/-- A call of `CacheStore.store`. -/
def Effect.isStore : Effect → Bool
  | Effect.cacheStore _ _ _ => true
  | _ => false

/-- A call of `CacheStore.storeRedirect`. -/
def Effect.isStoreRedirect : Effect → Bool
  | Effect.cacheStoreRedirect _ _ _ => true
  | _ => false

/-- The sandbox extension or file a call takes into use. -/
def Effect.consumed : Effect → Option (SandboxExtension ⊕ BlobDataFileReference)
  | Effect.extensionConsume extension => some (Sum.inl extension)
  | Effect.prepareForFileAccess file => some (Sum.inr file)
  | _ => none

/-- The sandbox extension or file a call revokes. -/
def Effect.revoked : Effect → Option (SandboxExtension ⊕ BlobDataFileReference)
  | Effect.extensionRevoke extension => some (Sum.inl extension)
  | Effect.revokeFileAccess file => some (Sum.inr file)
  | _ => none

/-- A `DidReceiveResponse` message to the client. -/
def Effect.isDidReceiveResponse : Effect → Bool
  | Effect.send (Message.DidReceiveResponse _ _) => true
  | _ => false

/-- A `DidReceiveData` message to the client. -/
def Effect.isDidReceiveData : Effect → Bool
  | Effect.send (Message.DidReceiveData _ _) => true
  | _ => false

/-- A call of `CacheStore.retrieve` or of `CacheStore.store`. -/
def Effect.isLookupOrStore (e : Effect) : Bool := e.isRetrieve || e.isStore

/-- The calls `cleanup` can make: revocations and the notification of the
connection. -/
def Effect.inCleanup : Effect → Bool
  | Effect.extensionRevoke _ => true
  | Effect.revokeFileAccess _ => true
  | Effect.didCleanupResourceLoader => true
  | _ => false

/-- The calls `didFailLoading` can make: the failure reply and those of
`cleanup`. -/
def Effect.inFailure : Effect → Bool
  | Effect.removeNetworkLoadInformation _ => true
  | Effect.sendSynchronousReply _ _ _ => true
  | Effect.send (Message.DidFailResourceLoad _) => true
  | e => e.inCleanup

/-- The request a successful check of `start()` hands back, for the event that
completes it. -/
def Event.checkedRequest : Event → Option ResourceRequest
  | Event.checkCompleted _ (Except.ok value) => some value
  | _ => none

/-- The loader `l` has the cache and parameters of `l0`, holds no cache-side
buffer and waits for no answer to a cached redirect. -/
def NetworkResourceLoader.Uncached (l0 l : NetworkResourceLoader) : Prop :=
  l.m_cache = l0.m_cache ∧ l.m_parameters = l0.m_parameters
  ∧ l.m_bufferedDataForCache = none
  ∧ l.m_isWaitingContinueWillSendRequestForCachedRedirect = false

/-- An outcome, if there is one, is an uncached loader and calls without cache
lookup or store. -/
def Outcome.Keeps (l0 : NetworkResourceLoader) (o : Outcome) : Prop :=
  ∀ r, o = some r → l0.Uncached r.1 ∧ ∀ e ∈ r.2, e.isLookupOrStore = false

/-- The state of a load that has not used the cache: its loader is uncached, no
cache lookup is outstanding and the trace holds neither a lookup nor a
store. -/
def System.Quiet (l0 : NetworkResourceLoader) (s : System) : Prop :=
  l0.Uncached s.loader
  ∧ (∀ p ∈ s.pending, ∀ request, p ≠ Pending.retrieve request)
  ∧ ∀ e ∈ s.trace, e.isLookupOrStore = false

/-- Successive calls of `didReceiveBuffer`, in order. -/
def NetworkResourceLoader.didReceiveBuffers (l : NetworkResourceLoader) :
    List (SharedBuffer × Int) → NetworkResourceLoader × List Effect
  | [] => (l, [])
  | (buffer, reported) :: rest =>
    let r := l.didReceiveBuffer buffer reported
    let r1 := NetworkResourceLoader.didReceiveBuffers r.1 rest
    (r1.1, r.2 ++ r1.2)

/-! ## Concrete values -/

def sampleURL : URL :=
  { string := "http://example.org/a", protocolIsInHTTPFamily := true, protocolIsBlob := false,
    host := "example.org" }

def sampleOtherURL : URL :=
  { string := "ftp://example.org/a", protocolIsInHTTPFamily := false, protocolIsBlob := false,
    host := "example.org" }

def sampleRequest : ResourceRequest :=
  { url := sampleURL
    cachePolicy := ResourceRequestCachePolicy.otherPolicy 0
    cachePartition := ""
    isConditional := false
    requesterIsMain := false
    httpHeaderFields := []
    httpBody := none }

def sampleResponse : ResourceResponse :=
  { isNull := false
    url := sampleURL
    httpStatusCode := 200
    isMultipart := false
    httpHeaderFields := []
    hasCertificateInfo := false }

def sampleEntry : Entry :=
  { response := sampleResponse
    buffer := [1, 2, 3]
    redirectRequest := none
    needsValidation := true
    bodyHash := none
    shareableResourceHandle := none }

def sampleParameters : NetworkResourceLoadParameters :=
  { identifier := 1
    webPageID := 1
    webFrameID := 1
    sessionID := { sessionID := 1, isEphemeral := false }
    request := sampleRequest
    defersLoading := false
    clientCredentialPolicy := ClientCredentialPolicy.CannotAskClientForCredentials
    storedCredentialsPolicy := StoredCredentialsPolicy.Use
    needsCertificateInfo := false
    shouldRestrictHTTPResponseAccess := false
    shouldEnableFromOriginResponseHeader := false
    destination := Destination.EmptyString
    sourceOrigin := none
    frameAncestorOrigins := []
    maximumBufferingTime := 0
    derivedCachedDataTypesToRetrieve := []
    requestBodySandboxExtensions := [{ ident := 7 }]
    resourceSandboxExtension := some { ident := 8 }
    blobFileReferences := [] }

/-- An environment with a process cache and a session for every identifier,
where every check passes and sanitizing leaves a response as it is. -/
def sampleEnv : Env :=
  { processCache := some { ident := 0 }
    filesInBlob := fun _ => []
    hasNetworkSession := fun _ => true
    hasNetworkSessionAfterAdd := fun _ => true
    captureExtraNetworkLoadMetricsEnabled := false
    parseFromOriginHeader := fun _ => FromOriginDisposition.None
    securityOriginCreate := fun _ => { ident := 0, isUnique := false, host := "" }
    isSameOriginAs := fun _ _ => true
    canRequest := fun _ _ => true
    protocolHostAndPortAreEqual := fun _ _ => true
    partitionName := fun host => host
    enablePublicSuffixList := true
    enableShareableResource := false
    sanitizeHTTPHeaderFields := fun response _ => response
    validateResponse := fun _ _ => ResourceError.null
    cacheUpdate := fun _ _ _ existing response => { existing with response := response }
    internalError := fun url =>
      { domain := errorDomainWebKitInternal, errorCode := 0, failingURL := url,
        localizedDescription := "", type := ResourceErrorType.General }
    downloadTakesFileReferences := true }

/-- An asynchronous loader without checker, as the constructor leaves it. -/
def sampleLoader : NetworkResourceLoader :=
  NetworkResourceLoader.create sampleEnv sampleParameters false

/-- A synchronous loader, as the constructor leaves it. -/
def sampleSynchronousLoader : NetworkResourceLoader :=
  NetworkResourceLoader.create sampleEnv sampleParameters true

/-- An asynchronous loader whose network load has started: as `startNetworkLoad`
for the first attempt leaves `sampleLoader`. -/
def sampleLoadingLoader : NetworkResourceLoader :=
  { sampleLoader with
    m_networkLoad := some { currentRequest := sampleRequest }
    m_bufferedDataForCache := some []
    m_didConsumeSandboxExtensions := true }

/-- A buffer of exactly 10 MiB. -/
def sampleFullBuffer : SharedBuffer := List.replicate (10 * 1024 * 1024) 0

def sampleMultipartResponse : ResourceResponse := { sampleResponse with isMultipart := true }

def sampleNotModifiedResponse : ResourceResponse := { sampleResponse with httpStatusCode := 304 }

/-- Parameters of a load of a URL outside the HTTP family. -/
def sampleOtherParameters : NetworkResourceLoadParameters :=
  { sampleParameters with request := { sampleRequest with url := sampleOtherURL } }

/-- A loader whose original request is conditional. -/
def sampleConditionalLoader : NetworkResourceLoader :=
  NetworkResourceLoader.create sampleEnv
    { sampleParameters with request := { sampleRequest with isConditional := true } } false

/-- What a call may carry as body while a cache entry with this body is
served: data messages carry the body whole, a synchronous reply carries it or
(for a failure) nothing. -/
def Effect.bodyFrom (body : SharedBuffer) : Effect → Bool
  | Effect.send (Message.DidReceiveData data encodedDataLength) =>
    data == body && encodedDataLength == body.length
  | Effect.sendSynchronousReply _ _ responseBuffer => responseBuffer == body || responseBuffer == []
  | _ => true

/-- An error of type Cancellation. -/
def sampleCancellation : ResourceError :=
  { domain := "", errorCode := 0, failingURL := sampleURL, localizedDescription := "cancelled",
    type := ResourceErrorType.Cancellation }

/-- An error of type AccessControl, as a checker reports a policy failure. -/
def sampleAccessControlError : ResourceError :=
  { domain := "", errorCode := 0, failingURL := sampleURL, localizedDescription := "denied",
    type := ResourceErrorType.AccessControl }

/-- The environment `sampleEnv` with a checker whose `validateResponse` answers
every response with a cancellation error. -/
def sampleCancellingEnv : Env :=
  { sampleEnv with validateResponse := fun _ _ => sampleCancellation }

/-- Parameters of a load that gets a checker: restricted response access and an
audio destination. -/
def sampleCheckedParameters : NetworkResourceLoadParameters :=
  { sampleParameters with
    shouldRestrictHTTPResponseAccess := true
    destination := Destination.Audio }

/-- A `WillSendRequest` message to the client. -/
def Effect.isWillSendRequest : Effect → Bool
  | Effect.send (Message.WillSendRequest _ _) => true
  | _ => false

/-- A message to the client: one sent over the connection, or the reply of a
synchronous load. -/
def Effect.isClientMessage : Effect → Bool
  | Effect.send _ => true
  | Effect.sendSynchronousReply _ _ _ => true
  | _ => false

/-- The environment `sampleEnv` where a From-Origin header of value "same"
parses to Same and two origins are the same when they are equal. -/
def sampleFromOriginEnv : Env :=
  { sampleEnv with
    parseFromOriginHeader := fun value =>
      if value = "same" then FromOriginDisposition.Same else FromOriginDisposition.None
    isSameOriginAs := fun a b => a == b }

/-- Parameters with the From-Origin feature enabled and one frame ancestor of
another origin than the one `sampleFromOriginEnv` creates for a URL. -/
def sampleFromOriginParameters : NetworkResourceLoadParameters :=
  { sampleParameters with
    shouldEnableFromOriginResponseHeader := true
    frameAncestorOrigins := [{ ident := 1, isUnique := false, host := "other.example" }] }

/-- A redirect response that carries `From-Origin: same`. -/
def sampleRedirectResponse : ResourceResponse :=
  { sampleResponse with
    httpStatusCode := 302
    httpHeaderFields := [(HTTPHeaderName.FromOrigin, "same")] }

/-- The request a redirect leads to. -/
def sampleRedirectRequest : ResourceRequest :=
  { sampleRequest with
    url := { string := "http://example.org/b", protocolIsInHTTPFamily := true,
             protocolIsBlob := false, host := "example.org" } }

/-- A cached redirect whose response carries `From-Origin: same`. -/
def sampleRedirectEntry : Entry :=
  { response := sampleRedirectResponse
    buffer := []
    redirectRequest := some sampleRedirectRequest
    needsValidation := false
    bodyHash := none
    shareableResourceHandle := none }

/-- A redirect response without From-Origin header. -/
def samplePlainRedirectResponse : ResourceResponse := { sampleResponse with httpStatusCode := 302 }

/-- The events that bring a load with a checker to the point where the
checker examines a redirect, followed by `abort()`. -/
def sampleAbortedRedirectEvents : List Event :=
  [Event.start, Event.checkCompleted 0 (Except.ok sampleRequest),
   Event.retrieveCompleted 0 none,
   Event.willSendRedirectedRequest sampleRequest sampleRedirectRequest samplePlainRedirectResponse,
   Event.abort]

/-- The load of `sampleCheckedParameters` after `sampleAbortedRedirectEvents`. -/
def sampleAbortedRedirect : System :=
  System.run sampleEnv (System.init sampleEnv sampleCheckedParameters false)
    sampleAbortedRedirectEvents

/-- A call by which a load goes on: a cache lookup, the creation, restart or
continuation of a transport, or a redirect handed on (stored, or sent to the
client). -/
def Effect.proceeds : Effect → Bool
  | Effect.cacheRetrieve _ _ _ => true
  | Effect.networkLoadCreate _ => true
  | Effect.networkLoadCancel => true
  | Effect.networkLoadContinueWillSendRequest _ => true
  | Effect.cacheStoreRedirect _ _ _ => true
  | Effect.send (Message.WillSendRequest _ _) => true
  | _ => false

/-- The report of a failure to the client: `DidFailResourceLoad`, or the reply
of a synchronous load. -/
def Effect.isFailureReply : Effect → Bool
  | Effect.send (Message.DidFailResourceLoad _) => true
  | Effect.sendSynchronousReply _ _ _ => true
  | _ => false

/-- The response a call hands to the cache to keep: that of `CacheStore.store`
and that of `CacheStore.update`. -/
def Effect.cachedResponse : Effect → Option ResourceResponse
  | Effect.cacheStore _ response _ => some response
  | Effect.cacheUpdate _ _ _ _ response => some response
  | _ => none

/-- The response an event delivers from the transport. -/
def Event.received : Event → Option ResourceResponse
  | Event.didReceiveResponse response => some response
  | _ => none

/-- An outcome, if there is one, leaves `response` recorded in the loader, and
every response its calls hand to the cache is `response`. -/
def Outcome.CachesOnly (response : ResourceResponse) (o : Outcome) : Prop :=
  ∀ r, o = some r →
    r.1.m_response = response ∧ ∀ e ∈ r.2, ∀ x, e.cachedResponse = some x → x = response

/-- From `s` to `s1` the trace has only grown, `response` is the response the
loader of `s1` has recorded, and every response handed to the cache in between
is `response`. -/
def System.HandsOver (s s1 : System) (response : ResourceResponse) : Prop :=
  s1.loader.m_response = response
  ∧ ∃ es, s1.trace = s.trace ++ es ∧ ∀ e ∈ es, ∀ x, e.cachedResponse = some x → x = response

/-- A response with a cookie header. -/
def sampleCookieResponse : ResourceResponse :=
  { sampleResponse with httpHeaderFields := [(HTTPHeaderName.otherName "Set-Cookie", "a=b")] }

/-- The environment `sampleEnv` where sanitizing a response strips all of its
header fields. -/
def sampleSanitizingEnv : Env :=
  { sampleEnv with
    sanitizeHTTPHeaderFields := fun response _ => { response with httpHeaderFields := [] } }

/-- Parameters of a load with restricted response access (and no checker: the
load is asynchronous and its destination is neither audio nor video). -/
def sampleRestrictedParameters : NetworkResourceLoadParameters :=
  { sampleParameters with shouldRestrictHTTPResponseAccess := true }

/-- A load with restricted response access that has received a response with a
cookie header and three bytes from the network. -/
def sampleRestrictedLoad : System :=
  System.run sampleSanitizingEnv (System.init sampleSanitizingEnv sampleRestrictedParameters false)
    [Event.start, Event.retrieveCompleted 0 none, Event.didReceiveResponse sampleCookieResponse,
     Event.didReceiveBuffer [1, 2, 3] 3]

/-- Whether a response URL counts as same-origin, in the words of the
specification: the source origin, when there is one, can request it; without a
source origin, it has the protocol, host and port of the URL of the original
request. -/
def isSameOriginSpec (env : Env) (parameters : NetworkResourceLoadParameters)
    (response : ResourceResponse) : Bool :=
  match parameters.sourceOrigin with
  | some origin => env.canRequest origin response.url
  | none => env.protocolHostAndPortAreEqual response.url parameters.request.url

/-- The sanitization mode, in the words of the specification: RemoveCookies
when the supplied type is CrossOriginSafe, the response URL is same-origin and
the destination is EmptyString; the supplied type in every other case. -/
def sanitizationModeSpec (env : Env) (parameters : NetworkResourceLoadParameters)
    (response : ResourceResponse) (type : SanitizationType) : SanitizationType :=
  if type = SanitizationType.CrossOriginSafe ∧ isSameOriginSpec env parameters response = true
      ∧ parameters.destination = Destination.EmptyString then
    SanitizationType.RemoveCookies
  else type

/-- The loader holds the cache `cache` and the parameters `parameters`, and
waits for a revalidation only if `validating` says so. -/
def NetworkResourceLoader.GroundedIn (l : NetworkResourceLoader) (cache : Option Cache)
    (parameters : NetworkResourceLoadParameters) (validating : Bool) : Prop :=
  l.m_cache = cache ∧ l.m_parameters = parameters
  ∧ (l.m_cacheEntryForValidation.isSome = true → validating = true)

/-- An outcome, if there is one, is a loader grounded in `cache`, `parameters`
and `validating`, and calls that look the cache up only if there is one. -/
def Outcome.Grounded (cache : Option Cache) (parameters : NetworkResourceLoadParameters)
    (validating : Bool) (o : Outcome) : Prop :=
  ∀ r, o = some r →
    r.1.GroundedIn cache parameters validating
    ∧ ∀ e ∈ r.2, e.isRetrieve = true → cache.isSome = true

/-- A loader that waits for a revalidation has a cache, and so has one with a
cache lookup outstanding. -/
def System.Grounded (s : System) : Prop :=
  (s.loader.m_cacheEntryForValidation.isSome = true → s.loader.m_cache.isSome = true)
  ∧ ∀ p ∈ s.pending, ∀ request, p = Pending.retrieve request → s.loader.m_cache.isSome = true

/-- What the completion handler of a cache lookup can go on with. -/
inductive RetrieveAction where
  | nothing
  | startNetworkLoad
  | dispatchWillSendRequestForCacheEntry
  | validateCacheEntry
  | didRetrieveCacheEntry
deriving DecidableEq, Repr

/-- The action of the completion handler of a cache lookup, in the words of
the specification: the action of the first rule that applies, in this order.
The loader is orphaned: nothing.  No entry: network load.  The entry has a
redirect request: replay of the redirect.  Certificate info is needed and the
response of the entry has none: network load.  The entry needs validation or
the cache policy of the request is RefreshAnyCacheData: validation.  Otherwise
the entry is served. -/
def retrieveActionSpec (orphaned : Bool) (entry : Option Entry) (needsCertificateInfo : Bool)
    (cachePolicy : ResourceRequestCachePolicy) : RetrieveAction :=
  let rules : List (Bool × RetrieveAction) :=
    [(orphaned, RetrieveAction.nothing),
     (entry.isNone, RetrieveAction.startNetworkLoad),
     (entry.any (fun e => e.redirectRequest.isSome),
       RetrieveAction.dispatchWillSendRequestForCacheEntry),
     (needsCertificateInfo && entry.any (fun e => !e.response.hasCertificateInfo),
       RetrieveAction.startNetworkLoad),
     (entry.any (fun e => e.needsValidation)
        || cachePolicy == ResourceRequestCachePolicy.RefreshAnyCacheData,
       RetrieveAction.validateCacheEntry)]
  match rules.find? (fun rule => rule.1) with
  | some rule => rule.2
  | none => RetrieveAction.didRetrieveCacheEntry

/-- The member function an action stands for, called on the loader with the
request of the lookup (a first attempt, for a network load) or with the entry
found. -/
def RetrieveAction.call (env : Env) (l : NetworkResourceLoader) (request : ResourceRequest)
    (entry : Option Entry) : RetrieveAction → Outcome
  | RetrieveAction.nothing => some (l, [])
  | RetrieveAction.startNetworkLoad => l.startNetworkLoad env request FirstLoad.Yes
  | RetrieveAction.dispatchWillSendRequestForCacheEntry =>
    entry.bind (fun e => l.dispatchWillSendRequestForCacheEntry env e)
  | RetrieveAction.validateCacheEntry => entry.bind (fun e => l.validateCacheEntry env e)
  | RetrieveAction.didRetrieveCacheEntry => entry.bind (fun e => l.didRetrieveCacheEntry env e)

/-- A cached redirect that also needs validation. -/
def sampleStaleRedirectEntry : Entry := { sampleRedirectEntry with needsValidation := true }

/-- The synchronous loader of the fixtures after its load has failed once: the
delayed reply has been sent. -/
def sampleRepliedLoader : NetworkResourceLoader :=
  match sampleSynchronousLoader.didFailLoading sampleEnv sampleAccessControlError with
  | some r => r.1
  | none => sampleSynchronousLoader

/-- The completion handlers of successive `retrieveData` lookups, run one after
the other on a live loader (`hasOneRef()` is false), each with the type it was
created for and the data the cache found, if any. -/
def NetworkResourceLoader.retrieveDataCompletions (env : Env) (entry : Entry)
    (retrieveCount : Nat) :
    NetworkResourceLoader → List (String × Option SharedBuffer) →
      NetworkResourceLoader × List Effect
  | l, [] => (l, [])
  | l, completion :: rest =>
    let r := l.retrieveDataCompletion env false entry completion.1 retrieveCount completion.2
    let r1 := NetworkResourceLoader.retrieveDataCompletions env entry retrieveCount r.1 rest
    (r1.1, r.2 ++ r1.2)

/-- The `DidRetrieveDerivedData` messages for the lookups that found data, in
the order of the completions. -/
def derivedDataMessages (completions : List (String × Option SharedBuffer)) : List Effect :=
  completions.filterMap (fun completion =>
    completion.2.map (fun data =>
      Effect.send (Message.DidRetrieveDerivedData completion.1 data)))

/-- Parameters with two types of derived data to retrieve. -/
def sampleDerivedDataParameters : NetworkResourceLoadParameters :=
  { sampleParameters with derivedCachedDataTypesToRetrieve := ["bytecode", "index"] }

/-- A loader with two types of derived data to retrieve. -/
def sampleDerivedDataLoader : NetworkResourceLoader :=
  NetworkResourceLoader.create sampleEnv sampleDerivedDataParameters false

/-- A cache entry with a body hash. -/
def sampleHashedEntry : Entry := { sampleEntry with bodyHash := some 42 }

/-- The run of a sequence of events all of which happen; none as soon as one of
them cannot. -/
def System.runAll (env : Env) : System → List Event → Option System
  | s, [] => some s
  | s, ev :: rest => (s.step env ev).bind (fun s1 => System.runAll env s1 rest)

/-- The delivery of data by the transport, or the firing of the buffering
timer. -/
def Event.isData : Event → Bool
  | Event.didReceiveBuffer _ _ => true
  | Event.bufferingTimerFired => true
  | _ => false

/-- The bytes the events hand to `didReceiveBuffer`, in order. -/
def receivedBytes : List Event → SharedBuffer
  | [] => []
  | Event.didReceiveBuffer buffer _ :: rest => buffer ++ receivedBytes rest
  | _ :: rest => receivedBytes rest

/-- The bytes the `DidReceiveData` messages among the calls carry, in order. -/
def sentBytes : List Effect → SharedBuffer
  | [] => []
  | Effect.send (Message.DidReceiveData data _) :: rest => data ++ sentBytes rest
  | _ :: rest => sentBytes rest

/-- The bytes held in the client-side buffer. -/
def NetworkResourceLoader.bufferedBytes (l : NetworkResourceLoader) : SharedBuffer :=
  match l.m_bufferedData with
  | some buffered => buffered
  | none => []

/-- Parameters of a load whose data is buffered for the client. -/
def sampleBufferingParameters : NetworkResourceLoadParameters :=
  { sampleParameters with maximumBufferingTime := 50 }

/-- A buffering load after its response: started, not found in the cache,
loaded from the network, the response received. -/
def sampleBufferingSystem : System :=
  System.run sampleEnv (System.init sampleEnv sampleBufferingParameters false)
    [Event.start, Event.retrieveCompleted 0 none, Event.didReceiveResponse sampleResponse]

/-- Four deliveries of data, the timer firing after the first. -/
def sampleDataEvents : List Event :=
  [Event.didReceiveBuffer [1, 2] (-1), Event.bufferingTimerFired,
   Event.didReceiveBuffer [3] 1, Event.didReceiveBuffer [4, 5] 2]

/-- The loader is synchronous and has a checker. -/
def NetworkResourceLoader.SynchronousWithChecker (l : NetworkResourceLoader) : Prop :=
  l.m_synchronousLoadData.isSome = true ∧ l.m_networkLoadChecker.isSome = true

/-- An outcome, if there is one, is a synchronous loader with a checker, and
calls that store no redirect. -/
def Outcome.StaysSynchronous (o : Outcome) : Prop :=
  ∀ r, o = some r → r.1.SynchronousWithChecker ∧ ∀ e ∈ r.2, e.isStoreRedirect = false

/-- The loader is synchronous and has a checker, and no redirect has been
stored. -/
def System.SynchronousLoad (s : System) : Prop :=
  s.loader.SynchronousWithChecker ∧ ∀ e ∈ s.trace, e.isStoreRedirect = false

/-- A call on the transport of the loader: cancelling it, deferring it,
continuing it after a redirect or a response, or converting it to a download.
Creating a transport is not one. -/
def Effect.isTransportCall : Effect → Bool
  | Effect.networkLoadCancel => true
  | Effect.networkLoadSetDefersLoading _ => true
  | Effect.networkLoadContinueWillSendRequest _ => true
  | Effect.networkLoadContinueDidReceiveResponse => true
  | Effect.convertNetworkLoadToDownload _ _ _ _ _ => true
  | _ => false

/-- A load whose transport fails while the checker examines a redirect, and
whose checker then rejects the redirect. -/
def sampleFailedTwiceEvents : List Event :=
  [Event.start, Event.checkCompleted 0 (Except.ok sampleRequest),
   Event.retrieveCompleted 0 none,
   Event.willSendRedirectedRequest sampleRequest sampleRedirectRequest samplePlainRedirectResponse,
   Event.didFailLoading sampleAccessControlError,
   Event.checkRedirectionCompleted 0 (Except.error sampleAccessControlError)
     StoredCredentialsPolicy.Use]

/-- A request for a URL outside the HTTP family, as a redirect can lead to. -/
def sampleOtherRequest : ResourceRequest := { sampleRequest with url := sampleOtherURL }

/-- A load that misses the cache and goes to the network; the transport is
redirected to a URL outside the HTTP family, the client lets the redirect
proceed; then the response, three bytes in two buffers and the end of the
load. -/
def sampleRedirectedLoadEvents : List Event :=
  [Event.start, Event.retrieveCompleted 0 none,
   Event.willSendRedirectedRequest sampleRequest sampleOtherRequest samplePlainRedirectResponse,
   Event.continueWillSendRequest sampleOtherRequest true,
   Event.transportRequestChanged sampleOtherRequest,
   Event.didReceiveResponse sampleResponse,
   Event.didReceiveBuffer [1, 2] 2, Event.didReceiveBuffer [3] 1,
   Event.didFinishLoading { ident := 5 }]

/-- A cache entry that can be served as it is. -/
def sampleFreshEntry : Entry := { sampleEntry with needsValidation := false }

/-- A cached redirect without From-Origin header. -/
def samplePlainRedirectEntry : Entry :=
  { sampleRedirectEntry with response := samplePlainRedirectResponse }

/-- The sandbox extensions of the parameters: those of the request body, then
that of the resource, if any. -/
def NetworkResourceLoadParameters.sandboxExtensions (parameters : NetworkResourceLoadParameters) :
    List (SandboxExtension ⊕ BlobDataFileReference) :=
  parameters.requestBodySandboxExtensions.map Sum.inl
    ++ parameters.resourceSandboxExtension.toList.map Sum.inl

/-- What a consumption by this loader takes into use, and what a revocation
gives back: the sandbox extensions of the parameters and the file references
the loader holds, in the order of lines 861-868 and 876-881. -/
def NetworkResourceLoader.held (l : NetworkResourceLoader) :
    List (SandboxExtension ⊕ BlobDataFileReference) :=
  l.m_parameters.sandboxExtensions ++ l.m_fileReferences.map Sum.inr

/-- What the next `cleanup` revokes: what the loader holds when the consumed
flag is set, nothing otherwise. -/
def NetworkResourceLoader.outstanding (l : NetworkResourceLoader) :
    List (SandboxExtension ⊕ BlobDataFileReference) :=
  if l.m_didConsumeSandboxExtensions then l.held else []

/-- How often `x` occurs in a list of sandbox extensions and file
references. -/
def occurrences (x : SandboxExtension ⊕ BlobDataFileReference)
    (xs : List (SandboxExtension ⊕ BlobDataFileReference)) : Nat :=
  xs.countP (fun y => decide (y = x))

/-- A consumption or a revocation. -/
def Effect.touchesSandbox (e : Effect) : Bool := e.consumed.isSome || e.revoked.isSome

/-- A call by which the loader lets go of what it holds: the notification that
ends `cleanup`, or the conversion to a download. -/
def Effect.releases : Effect → Bool
  | Effect.didCleanupResourceLoader => true
  | Effect.convertNetworkLoadToDownload _ _ _ _ _ => true
  | _ => false

/-- The loader `l` has the parameters, the file references and the consumed
flag of `l0`. -/
def NetworkResourceLoader.SameGrants (l0 l : NetworkResourceLoader) : Prop :=
  l.m_parameters = l0.m_parameters ∧ l.m_fileReferences = l0.m_fileReferences
  ∧ l.m_didConsumeSandboxExtensions = l0.m_didConsumeSandboxExtensions

/-- From the loader `l0`, the calls `es` lead to the loader `l` with the books
balanced: the parameters are the same; the file references are the same or
gone; what was revoked, together with what is still to be revoked, was consumed
or was to be revoked before; unless `cleanup` ran, a set consumed flag stays
set; and unless a call lets go of what the loader holds, the file references
stay. -/
def NetworkResourceLoader.AccountsFor (l0 l : NetworkResourceLoader) (es : List Effect) : Prop :=
  l.m_parameters = l0.m_parameters
  ∧ (l.m_fileReferences = l0.m_fileReferences ∨ l.m_fileReferences = [])
  ∧ (∀ x, occurrences x (es.filterMap Effect.revoked) + occurrences x l.outstanding
        ≤ occurrences x (es.filterMap Effect.consumed) + occurrences x l0.outstanding)
  ∧ (Effect.didCleanupResourceLoader ∉ es →
      l0.m_didConsumeSandboxExtensions = true → l.m_didConsumeSandboxExtensions = true)
  ∧ ((∀ e ∈ es, e.releases = false) → l.m_fileReferences = l0.m_fileReferences)

/-- The conversion of the load to a download. -/
def Effect.isConversion : Effect → Bool
  | Effect.convertNetworkLoadToDownload _ _ _ _ _ => true
  | _ => false

/-- Among the calls there is the conversion of the load to a download. -/
def converted (es : List Effect) : Prop := ∃ e ∈ es, e.isConversion = true

/-- What the calls `es`, leading from the loader `l0` to the loader `l`, did
about sandbox extensions and file references.  One of five things: nothing;
one consumption, of all that `l0` holds, which sets the consumed flag; one
`cleanup`, which revokes what was to be revoked and clears the flag and the
file references; a consumption followed by a `cleanup`, which revokes what was
just consumed; or a conversion to a download, which may take the file
references away. -/
def NetworkResourceLoader.Shape (l0 l : NetworkResourceLoader) (es : List Effect) : Prop :=
  l.m_parameters = l0.m_parameters
  ∧ ((l0.SameGrants l ∧ es.filterMap Effect.consumed = [] ∧ es.filterMap Effect.revoked = [])
    ∨ (es.filterMap Effect.consumed = l0.held ∧ es.filterMap Effect.revoked = []
        ∧ l.m_didConsumeSandboxExtensions = true ∧ l.m_fileReferences = l0.m_fileReferences)
    ∨ (es.filterMap Effect.consumed = [] ∧ es.filterMap Effect.revoked = l0.outstanding
        ∧ l.m_didConsumeSandboxExtensions = false ∧ l.m_fileReferences = []
        ∧ Effect.didCleanupResourceLoader ∈ es)
    ∨ (es.filterMap Effect.consumed = l0.held ∧ es.filterMap Effect.revoked = l0.held
        ∧ l.m_didConsumeSandboxExtensions = false ∧ l.m_fileReferences = []
        ∧ Effect.didCleanupResourceLoader ∈ es)
    ∨ (es.filterMap Effect.consumed = [] ∧ es.filterMap Effect.revoked = []
        ∧ l.m_didConsumeSandboxExtensions = l0.m_didConsumeSandboxExtensions
        ∧ (l.m_fileReferences = l0.m_fileReferences ∨ l.m_fileReferences = [])
        ∧ converted es))

/-- An outcome, if there is one, has one of the five shapes from `l0`. -/
def Outcome.Shaped (l0 : NetworkResourceLoader) (o : Outcome) : Prop :=
  ∀ r, o = some r → l0.Shape r.1 r.2

/-- An outcome, if there is one, leaves the parameters, the file references and
the consumed flag of `l0` as they are and neither consumes nor revokes. -/
def Outcome.Untouching (l0 : NetworkResourceLoader) (o : Outcome) : Prop :=
  ∀ r, o = some r → l0.SameGrants r.1 ∧ ∀ e ∈ r.2, e.touchesSandbox = false

/-- From `s` to `s1` the trace has only grown, and the calls in between have
one of the five shapes from the loader of `s` to that of `s1`. -/
def System.Shaped (s s1 : System) : Prop :=
  ∃ es, s1.trace = s.trace ++ es ∧ s.loader.Shape s1.loader es

/-- From `s` to `s1` the trace has only grown, and the calls in between balance
the books from the loader of `s` to that of `s1`. -/
def System.Accounts (s s1 : System) : Prop :=
  ∃ es, s1.trace = s.trace ++ es ∧ s.loader.AccountsFor s1.loader es

/-- The environment `sampleEnv` where every encoded blob of a request body
refers to one file. -/
def sampleBlobEnv : Env :=
  { sampleEnv with filesInBlob := fun _ => [{ ident := 99 }] }

/-- Parameters of a load whose request body holds one encoded blob. -/
def sampleBlobParameters : NetworkResourceLoadParameters :=
  { sampleParameters with
    request :=
      { sampleRequest with httpBody := some [{ isEncodedBlob := true, m_url := sampleOtherURL }] } }

/-- A load that misses the cache, goes to the network, receives a response, is
converted to a download and is then aborted. -/
def sampleDownloadEvents : List Event :=
  [Event.start, Event.retrieveCompleted 0 none, Event.didReceiveResponse sampleResponse,
   Event.convertToDownload 1 sampleRequest sampleResponse, Event.abort]

/-- A handler by which a load that has not reached the network goes on: the
completion handler of the check of `start()` or of a cache lookup. -/
def Pending.isToken : Pending → Bool
  | Pending.check _ => true
  | Pending.retrieve _ => true
  | _ => false

/-- A call that leaves such a handler behind. -/
def Effect.spawns : Effect → Bool
  | Effect.loadCheckerCheck _ => true
  | Effect.cacheRetrieve _ _ _ => true
  | _ => false

/-- A call that neither leaves such a handler behind nor consumes. -/
def Effect.isIdle (e : Effect) : Bool := !e.spawns && e.consumed.isNone

/-- What the loader itself holds of the one thread of a load: one for the
client still to answer a cached redirect, one for the sandbox extensions in
use. -/
def NetworkResourceLoader.credit (l : NetworkResourceLoader) : Nat :=
  (if l.m_isWaitingContinueWillSendRequestForCachedRedirect then 1 else 0)
    + (if l.m_didConsumeSandboxExtensions then 1 else 0)

/-- The ways a load can still go on to the network or is there already: the
outstanding checks and cache lookups, the answer to a cached redirect, the
sandbox extensions in use. -/
def System.stake (s : System) : Nat := s.pending.countP Pending.isToken + s.loader.credit

/-- A load has one thread: at most one way to go on, and none before it was
started. -/
def System.Single (s : System) : Prop :=
  s.stake ≤ 1 ∧ (s.loader.m_wasStarted = false → s.stake = 0)

/-- The loader `l` waits for the client, has consumed and was started just as
`l0`. -/
def NetworkResourceLoader.SameCredit (l0 l : NetworkResourceLoader) : Prop :=
  l.m_isWaitingContinueWillSendRequestForCachedRedirect
      = l0.m_isWaitingContinueWillSendRequestForCachedRedirect
  ∧ l.m_didConsumeSandboxExtensions = l0.m_didConsumeSandboxExtensions
  ∧ l.m_wasStarted = l0.m_wasStarted

/-- An outcome, if there is one, spends nothing: no check or cache lookup is
started, nothing is consumed, the loader waits for the client and was started
just as `l0`, and its consumed flag is set only if that of `l0` is. -/
def Outcome.Idle (l0 : NetworkResourceLoader) (o : Outcome) : Prop :=
  ∀ r, o = some r →
    (∀ e ∈ r.2, e.isIdle = true)
    ∧ r.1.m_isWaitingContinueWillSendRequestForCachedRedirect
        = l0.m_isWaitingContinueWillSendRequestForCachedRedirect
    ∧ (r.1.m_didConsumeSandboxExtensions = true → l0.m_didConsumeSandboxExtensions = true)
    ∧ r.1.m_wasStarted = l0.m_wasStarted

/-- An outcome, if there is one, spends at most what `l0` holds and `grant`:
when these are at most one, the checks and cache lookups started and what the
loader holds afterwards are no more, and anything is consumed only if the
consumed flag of `l0` is clear; a started loader stays started. -/
def Outcome.Thrifty (grant : Nat) (l0 : NetworkResourceLoader) (o : Outcome) : Prop :=
  ∀ r, o = some r →
    (l0.credit + grant ≤ 1 →
      r.2.countP Effect.spawns + r.1.credit ≤ l0.credit + grant
      ∧ (r.2.filterMap Effect.consumed ≠ [] → l0.m_didConsumeSandboxExtensions = false))
    ∧ (l0.m_wasStarted = true → r.1.m_wasStarted = true)

/-- The loader `l` waits for the client and has consumed just as `l0`, and was
started if `l0` was. -/
def NetworkResourceLoader.KeepsCredit (l0 l : NetworkResourceLoader) : Prop :=
  l.m_isWaitingContinueWillSendRequestForCachedRedirect
      = l0.m_isWaitingContinueWillSendRequestForCachedRedirect
  ∧ l.m_didConsumeSandboxExtensions = l0.m_didConsumeSandboxExtensions
  ∧ (l0.m_wasStarted = true → l.m_wasStarted = true)

/-- Whether the event keeps to the assertion of line 192: `start()` runs on a
loader that was not started, unless loading is deferred and it returns at once. -/
def System.mayHappen (s : System) : Event → Bool
  | Event.start => s.loader.m_defersLoading || !s.loader.m_wasStarted
  | _ => true

/-- Along the run of the events, every event keeps to the assertion of line
192. -/
def System.startsOnce (env : Env) : System → List Event → Bool
  | _, [] => true
  | s, ev :: rest =>
    s.mayHappen ev &&
      match s.step env ev with
      | some s1 => startsOnce env s1 rest
      | none => true

/-- The state `s1` has one thread, and if anything was consumed from `s` to
`s1`, the consumed flag of `s` was clear. -/
def System.Steady (s s1 : System) : Prop :=
  s1.Single
  ∧ ∀ es, s1.trace = s.trace ++ es → es.filterMap Effect.consumed ≠ [] →
      s.loader.m_didConsumeSandboxExtensions = false

/-- From `s` to `s1` the trace has only grown, and whatever was consumed in
between or was in use in `s` has been revoked in between or is in use in `s1`:
every sandbox extension, and every file reference too unless the load was
converted to a download in between. -/
def System.Balanced (s s1 : System) : Prop :=
  ∃ es, s1.trace = s.trace ++ es
    ∧ ∀ x : SandboxExtension ⊕ BlobDataFileReference, (x.isLeft = true ∨ ¬ converted es) →
        occurrences x (es.filterMap Effect.consumed) + occurrences x s.loader.outstanding
          ≤ occurrences x (es.filterMap Effect.revoked) + occurrences x s1.loader.outstanding

/-! ## Theorems -/

namespace NetworkResourceLoader

/-- C1: `canUseCache(r)` is true exactly when the loader holds a cache, the URL
of `r` is in the HTTP family and the cache policy of the original request is
not DoNotUseAnyCache; and the constructor leaves the cache absent exactly for
an ephemeral session or a process without cache. -/
theorem canUseCache_iff (env : Env) (l : NetworkResourceLoader) (r : ResourceRequest)
    (parameters : NetworkResourceLoadParameters) (synchronousReply : Bool) :
    (l.canUseCache r = true ↔
      (l.m_cache.isSome = true ∧ r.url.protocolIsInHTTPFamily = true ∧
        l.originalRequest.cachePolicy ≠ ResourceRequestCachePolicy.DoNotUseAnyCache))
    ∧ ((create env parameters synchronousReply).m_cache = none ↔
        (parameters.sessionID.isEphemeral = true ∨ env.processCache = none)) := by
  constructor
  · unfold canUseCache
    cases hc : l.m_cache <;> cases hu : r.url.protocolIsInHTTPFamily <;> simp
  · unfold create
    cases he : parameters.sessionID.isEphemeral <;> simp

/-! ### What `cleanup` and `didFailLoading` do -/

theorem cleanup_effects_inCleanup (l : NetworkResourceLoader) :
    ∀ e ∈ l.cleanup.2, e.inCleanup = true := by
  intro e he
  cases hflag : l.m_didConsumeSandboxExtensions <;>
    cases hres : l.m_parameters.resourceSandboxExtension <;>
    simp [cleanup, invalidateSandboxExtensions, hflag, hres] at he
  · subst he; rfl
  · subst he; rfl
  · rcases he with ⟨x, -, rfl⟩ | ⟨x, -, rfl⟩ | rfl <;> rfl
  · rcases he with ⟨x, -, rfl⟩ | rfl | ⟨x, -, rfl⟩ | rfl <;> rfl

@[simp] theorem cleanup_m_parameters (l : NetworkResourceLoader) :
    l.cleanup.1.m_parameters = l.m_parameters := by
  cases h : l.m_didConsumeSandboxExtensions <;> simp [cleanup, invalidateSandboxExtensions, h]

@[simp] theorem cleanup_m_cache (l : NetworkResourceLoader) :
    l.cleanup.1.m_cache = l.m_cache := by
  cases h : l.m_didConsumeSandboxExtensions <;> simp [cleanup, invalidateSandboxExtensions, h]

@[simp] theorem cleanup_m_redirectCount (l : NetworkResourceLoader) :
    l.cleanup.1.m_redirectCount = l.m_redirectCount := by
  cases h : l.m_didConsumeSandboxExtensions <;> simp [cleanup, invalidateSandboxExtensions, h]

@[simp] theorem cleanup_m_bufferedDataForCache (l : NetworkResourceLoader) :
    l.cleanup.1.m_bufferedDataForCache = l.m_bufferedDataForCache := by
  cases h : l.m_didConsumeSandboxExtensions <;> simp [cleanup, invalidateSandboxExtensions, h]

@[simp] theorem cleanup_m_bufferedData (l : NetworkResourceLoader) :
    l.cleanup.1.m_bufferedData = l.m_bufferedData := by
  cases h : l.m_didConsumeSandboxExtensions <;> simp [cleanup, invalidateSandboxExtensions, h]

@[simp] theorem cleanup_m_isWaitingContinueWillSendRequestForCachedRedirect (l : NetworkResourceLoader) :
    l.cleanup.1.m_isWaitingContinueWillSendRequestForCachedRedirect = l.m_isWaitingContinueWillSendRequestForCachedRedirect := by
  cases h : l.m_didConsumeSandboxExtensions <;> simp [cleanup, invalidateSandboxExtensions, h]

@[simp] theorem cleanup_m_synchronousLoadData (l : NetworkResourceLoader) :
    l.cleanup.1.m_synchronousLoadData = l.m_synchronousLoadData := by
  cases h : l.m_didConsumeSandboxExtensions <;> simp [cleanup, invalidateSandboxExtensions, h]

@[simp] theorem cleanup_m_cacheEntryForValidation (l : NetworkResourceLoader) :
    l.cleanup.1.m_cacheEntryForValidation = l.m_cacheEntryForValidation := by
  cases h : l.m_didConsumeSandboxExtensions <;> simp [cleanup, invalidateSandboxExtensions, h]

@[simp] theorem cleanup_m_response (l : NetworkResourceLoader) :
    l.cleanup.1.m_response = l.m_response := by
  cases h : l.m_didConsumeSandboxExtensions <;> simp [cleanup, invalidateSandboxExtensions, h]

@[simp] theorem cleanup_m_networkLoadChecker (l : NetworkResourceLoader) :
    l.cleanup.1.m_networkLoadChecker = l.m_networkLoadChecker := by
  cases h : l.m_didConsumeSandboxExtensions <;> simp [cleanup, invalidateSandboxExtensions, h]

@[simp] theorem cleanup_m_wasStarted (l : NetworkResourceLoader) :
    l.cleanup.1.m_wasStarted = l.m_wasStarted := by
  cases h : l.m_didConsumeSandboxExtensions <;> simp [cleanup, invalidateSandboxExtensions, h]

@[simp] theorem cleanup_m_defersLoading (l : NetworkResourceLoader) :
    l.cleanup.1.m_defersLoading = l.m_defersLoading := by
  cases h : l.m_didConsumeSandboxExtensions <;> simp [cleanup, invalidateSandboxExtensions, h]

@[simp] theorem cleanup_m_networkLoad (l : NetworkResourceLoader) :
    l.cleanup.1.m_networkLoad = none := by
  cases h : l.m_didConsumeSandboxExtensions <;> simp [cleanup, invalidateSandboxExtensions, h]

@[simp] theorem cleanup_m_didConsumeSandboxExtensions (l : NetworkResourceLoader) :
    l.cleanup.1.m_didConsumeSandboxExtensions = false := by
  cases h : l.m_didConsumeSandboxExtensions <;> simp [cleanup, invalidateSandboxExtensions, h]

@[simp] theorem cleanup_m_fileReferences (l : NetworkResourceLoader) :
    l.cleanup.1.m_fileReferences = [] := by
  cases h : l.m_didConsumeSandboxExtensions <;> simp [cleanup, invalidateSandboxExtensions, h]

@[simp] theorem cleanup_m_bufferingTimer (l : NetworkResourceLoader) :
    l.cleanup.1.m_bufferingTimer = false := by
  cases h : l.m_didConsumeSandboxExtensions <;> simp [cleanup, invalidateSandboxExtensions, h]

theorem didFailLoading_asynchronous (env : Env) (l : NetworkResourceLoader)
    (error : ResourceError) (h : l.m_synchronousLoadData = none) :
    l.didFailLoading env error
      = some ((cleanup { l with m_cacheEntryForValidation := none }).1,
              (if env.captureExtraNetworkLoadMetricsEnabled then
                 [Effect.removeNetworkLoadInformation l.identifier]
               else [])
                ++ [Effect.send (Message.DidFailResourceLoad error)]
                ++ (cleanup { l with m_cacheEntryForValidation := none }).2) := by
  simp [didFailLoading, h]

theorem not_mem_cleanup (l : NetworkResourceLoader) (e : Effect) (h : e.inCleanup = false) :
    e ∉ l.cleanup.2 := by
  intro he
  rw [cleanup_effects_inCleanup l e he] at h
  exact Bool.noConfusion h

theorem canUseCache_congr (l l1 : NetworkResourceLoader) (request : ResourceRequest)
    (hc : l1.m_cache = l.m_cache) (hp : l1.m_parameters = l.m_parameters) :
    l1.canUseCache request = l.canUseCache request := by
  simp [canUseCache, originalRequest, hc, hp]

theorem inFailure_of_inCleanup (e : Effect) (h : e.inCleanup = true) : e.inFailure = true := by
  cases e <;> simp_all [Effect.inFailure, Effect.inCleanup]

theorem didFailLoading_effects_inFailure (env : Env) (l : NetworkResourceLoader)
    (error : ResourceError) (o : NetworkResourceLoader × List Effect)
    (h : l.didFailLoading env error = some o) : ∀ e ∈ o.2, e.inFailure = true := by
  intro e he
  have hc : ∀ (l1 : NetworkResourceLoader), ∀ e ∈ l1.cleanup.2, e.inFailure = true :=
    fun l1 e he => inFailure_of_inCleanup e (cleanup_effects_inCleanup l1 e he)
  cases hs : l.m_synchronousLoadData with
  | none =>
    simp only [didFailLoading, hs, Option.some.injEq] at h
    subst h
    simp only [List.mem_append, List.mem_singleton] at he
    rcases he with (he | rfl) | he
    · split at he
      · simp only [List.mem_singleton] at he
        subst he
        rfl
      · simp at he
    · rfl
    · exact hc _ e he
  | some data =>
    cases hr : data.delayedReply with
    | false => simp [didFailLoading, hs, sendReplyToSynchronousRequest, hr] at h
    | true =>
      simp only [didFailLoading, hs, sendReplyToSynchronousRequest, hr, if_true,
        Option.some.injEq] at h
      subst h
      simp only [List.mem_append, List.mem_singleton] at he
      rcases he with (he | rfl) | he
      · split at he
        · simp only [List.mem_singleton] at he
          subst he
          rfl
        · simp at he
      · rfl
      · exact hc _ e he

theorem didFailLoading_isSome_of_asynchronous (env : Env) (l : NetworkResourceLoader)
    (error : ResourceError) (h : l.isSynchronous = false) :
    (l.didFailLoading env error).isSome = true := by
  unfold isSynchronous at h
  unfold didFailLoading
  cases hs : l.m_synchronousLoadData with
  | none => simp
  | some d => simp [hs] at h

theorem not_isLookupOrStore_of_inFailure (e : Effect) (h : e.inFailure = true) :
    e.isLookupOrStore = false := by
  cases e <;>
    simp_all [Effect.inFailure, Effect.inCleanup, Effect.isLookupOrStore, Effect.isRetrieve,
      Effect.isStore]

theorem cleanup_quiet (l : NetworkResourceLoader) :
    ∀ e ∈ l.cleanup.2, e.isLookupOrStore = false :=
  fun e he => not_isLookupOrStore_of_inFailure e
    (inFailure_of_inCleanup e (cleanup_effects_inCleanup l e he))

theorem didFailLoading_quiet (env : Env) (l : NetworkResourceLoader) (error : ResourceError)
    (o : NetworkResourceLoader × List Effect) (h : l.didFailLoading env error = some o) :
    ∀ e ∈ o.2, e.isLookupOrStore = false :=
  fun e he => not_isLookupOrStore_of_inFailure e
    (didFailLoading_effects_inFailure env l error o h e he)

theorem sendResultForCacheEntry_quiet (env : Env) (l : NetworkResourceLoader) (entry : Entry) :
    ∀ e ∈ (l.sendResultForCacheEntry env entry).2, e.isLookupOrStore = false := by
  intro e he
  unfold sendResultForCacheEntry at he
  split at he
  · simp only [List.mem_singleton] at he
    subst he
    rfl
  · simp only [sendBuffer, List.mem_append, List.mem_singleton, List.mem_cons, List.mem_nil_iff,
      or_false] at he
    rcases he with rfl | rfl <;> rfl

theorem continueProcessingCachedEntryAfterDidReceiveResponse_quiet (env : Env)
    (l : NetworkResourceLoader) (entry : Entry) (o : NetworkResourceLoader × List Effect)
    (h : l.continueProcessingCachedEntryAfterDidReceiveResponse env entry = some o) :
    ∀ e ∈ o.2, e.isLookupOrStore = false := by
  have hdone : ∀ e ∈ (l.sendResultForCacheEntry env entry).2
      ++ (l.sendResultForCacheEntry env entry).1.cleanup.2, e.isLookupOrStore = false := by
    intro e he
    rcases List.mem_append.1 he with he | he
    · exact sendResultForCacheEntry_quiet env l entry e he
    · exact cleanup_quiet _ e he
  unfold continueProcessingCachedEntryAfterDidReceiveResponse at h
  split at h
  · split at h
    · split at h
      · simp at h
      · simp only [Option.some.injEq] at h
        subst h
        intro e he
        simp only [List.mem_map] at he
        obtain ⟨t, -, rfl⟩ := he
        rfl
    · simp only [Option.some.injEq] at h
      subst h
      exact hdone
  · simp only [Option.some.injEq] at h
    subst h
    exact hdone

theorem didRetrieveCacheEntry_quiet (env : Env) (l : NetworkResourceLoader) (entry : Entry)
    (o : NetworkResourceLoader × List Effect) (h : l.didRetrieveCacheEntry env entry = some o) :
    ∀ e ∈ o.2, e.isLookupOrStore = false := by
  unfold didRetrieveCacheEntry at h
  simp only at h
  split at h
  · exact didFailLoading_quiet env l _ o h
  · split at h
    · split at h
      · simp at h
      · next data data1 es hs =>
        simp only [Option.some.injEq] at h
        subst h
        intro e he
        rcases List.mem_append.1 he with he | he
        · unfold sendReplyToSynchronousRequest at hs
          simp only at hs
          split at hs
          · simp only [Option.some.injEq, Prod.mk.injEq] at hs
            obtain ⟨-, rfl⟩ := hs
            simp only [List.mem_singleton] at he
            subst he
            rfl
          · simp at hs
        · exact cleanup_quiet _ e he
    · split at h
      · simp only [Option.some.injEq] at h
        subst h
        intro e he
        simp only [List.mem_singleton] at he
        subst he
        rfl
      · simp only [Outcome.andThen] at h
        split at h
        · simp at h
        · next l1 es1 hc =>
          simp only [Option.some.injEq] at h
          subst h
          intro e he
          rcases List.mem_append.1 he with he | he
          · simp only [List.mem_singleton] at he
            subst he
            rfl
          · exact continueProcessingCachedEntryAfterDidReceiveResponse_quiet env l entry _ hc e he

theorem tryStoreAsCacheEntry_quiet (l : NetworkResourceLoader)
    (o : NetworkResourceLoader × List Effect) (hnone : l.m_bufferedDataForCache = none)
    (h : l.tryStoreAsCacheEntry = some o) : ∀ e ∈ o.2, e.isLookupOrStore = false := by
  unfold tryStoreAsCacheEntry at h
  rw [hnone] at h
  split at h
  · simp at h
  · split at h <;>
    · simp only [Option.some.injEq] at h
      subst h
      simp

theorem didFinishLoading_quiet (env : Env) (l : NetworkResourceLoader)
    (metrics : NetworkLoadMetrics) (o : NetworkResourceLoader × List Effect)
    (hnone : l.m_bufferedDataForCache = none) (h : l.didFinishLoading env metrics = some o) :
    ∀ e ∈ o.2, e.isLookupOrStore = false := by
  have hcapture : ∀ e ∈ (if env.captureExtraNetworkLoadMetricsEnabled then
      [Effect.addNetworkLoadInformationMetrics l.identifier metrics] else []),
      e.isLookupOrStore = false := by
    intro e he
    split at he
    · simp only [List.mem_singleton] at he
      subst he
      rfl
    · simp at he
  unfold didFinishLoading at h
  simp only at h
  split at h
  · next entry hentry =>
    simp only [Outcome.andThen] at h
    split at h
    · simp at h
    · next l1 es1 hr =>
      simp only [Option.some.injEq] at h
      subst h
      intro e he
      rcases List.mem_append.1 he with he | he
      · exact hcapture e he
      · exact didRetrieveCacheEntry_quiet env _ entry _ hr e he
  · have hreplied : ∀ r, (match l.m_synchronousLoadData with
        | some data =>
          match sendReplyToSynchronousRequest data l.m_bufferedData with
          | none => none
          | some (data1, es) =>
            some ({ l with m_synchronousLoadData := some data1 },
              (if env.captureExtraNetworkLoadMetricsEnabled then
                [Effect.addNetworkLoadInformationMetrics l.identifier metrics] else []) ++ es)
        | none =>
          some (l, (if env.captureExtraNetworkLoadMetricsEnabled then
                [Effect.addNetworkLoadInformationMetrics l.identifier metrics] else [])
              ++ (match l.m_bufferedData with
                  | some buffered =>
                    if !buffered.isEmpty then (sendBuffer l buffered sizeTMinusOne).2 else []
                  | none => [])
              ++ [Effect.send (Message.DidFinishResourceLoad metrics)])) = some r →
        r.1.m_bufferedDataForCache = none ∧ ∀ e ∈ r.2, e.isLookupOrStore = false := by
      intro r hr
      split at hr
      · split at hr
        · simp at hr
        · next data data1 es hs =>
          simp only [Option.some.injEq] at hr
          subst hr
          refine ⟨hnone, fun e he => ?_⟩
          rcases List.mem_append.1 he with he | he
          · exact hcapture e he
          · unfold sendReplyToSynchronousRequest at hs
            simp only at hs
            split at hs
            · simp only [Option.some.injEq, Prod.mk.injEq] at hs
              obtain ⟨-, rfl⟩ := hs
              simp only [List.mem_singleton] at he
              subst he
              rfl
            · simp at hs
      · simp only [Option.some.injEq] at hr
        subst hr
        refine ⟨hnone, fun e he => ?_⟩
        simp only [List.mem_append, List.mem_singleton] at he
        rcases he with (he | he) | rfl
        · exact hcapture e he
        · split at he
          · split at he
            · simp only [sendBuffer, List.mem_singleton] at he
              subst he
              rfl
            · simp at he
          · simp at he
        · rfl
    simp only [Outcome.andThen] at h
    split at h
    · simp at h
    · next l2 es2 hstore =>
      split at hstore
      · simp at hstore
      · next l1 es1 hrep =>
        split at hstore
        · simp at hstore
        · next l3 es3 htry =>
          simp only [Option.some.injEq, Prod.mk.injEq] at hstore
          obtain ⟨rfl, rfl⟩ := hstore
          simp only [Option.some.injEq] at h
          subst h
          obtain ⟨hn1, hq1⟩ := hreplied _ hrep
          intro e he
          rcases List.mem_append.1 he with he | he
          · rcases List.mem_append.1 he with he | he
            · exact hq1 e he
            · exact tryStoreAsCacheEntry_quiet l1 _ hn1 htry e he
          · exact cleanup_quiet _ e he

@[simp] theorem didReceiveBuffer_m_bufferedDataForCache_none (l : NetworkResourceLoader)
    (buffer : SharedBuffer) (reported : Int) (h : l.m_bufferedDataForCache = none) :
    (l.didReceiveBuffer buffer reported).1.m_bufferedDataForCache = none := by
  cases hb : l.m_bufferedData <;>
    simp [didReceiveBuffer, h, hb, sendBuffer, startBufferingTimerIfNeeded] <;>
    (repeat' split) <;> simp [h]

theorem didReceiveBuffers_m_bufferedDataForCache_none (buffers : List (SharedBuffer × Int)) :
    ∀ l : NetworkResourceLoader, l.m_bufferedDataForCache = none →
      (l.didReceiveBuffers buffers).1.m_bufferedDataForCache = none := by
  induction buffers with
  | nil => intro l h; exact h
  | cons b rest ih =>
    intro l h
    obtain ⟨buffer, reported⟩ := b
    exact ih _ (didReceiveBuffer_m_bufferedDataForCache_none l buffer reported h)

@[simp] theorem didReceiveBuffer_m_networkLoad (l : NetworkResourceLoader) (buffer : SharedBuffer)
    (reported : Int) : (l.didReceiveBuffer buffer reported).1.m_networkLoad = l.m_networkLoad := by
  cases hc : l.m_bufferedDataForCache <;> cases hb : l.m_bufferedData <;>
    simp only [didReceiveBuffer, hc, hb, sendBuffer, startBufferingTimerIfNeeded] <;>
    (repeat' split) <;> rfl

@[simp] theorem didReceiveBuffers_m_networkLoad (buffers : List (SharedBuffer × Int)) :
    ∀ l : NetworkResourceLoader, (l.didReceiveBuffers buffers).1.m_networkLoad = l.m_networkLoad := by
  induction buffers with
  | nil => intro l; rfl
  | cons b rest ih =>
    intro l
    obtain ⟨buffer, reported⟩ := b
    exact (ih _).trans (didReceiveBuffer_m_networkLoad l buffer reported)

@[simp] theorem didReceiveBuffer_m_cacheEntryForValidation (l : NetworkResourceLoader) (buffer : SharedBuffer)
    (reported : Int) : (l.didReceiveBuffer buffer reported).1.m_cacheEntryForValidation = l.m_cacheEntryForValidation := by
  cases hc : l.m_bufferedDataForCache <;> cases hb : l.m_bufferedData <;>
    simp only [didReceiveBuffer, hc, hb, sendBuffer, startBufferingTimerIfNeeded] <;>
    (repeat' split) <;> rfl

@[simp] theorem didReceiveBuffers_m_cacheEntryForValidation (buffers : List (SharedBuffer × Int)) :
    ∀ l : NetworkResourceLoader, (l.didReceiveBuffers buffers).1.m_cacheEntryForValidation = l.m_cacheEntryForValidation := by
  induction buffers with
  | nil => intro l; rfl
  | cons b rest ih =>
    intro l
    obtain ⟨buffer, reported⟩ := b
    exact (ih _).trans (didReceiveBuffer_m_cacheEntryForValidation l buffer reported)

@[simp] theorem didReceiveBuffer_m_synchronousLoadData (l : NetworkResourceLoader) (buffer : SharedBuffer)
    (reported : Int) : (l.didReceiveBuffer buffer reported).1.m_synchronousLoadData = l.m_synchronousLoadData := by
  cases hc : l.m_bufferedDataForCache <;> cases hb : l.m_bufferedData <;>
    simp only [didReceiveBuffer, hc, hb, sendBuffer, startBufferingTimerIfNeeded] <;>
    (repeat' split) <;> rfl

@[simp] theorem didReceiveBuffers_m_synchronousLoadData (buffers : List (SharedBuffer × Int)) :
    ∀ l : NetworkResourceLoader, (l.didReceiveBuffers buffers).1.m_synchronousLoadData = l.m_synchronousLoadData := by
  induction buffers with
  | nil => intro l; rfl
  | cons b rest ih =>
    intro l
    obtain ⟨buffer, reported⟩ := b
    exact (ih _).trans (didReceiveBuffer_m_synchronousLoadData l buffer reported)

@[simp] theorem didReceiveBuffer_m_cache (l : NetworkResourceLoader) (buffer : SharedBuffer)
    (reported : Int) : (l.didReceiveBuffer buffer reported).1.m_cache = l.m_cache := by
  cases hc : l.m_bufferedDataForCache <;> cases hb : l.m_bufferedData <;>
    simp only [didReceiveBuffer, hc, hb, sendBuffer, startBufferingTimerIfNeeded] <;>
    (repeat' split) <;> rfl

@[simp] theorem didReceiveBuffers_m_cache (buffers : List (SharedBuffer × Int)) :
    ∀ l : NetworkResourceLoader, (l.didReceiveBuffers buffers).1.m_cache = l.m_cache := by
  induction buffers with
  | nil => intro l; rfl
  | cons b rest ih =>
    intro l
    obtain ⟨buffer, reported⟩ := b
    exact (ih _).trans (didReceiveBuffer_m_cache l buffer reported)

@[simp] theorem didReceiveBuffer_m_parameters (l : NetworkResourceLoader) (buffer : SharedBuffer)
    (reported : Int) : (l.didReceiveBuffer buffer reported).1.m_parameters = l.m_parameters := by
  cases hc : l.m_bufferedDataForCache <;> cases hb : l.m_bufferedData <;>
    simp only [didReceiveBuffer, hc, hb, sendBuffer, startBufferingTimerIfNeeded] <;>
    (repeat' split) <;> rfl

@[simp] theorem didReceiveBuffers_m_parameters (buffers : List (SharedBuffer × Int)) :
    ∀ l : NetworkResourceLoader, (l.didReceiveBuffers buffers).1.m_parameters = l.m_parameters := by
  induction buffers with
  | nil => intro l; rfl
  | cons b rest ih =>
    intro l
    obtain ⟨buffer, reported⟩ := b
    exact (ih _).trans (didReceiveBuffer_m_parameters l buffer reported)

@[simp] theorem didReceiveBuffer_m_response (l : NetworkResourceLoader) (buffer : SharedBuffer)
    (reported : Int) : (l.didReceiveBuffer buffer reported).1.m_response = l.m_response := by
  cases hc : l.m_bufferedDataForCache <;> cases hb : l.m_bufferedData <;>
    simp only [didReceiveBuffer, hc, hb, sendBuffer, startBufferingTimerIfNeeded] <;>
    (repeat' split) <;> rfl

@[simp] theorem didReceiveBuffers_m_response (buffers : List (SharedBuffer × Int)) :
    ∀ l : NetworkResourceLoader, (l.didReceiveBuffers buffers).1.m_response = l.m_response := by
  induction buffers with
  | nil => intro l; rfl
  | cons b rest ih =>
    intro l
    obtain ⟨buffer, reported⟩ := b
    exact (ih _).trans (didReceiveBuffer_m_response l buffer reported)

theorem didReceiveBuffer_m_bufferedDataForCache_over (l : NetworkResourceLoader)
    (forCache buffer : SharedBuffer) (reported : Int)
    (h : l.m_bufferedDataForCache = some forCache)
    (hover : forCache.length + buffer.length > maximumCacheBufferSize) :
    (l.didReceiveBuffer buffer reported).1.m_bufferedDataForCache = none := by
  have hn : ¬ forCache.length + buffer.length ≤ maximumCacheBufferSize := by omega
  cases hb : l.m_bufferedData <;>
    simp only [didReceiveBuffer, h, hb, hn, sendBuffer, startBufferingTimerIfNeeded, if_false] <;>
    (repeat' split) <;> rfl

theorem didReceiveBuffer_m_bufferedDataForCache_within (l : NetworkResourceLoader)
    (forCache buffer : SharedBuffer) (reported : Int)
    (h : l.m_bufferedDataForCache = some forCache)
    (hwithin : forCache.length + buffer.length ≤ maximumCacheBufferSize) :
    (l.didReceiveBuffer buffer reported).1.m_bufferedDataForCache = some (forCache ++ buffer) := by
  cases hb : l.m_bufferedData <;>
    simp only [didReceiveBuffer, h, hb, hwithin, sendBuffer, startBufferingTimerIfNeeded,
      if_true] <;>
    (repeat' split) <;> rfl

theorem cleanup_filter_isStore (l : NetworkResourceLoader) :
    l.cleanup.2.filter Effect.isStore = [] := by
  rw [List.filter_eq_nil_iff]
  intro e he
  have := cleanup_quiet l e he
  simp only [Effect.isLookupOrStore, Bool.or_eq_false_iff] at this
  simp [this.2]

theorem canUseCache_eq (l : NetworkResourceLoader) (request : ResourceRequest) :
    l.canUseCache request
      = (l.m_cache.isSome && request.url.protocolIsInHTTPFamily
          && !(l.m_parameters.request.cachePolicy == ResourceRequestCachePolicy.DoNotUseAnyCache)) := by
  unfold canUseCache originalRequest
  by_cases hp : l.m_parameters.request.cachePolicy = ResourceRequestCachePolicy.DoNotUseAnyCache <;>
    cases l.m_cache <;> cases request.url.protocolIsInHTTPFamily <;> simp [hp]

theorem didFinishLoading_isSome (env : Env) (l : NetworkResourceLoader)
    (metrics : NetworkLoadMetrics) (hload : l.m_networkLoad.isSome = true)
    (hentry : l.m_cacheEntryForValidation = none)
    (hreply : ∀ data, l.m_synchronousLoadData = some data → data.delayedReply = true) :
    (l.didFinishLoading env metrics).isSome = true := by
  cases hn : l.m_networkLoad with
  | none => simp [hn] at hload
  | some networkLoad =>
    cases hs : l.m_synchronousLoadData with
    | none =>
      cases hcu : l.canUseCache networkLoad.currentRequest <;>
        cases hb : l.m_bufferedDataForCache <;>
        simp [didFinishLoading, hentry, hs, Outcome.andThen, tryStoreAsCacheEntry, hn, hcu, hb]
    | some data =>
      have hd := hreply data hs
      cases hcu : l.canUseCache networkLoad.currentRequest <;>
        cases hb : l.m_bufferedDataForCache <;>
        simp only [canUseCache_eq] at hcu <;>
        simp [didFinishLoading, hentry, hs, Outcome.andThen, tryStoreAsCacheEntry, hn, hb,
          sendReplyToSynchronousRequest, hd, canUseCache_eq, hcu]

theorem didFinishLoading_store (env : Env) (l : NetworkResourceLoader)
    (metrics : NetworkLoadMetrics) (networkLoad : NetworkLoad) (body : SharedBuffer)
    (hload : l.m_networkLoad = some networkLoad)
    (hentry : l.m_cacheEntryForValidation = none)
    (hcache : l.canUseCache networkLoad.currentRequest = true)
    (hbody : l.m_bufferedDataForCache = some body)
    (hreply : ∀ data, l.m_synchronousLoadData = some data → data.delayedReply = true) :
    ∃ o, l.didFinishLoading env metrics = some o
      ∧ o.2.filter Effect.isStore
          = [Effect.cacheStore networkLoad.currentRequest l.m_response body]
      ∧ (l.m_synchronousLoadData = none →
          Effect.send (Message.DidFinishResourceLoad metrics) ∈ o.2) := by
  simp only [canUseCache_eq] at hcache
  cases hs : l.m_synchronousLoadData with
  | none =>
    simp only [didFinishLoading, hentry, hs, Outcome.andThen, tryStoreAsCacheEntry, hload,
      canUseCache_eq, hcache, hbody, Bool.not_true, Bool.false_eq_true, if_false]
    refine ⟨_, rfl, ?_, fun _ => ?_⟩
    · simp only [List.filter_append, cleanup_filter_isStore, sendBuffer]
      cases env.captureExtraNetworkLoadMetricsEnabled <;> cases hb : l.m_bufferedData <;>
        simp [Effect.isStore]
    · simp
  | some data =>
    have hd := hreply data hs
    simp only [didFinishLoading, hentry, hs, Outcome.andThen, tryStoreAsCacheEntry, hload,
      sendReplyToSynchronousRequest, hd, if_true, hbody, canUseCache_eq, hcache, Bool.not_true,
      Bool.false_eq_true, if_false]
    refine ⟨_, rfl, ?_, fun h => by simp at h⟩
    simp only [List.filter_append, cleanup_filter_isStore]
    cases env.captureExtraNetworkLoadMetricsEnabled <;> simp [Effect.isStore]

theorem canUseCachedRedirect_eq_and (l : NetworkResourceLoader) (r : ResourceRequest) :
    l.canUseCachedRedirect r = (l.canUseCache r && decide (l.m_redirectCount ≤ 5)) := by
  unfold canUseCachedRedirect maximumCachedRedirectCount
  cases l.canUseCache r
  · simp
  · by_cases h : l.m_redirectCount ≤ 5
    · have h1 : ¬ l.m_redirectCount > 5 := by omega
      simp [h, h1]
    · have h1 : l.m_redirectCount > 5 := by omega
      simp [h, h1]

/-- C2: `canUseCachedRedirect(r)` is `canUseCache(r)` and redirect count at most
5; from a redirect count of 6 on it is false and
`continueWillSendRedirectedRequest` calls no `storeRedirect` (and, for an
asynchronous load, it does return). -/
theorem canUseCachedRedirect_eq (env : Env) (l : NetworkResourceLoader)
    (r redirectRequest : ResourceRequest) (redirectResponse : ResourceResponse) :
    l.canUseCachedRedirect r = (l.canUseCache r && decide (l.m_redirectCount ≤ 5))
    ∧ (6 ≤ l.m_redirectCount →
        l.canUseCachedRedirect r = false
        ∧ (∀ o, l.continueWillSendRedirectedRequest env r redirectRequest redirectResponse = some o →
            ∀ e ∈ o.2, e.isStoreRedirect = false)
        ∧ (l.isSynchronous = false →
            (l.continueWillSendRedirectedRequest env r redirectRequest redirectResponse).isSome
              = true)) := by
  have hfirst := canUseCachedRedirect_eq_and l r
  refine ⟨hfirst, fun h6 => ?_⟩
  have hfalse : l.canUseCachedRedirect r = false := by
    rw [hfirst]
    have : ¬ l.m_redirectCount ≤ 5 := by omega
    simp [this]
  refine ⟨hfalse, ?_, ?_⟩
  · intro o ho e he
    unfold continueWillSendRedirectedRequest at ho
    simp only [hfalse, Bool.false_eq_true, if_false] at ho
    split at ho
    · simp only [Outcome.andThen] at ho
      split at ho
      · simp at ho
      · rename_i l1 es1 hfail
        simp only [Option.some.injEq] at ho
        subst ho
        simp only [List.nil_append] at he
        have := didFailLoading_effects_inFailure env l _ _ hfail e he
        cases e <;> simp_all [Effect.inFailure, Effect.inCleanup, Effect.isStoreRedirect]
    · simp only [List.nil_append, Option.some.injEq] at ho
      subst ho
      simp only [List.mem_singleton] at he
      subst he
      rfl
  · intro hasync
    unfold continueWillSendRedirectedRequest
    simp only [hfalse, Bool.false_eq_true, if_false]
    split
    · have := didFailLoading_isSome_of_asynchronous env l
        (fromOriginResourceError redirectResponse.url) hasync
      simp only [Outcome.andThen]
      cases hd : l.didFailLoading env (fromOriginResourceError redirectResponse.url) with
      | none => simp [hd] at this
      | some o => simp
    · simp

/-- C2 at a concrete input: a loader at redirect count 6. -/
theorem canUseCachedRedirect_eq_witness :
    6 ≤ ({ sampleLoader with m_redirectCount := 6 } : NetworkResourceLoader).m_redirectCount
    ∧ ({ sampleLoader with m_redirectCount := 6 } : NetworkResourceLoader).canUseCachedRedirect
        sampleRequest = false :=
  ⟨by decide,
   ((canUseCachedRedirect_eq sampleEnv { sampleLoader with m_redirectCount := 6 } sampleRequest
      sampleRequest sampleResponse).2 (by decide)).1⟩

/-- C3 (as stated, refuted): at redirect count 5, which is at most 5 before the
increment, an asynchronous load without checker whose request can use the
cache gets its count raised to 6 and no `storeRedirect` call. -/
theorem willSendRedirectedRequest_at_five :
    ({ sampleLoader with m_redirectCount := 5 } : NetworkResourceLoader).isSynchronous = false
    ∧ ({ sampleLoader with m_redirectCount := 5 } : NetworkResourceLoader).m_networkLoadChecker
        = none
    ∧ ({ sampleLoader with m_redirectCount := 5 } : NetworkResourceLoader).canUseCache
        sampleRequest = true
    ∧ ({ sampleLoader with m_redirectCount := 5 } : NetworkResourceLoader).m_redirectCount ≤ 5
    ∧ ({ sampleLoader with m_redirectCount := 5 } : NetworkResourceLoader).willSendRedirectedRequest
        sampleEnv sampleRequest sampleRequest sampleResponse
        = some ({ sampleLoader with m_redirectCount := 6 },
                [Effect.send (Message.WillSendRequest sampleRequest sampleResponse)]) := by
  refine ⟨rfl, rfl, rfl, by decide, rfl⟩

theorem continueWillSendRedirectedRequest_store (env : Env) (l : NetworkResourceLoader)
    (request redirectRequest : ResourceRequest) (redirectResponse : ResourceResponse)
    (hs : l.m_synchronousLoadData = none) (hcache : l.canUseCache request = true) :
    ∃ o, l.continueWillSendRedirectedRequest env request redirectRequest redirectResponse = some o
      ∧ o.1.m_redirectCount = l.m_redirectCount
      ∧ (Effect.cacheStoreRedirect request redirectResponse redirectRequest ∈ o.2
          ↔ l.m_redirectCount ≤ 5)
      ∧ (∀ e ∈ o.2, e.isStoreRedirect = true →
          e = Effect.cacheStoreRedirect request redirectResponse redirectRequest) := by
  have hcr : l.canUseCachedRedirect request = decide (l.m_redirectCount ≤ 5) := by
    rw [canUseCachedRedirect_eq_and l request, hcache]
    simp
  unfold continueWillSendRedirectedRequest
  simp only [hcr]
  split
  · simp only [Outcome.andThen]
    rw [didFailLoading_asynchronous env l _ hs]
    refine ⟨_, rfl, by simp, ?_, ?_⟩
    · by_cases h : l.m_redirectCount ≤ 5
      · simp [h]
      · have hn := not_mem_cleanup ({ l with m_cacheEntryForValidation := none })
          (Effect.cacheStoreRedirect request redirectResponse redirectRequest) rfl
        simp only [h, decide_False, Bool.false_eq_true, if_false, List.nil_append,
          List.mem_append, List.mem_singleton, iff_false, not_or]
        refine ⟨⟨?_, by simp⟩, hn⟩
        split <;> simp
    · intro e he hst
      simp only [List.mem_append, List.mem_singleton] at he
      rcases he with he | (he | rfl) | he
      · split at he
        · simpa using he
        · simp at he
      · split at he
        · simp only [List.mem_singleton] at he
          subst he
          simp [Effect.isStoreRedirect] at hst
        · simp at he
      · simp [Effect.isStoreRedirect] at hst
      · have := cleanup_effects_inCleanup _ e he
        cases e <;> simp_all [Effect.inCleanup, Effect.isStoreRedirect]
  · refine ⟨_, rfl, by simp, ?_, ?_⟩
    · by_cases h : l.m_redirectCount ≤ 5 <;> simp [h]
    · intro e he hst
      simp only [List.mem_append, List.mem_singleton] at he
      rcases he with he | rfl
      · split at he
        · simpa using he
        · simp at he
      · simp [Effect.isStoreRedirect] at hst

/-- C3 (amended): for an asynchronous load without checker whose redirected-from
request can use the cache, `willSendRedirectedRequest` returns, raises the
redirect count by exactly 1, and calls `storeRedirect` (for that request,
response and redirect request, and only for them) exactly when the count after
the increment is at most 5, that is when it was at most 4 before. -/
theorem willSendRedirectedRequest_count (env : Env) (l : NetworkResourceLoader)
    (request redirectRequest : ResourceRequest) (redirectResponse : ResourceResponse)
    (hasync : l.isSynchronous = false) (hchecker : l.m_networkLoadChecker = none)
    (hcache : l.canUseCache request = true) :
    ∃ o, l.willSendRedirectedRequest env request redirectRequest redirectResponse = some o
      ∧ o.1.m_redirectCount = l.m_redirectCount + 1
      ∧ (Effect.cacheStoreRedirect request redirectResponse redirectRequest ∈ o.2
          ↔ l.m_redirectCount ≤ 4)
      ∧ (∀ e ∈ o.2, e.isStoreRedirect = true →
          e = Effect.cacheStoreRedirect request redirectResponse redirectRequest) := by
  have hs : l.m_synchronousLoadData = none := by
    unfold isSynchronous at hasync
    cases h : l.m_synchronousLoadData <;> simp_all
  obtain ⟨o, ho, hcount, hmem, honly⟩ :=
    continueWillSendRedirectedRequest_store env
      { l with m_redirectCount := l.m_redirectCount + 1 } request redirectRequest redirectResponse
      hs ((canUseCache_congr l _ request rfl rfl).trans hcache)
  refine ⟨o, ?_, hcount, ?_, honly⟩
  · unfold willSendRedirectedRequest
    simp only
    split
    · next checker hc =>
      rw [hchecker] at hc
      cases hc
    · exact ho
  · rw [hmem]
    show l.m_redirectCount + 1 ≤ 5 ↔ l.m_redirectCount ≤ 4
    omega

/-- C3 (amended) at a concrete input: the first redirect of a fresh loader. -/
theorem willSendRedirectedRequest_count_witness :
    ∃ o, sampleLoader.willSendRedirectedRequest sampleEnv sampleRequest sampleRequest
        sampleResponse = some o
      ∧ o.1.m_redirectCount = sampleLoader.m_redirectCount + 1
      ∧ (Effect.cacheStoreRedirect sampleRequest sampleResponse sampleRequest ∈ o.2
          ↔ sampleLoader.m_redirectCount ≤ 4)
      ∧ (∀ e ∈ o.2, e.isStoreRedirect = true →
          e = Effect.cacheStoreRedirect sampleRequest sampleResponse sampleRequest) :=
  willSendRedirectedRequest_count sampleEnv sampleLoader sampleRequest sampleRequest
    sampleResponse rfl rfl rfl

theorem sampleFullBuffer_length : sampleFullBuffer.length = 10 * 1024 * 1024 :=
  List.length_replicate _ _

/-- C4: once a `didReceiveBuffer` call would make the cache-side buffer larger
than 10 MiB, the buffer is discarded, it stays absent through every later
`didReceiveBuffer` call, and the `didFinishLoading` that follows makes no
`CacheStore.store` call (and it does return when the transport exists, no
revalidation is pending and the synchronous reply has not been sent). -/
theorem cache_buffer_discarded_over_cap (env : Env) (l : NetworkResourceLoader)
    (forCache buffer : SharedBuffer) (reported : Int) (later : List (SharedBuffer × Int))
    (metrics : NetworkLoadMetrics)
    (hbuffer : l.m_bufferedDataForCache = some forCache)
    (hover : forCache.length + buffer.length > 10 * 1024 * 1024) :
    (l.didReceiveBuffer buffer reported).1.m_bufferedDataForCache = none
    ∧ ((l.didReceiveBuffer buffer reported).1.didReceiveBuffers later).1.m_bufferedDataForCache
        = none
    ∧ (∀ o, ((l.didReceiveBuffer buffer reported).1.didReceiveBuffers later).1.didFinishLoading
          env metrics = some o → ∀ e ∈ o.2, e.isStore = false)
    ∧ (l.m_networkLoad.isSome = true → l.m_cacheEntryForValidation = none →
        (∀ data, l.m_synchronousLoadData = some data → data.delayedReply = true) →
        (((l.didReceiveBuffer buffer reported).1.didReceiveBuffers later).1.didFinishLoading
          env metrics).isSome = true) := by
  have h1 := didReceiveBuffer_m_bufferedDataForCache_over l forCache buffer reported hbuffer hover
  have h2 := didReceiveBuffers_m_bufferedDataForCache_none later _ h1
  refine ⟨h1, h2, ?_, ?_⟩
  · intro o ho e he
    have := didFinishLoading_quiet env _ metrics o h2 ho e he
    simp only [Effect.isLookupOrStore, Bool.or_eq_false_iff] at this
    exact this.2
  · intro hload hentry hreply
    apply didFinishLoading_isSome
    · simpa using hload
    · simpa using hentry
    · simpa using hreply

/-- C4 at a concrete input: a cache-side buffer of exactly 10 MiB and one more
byte. -/
theorem cache_buffer_discarded_over_cap_witness :
    (({ sampleLoadingLoader with m_bufferedDataForCache := some sampleFullBuffer } :
      NetworkResourceLoader).didReceiveBuffer [0] 1).1.m_bufferedDataForCache = none :=
  (cache_buffer_discarded_over_cap sampleEnv
    { sampleLoadingLoader with m_bufferedDataForCache := some sampleFullBuffer }
    sampleFullBuffer [0] 1 [] { ident := 0 } rfl
    (by rw [sampleFullBuffer_length]; exact Nat.lt_succ_self _)).1

theorem didReceiveBuffer_forwards (l : NetworkResourceLoader) (buffer : SharedBuffer)
    (reported : Int) (h : l.m_bufferedData = none) :
    (l.didReceiveBuffer buffer reported).1.m_bufferedData = none
    ∧ (l.didReceiveBuffer buffer reported).2
        = [Effect.send (Message.DidReceiveData buffer
            (if reported ≥ 0 then reported.toNat % 2 ^ 32 else buffer.length % 2 ^ 32))] := by
  cases hc : l.m_bufferedDataForCache with
  | none => simp [didReceiveBuffer, h, hc, sendBuffer]
  | some forCache =>
    by_cases hw : forCache.length + buffer.length ≤ maximumCacheBufferSize <;>
      simp [didReceiveBuffer, h, hc, hw, sendBuffer]

theorem didReceiveBuffers_forwards (buffers : List (SharedBuffer × Int)) :
    ∀ l : NetworkResourceLoader, l.m_bufferedData = none →
      (l.didReceiveBuffers buffers).1.m_bufferedData = none
      ∧ (l.didReceiveBuffers buffers).2
          = buffers.map (fun b => Effect.send (Message.DidReceiveData b.1
              (if b.2 ≥ 0 then b.2.toNat % 2 ^ 32 else b.1.length % 2 ^ 32))) := by
  induction buffers with
  | nil => intro l h; exact ⟨h, rfl⟩
  | cons b rest ih =>
    intro l h
    obtain ⟨buffer, reported⟩ := b
    obtain ⟨h1, e1⟩ := didReceiveBuffer_forwards l buffer reported h
    obtain ⟨h2, e2⟩ := ih _ h1
    refine ⟨h2, ?_⟩
    simp only [didReceiveBuffers, e1, e2, List.map_cons, List.singleton_append]

theorem revalidate_eq_none_iff (env : Env) (l : NetworkResourceLoader) :
    revalidate env l = none
      ↔ (l.m_cacheEntryForValidation.isSome = true ∧ l.m_response.httpStatusCode = 304
          ∧ l.m_cache = none) := by
  unfold revalidate
  cases he : l.m_cacheEntryForValidation with
  | none => simp
  | some entry =>
    by_cases hst : l.m_response.httpStatusCode = 304
    · cases hc : l.m_cache with
      | none => simp [hst]
      | some cache =>
        simp only [hst, if_true]
        split <;> simp
    · simp [hst]

/-- C5 (as stated, refuted): a synchronous load keeps its client-side buffer
after a multipart response, and the next `didReceiveBuffer` appends to it and
forwards nothing. -/
theorem multipart_synchronous_keeps_buffer :
    ∃ l1 es1 l2 es2 c,
      sampleSynchronousLoader.startNetworkLoad sampleEnv sampleRequest FirstLoad.Yes
        = some (l1, es1)
      ∧ l1.isSynchronous = true
      ∧ l1.didReceiveResponse sampleEnv sampleMultipartResponse = some (l2, es2, c)
      ∧ l2.m_response.isMultipart = true
      ∧ l2.m_bufferedData = some []
      ∧ (l2.didReceiveBuffer [1, 2, 3] 3).1.m_bufferedData = some [1, 2, 3]
      ∧ (l2.didReceiveBuffer [1, 2, 3] 3).2 = [] :=
  ⟨_, _, _, _, _, rfl, rfl, rfl, rfl, rfl, rfl, rfl⟩

/-- C5 (amended): for an asynchronous load, `didReceiveResponse` with a response
flagged multipart returns (unless a revalidation is pending on a loader without
cache), records the response and leaves the client-side buffer absent; every
`didReceiveBuffer` call after it keeps the buffer absent and forwards its bytes
at once, one `DidReceiveData` per call. -/
theorem multipart_forwards_immediately (env : Env) (l : NetworkResourceLoader)
    (response : ResourceResponse) (hasync : l.isSynchronous = false)
    (hmultipart : response.isMultipart = true) :
    ((l.m_cacheEntryForValidation = none ∨ l.m_cache.isSome = true) →
        (l.didReceiveResponse env response).isSome = true)
    ∧ ∀ r, l.didReceiveResponse env response = some r →
        r.1.m_response = response
        ∧ r.1.m_bufferedData = none
        ∧ ∀ buffers : List (SharedBuffer × Int),
            (r.1.didReceiveBuffers buffers).1.m_bufferedData = none
            ∧ (r.1.didReceiveBuffers buffers).2
                = buffers.map (fun b => Effect.send (Message.DidReceiveData b.1
                    (if b.2 ≥ 0 then b.2.toNat % 2 ^ 32 else b.1.length % 2 ^ 32))) := by
  have hs : l.m_synchronousLoadData = none := by
    unfold isSynchronous at hasync
    cases h : l.m_synchronousLoadData <;> simp_all
  have hstate : ∀ r, l.didReceiveResponse env response = some r →
      r.1.m_response = response ∧ r.1.m_bufferedData = none := by
    intro r hr
    unfold didReceiveResponse at hr
    simp only [isSynchronous, hs, hmultipart, Option.isSome_none, Bool.not_false, Bool.and_self,
      if_true] at hr
    split at hr
    · simp at hr
    · split at hr
      · split at hr
        · simp only [Option.some.injEq] at hr
          subst hr
          exact ⟨rfl, rfl⟩
        · simp only [Option.some.injEq] at hr
          subst hr
          exact ⟨rfl, rfl⟩
      · simp only [Option.some.injEq] at hr
        subst hr
        exact ⟨rfl, rfl⟩
  refine ⟨?_, fun r hr => ⟨(hstate r hr).1, (hstate r hr).2, fun buffers =>
    didReceiveBuffers_forwards buffers r.1 (hstate r hr).2⟩⟩
  intro hdef
  unfold didReceiveResponse
  simp only [isSynchronous, hs, hmultipart, Option.isSome_none, Bool.not_false, Bool.and_self,
    if_true]
  split
  · next hnone =>
    rw [revalidate_eq_none_iff] at hnone
    obtain ⟨h1, -, h3⟩ := hnone
    simp only at h1 h3
    rcases hdef with h | h
    · simp [h] at h1
    · simp [h3] at h
  · (repeat' split) <;> rfl

/-- C5 (amended) at a concrete input: a multipart response on an asynchronous
loader whose network load has started. -/
theorem multipart_forwards_immediately_witness :
    ∃ r, sampleLoadingLoader.didReceiveResponse sampleEnv sampleMultipartResponse = some r
      ∧ r.1.m_bufferedData = none
      ∧ (r.1.didReceiveBuffers [([1, 2], 2), ([3], -1)]).2
          = [Effect.send (Message.DidReceiveData [1, 2] 2),
             Effect.send (Message.DidReceiveData [3] 1)] := by
  have h := multipart_forwards_immediately sampleEnv sampleLoadingLoader sampleMultipartResponse
    rfl rfl
  obtain ⟨r, hr⟩ := Option.isSome_iff_exists.1 (h.1 (Or.inl rfl))
  refine ⟨r, hr, (h.2 r hr).2.1, ?_⟩
  rw [((h.2 r hr).2.2 [([1, 2], 2), ([3], -1)]).2]
  rfl

/-- C6 (as stated, refuted): a loader whose original request is conditional
revalidates a cache entry; on the 304 it calls `update`, drops the pending
entry and sends `DidReceiveResponse` carrying the 304 to the client, and the
`didFinishLoading` that follows serves no cache entry (no response, no data). -/
theorem conditional_not_modified_is_forwarded :
    ∃ l1 es1 l2 c o,
      sampleConditionalLoader.validateCacheEntry sampleEnv sampleEntry = some (l1, es1)
      ∧ l1.m_cacheEntryForValidation = some sampleEntry
      ∧ l1.originalRequest.isConditional = true
      ∧ sampleNotModifiedResponse.httpStatusCode = 304
      ∧ l1.didReceiveResponse sampleEnv sampleNotModifiedResponse
          = some (l2,
                  [Effect.cacheUpdate l1.originalRequest 1 1 sampleEntry sampleNotModifiedResponse,
                   Effect.send (Message.DidReceiveResponse sampleNotModifiedResponse false)],
                  c)
      ∧ l2.m_cacheEntryForValidation = none
      ∧ l2.didFinishLoading sampleEnv { ident := 1 } = some o
      ∧ o.2.all (fun e => !e.isDidReceiveResponse && !e.isDidReceiveData) = true :=
  ⟨_, _, _, _, _, rfl, rfl, rfl, rfl, rfl, rfl, rfl, rfl⟩

/-- C6 (amended): when `didReceiveResponse` gets status 304 while a cache entry is
pending revalidation and the original request is itself conditional, it calls
`CacheStore.update`, drops the pending entry (so the validated entry is not
served) and handles the 304 like any other response: if the From-Origin check
and the checker accept it, the sanitized 304 goes to the client
(`DidReceiveResponse`, or the response of the synchronous reply); if not, the
failure is dispatched and no response is sent. -/
theorem not_modified_for_conditional_request (env : Env) (l : NetworkResourceLoader)
    (response : ResourceResponse) (entry : Entry) (cache : Cache)
    (hentry : l.m_cacheEntryForValidation = some entry) (hcache : l.m_cache = some cache)
    (hstatus : response.httpStatusCode = 304)
    (hconditional : l.originalRequest.isConditional = true) :
    ∃ l1 es c, l.didReceiveResponse env response = some (l1, es, c)
      ∧ l1.m_cacheEntryForValidation = none
      ∧ Effect.cacheUpdate l.originalRequest l.m_parameters.webPageID l.m_parameters.webFrameID
          entry response ∈ es
      ∧ ((l.responseError env response).isNull = true →
          (l.m_synchronousLoadData = none →
            Effect.send (Message.DidReceiveResponse
              (l.sanitizeResponseIfPossible env response SanitizationType.CrossOriginSafe)
              l.isMainResource) ∈ es)
          ∧ (∀ data, l.m_synchronousLoadData = some data →
              l1.m_synchronousLoadData
                = some { data with
                         response := l.sanitizeResponseIfPossible env response
                           SanitizationType.CrossOriginSafe }))
      ∧ ((l.responseError env response).isNull = false →
          Effect.dispatchDidFailLoading (l.responseError env response) ∈ es
          ∧ ∀ e ∈ es, e.isDidReceiveResponse = false) := by
  simp only [originalRequest] at hconditional
  cases hs : l.m_synchronousLoadData with
  | none =>
    by_cases herr : (l.responseError env response).isNull = true
    · have herr1 := herr
      simp only [responseError] at herr1
      simp only [didReceiveResponse, revalidate, hentry, hcache, hstatus, hconditional,
        isSynchronous, hs, originalRequest, if_true, responseError, herr1]
      refine ⟨_, _, _, rfl, ?_, ?_, ?_, ?_⟩
      · (repeat' split) <;> rfl
      · simp
      · intro _
        refine ⟨fun _ => ?_, fun data hd => by simp at hd⟩
        simp [sanitizeResponseIfPossible, isMainResource]
      · intro hn
        simp at hn
    · have herr1 := herr
      simp only [responseError] at herr1
      simp only [didReceiveResponse, revalidate, hentry, hcache, hstatus, hconditional,
        isSynchronous, hs, originalRequest, if_true, responseError, herr1]
      refine ⟨_, _, _, rfl, ?_, ?_, ?_, ?_⟩
      · (repeat' split) <;> rfl
      · simp
      · intro hn
        simp at hn
      · intro _
        refine ⟨by simp, ?_⟩
        intro e he
        simp only [List.mem_append, List.mem_singleton, List.mem_cons, List.mem_nil_iff,
          or_false] at he
        rcases he with (he | rfl) | rfl
        · split at he
          · simp only [List.mem_singleton] at he
            subst he
            rfl
          · simp at he
        · rfl
        · rfl
  | some data =>
    by_cases herr : (l.responseError env response).isNull = true
    · have herr1 := herr
      simp only [responseError] at herr1
      simp only [didReceiveResponse, revalidate, hentry, hcache, hstatus, hconditional,
        isSynchronous, hs, originalRequest, if_true, responseError, herr1]
      refine ⟨_, _, _, rfl, ?_, ?_, ?_, ?_⟩
      · (repeat' split) <;> rfl
      · simp
      · intro _
        refine ⟨fun h => by simp at h, fun data1 hd => ?_⟩
        simp only [Option.some.injEq] at hd
        subst hd
        simp [sanitizeResponseIfPossible]
      · intro hn
        simp at hn
    · have herr1 := herr
      simp only [responseError] at herr1
      simp only [didReceiveResponse, revalidate, hentry, hcache, hstatus, hconditional,
        isSynchronous, hs, originalRequest, if_true, responseError, herr1]
      refine ⟨_, _, _, rfl, ?_, ?_, ?_, ?_⟩
      · (repeat' split) <;> rfl
      · simp
      · intro hn
        simp at hn
      · intro _
        refine ⟨by simp, ?_⟩
        intro e he
        simp only [List.mem_append, List.mem_singleton, List.mem_cons, List.mem_nil_iff,
          or_false] at he
        rcases he with (he | rfl) | rfl
        · split at he
          · simp only [List.mem_singleton] at he
            subst he
            rfl
          · simp at he
        · rfl
        · rfl

/-- C6 (amended) at a concrete input: the revalidating loader of the refutation. -/
theorem not_modified_for_conditional_request_witness :
    ∃ l1 es c,
      ({ sampleConditionalLoader with
          m_cacheEntryForValidation := some sampleEntry } : NetworkResourceLoader).didReceiveResponse
          sampleEnv sampleNotModifiedResponse = some (l1, es, c)
      ∧ l1.m_cacheEntryForValidation = none := by
  obtain ⟨l1, es, c, h1, h2, -⟩ :=
    not_modified_for_conditional_request sampleEnv
      { sampleConditionalLoader with m_cacheEntryForValidation := some sampleEntry }
      sampleNotModifiedResponse sampleEntry { ident := 0 } rfl rfl rfl rfl
  exact ⟨l1, es, c, h1, h2⟩

/-- C8 (as stated, refuted): a second `cleanup` notifies the connection again. -/
theorem cleanup_twice_notifies_twice :
    sampleLoadingLoader.cleanup.2
      = [Effect.extensionRevoke { ident := 7 }, Effect.extensionRevoke { ident := 8 },
         Effect.didCleanupResourceLoader]
    ∧ sampleLoadingLoader.cleanup.1.cleanup.2 = [Effect.didCleanupResourceLoader] :=
  ⟨rfl, rfl⟩

/-- C8 (amended): for every loader state, a second `cleanup` after a first one
changes no loader field (the timer stays stopped, the transport stays absent)
and revokes nothing; its one external effect is another
`didCleanupResourceLoader` notification. -/
theorem cleanup_cleanup (l : NetworkResourceLoader) :
    l.cleanup.1.cleanup.1 = l.cleanup.1
    ∧ l.cleanup.1.cleanup.2 = [Effect.didCleanupResourceLoader] := by
  cases h : l.m_didConsumeSandboxExtensions <;>
    simp [cleanup, invalidateSandboxExtensions, h]

theorem filterMap_some_eq_map {α β : Type} (f : α → β) (xs : List α) :
    xs.filterMap (fun x => some (f x)) = xs.map f := by
  induction xs with
  | nil => rfl
  | cons x rest ih => simp [List.filterMap_cons, ih]

theorem cleanup_no_revocation (l : NetworkResourceLoader)
    (h : l.m_didConsumeSandboxExtensions = false) :
    l.cleanup.2 = [Effect.didCleanupResourceLoader] := by
  simp [cleanup, invalidateSandboxExtensions, h]

theorem iterate_cleanup_flag (n : Nat) :
    ∀ l : NetworkResourceLoader, l.m_didConsumeSandboxExtensions = false →
      ((fun s : NetworkResourceLoader => s.cleanup.1)^[n] l).m_didConsumeSandboxExtensions
        = false := by
  induction n with
  | zero => intro l h; exact h
  | succ n ih =>
    intro l _
    rw [Function.iterate_succ_apply]
    exact ih _ (cleanup_m_didConsumeSandboxExtensions l)

theorem cleanup_revoked (l : NetworkResourceLoader) :
    l.cleanup.2.filterMap Effect.revoked
      = if l.m_didConsumeSandboxExtensions then
          l.m_parameters.requestBodySandboxExtensions.map Sum.inl
            ++ l.m_parameters.resourceSandboxExtension.toList.map Sum.inl
            ++ l.m_fileReferences.map Sum.inr
        else [] := by
  cases hflag : l.m_didConsumeSandboxExtensions <;>
    cases hr : l.m_parameters.resourceSandboxExtension <;>
    simp [cleanup, invalidateSandboxExtensions, hflag, hr, List.filterMap_append,
      List.filterMap_map, Function.comp_def, Effect.revoked, filterMap_some_eq_map]

theorem abort_revoked (l : NetworkResourceLoader) :
    l.abort.2.filterMap Effect.revoked = l.cleanup.2.filterMap Effect.revoked := by
  unfold abort
  simp only [List.filterMap_append]
  have : ((match l.m_networkLoad with
      | some networkLoad =>
        (if l.canUseCache networkLoad.currentRequest then
           if !l.m_response.isNull then [Effect.cacheRemove networkLoad.currentRequest] else []
         else [])
          ++ [Effect.networkLoadCancel]
      | none => []) : List Effect).filterMap Effect.revoked = [] := by
    (repeat' split) <;> rfl
  rw [this, List.nil_append]

theorem didFailLoading_revoked (env : Env) (l : NetworkResourceLoader) (error : ResourceError)
    (o : NetworkResourceLoader × List Effect) (h : l.didFailLoading env error = some o) :
    o.2.filterMap Effect.revoked = l.cleanup.2.filterMap Effect.revoked := by
  cases hs : l.m_synchronousLoadData with
  | none =>
    simp only [didFailLoading, hs, Option.some.injEq] at h
    subst h
    cases env.captureExtraNetworkLoadMetricsEnabled <;>
      simp [List.filterMap_append, cleanup_revoked, Effect.revoked]
  | some data =>
    cases hr : data.delayedReply with
    | false => simp [didFailLoading, hs, sendReplyToSynchronousRequest, hr] at h
    | true =>
      simp only [didFailLoading, hs, sendReplyToSynchronousRequest, hr, if_true,
        Option.some.injEq] at h
      subst h
      cases env.captureExtraNetworkLoadMetricsEnabled <;>
        simp [List.filterMap_append, cleanup_revoked, Effect.revoked]

theorem didFinishLoading_revoked (env : Env) (l : NetworkResourceLoader)
    (metrics : NetworkLoadMetrics) (o : NetworkResourceLoader × List Effect)
    (hentry : l.m_cacheEntryForValidation = none)
    (h : l.didFinishLoading env metrics = some o) :
    o.2.filterMap Effect.revoked = l.cleanup.2.filterMap Effect.revoked := by
  cases hn : l.m_networkLoad with
  | none =>
    cases hs : l.m_synchronousLoadData with
    | none => simp [didFinishLoading, hentry, hs, Outcome.andThen, tryStoreAsCacheEntry, hn] at h
    | some data =>
      cases hd : data.delayedReply <;>
        simp [didFinishLoading, hentry, hs, Outcome.andThen, tryStoreAsCacheEntry, hn,
          sendReplyToSynchronousRequest, hd] at h
  | some networkLoad =>
    cases hcu : (l.m_cache.isSome && networkLoad.currentRequest.url.protocolIsInHTTPFamily
        && !(l.m_parameters.request.cachePolicy == ResourceRequestCachePolicy.DoNotUseAnyCache)) <;>
      cases hb : l.m_bufferedDataForCache <;>
      cases hs : l.m_synchronousLoadData with
      | none =>
        simp only [didFinishLoading, hentry, hs, Outcome.andThen, tryStoreAsCacheEntry, hn,
          canUseCache_eq, hcu, hb, Bool.not_true, Bool.not_false, Bool.false_eq_true, if_false,
          if_true, Option.some.injEq] at h
        subst h
        cases env.captureExtraNetworkLoadMetricsEnabled <;> cases l.m_bufferedData <;>
          simp [List.filterMap_append, cleanup_revoked, Effect.revoked, sendBuffer]
      | some data =>
        cases hd : data.delayedReply with
        | false =>
          simp [didFinishLoading, hentry, hs, Outcome.andThen, tryStoreAsCacheEntry, hn,
            sendReplyToSynchronousRequest, hd] at h
        | true =>
          simp only [didFinishLoading, hentry, hs, Outcome.andThen, tryStoreAsCacheEntry, hn,
            sendReplyToSynchronousRequest, hd, canUseCache_eq, hcu, hb, Bool.not_true,
            Bool.not_false, Bool.false_eq_true, if_false, if_true, Option.some.injEq] at h
          subst h
          cases env.captureExtraNetworkLoadMetricsEnabled <;>
            simp [List.filterMap_append, cleanup_revoked, Effect.revoked]

theorem didFailLoading_state (env : Env) (l : NetworkResourceLoader) (error : ResourceError)
    (o : NetworkResourceLoader × List Effect) (h : l.didFailLoading env error = some o) :
    o.1.m_networkLoad = none ∧ o.1.m_cache = l.m_cache ∧ o.1.m_parameters = l.m_parameters
    ∧ o.1.m_bufferedDataForCache = l.m_bufferedDataForCache
    ∧ o.1.m_isWaitingContinueWillSendRequestForCachedRedirect
        = l.m_isWaitingContinueWillSendRequestForCachedRedirect := by
  cases hs : l.m_synchronousLoadData with
  | none =>
    simp only [didFailLoading, hs, Option.some.injEq] at h
    subst h
    simp
  | some data =>
    cases hr : data.delayedReply with
    | false => simp [didFailLoading, hs, sendReplyToSynchronousRequest, hr] at h
    | true =>
      simp only [didFailLoading, hs, sendReplyToSynchronousRequest, hr, if_true,
        Option.some.injEq] at h
      subst h
      simp

theorem firstLoadSetup_state (l : NetworkResourceLoader) (request : ResourceRequest) :
    (l.firstLoadSetup request).1.m_bufferedDataForCache
        = (if l.canUseCache request then some [] else l.m_bufferedDataForCache)
    ∧ (l.firstLoadSetup request).1.m_cacheEntryForValidation = l.m_cacheEntryForValidation
    ∧ (l.firstLoadSetup request).1.m_cache = l.m_cache
    ∧ (l.firstLoadSetup request).1.m_parameters = l.m_parameters
    ∧ (l.firstLoadSetup request).1.m_synchronousLoadData = l.m_synchronousLoadData
    ∧ (l.firstLoadSetup request).1.m_isWaitingContinueWillSendRequestForCachedRedirect
        = l.m_isWaitingContinueWillSendRequestForCachedRedirect := by
  simp [firstLoadSetup, consumeSandboxExtensions, canUseCache_eq]

theorem startNetworkLoad_started (env : Env) (l l1 : NetworkResourceLoader)
    (request : ResourceRequest) (es1 : List Effect)
    (hstart : l.startNetworkLoad env request FirstLoad.Yes = some (l1, es1))
    (hload : l1.m_networkLoad.isSome = true) :
    l1.m_networkLoad = some { currentRequest := request }
    ∧ l1.m_bufferedDataForCache
        = (if l.canUseCache request then some [] else l.m_bufferedDataForCache)
    ∧ l1.m_cacheEntryForValidation = l.m_cacheEntryForValidation
    ∧ l1.m_cache = l.m_cache ∧ l1.m_parameters = l.m_parameters
    ∧ l1.m_synchronousLoadData = l.m_synchronousLoadData := by
  obtain ⟨h1, h2, h3, h4, h5, -⟩ := firstLoadSetup_state l request
  unfold startNetworkLoad at hstart
  simp only [if_true] at hstart
  split at hstart
  · simp only [Outcome.andThen] at hstart
    split at hstart
    · simp at hstart
    · next l2 es2 hfail =>
      simp only [Option.some.injEq, Prod.mk.injEq] at hstart
      obtain ⟨rfl, -⟩ := hstart
      have := (didFailLoading_state env _ _ _ hfail).1
      simp only at this
      rw [this] at hload
      simp at hload
  · simp only [Option.some.injEq, Prod.mk.injEq] at hstart
    obtain ⟨rfl, -⟩ := hstart
    exact ⟨rfl, h1, h2, h3, h4, h5⟩

theorem didReceiveBuffers_accumulate (buffers : List (SharedBuffer × Int)) :
    ∀ (l : NetworkResourceLoader) (forCache : SharedBuffer),
      l.m_bufferedDataForCache = some forCache →
      forCache.length + (buffers.map (fun b => b.1.length)).sum ≤ maximumCacheBufferSize →
      (l.didReceiveBuffers buffers).1.m_bufferedDataForCache
        = some (forCache ++ (buffers.map (fun b => b.1)).flatten) := by
  induction buffers with
  | nil => intro l forCache h _; simpa [didReceiveBuffers] using h
  | cons b rest ih =>
    intro l forCache h hsize
    obtain ⟨buffer, reported⟩ := b
    simp only [List.map_cons, List.sum_cons] at hsize
    have h1 := didReceiveBuffer_m_bufferedDataForCache_within l forCache buffer reported h
      (by omega)
    have h2 := ih _ (forCache ++ buffer) h1 (by simp only [List.length_append]; omega)
    simp only [didReceiveBuffers, h2, List.map_cons, List.flatten_cons, List.append_assoc]

theorem didReceiveResponse_plain (env : Env) (l : NetworkResourceLoader)
    (response : ResourceResponse) (hentry : l.m_cacheEntryForValidation = none)
    (hmultipart : response.isMultipart = false) :
    ∃ r, l.didReceiveResponse env response = some r
      ∧ r.1.m_response = response
      ∧ r.1.m_bufferedDataForCache = l.m_bufferedDataForCache
      ∧ r.1.m_networkLoad = l.m_networkLoad
      ∧ r.1.m_cacheEntryForValidation = none
      ∧ r.1.m_cache = l.m_cache ∧ r.1.m_parameters = l.m_parameters
      ∧ (l.m_synchronousLoadData = none → r.1.m_synchronousLoadData = none)
      ∧ (∀ data, r.1.m_synchronousLoadData = some data →
          ∃ data0, l.m_synchronousLoadData = some data0 ∧ data.delayedReply = data0.delayedReply) := by
  cases hs : l.m_synchronousLoadData with
  | none =>
    simp only [didReceiveResponse, revalidate, hentry, hmultipart, hs, isSynchronous,
      Bool.and_false, Bool.false_eq_true, if_false, Option.isNone_none, if_true]
    split <;> exact ⟨_, rfl, by simp [hs]⟩
  | some data0 =>
    simp only [didReceiveResponse, revalidate, hentry, hmultipart, hs, isSynchronous,
      Bool.and_false, Bool.false_eq_true, if_false, Option.isNone_none, if_true]
    split <;> exact ⟨_, rfl, by simp [hs]⟩

/-! ### Loads that cannot use the cache -/

theorem keeps_some (l0 l : NetworkResourceLoader) (es : List Effect) (h : l0.Uncached l)
    (hq : ∀ e ∈ es, e.isLookupOrStore = false) : Outcome.Keeps l0 (some (l, es)) := by
  intro r hr
  simp only [Option.some.injEq] at hr
  subst hr
  exact ⟨h, hq⟩

theorem keeps_pair (l0 : NetworkResourceLoader) (r : NetworkResourceLoader × List Effect)
    (h : l0.Uncached r.1) (hq : ∀ e ∈ r.2, e.isLookupOrStore = false) :
    Outcome.Keeps l0 (some r) := by
  intro r1 hr
  simp only [Option.some.injEq] at hr
  subst hr
  exact ⟨h, hq⟩

theorem keeps_none (l0 : NetworkResourceLoader) : Outcome.Keeps l0 none := by
  intro r hr
  simp at hr

theorem keeps_andThen (l0 : NetworkResourceLoader) (o : Outcome)
    (f : NetworkResourceLoader → Outcome) (ho : Outcome.Keeps l0 o)
    (hf : ∀ l, l0.Uncached l → Outcome.Keeps l0 (f l)) : Outcome.Keeps l0 (o.andThen f) := by
  intro r hr
  unfold Outcome.andThen at hr
  split at hr
  · simp at hr
  · next l es =>
    obtain ⟨h1, q1⟩ := ho _ rfl
    split at hr
    · simp at hr
    · next l2 es2 h2 =>
      simp only [Option.some.injEq] at hr
      subst hr
      obtain ⟨h3, q3⟩ := hf l h1 _ h2
      refine ⟨h3, fun e he => ?_⟩
      rcases List.mem_append.1 he with he | he
      · exact q1 e he
      · exact q3 e he

theorem cleanup_uncached (l0 l : NetworkResourceLoader) (h : l0.Uncached l) :
    l0.Uncached l.cleanup.1 := by
  obtain ⟨h1, h2, h3, h4⟩ := h
  exact ⟨by simp [h1], by simp [h2], by simp [h3], by simp [h4]⟩

theorem didFailLoading_keeps (env : Env) (l0 l : NetworkResourceLoader) (error : ResourceError)
    (h : l0.Uncached l) : Outcome.Keeps l0 (l.didFailLoading env error) := by
  intro r hr
  obtain ⟨h1, h2, h3, h4⟩ := h
  obtain ⟨-, s2, s3, s4, s5⟩ := didFailLoading_state env l error r hr
  exact ⟨⟨s2.trans h1, s3.trans h2, s4.trans h3, s5.trans h4⟩, didFailLoading_quiet env l error r hr⟩

theorem canUseCache_of_uncached (l0 l : NetworkResourceLoader) (request : ResourceRequest)
    (h : l0.Uncached l) : l.canUseCache request = l0.canUseCache request :=
  canUseCache_congr l0 l request h.1 h.2.1

theorem startNetworkLoad_keeps (env : Env) (l0 l : NetworkResourceLoader)
    (request : ResourceRequest) (load : FirstLoad) (h : l0.Uncached l)
    (hrequest : load = FirstLoad.Yes → l0.canUseCache request = false) :
    Outcome.Keeps l0 (l.startNetworkLoad env request load) := by
  have hfirst : l0.Uncached
        (if load = FirstLoad.Yes then l.firstLoadSetup request else (l, [])).1
      ∧ ∀ e ∈ (if load = FirstLoad.Yes then l.firstLoadSetup request else (l, [])).2,
          e.isLookupOrStore = false := by
    split
    · next hyes =>
      obtain ⟨f1, -, f3, f4, -, f6⟩ := firstLoadSetup_state l request
      rw [canUseCache_of_uncached l0 l request h, hrequest hyes] at f1
      refine ⟨⟨f3.trans h.1, f4.trans h.2.1, f1.trans h.2.2.1, f6.trans h.2.2.2⟩, ?_⟩
      intro e he
      simp only [firstLoadSetup, consumeSandboxExtensions, List.mem_append, List.mem_map] at he
      rcases he with (⟨x, -, rfl⟩ | he) | ⟨x, -, rfl⟩
      · rfl
      · split at he
        · simp only [List.mem_singleton] at he
          subst he
          rfl
        · simp at he
      · rfl
    · exact ⟨h, by simp⟩
  have hlookup : ∀ sessionID, ∀ e ∈ (lookUpNetworkSession env sessionID).2,
      e.isLookupOrStore = false := by
    intro sessionID e he
    unfold lookUpNetworkSession at he
    split at he
    · simp only [List.mem_singleton] at he
      subst he
      rfl
    · simp at he
  unfold startNetworkLoad
  simp only
  generalize (if load = FirstLoad.Yes then l.firstLoadSetup request else (l, [])) = first
    at hfirst
  split
  · apply keeps_andThen
    · apply keeps_some _ _ _ hfirst.1
      intro e he
      simp only [List.mem_append, List.mem_singleton] at he
      rcases he with (he | he) | rfl
      · exact hfirst.2 e he
      · exact hlookup _ e he
      · rfl
    · intro l1 h1
      exact didFailLoading_keeps env l0 l1 _ h1
  · apply keeps_some
    · obtain ⟨h1, h2, h3, h4⟩ := hfirst.1
      exact ⟨h1, h2, h3, h4⟩
    · intro e he
      simp only [List.mem_append, List.mem_singleton] at he
      rcases he with (he | he) | rfl
      · exact hfirst.2 e he
      · exact hlookup _ e he
      · rfl

theorem quiet_of_all (es : List Effect) (h : es.all (fun e => !e.isLookupOrStore) = true) :
    ∀ e ∈ es, e.isLookupOrStore = false := by
  intro e he
  have := List.all_eq_true.1 h e he
  simpa using this

theorem quiet_append (es1 es2 : List Effect) (h1 : ∀ e ∈ es1, e.isLookupOrStore = false)
    (h2 : ∀ e ∈ es2, e.isLookupOrStore = false) : ∀ e ∈ es1 ++ es2, e.isLookupOrStore = false := by
  intro e he
  rcases List.mem_append.1 he with he | he
  · exact h1 e he
  · exact h2 e he

theorem start_keeps (env : Env) (l0 l : NetworkResourceLoader) (h : l0.Uncached l)
    (hno : l0.canUseCache l0.originalRequest = false) : Outcome.Keeps l0 (l.start env) := by
  have h1 : l0.Uncached { l with m_wasStarted := true } := ⟨h.1, h.2.1, h.2.2.1, h.2.2.2⟩
  have hc : ({ l with m_wasStarted := true } : NetworkResourceLoader).canUseCache
      ({ l with m_wasStarted := true } : NetworkResourceLoader).originalRequest = false := by
    rw [canUseCache_of_uncached l0 _ _ h1]
    show l0.canUseCache l.m_parameters.request = false
    rw [h.2.1]
    exact hno
  unfold start
  split
  · exact keeps_some l0 l [] h (by simp)
  · simp only
    split
    · exact keeps_some l0 _ _ h1 (quiet_of_all _ rfl)
    · rw [hc]
      simp only [Bool.false_eq_true, if_false]
      apply startNetworkLoad_keeps env l0 _ _ _ h1
      intro _
      show l0.canUseCache l.m_parameters.request = false
      rw [h.2.1]
      exact hno

theorem setDefersLoading_keeps (env : Env) (l0 l : NetworkResourceLoader) (defers : Bool)
    (h : l0.Uncached l) (hno : l0.canUseCache l0.originalRequest = false) :
    Outcome.Keeps l0 (l.setDefersLoading env defers) := by
  have h1 : l0.Uncached { l with m_defersLoading := defers } := ⟨h.1, h.2.1, h.2.2.1, h.2.2.2⟩
  unfold setDefersLoading
  split
  · exact keeps_some l0 l [] h (by simp)
  · simp only
    split
    · exact keeps_some l0 _ _ h1 (quiet_of_all _ rfl)
    · split
      · exact start_keeps env l0 _ h1 hno
      · exact keeps_some l0 _ _ h1 (by simp)

theorem abort_keeps (l0 l : NetworkResourceLoader) (h : l0.Uncached l) :
    Outcome.Keeps l0 (some l.abort) := by
  apply keeps_some
  · exact cleanup_uncached l0 l h
  · apply quiet_append
    · split
      · apply quiet_append
        · split
          · split
            · exact quiet_of_all _ rfl
            · simp
          · simp
        · exact quiet_of_all _ rfl
      · simp
    · exact cleanup_quiet l

theorem convertToDownload_keeps (env : Env) (l0 l : NetworkResourceLoader) (downloadID : Nat)
    (request : ResourceRequest) (response : ResourceResponse) (h : l0.Uncached l) :
    Outcome.Keeps l0 (some (l.convertToDownload env downloadID request response)) :=
  keeps_some l0 _ _ ⟨h.1, h.2.1, h.2.2.1, h.2.2.2⟩ (quiet_of_all _ rfl)

theorem continueWillSendRequest_keeps (env : Env) (l0 l : NetworkResourceLoader)
    (newRequest : ResourceRequest) (allowed : Bool) (h : l0.Uncached l) :
    Outcome.Keeps l0 (l.continueWillSendRequest env newRequest allowed) := by
  unfold continueWillSendRequest
  simp only [h.2.2.2, Bool.false_eq_true, if_false]
  split
  · exact keeps_some l0 _ _ ⟨h.1, h.2.1, h.2.2.1, rfl⟩ (quiet_of_all _ rfl)
  · exact keeps_some l0 _ _ ⟨h.1, h.2.1, h.2.2.1, rfl⟩ (by simp)

theorem sendResultForCacheEntry_fst (env : Env) (l : NetworkResourceLoader) (entry : Entry) :
    (l.sendResultForCacheEntry env entry).1 = l := by
  unfold sendResultForCacheEntry
  split <;> rfl

theorem continueProcessingCachedEntryAfterDidReceiveResponse_keeps (env : Env)
    (l0 l : NetworkResourceLoader) (entry : Entry) (h : l0.Uncached l) :
    Outcome.Keeps l0 (l.continueProcessingCachedEntryAfterDidReceiveResponse env entry) := by
  intro r hr
  refine ⟨?_, continueProcessingCachedEntryAfterDidReceiveResponse_quiet env l entry r hr⟩
  unfold continueProcessingCachedEntryAfterDidReceiveResponse at hr
  split at hr
  · split at hr
    · split at hr
      · simp at hr
      · simp only [Option.some.injEq] at hr
        subst hr
        exact h
    · simp only [Option.some.injEq] at hr
      subst hr
      simp only [sendResultForCacheEntry_fst]
      exact cleanup_uncached l0 l h
  · simp only [Option.some.injEq] at hr
    subst hr
    simp only [sendResultForCacheEntry_fst]
    exact cleanup_uncached l0 l h

theorem continueDidReceiveResponse_keeps (env : Env) (l0 l : NetworkResourceLoader)
    (h : l0.Uncached l) : Outcome.Keeps l0 (l.continueDidReceiveResponse env) := by
  unfold continueDidReceiveResponse
  split
  · exact continueProcessingCachedEntryAfterDidReceiveResponse_keeps env l0 _ _
      ⟨h.1, h.2.1, h.2.2.1, h.2.2.2⟩
  · split
    · exact keeps_some l0 _ _ h (quiet_of_all _ rfl)
    · exact keeps_some l0 _ _ h (by simp)

theorem didReceiveBuffer_keeps (l0 l : NetworkResourceLoader) (buffer : SharedBuffer)
    (reported : Int) (h : l0.Uncached l) :
    Outcome.Keeps l0 (some (l.didReceiveBuffer buffer reported)) := by
  apply keeps_pair
  · refine ⟨(didReceiveBuffer_m_cache l buffer reported).trans h.1,
      (didReceiveBuffer_m_parameters l buffer reported).trans h.2.1,
      didReceiveBuffer_m_bufferedDataForCache_none l buffer reported h.2.2.1, ?_⟩
    cases hb : l.m_bufferedData <;>
      simp only [didReceiveBuffer, hb, sendBuffer, startBufferingTimerIfNeeded] <;>
      (repeat' split) <;> exact h.2.2.2
  · cases hb : l.m_bufferedData <;>
      simp [didReceiveBuffer, hb, sendBuffer, Effect.isLookupOrStore, Effect.isRetrieve,
        Effect.isStore]

theorem sendReplyToSynchronousRequest_quiet (data data1 : SynchronousLoadData)
    (buffer : Option SharedBuffer) (es : List Effect)
    (h : sendReplyToSynchronousRequest data buffer = some (data1, es)) :
    ∀ e ∈ es, e.isLookupOrStore = false := by
  unfold sendReplyToSynchronousRequest at h
  simp only at h
  split at h
  · simp only [Option.some.injEq, Prod.mk.injEq] at h
    obtain ⟨-, rfl⟩ := h
    exact quiet_of_all _ rfl
  · simp at h

theorem didRetrieveCacheEntry_keeps (env : Env) (l0 l : NetworkResourceLoader) (entry : Entry)
    (h : l0.Uncached l) : Outcome.Keeps l0 (l.didRetrieveCacheEntry env entry) := by
  unfold didRetrieveCacheEntry
  simp only
  split
  · exact didFailLoading_keeps env l0 l _ h
  · split
    · split
      · exact keeps_none l0
      · next data data1 es hs =>
        apply keeps_some
        · exact cleanup_uncached l0 _ ⟨h.1, h.2.1, h.2.2.1, h.2.2.2⟩
        · exact quiet_append _ _ (sendReplyToSynchronousRequest_quiet _ _ _ _ hs) (cleanup_quiet _)
    · split
      · exact keeps_some l0 _ _ ⟨h.1, h.2.1, h.2.2.1, h.2.2.2⟩ (quiet_of_all _ rfl)
      · apply keeps_andThen
        · exact keeps_some l0 _ _ h (quiet_of_all _ rfl)
        · intro l1 h1
          exact continueProcessingCachedEntryAfterDidReceiveResponse_keeps env l0 l1 entry h1

theorem tryStoreAsCacheEntry_keeps (l0 l : NetworkResourceLoader) (h : l0.Uncached l) :
    Outcome.Keeps l0 l.tryStoreAsCacheEntry := by
  unfold tryStoreAsCacheEntry
  rw [h.2.2.1]
  split
  · exact keeps_none l0
  · split
    · exact keeps_some l0 _ _ h (by simp)
    · exact keeps_some l0 _ _ h (by simp)

theorem didFinishLoading_keeps (env : Env) (l0 l : NetworkResourceLoader)
    (metrics : NetworkLoadMetrics) (h : l0.Uncached l) :
    Outcome.Keeps l0 (l.didFinishLoading env metrics) := by
  have hcapture : ∀ e ∈ (if env.captureExtraNetworkLoadMetricsEnabled then
      [Effect.addNetworkLoadInformationMetrics l.identifier metrics] else []),
      e.isLookupOrStore = false := by
    split
    · exact quiet_of_all _ rfl
    · simp
  unfold didFinishLoading
  simp only
  split
  · apply keeps_andThen
    · exact keeps_some l0 _ _ ⟨h.1, h.2.1, h.2.2.1, h.2.2.2⟩ hcapture
    · intro l1 h1
      exact didRetrieveCacheEntry_keeps env l0 l1 _ h1
  · apply keeps_andThen
    · apply keeps_andThen
      · split
        · split
          · exact keeps_none l0
          · next data data1 es hs =>
            exact keeps_some l0 _ _ ⟨h.1, h.2.1, h.2.2.1, h.2.2.2⟩
              (quiet_append _ _ hcapture (sendReplyToSynchronousRequest_quiet _ _ _ _ hs))
        · apply keeps_some l0 _ _ h
          apply quiet_append
          · apply quiet_append _ _ hcapture
            split
            · split
              · exact quiet_of_all _ rfl
              · simp
            · simp
          · exact quiet_of_all _ rfl
      · intro l1 h1
        exact tryStoreAsCacheEntry_keeps l0 l1 h1
    · intro l1 h1
      exact keeps_pair l0 _ (cleanup_uncached l0 l1 h1) (cleanup_quiet l1)

theorem revalidate_quiet (env : Env) (l : NetworkResourceLoader) (entry : Option Entry)
    (updates : List Effect) (h : revalidate env l = some (entry, updates)) :
    updates.all (fun e => !e.isLookupOrStore) = true := by
  unfold revalidate at h
  (repeat' split at h) <;> cases h <;> rfl

theorem didReceiveResponse_keeps (env : Env) (l0 l : NetworkResourceLoader)
    (response : ResourceResponse) (h : l0.Uncached l) :
    ∀ r, l.didReceiveResponse env response = some r →
      l0.Uncached r.1 ∧ ∀ e ∈ r.2.1, e.isLookupOrStore = false := by
  intro r hr
  unfold didReceiveResponse at hr
  simp only at hr
  split at hr
  · simp at hr
  · next entry updates hrev =>
    have hu := quiet_of_all _ (revalidate_quiet env _ _ _ hrev)
    constructor
    · (repeat' split at hr) <;> cases hr <;>
        exact ⟨h.1, h.2.1, by first | rfl | exact h.2.2.1, h.2.2.2⟩
    · (repeat' split at hr) <;> cases hr <;>
        first
        | exact quiet_append _ _ (quiet_append _ _ (quiet_of_all _ rfl) hu) (quiet_of_all _ rfl)
        | exact quiet_append _ _ (quiet_of_all _ rfl) hu

theorem continueWillSendRedirectedRequest_keeps (env : Env) (l0 l : NetworkResourceLoader)
    (request redirectRequest : ResourceRequest) (redirectResponse : ResourceResponse)
    (h : l0.Uncached l) :
    Outcome.Keeps l0
      (l.continueWillSendRedirectedRequest env request redirectRequest redirectResponse) := by
  have hstored : ∀ e ∈ (if l.canUseCachedRedirect request then
      [Effect.cacheStoreRedirect request redirectResponse redirectRequest] else []),
      e.isLookupOrStore = false := by
    split
    · exact quiet_of_all _ rfl
    · simp
  unfold continueWillSendRedirectedRequest
  simp only
  split
  · apply keeps_andThen
    · exact keeps_some l0 _ _ h hstored
    · intro l1 h1
      exact didFailLoading_keeps env l0 l1 _ h1
  · exact keeps_some l0 _ _ h (quiet_append _ _ hstored (quiet_of_all _ rfl))

theorem willSendRedirectedRequest_keeps (env : Env) (l0 l : NetworkResourceLoader)
    (request redirectRequest : ResourceRequest) (redirectResponse : ResourceResponse)
    (h : l0.Uncached l) :
    Outcome.Keeps l0 (l.willSendRedirectedRequest env request redirectRequest redirectResponse) := by
  unfold willSendRedirectedRequest
  simp only
  split
  · exact keeps_some l0 _ _ ⟨h.1, h.2.1, h.2.2.1, h.2.2.2⟩ (quiet_of_all _ rfl)
  · exact continueWillSendRedirectedRequest_keeps env l0 _ _ _ _ ⟨h.1, h.2.1, h.2.2.1, h.2.2.2⟩

theorem bufferingTimerFired_keeps (l0 l : NetworkResourceLoader) (h : l0.Uncached l) :
    Outcome.Keeps l0 l.bufferingTimerFired := by
  unfold bufferingTimerFired
  split
  · exact keeps_none l0
  · split
    · exact keeps_some l0 _ _ h (by simp)
    · exact keeps_some l0 _ _ ⟨h.1, h.2.1, h.2.2.1, h.2.2.2⟩ (quiet_of_all _ rfl)

theorem startCheckCompletion_keeps (env : Env) (l0 l : NetworkResourceLoader)
    (result : RequestOrError) (h : l0.Uncached l)
    (hno : l0.canUseCache l0.originalRequest = false)
    (hvalue : ∀ value, result = Except.ok value → l0.canUseCache value = false) :
    Outcome.Keeps l0 (l.startCheckCompletion env result) := by
  have hc : l.canUseCache l.originalRequest = false := by
    rw [canUseCache_of_uncached l0 l _ h]
    show l0.canUseCache l.m_parameters.request = false
    rw [h.2.1]
    exact hno
  unfold startCheckCompletion
  split
  · split
    · exact didFailLoading_keeps env l0 l _ h
    · exact keeps_some l0 _ _ h (by simp)
  · next value =>
    rw [hc]
    simp only [Bool.false_eq_true, if_false]
    exact startNetworkLoad_keeps env l0 l value _ h (fun _ => hvalue value rfl)

theorem checkRedirectionCompletion_keeps (env : Env) (l0 l : NetworkResourceLoader)
    (storedCredentialsPolicy : StoredCredentialsPolicy) (request : ResourceRequest)
    (redirectResponse : ResourceResponse) (result : RequestOrError) (h : l0.Uncached l) :
    Outcome.Keeps l0
      (l.checkRedirectionCompletion env storedCredentialsPolicy request redirectResponse
        result) := by
  unfold checkRedirectionCompletion
  split
  · split
    · exact keeps_some l0 _ _ h (by simp)
    · exact didFailLoading_keeps env l0 l _ h
  · next value =>
    split
    · exact keeps_none l0
    · split
      · split
        · exact keeps_none l0
        · apply keeps_andThen
          · exact keeps_some l0 _ _ h (quiet_of_all _ rfl)
          · intro l1 h1
            exact startNetworkLoad_keeps env l0 l1 value _ h1 (fun hyes => by cases hyes)
      · split
        · exact continueWillSendRequest_keeps env l0 l value false h
        · exact continueWillSendRedirectedRequest_keeps env l0 l request value redirectResponse h

theorem dispatchedDidFailLoading_keeps (env : Env) (l0 l : NetworkResourceLoader)
    (error : ResourceError) (h : l0.Uncached l) :
    Outcome.Keeps l0 (l.dispatchedDidFailLoading env error) := by
  unfold dispatchedDidFailLoading
  split
  · exact didFailLoading_keeps env l0 l error h
  · exact keeps_some l0 _ _ h (by simp)

theorem retrieveDataCompletion_keeps (env : Env) (l0 l : NetworkResourceLoader)
    (hasOneRef : Bool) (entry : Entry) (type : String) (retrieveCount : Nat)
    (data : Option SharedBuffer) (h : l0.Uncached l) :
    Outcome.Keeps l0
      (some (l.retrieveDataCompletion env hasOneRef entry type retrieveCount data)) := by
  have h1 : l0.Uncached
      { l with m_retrievedDerivedDataCount := l.m_retrievedDerivedDataCount + 1 } :=
    ⟨h.1, h.2.1, h.2.2.1, h.2.2.2⟩
  have hsent : ∀ e ∈ ((match data with
      | some d => [Effect.send (Message.DidRetrieveDerivedData type d)]
      | none => []) : List Effect), e.isLookupOrStore = false := by
    split
    · exact quiet_of_all _ rfl
    · simp
  unfold retrieveDataCompletion
  simp only
  split
  · exact keeps_some l0 _ _ h1 (by simp)
  · split
    · apply keeps_some
      · simp only [sendResultForCacheEntry_fst]
        exact cleanup_uncached l0 _ h1
      · exact quiet_append _ _ (quiet_append _ _ hsent (sendResultForCacheEntry_quiet env _ entry))
          (cleanup_quiet _)
    · exact keeps_some l0 _ _ h1 hsent

theorem storeCompletion_keeps (env : Env) (l0 l : NetworkResourceLoader) (handle : Option Nat)
    (h : l0.Uncached l) : Outcome.Keeps l0 (some (l.storeCompletion env handle)) := by
  unfold storeCompletion
  split
  · split
    · exact keeps_some l0 _ _ h (by simp)
    · exact keeps_some l0 _ _ h (quiet_of_all _ rfl)
  · exact keeps_some l0 _ _ h (by simp)

theorem didSendData_keeps (l0 l : NetworkResourceLoader) (bytesSent totalBytesToBeSent : Nat)
    (h : l0.Uncached l) :
    Outcome.Keeps l0 (some (l.didSendData bytesSent totalBytesToBeSent)) := by
  unfold didSendData
  split
  · exact keeps_some l0 _ _ h (quiet_of_all _ rfl)
  · exact keeps_some l0 _ _ h (by simp)

theorem didBlockAuthenticationChallenge_keeps (l0 l : NetworkResourceLoader)
    (h : l0.Uncached l) : Outcome.Keeps l0 (some l.didBlockAuthenticationChallenge) :=
  keeps_some l0 _ _ h (quiet_of_all _ rfl)

/-! ### A revalidation answered with 304 -/

theorem didReceiveResponse_not_modified (env : Env) (l : NetworkResourceLoader)
    (response : ResourceResponse) (entry : Entry) (cache : Cache)
    (hentry : l.m_cacheEntryForValidation = some entry) (hcache : l.m_cache = some cache)
    (hstatus : response.httpStatusCode = 304)
    (hconditional : l.originalRequest.isConditional = false) :
    l.didReceiveResponse env response
      = some ({ l with
                m_response := response
                m_bufferedData :=
                  if !l.isSynchronous && response.isMultipart then none else l.m_bufferedData
                m_bufferedDataForCache :=
                  if response.isMultipart then none else l.m_bufferedDataForCache
                m_cacheEntryForValidation :=
                  some (env.cacheUpdate l.originalRequest l.m_parameters.webPageID
                    l.m_parameters.webFrameID entry response) },
              (if env.captureExtraNetworkLoadMetricsEnabled then
                 [Effect.addNetworkLoadInformationResponse l.identifier response]
               else [])
                ++ [Effect.cacheUpdate l.originalRequest l.m_parameters.webPageID
                      l.m_parameters.webFrameID entry response],
              ShouldContinueDidReceiveResponse.Yes) := by
  simp only [originalRequest] at hconditional
  simp [didReceiveResponse, revalidate, hentry, hcache, hstatus, hconditional, isSynchronous,
    originalRequest, identifier]

theorem bodyFrom_of_inCleanup (body : SharedBuffer) (e : Effect) (h : e.inCleanup = true) :
    e.bodyFrom body = true := by
  cases e <;> simp_all [Effect.bodyFrom, Effect.inCleanup]

theorem cleanup_bodyFrom (body : SharedBuffer) (l : NetworkResourceLoader) :
    ∀ e ∈ l.cleanup.2, e.bodyFrom body = true :=
  fun e he => bodyFrom_of_inCleanup body e (cleanup_effects_inCleanup l e he)

theorem didFailLoading_bodyFrom (body : SharedBuffer) (env : Env) (l : NetworkResourceLoader)
    (error : ResourceError) (o : NetworkResourceLoader × List Effect)
    (h : l.didFailLoading env error = some o) : ∀ e ∈ o.2, e.bodyFrom body = true := by
  intro e he
  cases hs : l.m_synchronousLoadData with
  | none =>
    simp only [didFailLoading, hs, Option.some.injEq] at h
    subst h
    simp only [List.mem_append, List.mem_singleton] at he
    rcases he with (he | rfl) | he
    · split at he
      · simp only [List.mem_singleton] at he
        subst he
        rfl
      · simp at he
    · rfl
    · exact cleanup_bodyFrom body _ e he
  | some data =>
    cases hr : data.delayedReply with
    | false => simp [didFailLoading, hs, sendReplyToSynchronousRequest, hr] at h
    | true =>
      simp only [didFailLoading, hs, sendReplyToSynchronousRequest, hr, if_true,
        Option.some.injEq] at h
      subst h
      simp only [List.mem_append, List.mem_singleton] at he
      rcases he with (he | rfl) | he
      · split at he
        · simp only [List.mem_singleton] at he
          subst he
          rfl
        · simp at he
      · simp [Effect.bodyFrom]
      · exact cleanup_bodyFrom body _ e he

theorem sendResultForCacheEntry_bodyFrom (env : Env) (l : NetworkResourceLoader) (entry : Entry) :
    ∀ e ∈ (l.sendResultForCacheEntry env entry).2, e.bodyFrom entry.buffer = true := by
  intro e he
  unfold sendResultForCacheEntry at he
  split at he
  · simp only [List.mem_singleton] at he
    subst he
    rfl
  · simp only [sendBuffer, List.mem_append, List.mem_singleton, List.mem_cons, List.mem_nil_iff,
      or_false] at he
    rcases he with rfl | rfl
    · simp [Effect.bodyFrom]
    · rfl

theorem continueProcessingCachedEntryAfterDidReceiveResponse_bodyFrom (env : Env)
    (l : NetworkResourceLoader) (entry : Entry) (o : NetworkResourceLoader × List Effect)
    (h : l.continueProcessingCachedEntryAfterDidReceiveResponse env entry = some o) :
    ∀ e ∈ o.2, e.bodyFrom entry.buffer = true := by
  have hdone : ∀ e ∈ (l.sendResultForCacheEntry env entry).2
      ++ (l.sendResultForCacheEntry env entry).1.cleanup.2, e.bodyFrom entry.buffer = true := by
    intro e he
    rcases List.mem_append.1 he with he | he
    · exact sendResultForCacheEntry_bodyFrom env l entry e he
    · exact cleanup_bodyFrom _ _ e he
  unfold continueProcessingCachedEntryAfterDidReceiveResponse at h
  split at h
  · split at h
    · split at h
      · simp at h
      · simp only [Option.some.injEq] at h
        subst h
        intro e he
        simp only [List.mem_map] at he
        obtain ⟨t, -, rfl⟩ := he
        rfl
    · simp only [Option.some.injEq] at h
      subst h
      exact hdone
  · simp only [Option.some.injEq] at h
    subst h
    exact hdone

theorem didRetrieveCacheEntry_bodyFrom (env : Env) (l : NetworkResourceLoader) (entry : Entry)
    (o : NetworkResourceLoader × List Effect) (h : l.didRetrieveCacheEntry env entry = some o) :
    ∀ e ∈ o.2, e.bodyFrom entry.buffer = true := by
  unfold didRetrieveCacheEntry at h
  simp only at h
  split at h
  · exact didFailLoading_bodyFrom _ env l _ o h
  · split at h
    · split at h
      · simp at h
      · next data data1 es hs =>
        simp only [Option.some.injEq] at h
        subst h
        intro e he
        rcases List.mem_append.1 he with he | he
        · unfold sendReplyToSynchronousRequest at hs
          simp only at hs
          split at hs
          · simp only [Option.some.injEq, Prod.mk.injEq] at hs
            obtain ⟨-, rfl⟩ := hs
            simp only [List.mem_singleton] at he
            subst he
            by_cases hlen : entry.buffer.length = 0
            · simp [Effect.bodyFrom, hlen]
            · simp [Effect.bodyFrom, hlen]
          · simp at hs
        · exact cleanup_bodyFrom _ _ e he
    · split at h
      · simp only [Option.some.injEq] at h
        subst h
        intro e he
        simp only [List.mem_singleton] at he
        subst he
        rfl
      · simp only [Outcome.andThen] at h
        split at h
        · simp at h
        · next l1 es1 hc =>
          simp only [Option.some.injEq] at h
          subst h
          intro e he
          rcases List.mem_append.1 he with he | he
          · simp only [List.mem_singleton] at he
            subst he
            rfl
          · exact continueProcessingCachedEntryAfterDidReceiveResponse_bodyFrom env l entry _ hc
              e he

theorem didFailLoading_isSome (env : Env) (l : NetworkResourceLoader) (error : ResourceError)
    (hreply : ∀ data, l.m_synchronousLoadData = some data → data.delayedReply = true) :
    (l.didFailLoading env error).isSome = true := by
  cases hs : l.m_synchronousLoadData with
  | none => simp [didFailLoading, hs]
  | some data => simp [didFailLoading, hs, sendReplyToSynchronousRequest, hreply data hs]

theorem continueProcessingCachedEntryAfterDidReceiveResponse_isSome (env : Env)
    (l : NetworkResourceLoader) (entry : Entry) (hcache : l.m_cache.isSome = true) :
    (l.continueProcessingCachedEntryAfterDidReceiveResponse env entry).isSome = true := by
  cases hc : l.m_cache with
  | none => simp [hc] at hcache
  | some cache =>
    unfold continueProcessingCachedEntryAfterDidReceiveResponse
    simp only [hc]
    (repeat' split) <;> rfl

theorem didRetrieveCacheEntry_isSome (env : Env) (l : NetworkResourceLoader) (entry : Entry)
    (hreply : ∀ data, l.m_synchronousLoadData = some data → data.delayedReply = true)
    (hcache : l.m_cache.isSome = true) :
    (l.didRetrieveCacheEntry env entry).isSome = true := by
  unfold didRetrieveCacheEntry
  simp only
  split
  · exact didFailLoading_isSome env l _ hreply
  · cases hs : l.m_synchronousLoadData with
    | some data => simp [sendReplyToSynchronousRequest, hreply data hs]
    | none =>
      simp only
      split
      · rfl
      · have h := continueProcessingCachedEntryAfterDidReceiveResponse_isSome env l entry hcache
        obtain ⟨r, hr⟩ := Option.isSome_iff_exists.1 h
        simp [Outcome.andThen, hr]

/-- On a loader with a cache that waits for the revalidation of an entry, the
original request not being conditional: what `didReceiveResponse` does with a
304, and what the `didFinishLoading` after it does. -/
theorem not_modified_then_finish (env : Env) (l : NetworkResourceLoader)
    (response : ResourceResponse) (entry : Entry) (cache : Cache) (metrics : NetworkLoadMetrics)
    (hentry : l.m_cacheEntryForValidation = some entry) (hcache : l.m_cache = some cache)
    (hstatus : response.httpStatusCode = 304)
    (hconditional : l.originalRequest.isConditional = false) :
    ∃ l1 es,
      l.didReceiveResponse env response = some (l1, es, ShouldContinueDidReceiveResponse.Yes)
      ∧ l1.m_cacheEntryForValidation
          = some (env.cacheUpdate l.originalRequest l.m_parameters.webPageID
              l.m_parameters.webFrameID entry response)
      ∧ Effect.cacheUpdate l.originalRequest l.m_parameters.webPageID l.m_parameters.webFrameID
          entry response ∈ es
      ∧ (∀ e ∈ es, e.isDidReceiveResponse = false)
      ∧ l1.m_synchronousLoadData = l.m_synchronousLoadData
      ∧ l1.didFinishLoading env metrics
          = Outcome.andThen
              (some ({ l1 with m_cacheEntryForValidation := none },
                     if env.captureExtraNetworkLoadMetricsEnabled then
                       [Effect.addNetworkLoadInformationMetrics l.identifier metrics]
                     else []))
              (fun l2 => l2.didRetrieveCacheEntry env
                (env.cacheUpdate l.originalRequest l.m_parameters.webPageID
                  l.m_parameters.webFrameID entry response))
      ∧ ((∀ data, l.m_synchronousLoadData = some data → data.delayedReply = true) →
          (l1.didFinishLoading env metrics).isSome = true)
      ∧ ∀ o, l1.didFinishLoading env metrics = some o →
          ∀ e ∈ o.2, e.isStore = false
            ∧ e.bodyFrom (env.cacheUpdate l.originalRequest l.m_parameters.webPageID
                l.m_parameters.webFrameID entry response).buffer = true := by
  have hfinish : ∀ l1 : NetworkResourceLoader, ∀ updated : Entry,
      l1.m_cacheEntryForValidation = some updated →
      l1.didFinishLoading env metrics
        = Outcome.andThen
            (some ({ l1 with m_cacheEntryForValidation := none },
                   if env.captureExtraNetworkLoadMetricsEnabled then
                     [Effect.addNetworkLoadInformationMetrics l1.identifier metrics]
                   else []))
            (fun l2 => l2.didRetrieveCacheEntry env updated) := by
    intro l1 updated h1
    simp only [didFinishLoading, h1]
  refine ⟨_, _, didReceiveResponse_not_modified env l response entry cache hentry hcache hstatus
    hconditional, rfl, by simp, ?_, rfl, hfinish _ _ rfl, ?_, ?_⟩
  · intro e he
    simp only [List.mem_append, List.mem_singleton] at he
    rcases he with he | rfl
    · split at he
      · simp only [List.mem_singleton] at he
        subst he
        rfl
      · simp at he
    · rfl
  · intro hreply
    rw [hfinish _ _ rfl]
    have h := didRetrieveCacheEntry_isSome env
      ({ l with
         m_response := response
         m_bufferedData :=
           if !l.isSynchronous && response.isMultipart then none else l.m_bufferedData
         m_bufferedDataForCache :=
           if response.isMultipart then none else l.m_bufferedDataForCache
         m_cacheEntryForValidation := none })
      (env.cacheUpdate l.originalRequest l.m_parameters.webPageID l.m_parameters.webFrameID
        entry response) hreply (by simp [hcache])
    obtain ⟨r, hr⟩ := Option.isSome_iff_exists.1 h
    simp only [Outcome.andThen]
    rw [hr]
    rfl
  · intro o ho e he
    rw [hfinish _ _ rfl] at ho
    simp only [Outcome.andThen] at ho
    split at ho
    · simp at ho
    · next l2 es2 hr =>
      simp only [Option.some.injEq] at ho
      subst ho
      rcases List.mem_append.1 he with he | he
      · split at he
        · simp only [List.mem_singleton] at he
          subst he
          exact ⟨rfl, rfl⟩
        · simp at he
      · have hq := didRetrieveCacheEntry_quiet env _ _ _ hr e he
        simp only [Effect.isLookupOrStore, Bool.or_eq_false_iff] at hq
        exact ⟨hq.2, didRetrieveCacheEntry_bodyFrom env _ _ _ hr e he⟩

/-! ### Responses rejected by the From-Origin check or the checker -/

theorem dispatchedDidFailLoading_eq (env : Env) (l : NetworkResourceLoader)
    (error : ResourceError) :
    l.dispatchedDidFailLoading env error
      = if l.m_networkLoad.isSome then l.didFailLoading env error else some (l, []) := by
  unfold dispatchedDidFailLoading
  cases l.m_networkLoad <;> rfl

theorem responseError_cases (env : Env) (l : NetworkResourceLoader) (response : ResourceResponse) :
    ((l.m_parameters.shouldEnableFromOriginResponseHeader = true
        ∧ shouldCancelCrossOriginLoad env response l.m_parameters.frameAncestorOrigins = true) →
      l.responseError env response = fromOriginResourceError response.url)
    ∧ (¬ (l.m_parameters.shouldEnableFromOriginResponseHeader = true
          ∧ shouldCancelCrossOriginLoad env response l.m_parameters.frameAncestorOrigins = true) →
        (∀ checker, l.m_networkLoadChecker = some checker →
          l.responseError env response = env.validateResponse checker response)
        ∧ (l.m_networkLoadChecker = none → l.responseError env response = ResourceError.null)) := by
  constructor
  · rintro ⟨h1, h2⟩
    cases hc : l.m_networkLoadChecker <;>
      simp [responseError, h1, h2, hc, fromOriginResourceError, ResourceError.isNull]
  · intro h
    have h3 : (l.m_parameters.shouldEnableFromOriginResponseHeader
        && shouldCancelCrossOriginLoad env response l.m_parameters.frameAncestorOrigins) = false := by
      cases h1 : l.m_parameters.shouldEnableFromOriginResponseHeader <;>
        cases h2 : shouldCancelCrossOriginLoad env response l.m_parameters.frameAncestorOrigins <;>
        simp_all
    constructor
    · intro checker hc
      simp [responseError, h3, hc, ResourceError.isNull, ResourceError.null]
    · intro hc
      simp [responseError, h3, hc]

theorem revalidate_forward (env : Env) (l : NetworkResourceLoader) (entry : Option Entry)
    (updates : List Effect)
    (hrev : revalidate env l = some (entry, updates))
    (h : l.m_cacheEntryForValidation = none ∨ l.m_response.httpStatusCode ≠ 304
      ∨ (l.m_cache.isSome = true ∧ l.originalRequest.isConditional = true)) :
    entry = none
      ∧ ∀ e ∈ updates, e.isDidReceiveResponse = false ∧ e.inFailure = false
          ∧ e.pending = none := by
  unfold revalidate at hrev
  cases he : l.m_cacheEntryForValidation with
  | none =>
    simp only [he, Option.some.injEq, Prod.mk.injEq] at hrev
    obtain ⟨rfl, rfl⟩ := hrev
    exact ⟨rfl, by simp⟩
  | some entry0 =>
    by_cases hst : l.m_response.httpStatusCode = 304
    · rcases h with h | h | ⟨hc, hcond⟩
      · simp [he] at h
      · exact absurd hst h
      · cases hcache : l.m_cache with
        | none => simp [hcache] at hc
        | some cache =>
          simp only [he, hcache, hst, if_true, hcond, Option.some.injEq, Prod.mk.injEq] at hrev
          obtain ⟨rfl, rfl⟩ := hrev
          refine ⟨rfl, ?_⟩
          intro e he1
          simp only [List.mem_singleton] at he1
          subst he1
          exact ⟨rfl, rfl, rfl⟩
    · simp only [he, hst, if_false, Option.some.injEq, Prod.mk.injEq] at hrev
      obtain ⟨rfl, rfl⟩ := hrev
      exact ⟨rfl, by simp⟩

theorem revalidate_ne_none (env : Env) (l : NetworkResourceLoader)
    (h : l.m_cacheEntryForValidation = none ∨ l.m_response.httpStatusCode ≠ 304
      ∨ (l.m_cache.isSome = true ∧ l.originalRequest.isConditional = true)) :
    revalidate env l ≠ none := by
  intro hnone
  rw [revalidate_eq_none_iff] at hnone
  obtain ⟨h1, h2, h3⟩ := hnone
  rcases h with h | h | ⟨hc, -⟩
  · simp [h] at h1
  · exact h h2
  · simp [h3] at hc

theorem didReceiveResponse_rejected (env : Env) (l : NetworkResourceLoader)
    (response : ResourceResponse)
    (hforward : l.m_cacheEntryForValidation = none ∨ response.httpStatusCode ≠ 304
      ∨ (l.m_cache.isSome = true ∧ l.originalRequest.isConditional = true))
    (hreject : (l.responseError env response).isNull = false) :
    ∃ l1 es,
      l.didReceiveResponse env response = some (l1, es, ShouldContinueDidReceiveResponse.No)
      ∧ (∀ e ∈ es, e.isDidReceiveResponse = false ∧ e.inFailure = false)
      ∧ es.filterMap Effect.pending = [Pending.dispatchedFailure (l.responseError env response)]
      ∧ l1.m_synchronousLoadData = l.m_synchronousLoadData
      ∧ l1.m_networkLoad = l.m_networkLoad
      ∧ l1.m_didConsumeSandboxExtensions = l.m_didConsumeSandboxExtensions := by
  have herr := hreject
  simp only [responseError] at herr
  unfold didReceiveResponse
  simp only []
  split
  · next hnone => exact absurd hnone (revalidate_ne_none env _ hforward)
  next entry updates hrev =>
  obtain ⟨rfl, hup⟩ := revalidate_forward env _ entry updates hrev hforward
  simp only [responseError, herr, isSynchronous, Option.isNone_none, if_true, Bool.not_false]
  refine ⟨_, _, rfl, ?_, ?_, rfl, rfl, rfl⟩
  · intro e he
    simp only [List.mem_append, List.mem_singleton] at he
    rcases he with (he | he) | rfl
    · split at he
      · simp only [List.mem_singleton] at he
        subst he
        exact ⟨rfl, rfl⟩
      · simp at he
    · exact ⟨(hup e he).1, (hup e he).2.1⟩
    · exact ⟨rfl, rfl⟩
  · have hnone : updates.filterMap Effect.pending = [] := by
      rw [List.filterMap_eq_nil_iff]
      exact fun e he => (hup e he).2.2
    simp only [List.filterMap_append, hnone, List.append_nil]
    split <;> simp [Effect.pending]

/-- When `didReceiveResponse` handles a response that is to be
forwarded (no revalidation pending, or a status other than 304, or a
conditional original request) and the From-Origin check or the checker rejects
it, it returns "do not continue", sends no `DidReceiveResponse`, records no
response for a synchronous reply, makes none of the calls of `didFailLoading`
(the transport and the sandbox extensions stay as they are) and leaves exactly
one task behind: `didFailLoading` with the error of the rejection, run later and
only if the transport exists then.  That error is the From-Origin error (type
AccessControl, never a cancellation) when the From-Origin check rejects, and
otherwise whatever error the checker returned, unfiltered. -/
theorem response_rejection_is_dispatched (env : Env) (l : NetworkResourceLoader)
    (response : ResourceResponse)
    (hforward : l.m_cacheEntryForValidation = none ∨ response.httpStatusCode ≠ 304
      ∨ (l.m_cache.isSome = true ∧ l.originalRequest.isConditional = true))
    (hreject : (l.responseError env response).isNull = false) :
    (∃ l1 es,
      l.didReceiveResponse env response = some (l1, es, ShouldContinueDidReceiveResponse.No)
      ∧ (∀ e ∈ es, e.isDidReceiveResponse = false ∧ e.inFailure = false)
      ∧ es.filterMap Effect.pending = [Pending.dispatchedFailure (l.responseError env response)]
      ∧ l1.m_synchronousLoadData = l.m_synchronousLoadData
      ∧ l1.m_networkLoad = l.m_networkLoad
      ∧ l1.m_didConsumeSandboxExtensions = l.m_didConsumeSandboxExtensions)
    ∧ (∀ (l2 : NetworkResourceLoader) (error : ResourceError),
        l2.dispatchedDidFailLoading env error
          = if l2.m_networkLoad.isSome then l2.didFailLoading env error else some (l2, []))
    ∧ ((l.m_parameters.shouldEnableFromOriginResponseHeader = true
          ∧ shouldCancelCrossOriginLoad env response l.m_parameters.frameAncestorOrigins = true) →
        l.responseError env response = fromOriginResourceError response.url
        ∧ (l.responseError env response).type = ResourceErrorType.AccessControl
        ∧ (l.responseError env response).isCancellation = false)
    ∧ (¬ (l.m_parameters.shouldEnableFromOriginResponseHeader = true
          ∧ shouldCancelCrossOriginLoad env response l.m_parameters.frameAncestorOrigins = true) →
        ∃ checker, l.m_networkLoadChecker = some checker
          ∧ l.responseError env response = env.validateResponse checker response) := by
  refine ⟨didReceiveResponse_rejected env l response hforward hreject,
    dispatchedDidFailLoading_eq env, ?_, ?_⟩
  · intro h
    have h1 := (responseError_cases env l response).1 h
    rw [h1]
    exact ⟨rfl, rfl, rfl⟩
  · intro h
    have h1 := (responseError_cases env l response).2 h
    cases hc : l.m_networkLoadChecker with
    | none =>
      rw [h1.2 hc] at hreject
      simp [ResourceError.isNull, ResourceError.null] at hreject
    | some checker => exact ⟨checker, rfl, h1.1 checker hc⟩

/-! ### Redirects that violate From-Origin -/

theorem not_isWillSendRequest_of_inFailure (e : Effect) (h : e.inFailure = true) :
    e.isWillSendRequest = false := by
  cases e with
  | send message => cases message <;> simp_all [Effect.inFailure, Effect.inCleanup, Effect.isWillSendRequest]
  | _ => rfl

theorem didFailLoading_no_redirect (env : Env) (l : NetworkResourceLoader) (error : ResourceError)
    (o : NetworkResourceLoader × List Effect) (h : l.didFailLoading env error = some o) :
    ∀ e ∈ o.2, e.isWillSendRequest = false :=
  fun e he => not_isWillSendRequest_of_inFailure e
    (didFailLoading_effects_inFailure env l error o h e he)

/-- With the From-Origin feature enabled and a redirect response
(of a cached redirect entry, or freshly received) for which
`shouldCancelCrossOriginLoad` is true: if a transport exists,
`dispatchWillSendRequestForCacheEntry` is `didFailLoading` with the From-Origin
error (type AccessControl), and `continueWillSendRedirectedRequest` is the
`storeRedirect` call, if the redirect can be cached, followed by that
`didFailLoading`; neither sends `WillSendRequest`, and both return on an
asynchronous loader.  If no transport exists, the check does not apply: both
send `WillSendRequest` with the response sanitized for a redirection, and fail
nothing. -/
theorem from_origin_redirect_fails_load (env : Env) (l : NetworkResourceLoader) (entry : Entry)
    (request redirectRequest : ResourceRequest) (redirectResponse : ResourceResponse)
    (hfeature : l.m_parameters.shouldEnableFromOriginResponseHeader = true)
    (hentry : shouldCancelCrossOriginLoad env entry.response
      l.m_parameters.frameAncestorOrigins = true)
    (hredirect : shouldCancelCrossOriginLoad env redirectResponse
      l.m_parameters.frameAncestorOrigins = true) :
    (fromOriginResourceError entry.response.url).type = ResourceErrorType.AccessControl
    ∧ (fromOriginResourceError redirectResponse.url).type = ResourceErrorType.AccessControl
    ∧ (l.m_networkLoad.isSome = true →
        l.dispatchWillSendRequestForCacheEntry env entry
          = l.didFailLoading env (fromOriginResourceError entry.response.url)
        ∧ (∀ o, l.dispatchWillSendRequestForCacheEntry env entry = some o →
            ∀ e ∈ o.2, e.isWillSendRequest = false)
        ∧ l.continueWillSendRedirectedRequest env request redirectRequest redirectResponse
          = Outcome.andThen
              (some (l, if l.canUseCachedRedirect request then
                          [Effect.cacheStoreRedirect request redirectResponse redirectRequest]
                        else []))
              (fun l1 => l1.didFailLoading env (fromOriginResourceError redirectResponse.url))
        ∧ (∀ o, l.continueWillSendRedirectedRequest env request redirectRequest redirectResponse
              = some o → ∀ e ∈ o.2, e.isWillSendRequest = false)
        ∧ (l.isSynchronous = false →
            (l.dispatchWillSendRequestForCacheEntry env entry).isSome = true
            ∧ (l.continueWillSendRedirectedRequest env request redirectRequest
                redirectResponse).isSome = true))
    ∧ (l.m_networkLoad = none →
        (∀ target, entry.redirectRequest = some target →
          l.dispatchWillSendRequestForCacheEntry env entry
            = some ({ l with
                      m_redirectCount := l.m_redirectCount + 1
                      m_isWaitingContinueWillSendRequestForCachedRedirect := true },
                    [Effect.send
                       (Message.WillSendRequest target
                         (l.sanitizeResponseIfPossible env entry.response
                           SanitizationType.Redirection))]))
        ∧ l.continueWillSendRedirectedRequest env request redirectRequest redirectResponse
            = some (l, (if l.canUseCachedRedirect request then
                          [Effect.cacheStoreRedirect request redirectResponse redirectRequest]
                        else [])
                      ++ [Effect.send
                            (Message.WillSendRequest redirectRequest
                              (l.sanitizeResponseIfPossible env redirectResponse
                                SanitizationType.Redirection))])) := by
  refine ⟨rfl, rfl, ?_, ?_⟩
  · intro hload
    have hd : l.dispatchWillSendRequestForCacheEntry env entry
        = l.didFailLoading env (fromOriginResourceError entry.response.url) := by
      simp [dispatchWillSendRequestForCacheEntry, hfeature, hentry, hload]
    have hc : l.continueWillSendRedirectedRequest env request redirectRequest redirectResponse
        = Outcome.andThen
            (some (l, if l.canUseCachedRedirect request then
                        [Effect.cacheStoreRedirect request redirectResponse redirectRequest]
                      else []))
            (fun l1 => l1.didFailLoading env (fromOriginResourceError redirectResponse.url)) := by
      simp [continueWillSendRedirectedRequest, hfeature, hredirect, hload]
    refine ⟨hd, ?_, hc, ?_, ?_⟩
    · intro o ho
      rw [hd] at ho
      exact didFailLoading_no_redirect env l _ o ho
    · intro o ho e he
      rw [hc] at ho
      simp only [Outcome.andThen] at ho
      split at ho
      · simp at ho
      · next l2 es2 hr =>
        simp only [Option.some.injEq] at ho
        subst ho
        rcases List.mem_append.1 he with he | he
        · split at he
          · simp only [List.mem_singleton] at he
            subst he
            rfl
          · simp at he
        · exact didFailLoading_no_redirect env l _ _ hr e he
    · intro hasync
      have hsome := didFailLoading_isSome_of_asynchronous env l
      refine ⟨by rw [hd]; exact hsome _ hasync, ?_⟩
      rw [hc]
      obtain ⟨r, hr⟩ := Option.isSome_iff_exists.1
        (hsome (fromOriginResourceError redirectResponse.url) hasync)
      simp only [Outcome.andThen]
      rw [hr]
      rfl
  · intro hload
    constructor
    · intro target htarget
      simp [dispatchWillSendRequestForCacheEntry, hload, htarget]
    · simp [continueWillSendRedirectedRequest, hload]

/-! ### What `abort` does -/

theorem not_isClientMessage_of_inCleanup (e : Effect) (h : e.inCleanup = true) :
    e.isClientMessage = false := by
  cases e <;> simp_all [Effect.isClientMessage, Effect.inCleanup]

theorem cleanup_count_notification (l : NetworkResourceLoader) :
    l.cleanup.2.count Effect.didCleanupResourceLoader = 1 := by
  have h0 : ∀ xs : List SandboxExtension,
      (xs.map Effect.extensionRevoke).count Effect.didCleanupResourceLoader = 0 := by
    intro xs
    rw [List.count_eq_zero]
    simp
  have h1 : ∀ xs : List BlobDataFileReference,
      (xs.map Effect.revokeFileAccess).count Effect.didCleanupResourceLoader = 0 := by
    intro xs
    rw [List.count_eq_zero]
    simp
  cases hflag : l.m_didConsumeSandboxExtensions <;>
    cases hres : l.m_parameters.resourceSandboxExtension <;>
    simp [cleanup, invalidateSandboxExtensions, hflag, hres, h0, h1]

theorem abort_eq (l : NetworkResourceLoader) :
    l.abort.1 = l.cleanup.1
    ∧ l.abort.2
        = (match l.m_networkLoad with
           | some networkLoad =>
             if l.canUseCache networkLoad.currentRequest = true ∧ l.m_response.isNull = false then
               [Effect.cacheRemove networkLoad.currentRequest]
             else []
           | none => [])
          ++ (if l.m_networkLoad.isSome then [Effect.networkLoadCancel] else [])
          ++ l.cleanup.2 := by
  refine ⟨rfl, ?_⟩
  unfold abort
  cases hn : l.m_networkLoad with
  | none => simp
  | some networkLoad =>
    cases hc : l.canUseCache networkLoad.currentRequest <;>
      cases hr : l.m_response.isNull <;> simp [hc, hr]

/-- C14: for every loader state, no call of `abort()` is a message to the
client (neither a message over the connection nor the reply of a synchronous
load).  Its calls are, in this order: `CacheStore.remove` or nothing,
`Transport.cancel` exactly when a transport exists, and the calls of `cleanup`;
the loader is left as `cleanup` leaves it, and the connection is notified of
the cleanup once. -/
theorem abort_sends_nothing (l : NetworkResourceLoader) :
    (∀ e ∈ l.abort.2, e.isClientMessage = false)
    ∧ (∃ removal : List Effect,
        (removal = [] ∨ ∃ request, removal = [Effect.cacheRemove request])
        ∧ l.abort.2
            = removal ++ (if l.m_networkLoad.isSome then [Effect.networkLoadCancel] else [])
                ++ l.cleanup.2)
    ∧ l.abort.1 = l.cleanup.1
    ∧ l.abort.2.count Effect.didCleanupResourceLoader = 1 := by
  have h := (abort_eq l).2
  refine ⟨?_, ?_, rfl, ?_⟩
  · intro e he
    rw [h] at he
    simp only [List.mem_append] at he
    rcases he with (he | he) | he
    · split at he
      · split at he
        · simp only [List.mem_singleton] at he
          subst he
          rfl
        · simp at he
      · simp at he
    · split at he
      · simp only [List.mem_singleton] at he
        subst he
        rfl
      · simp at he
    · exact not_isClientMessage_of_inCleanup e (cleanup_effects_inCleanup l e he)
  · refine ⟨_, ?_, h⟩
    split
    · split
      · exact Or.inr ⟨_, rfl⟩
      · exact Or.inl rfl
    · exact Or.inl rfl
  · rw [h]
    simp only [List.count_append, cleanup_count_notification]
    have h1 : ∀ es : List Effect, (∀ e ∈ es, e ≠ Effect.didCleanupResourceLoader) →
        es.count Effect.didCleanupResourceLoader = 0 := by
      intro es hes
      rw [List.count_eq_zero]
      exact fun hmem => hes _ hmem rfl
    rw [h1, h1]
    · intro e he
      split at he
      · simp only [List.mem_singleton] at he
        subst he
        simp
      · simp at he
    · intro e he
      split at he
      · split at he
        · simp only [List.mem_singleton] at he
          subst he
          simp
        · simp at he
      · simp at he

/-- C15: `abort()` calls `CacheStore.remove` exactly when a transport exists, the
current request of the transport satisfies `canUseCache` and a response has
been recorded; the request removed is that current request.  When it does, its
calls are `remove`, then `Transport.cancel`, then those of `cleanup`, and
`cleanup` itself neither removes nor cancels. -/
theorem abort_removes_before_cancel (l : NetworkResourceLoader) :
    ((∃ request, Effect.cacheRemove request ∈ l.abort.2) ↔
      ∃ networkLoad, l.m_networkLoad = some networkLoad
        ∧ l.canUseCache networkLoad.currentRequest = true ∧ l.m_response.isNull = false)
    ∧ (∀ networkLoad, l.m_networkLoad = some networkLoad →
        (l.canUseCache networkLoad.currentRequest = true ∧ l.m_response.isNull = false →
          l.abort.2
            = Effect.cacheRemove networkLoad.currentRequest :: Effect.networkLoadCancel
                :: l.cleanup.2)
        ∧ (¬ (l.canUseCache networkLoad.currentRequest = true ∧ l.m_response.isNull = false) →
            l.abort.2 = Effect.networkLoadCancel :: l.cleanup.2))
    ∧ (l.m_networkLoad = none → l.abort.2 = l.cleanup.2)
    ∧ ∀ e ∈ l.cleanup.2, e ≠ Effect.networkLoadCancel ∧ ∀ request, e ≠ Effect.cacheRemove request := by
  have h := (abort_eq l).2
  have hclean : ∀ e ∈ l.cleanup.2,
      e ≠ Effect.networkLoadCancel ∧ ∀ request, e ≠ Effect.cacheRemove request := by
    intro e he
    have hin := cleanup_effects_inCleanup l e he
    constructor
    · rintro rfl
      simp [Effect.inCleanup] at hin
    · rintro request rfl
      simp [Effect.inCleanup] at hin
  refine ⟨?_, ?_, ?_, hclean⟩
  · rw [h]
    cases hn : l.m_networkLoad with
    | none =>
      simp only [Option.isSome_none, List.nil_append]
      constructor
      · rintro ⟨request, hmem⟩
        simp only [Bool.false_eq_true, if_false, List.nil_append] at hmem
        exact absurd rfl ((hclean _ hmem).2 request)
      · rintro ⟨networkLoad, hsome, -⟩
        cases hsome
    | some networkLoad =>
      by_cases hcond : l.canUseCache networkLoad.currentRequest = true ∧ l.m_response.isNull = false
      · simp only [if_pos hcond]
        exact ⟨fun _ => ⟨networkLoad, rfl, hcond⟩, fun _ => ⟨networkLoad.currentRequest, by simp⟩⟩
      · simp only [if_neg hcond, List.nil_append, Option.isSome_some, if_true]
        constructor
        · rintro ⟨request, hmem⟩
          simp only [List.singleton_append, List.mem_cons] at hmem
          rcases hmem with hmem | hmem
          · cases hmem
          · exact absurd rfl ((hclean _ hmem).2 request)
        · rintro ⟨networkLoad1, hsome, hc⟩
          simp only [Option.some.injEq] at hsome
          subst hsome
          exact absurd hc hcond
  · intro networkLoad hn
    rw [h, hn]
    constructor
    · intro hcond
      simp only [if_pos hcond, Option.isSome_some, if_true, List.singleton_append,
        List.cons_append, List.nil_append]
    · intro hcond
      simp only [if_neg hcond, List.nil_append, Option.isSome_some, if_true,
        List.singleton_append]
  · intro hn
    rw [h, hn]
    simp

/-! ### Errors of the checker and of response validation -/

theorem not_proceeds_of_inFailure (e : Effect) (h : e.inFailure = true) :
    e.proceeds = false := by
  cases e with
  | send message =>
    cases message <;> simp_all [Effect.inFailure, Effect.inCleanup, Effect.proceeds]
  | _ => simp_all [Effect.inFailure, Effect.inCleanup, Effect.proceeds]

theorem cleanup_filter_isFailureReply (l : NetworkResourceLoader) :
    l.cleanup.2.filter Effect.isFailureReply = [] := by
  rw [List.filter_eq_nil_iff]
  intro e he
  have h := cleanup_effects_inCleanup l e he
  cases e <;> simp_all [Effect.isFailureReply, Effect.inCleanup]

theorem didFailLoading_reply_once (env : Env) (l : NetworkResourceLoader) (error : ResourceError)
    (o : NetworkResourceLoader × List Effect) (h : l.didFailLoading env error = some o) :
    o.2.filter Effect.isFailureReply
      = [match l.m_synchronousLoadData with
         | some data => Effect.sendSynchronousReply error data.response []
         | none => Effect.send (Message.DidFailResourceLoad error)] := by
  cases hs : l.m_synchronousLoadData with
  | none =>
    simp only [didFailLoading, hs, Option.some.injEq] at h
    subst h
    simp only [List.filter_append, cleanup_filter_isFailureReply, List.append_nil]
    split <;> simp [Effect.isFailureReply]
  | some data =>
    cases hr : data.delayedReply with
    | false => simp [didFailLoading, hs, sendReplyToSynchronousRequest, hr] at h
    | true =>
      simp only [didFailLoading, hs, sendReplyToSynchronousRequest, hr, if_true,
        Option.some.injEq] at h
      subst h
      simp only [List.filter_append, cleanup_filter_isFailureReply, List.append_nil]
      split <;> simp [Effect.isFailureReply]

/-- C17: when the check started by `start()` or the redirection check started
by `willSendRedirectedRequest` completes with an error: for a cancellation the
handler makes no call at all and leaves the loader as it is; for any other
error the handler is `didFailLoading` with that error, which reports the
failure to the client exactly once.  In neither case is there a cache lookup,
a creation, restart or continuation of the transport, or a redirect handed
on. -/
theorem checker_error_fails_once (env : Env) (l : NetworkResourceLoader) (error : ResourceError)
    (storedCredentialsPolicy : StoredCredentialsPolicy) (request : ResourceRequest)
    (redirectResponse : ResourceResponse) :
    (error.isCancellation = true →
      l.startCheckCompletion env (Except.error error) = some (l, [])
      ∧ l.checkRedirectionCompletion env storedCredentialsPolicy request redirectResponse
          (Except.error error) = some (l, []))
    ∧ (error.isCancellation = false →
        l.startCheckCompletion env (Except.error error) = l.didFailLoading env error
        ∧ l.checkRedirectionCompletion env storedCredentialsPolicy request redirectResponse
            (Except.error error) = l.didFailLoading env error
        ∧ ∀ o, l.didFailLoading env error = some o →
            o.2.filter Effect.isFailureReply
              = [match l.m_synchronousLoadData with
                 | some data => Effect.sendSynchronousReply error data.response []
                 | none => Effect.send (Message.DidFailResourceLoad error)])
    ∧ (∀ o, l.startCheckCompletion env (Except.error error) = some o →
        ∀ e ∈ o.2, e.proceeds = false)
    ∧ (∀ o, l.checkRedirectionCompletion env storedCredentialsPolicy request redirectResponse
          (Except.error error) = some o → ∀ e ∈ o.2, e.proceeds = false) := by
  have hfail : ∀ o, l.didFailLoading env error = some o → ∀ e ∈ o.2, e.proceeds = false :=
    fun o ho e he => not_proceeds_of_inFailure e
      (didFailLoading_effects_inFailure env l error o ho e he)
  cases hc : error.isCancellation with
  | true =>
    have h1 : l.startCheckCompletion env (Except.error error) = some (l, []) := by
      simp [startCheckCompletion, hc]
    have h2 : l.checkRedirectionCompletion env storedCredentialsPolicy request redirectResponse
        (Except.error error) = some (l, []) := by
      simp [checkRedirectionCompletion, hc]
    refine ⟨fun _ => ⟨h1, h2⟩, fun h => Bool.noConfusion h, ?_, ?_⟩
    · intro o ho
      rw [h1] at ho
      cases ho
      simp
    · intro o ho
      rw [h2] at ho
      cases ho
      simp
  | false =>
    have h1 : l.startCheckCompletion env (Except.error error) = l.didFailLoading env error := by
      simp [startCheckCompletion, hc]
    have h2 : l.checkRedirectionCompletion env storedCredentialsPolicy request redirectResponse
        (Except.error error) = l.didFailLoading env error := by
      simp [checkRedirectionCompletion, hc]
    refine ⟨fun h => Bool.noConfusion h,
      fun _ => ⟨h1, h2, didFailLoading_reply_once env l error⟩, ?_, ?_⟩
    · intro o ho
      rw [h1] at ho
      exact hfail o ho
    · intro o ho
      rw [h2] at ho
      exact hfail o ho

/-- When the From-Origin check lets a response pass and the
checker answers its validation with a cancellation error, the error is not
dropped.  `didRetrieveCacheEntry` is `didFailLoading` with that error, and
`didFailLoading` reports it to the client once (`DidFailResourceLoad`, or the
reply of a synchronous load, carrying the error).  `didReceiveResponse`, for a
response that is to be forwarded, returns "do not continue" and leaves the
task `didFailLoading` with that error, which runs `didFailLoading` whenever the
transport still exists. -/
theorem validation_cancellation_is_reported (env : Env) (l : NetworkResourceLoader)
    (checker : NetworkLoadChecker) (entry : Entry) (response : ResourceResponse)
    (hchecker : l.m_networkLoadChecker = some checker)
    (hfrom : ¬ (l.m_parameters.shouldEnableFromOriginResponseHeader = true
      ∧ shouldCancelCrossOriginLoad env response l.m_parameters.frameAncestorOrigins = true))
    (hentry : entry.response = response)
    (hcancel : (env.validateResponse checker response).isCancellation = true) :
    l.didRetrieveCacheEntry env entry = l.didFailLoading env (env.validateResponse checker response)
    ∧ (∀ o, l.didFailLoading env (env.validateResponse checker response) = some o →
        o.2.filter Effect.isFailureReply
          = [match l.m_synchronousLoadData with
             | some data =>
               Effect.sendSynchronousReply (env.validateResponse checker response) data.response []
             | none =>
               Effect.send (Message.DidFailResourceLoad (env.validateResponse checker response))])
    ∧ ((l.m_cacheEntryForValidation = none ∨ response.httpStatusCode ≠ 304
          ∨ (l.m_cache.isSome = true ∧ l.originalRequest.isConditional = true)) →
        ∃ l1 es,
          l.didReceiveResponse env response = some (l1, es, ShouldContinueDidReceiveResponse.No)
          ∧ es.filterMap Effect.pending
              = [Pending.dispatchedFailure (env.validateResponse checker response)])
    ∧ (∀ l2 : NetworkResourceLoader, l2.m_networkLoad.isSome = true →
        l2.dispatchedDidFailLoading env (env.validateResponse checker response)
          = l2.didFailLoading env (env.validateResponse checker response)) := by
  have herror : l.responseError env response = env.validateResponse checker response :=
    ((responseError_cases env l response).2 hfrom).1 checker hchecker
  have hnull : (env.validateResponse checker response).isNull = false := by
    simp only [ResourceError.isCancellation, beq_iff_eq] at hcancel
    simp [ResourceError.isNull, hcancel]
  refine ⟨?_, didFailLoading_reply_once env l _, ?_, ?_⟩
  · subst hentry
    unfold didRetrieveCacheEntry
    simp only [herror, hnull, Bool.not_false, if_true]
  · intro hforward
    obtain ⟨l1, es, h1, -, h3, -⟩ :=
      didReceiveResponse_rejected env l response hforward (by rw [herror]; exact hnull)
    rw [herror] at h3
    exact ⟨l1, es, h1, h3⟩
  · intro l2 h2
    rw [dispatchedDidFailLoading_eq, if_pos h2]

/-! ### What the cache is handed -/

theorem cachesOnly_some (response : ResourceResponse) (l : NetworkResourceLoader)
    (es : List Effect) (h : l.m_response = response)
    (hq : ∀ e ∈ es, e.cachedResponse = none) : Outcome.CachesOnly response (some (l, es)) := by
  intro r hr
  simp only [Option.some.injEq] at hr
  subst hr
  refine ⟨h, fun e he x hx => ?_⟩
  rw [hq e he] at hx
  exact Option.noConfusion hx

theorem cachesOnly_pair (response : ResourceResponse) (r : NetworkResourceLoader × List Effect)
    (h : r.1.m_response = response) (hq : ∀ e ∈ r.2, e.cachedResponse = none) :
    Outcome.CachesOnly response (some r) :=
  cachesOnly_some response r.1 r.2 h hq

theorem cachesOnly_none (response : ResourceResponse) : Outcome.CachesOnly response none := by
  intro r hr
  simp at hr

theorem cachesOnly_andThen (response : ResourceResponse) (o : Outcome)
    (f : NetworkResourceLoader → Outcome) (ho : Outcome.CachesOnly response o)
    (hf : ∀ l : NetworkResourceLoader, l.m_response = response →
      Outcome.CachesOnly response (f l)) :
    Outcome.CachesOnly response (o.andThen f) := by
  intro r hr
  unfold Outcome.andThen at hr
  split at hr
  · simp at hr
  · next l es =>
    obtain ⟨h1, q1⟩ := ho _ rfl
    split at hr
    · simp at hr
    · next l2 es2 h2 =>
      simp only [Option.some.injEq] at hr
      subst hr
      obtain ⟨h3, q3⟩ := hf l h1 _ h2
      refine ⟨h3, fun e he => ?_⟩
      rcases List.mem_append.1 he with he | he
      · exact q1 e he
      · exact q3 e he

theorem plain_of_all (es : List Effect) (h : es.all (fun e => e.cachedResponse.isNone) = true) :
    ∀ e ∈ es, e.cachedResponse = none := by
  intro e he
  have := List.all_eq_true.1 h e he
  simpa using this

theorem plain_append (es1 es2 : List Effect) (h1 : ∀ e ∈ es1, e.cachedResponse = none)
    (h2 : ∀ e ∈ es2, e.cachedResponse = none) : ∀ e ∈ es1 ++ es2, e.cachedResponse = none := by
  intro e he
  rcases List.mem_append.1 he with he | he
  · exact h1 e he
  · exact h2 e he

theorem plain_of_inFailure (e : Effect) (h : e.inFailure = true) : e.cachedResponse = none := by
  cases e <;> simp_all [Effect.inFailure, Effect.inCleanup, Effect.cachedResponse]

theorem cleanup_plain (l : NetworkResourceLoader) : ∀ e ∈ l.cleanup.2, e.cachedResponse = none :=
  fun e he => plain_of_inFailure e (inFailure_of_inCleanup e (cleanup_effects_inCleanup l e he))

theorem didFailLoading_m_response (env : Env) (l : NetworkResourceLoader) (error : ResourceError)
    (o : NetworkResourceLoader × List Effect) (h : l.didFailLoading env error = some o) :
    o.1.m_response = l.m_response := by
  cases hs : l.m_synchronousLoadData with
  | none =>
    simp only [didFailLoading, hs, Option.some.injEq] at h
    subst h
    simp
  | some data =>
    cases hr : data.delayedReply with
    | false => simp [didFailLoading, hs, sendReplyToSynchronousRequest, hr] at h
    | true =>
      simp only [didFailLoading, hs, sendReplyToSynchronousRequest, hr, if_true,
        Option.some.injEq] at h
      subst h
      simp

theorem didFailLoading_cachesOnly (env : Env) (response : ResourceResponse)
    (l : NetworkResourceLoader) (error : ResourceError) (h : l.m_response = response) :
    Outcome.CachesOnly response (l.didFailLoading env error) := by
  intro r hr
  refine ⟨(didFailLoading_m_response env l error r hr).trans h, fun e he x hx => ?_⟩
  rw [plain_of_inFailure e (didFailLoading_effects_inFailure env l error r hr e he)] at hx
  exact Option.noConfusion hx

theorem lookUpNetworkSession_plain (env : Env) (sessionID : SessionID) :
    ∀ e ∈ (lookUpNetworkSession env sessionID).2, e.cachedResponse = none := by
  intro e he
  unfold lookUpNetworkSession at he
  split at he
  · simp only [List.mem_singleton] at he
    subst he
    rfl
  · simp at he

theorem firstLoadSetup_plain (l : NetworkResourceLoader) (request : ResourceRequest) :
    (l.firstLoadSetup request).1.m_response = l.m_response
    ∧ ∀ e ∈ (l.firstLoadSetup request).2, e.cachedResponse = none := by
  refine ⟨rfl, ?_⟩
  intro e he
  simp only [firstLoadSetup, consumeSandboxExtensions, List.mem_append, List.mem_map] at he
  rcases he with (⟨x, -, rfl⟩ | he) | ⟨x, -, rfl⟩
  · rfl
  · split at he
    · simp only [List.mem_singleton] at he
      subst he
      rfl
    · simp at he
  · rfl

theorem startNetworkLoad_cachesOnly (env : Env) (response : ResourceResponse)
    (l : NetworkResourceLoader) (request : ResourceRequest) (load : FirstLoad)
    (h : l.m_response = response) :
    Outcome.CachesOnly response (l.startNetworkLoad env request load) := by
  have hfirst : (if load = FirstLoad.Yes then l.firstLoadSetup request else (l, [])).1.m_response
        = response
      ∧ ∀ e ∈ (if load = FirstLoad.Yes then l.firstLoadSetup request else (l, [])).2,
          e.cachedResponse = none := by
    split
    · exact ⟨(firstLoadSetup_plain l request).1.trans h, (firstLoadSetup_plain l request).2⟩
    · exact ⟨h, by simp⟩
  unfold startNetworkLoad
  simp only
  generalize (if load = FirstLoad.Yes then l.firstLoadSetup request else (l, [])) = first
    at hfirst
  split
  · apply cachesOnly_andThen
    · apply cachesOnly_some _ _ _ hfirst.1
      intro e he
      simp only [List.mem_append, List.mem_singleton] at he
      rcases he with (he | he) | rfl
      · exact hfirst.2 e he
      · exact lookUpNetworkSession_plain env _ e he
      · rfl
    · intro l1 h1
      exact didFailLoading_cachesOnly env response l1 _ h1
  · apply cachesOnly_some
    · exact hfirst.1
    · intro e he
      simp only [List.mem_append, List.mem_singleton] at he
      rcases he with (he | he) | rfl
      · exact hfirst.2 e he
      · exact lookUpNetworkSession_plain env _ e he
      · rfl

theorem retrieveCacheEntry_cachesOnly (response : ResourceResponse) (l : NetworkResourceLoader)
    (request : ResourceRequest) (h : l.m_response = response) :
    Outcome.CachesOnly response (l.retrieveCacheEntry request) := by
  unfold retrieveCacheEntry
  split
  · exact cachesOnly_none response
  · exact cachesOnly_some response _ _ h (plain_of_all _ rfl)

theorem start_cachesOnly (env : Env) (response : ResourceResponse) (l : NetworkResourceLoader)
    (h : l.m_response = response) : Outcome.CachesOnly response (l.start env) := by
  unfold start
  split
  · exact cachesOnly_some response l [] h (by simp)
  · simp only
    split
    · exact cachesOnly_some response _ _ h (plain_of_all _ rfl)
    · split
      · exact retrieveCacheEntry_cachesOnly response _ _ h
      · exact startNetworkLoad_cachesOnly env response _ _ _ h

theorem startCheckCompletion_cachesOnly (env : Env) (response : ResourceResponse)
    (l : NetworkResourceLoader) (result : RequestOrError) (h : l.m_response = response) :
    Outcome.CachesOnly response (l.startCheckCompletion env result) := by
  unfold startCheckCompletion
  split
  · split
    · exact didFailLoading_cachesOnly env response l _ h
    · exact cachesOnly_some response l [] h (by simp)
  · split
    · exact retrieveCacheEntry_cachesOnly response _ _ h
    · exact startNetworkLoad_cachesOnly env response _ _ _ h

theorem setDefersLoading_cachesOnly (env : Env) (response : ResourceResponse)
    (l : NetworkResourceLoader) (defers : Bool) (h : l.m_response = response) :
    Outcome.CachesOnly response (l.setDefersLoading env defers) := by
  unfold setDefersLoading
  split
  · exact cachesOnly_some response l [] h (by simp)
  · simp only
    split
    · exact cachesOnly_some response _ _ h (plain_of_all _ rfl)
    · split
      · exact start_cachesOnly env response _ h
      · exact cachesOnly_some response _ _ h (by simp)

theorem abort_cachesOnly (response : ResourceResponse) (l : NetworkResourceLoader)
    (h : l.m_response = response) : Outcome.CachesOnly response (some l.abort) := by
  apply cachesOnly_some
  · exact (cleanup_m_response l).trans h
  · apply plain_append
    · split
      · apply plain_append
        · split
          · split
            · exact plain_of_all _ rfl
            · simp
          · simp
        · exact plain_of_all _ rfl
      · simp
    · exact cleanup_plain l

theorem convertToDownload_cachesOnly (env : Env) (response : ResourceResponse)
    (l : NetworkResourceLoader) (downloadID : Nat) (request : ResourceRequest)
    (downloadResponse : ResourceResponse) (h : l.m_response = response) :
    Outcome.CachesOnly response
      (some (l.convertToDownload env downloadID request downloadResponse)) :=
  cachesOnly_some response _ _ h (plain_of_all _ rfl)

theorem continueWillSendRequest_cachesOnly (env : Env) (response : ResourceResponse)
    (l : NetworkResourceLoader) (newRequest : ResourceRequest) (allowed : Bool)
    (h : l.m_response = response) :
    Outcome.CachesOnly response (l.continueWillSendRequest env newRequest allowed) := by
  unfold continueWillSendRequest
  simp only
  split
  · split
    · exact retrieveCacheEntry_cachesOnly response _ _ h
    · exact startNetworkLoad_cachesOnly env response _ _ _ h
  · split
    · exact cachesOnly_some response _ _ h (plain_of_all _ rfl)
    · exact cachesOnly_some response _ _ h (by simp)

theorem sendResultForCacheEntry_plain (env : Env) (l : NetworkResourceLoader) (entry : Entry) :
    ∀ e ∈ (l.sendResultForCacheEntry env entry).2, e.cachedResponse = none := by
  intro e he
  unfold sendResultForCacheEntry at he
  split at he
  · simp only [List.mem_singleton] at he
    subst he
    rfl
  · simp only [sendBuffer, List.mem_append, List.mem_singleton, List.mem_cons, List.mem_nil_iff,
      or_false] at he
    rcases he with rfl | rfl <;> rfl

theorem continueProcessingCachedEntryAfterDidReceiveResponse_cachesOnly (env : Env)
    (response : ResourceResponse) (l : NetworkResourceLoader) (entry : Entry)
    (h : l.m_response = response) :
    Outcome.CachesOnly response
      (l.continueProcessingCachedEntryAfterDidReceiveResponse env entry) := by
  have hdone : Outcome.CachesOnly response
      (some ((l.sendResultForCacheEntry env entry).1.cleanup.1,
             (l.sendResultForCacheEntry env entry).2
               ++ (l.sendResultForCacheEntry env entry).1.cleanup.2)) := by
    apply cachesOnly_some
    · rw [cleanup_m_response, sendResultForCacheEntry_fst]
      exact h
    · exact plain_append _ _ (sendResultForCacheEntry_plain env l entry) (cleanup_plain _)
  unfold continueProcessingCachedEntryAfterDidReceiveResponse
  split
  · split
    · split
      · exact cachesOnly_none response
      · apply cachesOnly_some response _ _ h
        intro e he
        simp only [List.mem_map] at he
        obtain ⟨t, -, rfl⟩ := he
        rfl
    · exact hdone
  · exact hdone

theorem continueDidReceiveResponse_cachesOnly (env : Env) (response : ResourceResponse)
    (l : NetworkResourceLoader) (h : l.m_response = response) :
    Outcome.CachesOnly response (l.continueDidReceiveResponse env) := by
  unfold continueDidReceiveResponse
  split
  · exact continueProcessingCachedEntryAfterDidReceiveResponse_cachesOnly env response _ _ h
  · split
    · exact cachesOnly_some response _ _ h (plain_of_all _ rfl)
    · exact cachesOnly_some response _ _ h (by simp)

theorem didReceiveBuffer_cachesOnly (response : ResourceResponse) (l : NetworkResourceLoader)
    (buffer : SharedBuffer) (reported : Int) (h : l.m_response = response) :
    Outcome.CachesOnly response (some (l.didReceiveBuffer buffer reported)) := by
  apply cachesOnly_pair
  · exact (didReceiveBuffer_m_response l buffer reported).trans h
  · unfold didReceiveBuffer
    simp only
    split
    · simp
    · exact plain_of_all _ rfl

theorem didRetrieveCacheEntry_cachesOnly (env : Env) (response : ResourceResponse)
    (l : NetworkResourceLoader) (entry : Entry) (h : l.m_response = response) :
    Outcome.CachesOnly response (l.didRetrieveCacheEntry env entry) := by
  unfold didRetrieveCacheEntry
  simp only
  split
  · exact didFailLoading_cachesOnly env response l _ h
  · split
    · split
      · exact cachesOnly_none response
      · next data data1 es hs =>
        apply cachesOnly_some
        · rw [cleanup_m_response]
          exact h
        · apply plain_append _ _ _ (cleanup_plain _)
          intro e he
          unfold sendReplyToSynchronousRequest at hs
          simp only at hs
          split at hs
          · simp only [Option.some.injEq, Prod.mk.injEq] at hs
            obtain ⟨-, rfl⟩ := hs
            simp only [List.mem_singleton] at he
            subst he
            rfl
          · simp at hs
    · split
      · exact cachesOnly_some response _ _ h (plain_of_all _ rfl)
      · apply cachesOnly_andThen
        · exact cachesOnly_some response _ _ h (plain_of_all _ rfl)
        · intro l1 h1
          exact continueProcessingCachedEntryAfterDidReceiveResponse_cachesOnly env response
            l1 entry h1

theorem tryStoreAsCacheEntry_cachesOnly (response : ResourceResponse)
    (l : NetworkResourceLoader) (h : l.m_response = response) :
    Outcome.CachesOnly response l.tryStoreAsCacheEntry := by
  unfold tryStoreAsCacheEntry
  split
  · exact cachesOnly_none response
  · split
    · exact cachesOnly_some response l [] h (by simp)
    · split
      · exact cachesOnly_some response l [] h (by simp)
      · intro r hr
        simp only [Option.some.injEq] at hr
        subst hr
        refine ⟨h, fun e he x hx => ?_⟩
        simp only [List.mem_singleton] at he
        subst he
        simp only [Effect.cachedResponse, Option.some.injEq] at hx
        rw [← hx]
        exact h

theorem didFinishLoading_cachesOnly (env : Env) (response : ResourceResponse)
    (l : NetworkResourceLoader) (metrics : NetworkLoadMetrics) (h : l.m_response = response) :
    Outcome.CachesOnly response (l.didFinishLoading env metrics) := by
  have hcapture : ∀ e ∈ (if env.captureExtraNetworkLoadMetricsEnabled then
      [Effect.addNetworkLoadInformationMetrics l.identifier metrics] else []),
      e.cachedResponse = none := by
    intro e he
    split at he
    · simp only [List.mem_singleton] at he
      subst he
      rfl
    · simp at he
  unfold didFinishLoading
  simp only
  split
  · apply cachesOnly_andThen
    · exact cachesOnly_some response _ _ h hcapture
    · intro l1 h1
      exact didRetrieveCacheEntry_cachesOnly env response l1 _ h1
  · apply cachesOnly_andThen
    · apply cachesOnly_andThen
      · split
        · split
          · exact cachesOnly_none response
          · next data data1 es hs =>
            refine cachesOnly_some response _ _ (by exact h) ?_
            apply plain_append _ _ hcapture
            intro e he
            unfold sendReplyToSynchronousRequest at hs
            simp only at hs
            split at hs
            · simp only [Option.some.injEq, Prod.mk.injEq] at hs
              obtain ⟨-, rfl⟩ := hs
              simp only [List.mem_singleton] at he
              subst he
              rfl
            · simp at hs
        · apply cachesOnly_some response _ _ h
          apply plain_append
          · apply plain_append _ _ hcapture
            intro e he
            split at he
            · split at he
              · simp only [sendBuffer, List.mem_singleton] at he
                subst he
                rfl
              · simp at he
            · simp at he
          · exact plain_of_all _ rfl
      · intro l1 h1
        exact tryStoreAsCacheEntry_cachesOnly response l1 h1
    · intro l1 h1
      exact cachesOnly_some response _ _ ((cleanup_m_response l1).trans h1) (cleanup_plain l1)

theorem revalidate_cachesOnly (env : Env) (l : NetworkResourceLoader) (entry : Option Entry)
    (updates : List Effect) (h : revalidate env l = some (entry, updates)) :
    ∀ e ∈ updates, ∀ x, e.cachedResponse = some x → x = l.m_response := by
  unfold revalidate at h
  split at h
  · simp only [Option.some.injEq, Prod.mk.injEq] at h
    obtain ⟨-, rfl⟩ := h
    simp
  · split at h
    · split at h
      · simp at h
      · split at h <;>
        · simp only [Option.some.injEq, Prod.mk.injEq] at h
          obtain ⟨-, rfl⟩ := h
          intro e he x hx
          simp only [List.mem_singleton] at he
          subst he
          simp only [Effect.cachedResponse, Option.some.injEq] at hx
          exact hx.symm
    · simp only [Option.some.injEq, Prod.mk.injEq] at h
      obtain ⟨-, rfl⟩ := h
      simp

theorem didReceiveResponse_cachesOnly (env : Env) (l : NetworkResourceLoader)
    (received : ResourceResponse) :
    Outcome.CachesOnly received
      ((l.didReceiveResponse env received).map (fun r => (r.1, r.2.1))) := by
  intro r hr
  unfold didReceiveResponse at hr
  simp only at hr
  split at hr
  · simp at hr
  · next entry updates hrev =>
    have hupdates := revalidate_cachesOnly env _ entry updates hrev
    simp only at hupdates
    (repeat' split at hr) <;>
      simp only [Option.map_some', Option.some.injEq] at hr <;>
      subst hr <;>
      refine ⟨rfl, fun e he x hx => ?_⟩ <;>
      simp only [List.mem_append, List.mem_singleton, List.mem_cons, List.mem_nil_iff, or_false,
        false_or, List.nil_append, List.append_nil] at he <;>
      (try casesm* _ ∨ _) <;>
      first
        | exact hupdates e (by assumption) x hx
        | (subst_vars; exact Option.noConfusion hx)

theorem continueWillSendRedirectedRequest_cachesOnly (env : Env) (response : ResourceResponse)
    (l : NetworkResourceLoader) (request redirectRequest : ResourceRequest)
    (redirectResponse : ResourceResponse) (h : l.m_response = response) :
    Outcome.CachesOnly response
      (l.continueWillSendRedirectedRequest env request redirectRequest redirectResponse) := by
  have hstored : ∀ e ∈ (if l.canUseCachedRedirect request then
      [Effect.cacheStoreRedirect request redirectResponse redirectRequest] else []),
      e.cachedResponse = none := by
    intro e he
    split at he
    · simp only [List.mem_singleton] at he
      subst he
      rfl
    · simp at he
  unfold continueWillSendRedirectedRequest
  simp only
  split
  · apply cachesOnly_andThen
    · exact cachesOnly_some response _ _ h hstored
    · intro l1 h1
      exact didFailLoading_cachesOnly env response l1 _ h1
  · exact cachesOnly_some response _ _ h (plain_append _ _ hstored (plain_of_all _ rfl))

theorem willSendRedirectedRequest_cachesOnly (env : Env) (response : ResourceResponse)
    (l : NetworkResourceLoader) (request redirectRequest : ResourceRequest)
    (redirectResponse : ResourceResponse) (h : l.m_response = response) :
    Outcome.CachesOnly response
      (l.willSendRedirectedRequest env request redirectRequest redirectResponse) := by
  unfold willSendRedirectedRequest
  simp only
  split
  · exact cachesOnly_some response _ _ h (plain_of_all _ rfl)
  · exact continueWillSendRedirectedRequest_cachesOnly env response _ _ _ _ h

theorem bufferingTimerFired_cachesOnly (response : ResourceResponse) (l : NetworkResourceLoader)
    (h : l.m_response = response) : Outcome.CachesOnly response l.bufferingTimerFired := by
  unfold bufferingTimerFired
  split
  · exact cachesOnly_none response
  · split
    · exact cachesOnly_some response _ _ h (by simp)
    · exact cachesOnly_some response _ _ h (plain_of_all _ rfl)

theorem checkRedirectionCompletion_cachesOnly (env : Env) (response : ResourceResponse)
    (l : NetworkResourceLoader) (storedCredentialsPolicy : StoredCredentialsPolicy)
    (request : ResourceRequest) (redirectResponse : ResourceResponse) (result : RequestOrError)
    (h : l.m_response = response) :
    Outcome.CachesOnly response
      (l.checkRedirectionCompletion env storedCredentialsPolicy request redirectResponse
        result) := by
  unfold checkRedirectionCompletion
  split
  · split
    · exact cachesOnly_some response l [] h (by simp)
    · exact didFailLoading_cachesOnly env response l _ h
  · split
    · exact cachesOnly_none response
    · split
      · split
        · exact cachesOnly_none response
        · apply cachesOnly_andThen
          · exact cachesOnly_some response _ _ h (plain_of_all _ rfl)
          · intro l1 h1
            exact startNetworkLoad_cachesOnly env response l1 _ _ h1
      · split
        · exact continueWillSendRequest_cachesOnly env response l _ _ h
        · exact continueWillSendRedirectedRequest_cachesOnly env response l _ _ _ h

theorem dispatchedDidFailLoading_cachesOnly (env : Env) (response : ResourceResponse)
    (l : NetworkResourceLoader) (error : ResourceError) (h : l.m_response = response) :
    Outcome.CachesOnly response (l.dispatchedDidFailLoading env error) := by
  unfold dispatchedDidFailLoading
  split
  · exact didFailLoading_cachesOnly env response l _ h
  · exact cachesOnly_some response l [] h (by simp)

theorem retrieveDataCompletion_cachesOnly (env : Env) (response : ResourceResponse)
    (l : NetworkResourceLoader) (hasOneRef : Bool) (entry : Entry) (type : String)
    (retrieveCount : Nat) (data : Option SharedBuffer) (h : l.m_response = response) :
    Outcome.CachesOnly response
      (some (l.retrieveDataCompletion env hasOneRef entry type retrieveCount data)) := by
  have hsent : ∀ e ∈ ((match data with
      | some d => [Effect.send (Message.DidRetrieveDerivedData type d)]
      | none => []) : List Effect), e.cachedResponse = none := by
    intro e he
    split at he
    · simp only [List.mem_singleton] at he
      subst he
      rfl
    · simp at he
  unfold retrieveDataCompletion
  simp only
  split
  · exact cachesOnly_some response _ _ h (by simp)
  · split
    · apply cachesOnly_some
      · rw [cleanup_m_response, sendResultForCacheEntry_fst]
        exact h
      · exact plain_append _ _ (plain_append _ _ hsent (sendResultForCacheEntry_plain env _ entry))
          (cleanup_plain _)
    · exact cachesOnly_some response _ _ h hsent

theorem storeCompletion_cachesOnly (env : Env) (response : ResourceResponse)
    (l : NetworkResourceLoader) (handle : Option Nat) (h : l.m_response = response) :
    Outcome.CachesOnly response (some (l.storeCompletion env handle)) := by
  unfold storeCompletion
  split
  · split
    · exact cachesOnly_some response l [] h (by simp)
    · exact cachesOnly_some response _ _ h (plain_of_all _ rfl)
  · exact cachesOnly_some response l [] h (by simp)

theorem didSendData_cachesOnly (response : ResourceResponse) (l : NetworkResourceLoader)
    (bytesSent totalBytesToBeSent : Nat) (h : l.m_response = response) :
    Outcome.CachesOnly response (some (l.didSendData bytesSent totalBytesToBeSent)) := by
  unfold didSendData
  split
  · exact cachesOnly_some response _ _ h (plain_of_all _ rfl)
  · exact cachesOnly_some response l [] h (by simp)

theorem didBlockAuthenticationChallenge_cachesOnly (response : ResourceResponse)
    (l : NetworkResourceLoader) (h : l.m_response = response) :
    Outcome.CachesOnly response (some l.didBlockAuthenticationChallenge) :=
  cachesOnly_some response _ _ h (plain_of_all _ rfl)

theorem validateCacheEntry_cachesOnly (env : Env) (response : ResourceResponse)
    (l : NetworkResourceLoader) (entry : Entry) (h : l.m_response = response) :
    Outcome.CachesOnly response (l.validateCacheEntry env entry) := by
  unfold validateCacheEntry
  exact startNetworkLoad_cachesOnly env response _ _ _ h

theorem dispatchWillSendRequestForCacheEntry_cachesOnly (env : Env)
    (response : ResourceResponse) (l : NetworkResourceLoader) (entry : Entry)
    (h : l.m_response = response) :
    Outcome.CachesOnly response (l.dispatchWillSendRequestForCacheEntry env entry) := by
  unfold dispatchWillSendRequestForCacheEntry
  split
  · exact didFailLoading_cachesOnly env response l _ h
  · split
    · exact cachesOnly_none response
    · exact cachesOnly_some response _ _ h (plain_of_all _ rfl)

theorem retrieveCacheEntryCompletion_cachesOnly (env : Env) (response : ResourceResponse)
    (l : NetworkResourceLoader) (hasOneRef : Bool) (request : ResourceRequest)
    (entry : Option Entry) (h : l.m_response = response) :
    Outcome.CachesOnly response
      (l.retrieveCacheEntryCompletion env hasOneRef request entry) := by
  unfold retrieveCacheEntryCompletion
  split
  · exact cachesOnly_some response l [] h (by simp)
  · split
    · exact startNetworkLoad_cachesOnly env response _ _ _ h
    · split
      · exact dispatchWillSendRequestForCacheEntry_cachesOnly env response l _ h
      · split
        · exact startNetworkLoad_cachesOnly env response _ _ _ h
        · split
          · exact validateCacheEntry_cachesOnly env response l _ h
          · exact didRetrieveCacheEntry_cachesOnly env response l _ h

/-! ### Sanitization -/

/-- C20: `sanitizeResponseIfPossible(response, type)` returns the response
unchanged when `shouldRestrictHTTPResponseAccess` is false; when it is true it
returns the response with its header fields sanitized in the mode the
specification describes.  That mode differs from the supplied type exactly
when the type is CrossOriginSafe, the response URL is same-origin and the
destination is EmptyString, and it is then RemoveCookies; for a supplied type
other than RemoveCookies itself the mode is RemoveCookies exactly in that case;
a Redirection stays a Redirection. -/
theorem sanitizeResponseIfPossible_eq (env : Env) (l : NetworkResourceLoader)
    (response : ResourceResponse) (type : SanitizationType) :
    (l.m_parameters.shouldRestrictHTTPResponseAccess = false →
      l.sanitizeResponseIfPossible env response type = response)
    ∧ (l.m_parameters.shouldRestrictHTTPResponseAccess = true →
        l.sanitizeResponseIfPossible env response type
          = env.sanitizeHTTPHeaderFields response
              (sanitizationModeSpec env l.m_parameters response type))
    ∧ (sanitizationModeSpec env l.m_parameters response type ≠ type ↔
        (type = SanitizationType.CrossOriginSafe
          ∧ isSameOriginSpec env l.m_parameters response = true
          ∧ l.m_parameters.destination = Destination.EmptyString))
    ∧ (type ≠ SanitizationType.RemoveCookies →
        (sanitizationModeSpec env l.m_parameters response type = SanitizationType.RemoveCookies ↔
          (type = SanitizationType.CrossOriginSafe
            ∧ isSameOriginSpec env l.m_parameters response = true
            ∧ l.m_parameters.destination = Destination.EmptyString)))
    ∧ sanitizationModeSpec env l.m_parameters response SanitizationType.Redirection
        = SanitizationType.Redirection
    ∧ (l.m_parameters.shouldRestrictHTTPResponseAccess = true →
        l.sanitizeResponseIfPossible env response SanitizationType.Redirection
          = env.sanitizeHTTPHeaderFields response SanitizationType.Redirection) := by
  have hmode : ∀ t : SanitizationType,
      l.m_parameters.shouldRestrictHTTPResponseAccess = true →
      l.sanitizeResponseIfPossible env response t
        = env.sanitizeHTTPHeaderFields response
            (sanitizationModeSpec env l.m_parameters response t) := by
    intro t hrestrict
    unfold sanitizeResponseIfPossible sanitizationModeSpec isSameOriginSpec
    simp only [hrestrict, if_true]
    by_cases ht : t = SanitizationType.CrossOriginSafe
    · subst ht
      by_cases hdest : l.m_parameters.destination = Destination.EmptyString
      · cases horigin : l.m_parameters.sourceOrigin with
        | none =>
          cases hsame : env.protocolHostAndPortAreEqual response.url l.m_parameters.request.url <;>
            simp [hdest, hsame]
        | some origin =>
          cases hsame : env.canRequest origin response.url <;> simp [hdest, hsame]
      · simp [hdest]
    · simp [ht]
  refine ⟨?_, hmode type, ?_, ?_, ?_, ?_⟩
  · intro hrestrict
    simp [sanitizeResponseIfPossible, hrestrict]
  · unfold sanitizationModeSpec
    constructor
    · intro hne
      by_contra hcond
      exact hne (if_neg hcond)
    · intro hcond
      rw [if_pos hcond, hcond.1]
      decide
  · intro htype
    unfold sanitizationModeSpec
    constructor
    · intro heq
      by_contra hcond
      rw [if_neg hcond] at heq
      exact htype heq
    · intro hcond
      rw [if_pos hcond]
  · simp [sanitizationModeSpec]
  · intro hrestrict
    rw [hmode _ hrestrict]
    simp [sanitizationModeSpec]

/-! ### A pending revalidation has a cache -/

theorem grounded_some (cache : Option Cache) (parameters : NetworkResourceLoadParameters)
    (validating : Bool) (l : NetworkResourceLoader) (es : List Effect)
    (h : l.GroundedIn cache parameters validating) (hq : ∀ e ∈ es, e.isRetrieve = false) :
    Outcome.Grounded cache parameters validating (some (l, es)) := by
  intro r hr
  simp only [Option.some.injEq] at hr
  subst hr
  refine ⟨h, fun e he hx => ?_⟩
  rw [hq e he] at hx
  exact Bool.noConfusion hx

theorem grounded_none (cache : Option Cache) (parameters : NetworkResourceLoadParameters)
    (validating : Bool) : Outcome.Grounded cache parameters validating none := by
  intro r hr
  simp at hr

theorem grounded_andThen (cache : Option Cache) (parameters : NetworkResourceLoadParameters)
    (validating : Bool) (o : Outcome) (f : NetworkResourceLoader → Outcome)
    (ho : Outcome.Grounded cache parameters validating o)
    (hf : ∀ l : NetworkResourceLoader, l.GroundedIn cache parameters validating →
      Outcome.Grounded cache parameters validating (f l)) :
    Outcome.Grounded cache parameters validating (o.andThen f) := by
  intro r hr
  unfold Outcome.andThen at hr
  split at hr
  · simp at hr
  · next l es =>
    obtain ⟨h1, q1⟩ := ho _ rfl
    split at hr
    · simp at hr
    · next l2 es2 h2 =>
      simp only [Option.some.injEq] at hr
      subst hr
      obtain ⟨h3, q3⟩ := hf l h1 _ h2
      refine ⟨h3, fun e he => ?_⟩
      rcases List.mem_append.1 he with he | he
      · exact q1 e he
      · exact q3 e he

theorem groundedIn_mono (l : NetworkResourceLoader) (cache : Option Cache)
    (parameters : NetworkResourceLoadParameters) (validating : Bool)
    (h : l.GroundedIn cache parameters validating) : l.GroundedIn cache parameters true :=
  ⟨h.1, h.2.1, fun _ => rfl⟩

theorem grounded_mono (cache : Option Cache) (parameters : NetworkResourceLoadParameters)
    (validating : Bool) (o : Outcome) (h : Outcome.Grounded cache parameters false o) :
    Outcome.Grounded cache parameters validating o := by
  intro r hr
  obtain ⟨⟨h1, h2, h3⟩, h4⟩ := h r hr
  exact ⟨⟨h1, h2, fun hv => Bool.noConfusion (h3 hv)⟩, h4⟩

theorem noRetrieve_of_all (es : List Effect) (h : es.all (fun e => !e.isRetrieve) = true) :
    ∀ e ∈ es, e.isRetrieve = false := by
  intro e he
  have := List.all_eq_true.1 h e he
  simpa using this

theorem noRetrieve_append (es1 es2 : List Effect) (h1 : ∀ e ∈ es1, e.isRetrieve = false)
    (h2 : ∀ e ∈ es2, e.isRetrieve = false) : ∀ e ∈ es1 ++ es2, e.isRetrieve = false := by
  intro e he
  rcases List.mem_append.1 he with he | he
  · exact h1 e he
  · exact h2 e he

theorem noRetrieve_of_quiet (e : Effect) (h : e.isLookupOrStore = false) :
    e.isRetrieve = false := by
  simp only [Effect.isLookupOrStore, Bool.or_eq_false_iff] at h
  exact h.1

theorem cleanup_noRetrieve (l : NetworkResourceLoader) :
    ∀ e ∈ l.cleanup.2, e.isRetrieve = false :=
  fun e he => noRetrieve_of_quiet e (cleanup_quiet l e he)

theorem cleanup_groundedIn (l : NetworkResourceLoader) (cache : Option Cache)
    (parameters : NetworkResourceLoadParameters) (validating : Bool)
    (h : l.GroundedIn cache parameters validating) :
    l.cleanup.1.GroundedIn cache parameters validating := by
  obtain ⟨h1, h2, h3⟩ := h
  exact ⟨by simp [h1], by simp [h2], by simpa using h3⟩

theorem didFailLoading_m_cacheEntryForValidation (env : Env) (l : NetworkResourceLoader)
    (error : ResourceError) (o : NetworkResourceLoader × List Effect)
    (h : l.didFailLoading env error = some o) : o.1.m_cacheEntryForValidation = none := by
  cases hs : l.m_synchronousLoadData with
  | none =>
    simp only [didFailLoading, hs, Option.some.injEq] at h
    subst h
    simp
  | some data =>
    cases hr : data.delayedReply with
    | false => simp [didFailLoading, hs, sendReplyToSynchronousRequest, hr] at h
    | true =>
      simp only [didFailLoading, hs, sendReplyToSynchronousRequest, hr, if_true,
        Option.some.injEq] at h
      subst h
      simp

theorem didFailLoading_grounded (env : Env) (cache : Option Cache)
    (parameters : NetworkResourceLoadParameters) (validating : Bool)
    (l : NetworkResourceLoader) (error : ResourceError)
    (h : l.GroundedIn cache parameters validating) :
    Outcome.Grounded cache parameters validating (l.didFailLoading env error) := by
  intro r hr
  obtain ⟨-, s2, s3, -, -⟩ := didFailLoading_state env l error r hr
  refine ⟨⟨s2.trans h.1, s3.trans h.2.1, fun hv => ?_⟩, fun e he hx => ?_⟩
  · rw [didFailLoading_m_cacheEntryForValidation env l error r hr] at hv
    exact Bool.noConfusion hv
  · rw [noRetrieve_of_quiet e (didFailLoading_quiet env l error r hr e he)] at hx
    exact Bool.noConfusion hx

theorem lookUpNetworkSession_noRetrieve (env : Env) (sessionID : SessionID) :
    ∀ e ∈ (lookUpNetworkSession env sessionID).2, e.isRetrieve = false := by
  intro e he
  unfold lookUpNetworkSession at he
  split at he
  · simp only [List.mem_singleton] at he
    subst he
    rfl
  · simp at he

theorem firstLoadSetup_noRetrieve (l : NetworkResourceLoader) (request : ResourceRequest) :
    ∀ e ∈ (l.firstLoadSetup request).2, e.isRetrieve = false := by
  intro e he
  simp only [firstLoadSetup, consumeSandboxExtensions, List.mem_append, List.mem_map] at he
  rcases he with (⟨x, -, rfl⟩ | he) | ⟨x, -, rfl⟩
  · rfl
  · split at he
    · simp only [List.mem_singleton] at he
      subst he
      rfl
    · simp at he
  · rfl

theorem firstLoadSetup_groundedIn (l : NetworkResourceLoader) (request : ResourceRequest)
    (cache : Option Cache) (parameters : NetworkResourceLoadParameters) (validating : Bool)
    (h : l.GroundedIn cache parameters validating) :
    (l.firstLoadSetup request).1.GroundedIn cache parameters validating := by
  obtain ⟨-, f2, f3, f4, -, -⟩ := firstLoadSetup_state l request
  exact ⟨f3.trans h.1, f4.trans h.2.1, fun hv => h.2.2 (by rw [← f2]; exact hv)⟩

theorem startNetworkLoad_grounded (env : Env) (cache : Option Cache)
    (parameters : NetworkResourceLoadParameters) (validating : Bool)
    (l : NetworkResourceLoader) (request : ResourceRequest) (load : FirstLoad)
    (h : l.GroundedIn cache parameters validating) :
    Outcome.Grounded cache parameters validating (l.startNetworkLoad env request load) := by
  have hfirst : (if load = FirstLoad.Yes then l.firstLoadSetup request else (l, [])).1.GroundedIn
        cache parameters validating
      ∧ ∀ e ∈ (if load = FirstLoad.Yes then l.firstLoadSetup request else (l, [])).2,
          e.isRetrieve = false := by
    split
    · exact ⟨firstLoadSetup_groundedIn l request cache parameters validating h,
        firstLoadSetup_noRetrieve l request⟩
    · exact ⟨h, by simp⟩
  unfold startNetworkLoad
  simp only
  generalize (if load = FirstLoad.Yes then l.firstLoadSetup request else (l, [])) = first
    at hfirst
  split
  · apply grounded_andThen
    · apply grounded_some _ _ _ _ _ hfirst.1
      intro e he
      simp only [List.mem_append, List.mem_singleton] at he
      rcases he with (he | he) | rfl
      · exact hfirst.2 e he
      · exact lookUpNetworkSession_noRetrieve env _ e he
      · rfl
    · intro l1 h1
      exact didFailLoading_grounded env cache parameters validating l1 _ h1
  · apply grounded_some
    · exact ⟨hfirst.1.1, hfirst.1.2.1, hfirst.1.2.2⟩
    · intro e he
      simp only [List.mem_append, List.mem_singleton] at he
      rcases he with (he | he) | rfl
      · exact hfirst.2 e he
      · exact lookUpNetworkSession_noRetrieve env _ e he
      · rfl

theorem retrieveCacheEntry_grounded (cache : Option Cache)
    (parameters : NetworkResourceLoadParameters) (validating : Bool)
    (l : NetworkResourceLoader) (request : ResourceRequest)
    (h : l.GroundedIn cache parameters validating) :
    Outcome.Grounded cache parameters validating (l.retrieveCacheEntry request) := by
  unfold retrieveCacheEntry
  split
  · exact grounded_none cache parameters validating
  · next c hc =>
    intro r hr
    simp only [Option.some.injEq] at hr
    subst hr
    refine ⟨h, fun e _ _ => ?_⟩
    rw [← h.1, hc]
    rfl

theorem start_grounded (env : Env) (cache : Option Cache)
    (parameters : NetworkResourceLoadParameters) (validating : Bool)
    (l : NetworkResourceLoader) (h : l.GroundedIn cache parameters validating) :
    Outcome.Grounded cache parameters validating (l.start env) := by
  unfold start
  split
  · exact grounded_some _ _ _ l [] h (by simp)
  · simp only
    split
    · exact grounded_some _ _ _ _ _ (by exact h) (noRetrieve_of_all _ rfl)
    · split
      · exact retrieveCacheEntry_grounded _ _ _ _ _ (by exact h)
      · exact startNetworkLoad_grounded env _ _ _ _ _ _ (by exact h)

theorem startCheckCompletion_grounded (env : Env) (cache : Option Cache)
    (parameters : NetworkResourceLoadParameters) (validating : Bool)
    (l : NetworkResourceLoader) (result : RequestOrError)
    (h : l.GroundedIn cache parameters validating) :
    Outcome.Grounded cache parameters validating (l.startCheckCompletion env result) := by
  unfold startCheckCompletion
  split
  · split
    · exact didFailLoading_grounded env _ _ _ l _ h
    · exact grounded_some _ _ _ l [] h (by simp)
  · split
    · exact retrieveCacheEntry_grounded _ _ _ _ _ h
    · exact startNetworkLoad_grounded env _ _ _ _ _ _ h

theorem setDefersLoading_grounded (env : Env) (cache : Option Cache)
    (parameters : NetworkResourceLoadParameters) (validating : Bool)
    (l : NetworkResourceLoader) (defers : Bool)
    (h : l.GroundedIn cache parameters validating) :
    Outcome.Grounded cache parameters validating (l.setDefersLoading env defers) := by
  unfold setDefersLoading
  split
  · exact grounded_some _ _ _ l [] h (by simp)
  · simp only
    split
    · exact grounded_some _ _ _ _ _ (by exact h) (noRetrieve_of_all _ rfl)
    · split
      · exact start_grounded env _ _ _ _ (by exact h)
      · exact grounded_some _ _ _ _ _ (by exact h) (by simp)

theorem abort_grounded (cache : Option Cache) (parameters : NetworkResourceLoadParameters)
    (validating : Bool) (l : NetworkResourceLoader)
    (h : l.GroundedIn cache parameters validating) :
    Outcome.Grounded cache parameters validating (some l.abort) := by
  apply grounded_some
  · exact cleanup_groundedIn l cache parameters validating h
  · apply noRetrieve_append
    · split
      · apply noRetrieve_append
        · split
          · split
            · exact noRetrieve_of_all _ rfl
            · simp
          · simp
        · exact noRetrieve_of_all _ rfl
      · simp
    · exact cleanup_noRetrieve l

theorem convertToDownload_grounded (env : Env) (cache : Option Cache)
    (parameters : NetworkResourceLoadParameters) (validating : Bool)
    (l : NetworkResourceLoader) (downloadID : Nat) (request : ResourceRequest)
    (response : ResourceResponse) (h : l.GroundedIn cache parameters validating) :
    Outcome.Grounded cache parameters validating
      (some (l.convertToDownload env downloadID request response)) :=
  grounded_some _ _ _ _ _ (by exact h) (noRetrieve_of_all _ rfl)

theorem continueWillSendRequest_grounded (env : Env) (cache : Option Cache)
    (parameters : NetworkResourceLoadParameters) (validating : Bool)
    (l : NetworkResourceLoader) (newRequest : ResourceRequest) (allowed : Bool)
    (h : l.GroundedIn cache parameters validating) :
    Outcome.Grounded cache parameters validating
      (l.continueWillSendRequest env newRequest allowed) := by
  unfold continueWillSendRequest
  simp only
  split
  · split
    · exact retrieveCacheEntry_grounded _ _ _ _ _ (by exact h)
    · exact startNetworkLoad_grounded env _ _ _ _ _ _ (by exact h)
  · split
    · exact grounded_some _ _ _ _ _ (by exact h) (noRetrieve_of_all _ rfl)
    · exact grounded_some _ _ _ _ _ (by exact h) (by simp)

theorem continueProcessingCachedEntryAfterDidReceiveResponse_grounded (env : Env)
    (cache : Option Cache) (parameters : NetworkResourceLoadParameters) (validating : Bool)
    (l : NetworkResourceLoader) (entry : Entry)
    (h : l.GroundedIn cache parameters validating) :
    Outcome.Grounded cache parameters validating
      (l.continueProcessingCachedEntryAfterDidReceiveResponse env entry) := by
  intro r hr
  refine ⟨?_, fun e he hx => ?_⟩
  · unfold continueProcessingCachedEntryAfterDidReceiveResponse at hr
    split at hr
    · split at hr
      · split at hr
        · simp at hr
        · simp only [Option.some.injEq] at hr
          subst hr
          exact h
      · simp only [Option.some.injEq] at hr
        subst hr
        simp only [sendResultForCacheEntry_fst]
        exact cleanup_groundedIn l _ _ _ h
    · simp only [Option.some.injEq] at hr
      subst hr
      simp only [sendResultForCacheEntry_fst]
      exact cleanup_groundedIn l _ _ _ h
  · rw [noRetrieve_of_quiet e
      (continueProcessingCachedEntryAfterDidReceiveResponse_quiet env l entry r hr e he)] at hx
    exact Bool.noConfusion hx

theorem continueDidReceiveResponse_grounded (env : Env) (cache : Option Cache)
    (parameters : NetworkResourceLoadParameters) (validating : Bool)
    (l : NetworkResourceLoader) (h : l.GroundedIn cache parameters validating) :
    Outcome.Grounded cache parameters validating (l.continueDidReceiveResponse env) := by
  unfold continueDidReceiveResponse
  split
  · exact continueProcessingCachedEntryAfterDidReceiveResponse_grounded env _ _ _ _ _
      (by exact h)
  · split
    · exact grounded_some _ _ _ _ _ h (noRetrieve_of_all _ rfl)
    · exact grounded_some _ _ _ _ _ h (by simp)

theorem didReceiveBuffer_grounded (cache : Option Cache)
    (parameters : NetworkResourceLoadParameters) (validating : Bool)
    (l : NetworkResourceLoader) (buffer : SharedBuffer) (reported : Int)
    (h : l.GroundedIn cache parameters validating) :
    Outcome.Grounded cache parameters validating (some (l.didReceiveBuffer buffer reported)) := by
  intro r hr
  simp only [Option.some.injEq] at hr
  subst hr
  refine ⟨⟨(didReceiveBuffer_m_cache l buffer reported).trans h.1,
    (didReceiveBuffer_m_parameters l buffer reported).trans h.2.1,
    fun hv => h.2.2 (by rw [← didReceiveBuffer_m_cacheEntryForValidation l buffer reported];
                        exact hv)⟩, fun e he hx => ?_⟩
  unfold didReceiveBuffer at he
  simp only at he
  split at he
  · simp at he
  · simp only [sendBuffer, List.mem_singleton] at he
    subst he
    exact Bool.noConfusion hx

theorem didRetrieveCacheEntry_grounded (env : Env) (cache : Option Cache)
    (parameters : NetworkResourceLoadParameters) (validating : Bool)
    (l : NetworkResourceLoader) (entry : Entry)
    (h : l.GroundedIn cache parameters validating) :
    Outcome.Grounded cache parameters validating (l.didRetrieveCacheEntry env entry) := by
  intro r hr
  refine ⟨?_, fun e he hx => ?_⟩
  · unfold didRetrieveCacheEntry at hr
    simp only at hr
    split at hr
    · exact (didFailLoading_grounded env _ _ _ l _ h r hr).1
    · split at hr
      · split at hr
        · simp at hr
        · simp only [Option.some.injEq] at hr
          subst hr
          exact cleanup_groundedIn _ _ _ _ (by exact h)
      · split at hr
        · simp only [Option.some.injEq] at hr
          subst hr
          exact h
        · simp only [Outcome.andThen] at hr
          split at hr
          · simp at hr
          · next l1 es1 hc =>
            simp only [Option.some.injEq] at hr
            subst hr
            exact (continueProcessingCachedEntryAfterDidReceiveResponse_grounded env _ _ _ l
              entry h _ hc).1
  · rw [noRetrieve_of_quiet e (didRetrieveCacheEntry_quiet env l entry r hr e he)] at hx
    exact Bool.noConfusion hx

theorem tryStoreAsCacheEntry_grounded (cache : Option Cache)
    (parameters : NetworkResourceLoadParameters) (validating : Bool)
    (l : NetworkResourceLoader) (h : l.GroundedIn cache parameters validating) :
    Outcome.Grounded cache parameters validating l.tryStoreAsCacheEntry := by
  unfold tryStoreAsCacheEntry
  split
  · exact grounded_none _ _ _
  · split
    · exact grounded_some _ _ _ l [] h (by simp)
    · split
      · exact grounded_some _ _ _ l [] h (by simp)
      · exact grounded_some _ _ _ _ _ (by exact h) (noRetrieve_of_all _ rfl)

theorem didFinishLoading_grounded (env : Env) (cache : Option Cache)
    (parameters : NetworkResourceLoadParameters) (validating : Bool)
    (l : NetworkResourceLoader) (metrics : NetworkLoadMetrics)
    (h : l.GroundedIn cache parameters validating) :
    Outcome.Grounded cache parameters validating (l.didFinishLoading env metrics) := by
  have hcapture : ∀ e ∈ (if env.captureExtraNetworkLoadMetricsEnabled then
      [Effect.addNetworkLoadInformationMetrics l.identifier metrics] else []),
      e.isRetrieve = false := by
    split
    · exact noRetrieve_of_all _ rfl
    · simp
  unfold didFinishLoading
  simp only
  split
  · apply grounded_andThen
    · exact grounded_some _ _ _ _ _ ⟨h.1, h.2.1, fun hv => Bool.noConfusion hv⟩ hcapture
    · intro l1 h1
      exact didRetrieveCacheEntry_grounded env _ _ _ l1 _ h1
  · apply grounded_andThen
    · apply grounded_andThen
      · split
        · split
          · exact grounded_none _ _ _
          · next data data1 es hs =>
            refine grounded_some _ _ _ _ _ (by exact h) ?_
            exact noRetrieve_append _ _ hcapture
              (fun e he => noRetrieve_of_quiet e
                (sendReplyToSynchronousRequest_quiet _ _ _ _ hs e he))
        · apply grounded_some _ _ _ _ _ h
          apply noRetrieve_append
          · apply noRetrieve_append _ _ hcapture
            split
            · split
              · exact noRetrieve_of_all _ rfl
              · simp
            · simp
          · exact noRetrieve_of_all _ rfl
      · intro l1 h1
        exact tryStoreAsCacheEntry_grounded _ _ _ l1 h1
    · intro l1 h1
      exact grounded_some _ _ _ _ _ (cleanup_groundedIn l1 _ _ _ h1) (cleanup_noRetrieve l1)

theorem revalidate_isSome (env : Env) (l : NetworkResourceLoader) (entry : Option Entry)
    (updates : List Effect) (h : revalidate env l = some (entry, updates))
    (hentry : entry.isSome = true) : l.m_cacheEntryForValidation.isSome = true := by
  unfold revalidate at h
  split at h
  · simp only [Option.some.injEq, Prod.mk.injEq] at h
    obtain ⟨rfl, -⟩ := h
    exact Bool.noConfusion hentry
  · next pending hpending =>
    rw [hpending]
    rfl

theorem didReceiveResponse_grounded (env : Env) (cache : Option Cache)
    (parameters : NetworkResourceLoadParameters) (validating : Bool)
    (l : NetworkResourceLoader) (response : ResourceResponse)
    (h : l.GroundedIn cache parameters validating) :
    Outcome.Grounded cache parameters validating
      ((l.didReceiveResponse env response).map (fun r => (r.1, r.2.1))) := by
  intro r hr
  unfold didReceiveResponse at hr
  simp only at hr
  split at hr
  · simp at hr
  · next entry updates hrev =>
    have hu := quiet_of_all _ (revalidate_quiet env _ _ _ hrev)
    have hv := revalidate_isSome env _ entry updates hrev
    simp only at hv
    have hg : ∀ l1 : NetworkResourceLoader, l1.m_cache = l.m_cache →
        l1.m_parameters = l.m_parameters → l1.m_cacheEntryForValidation = entry →
        l1.GroundedIn cache parameters validating :=
      fun l1 h1 h2 h3 => ⟨h1.trans h.1, h2.trans h.2.1, fun hs => h.2.2 (hv (h3 ▸ hs))⟩
    (repeat' split at hr) <;>
      simp only [Option.map_some', Option.some.injEq] at hr <;>
      subst hr <;>
      refine ⟨hg _ rfl rfl rfl, fun e he hx => ?_⟩ <;>
      simp only [List.mem_append, List.mem_singleton, List.mem_cons, List.mem_nil_iff, or_false,
        false_or, List.nil_append, List.append_nil] at he <;>
      (try casesm* _ ∨ _) <;>
      first
        | (rw [noRetrieve_of_quiet e (hu e (by assumption))] at hx; exact Bool.noConfusion hx)
        | (subst_vars; exact Bool.noConfusion hx)

theorem continueWillSendRedirectedRequest_grounded (env : Env) (cache : Option Cache)
    (parameters : NetworkResourceLoadParameters) (validating : Bool)
    (l : NetworkResourceLoader) (request redirectRequest : ResourceRequest)
    (redirectResponse : ResourceResponse) (h : l.GroundedIn cache parameters validating) :
    Outcome.Grounded cache parameters validating
      (l.continueWillSendRedirectedRequest env request redirectRequest redirectResponse) := by
  have hstored : ∀ e ∈ (if l.canUseCachedRedirect request then
      [Effect.cacheStoreRedirect request redirectResponse redirectRequest] else []),
      e.isRetrieve = false := by
    split
    · exact noRetrieve_of_all _ rfl
    · simp
  unfold continueWillSendRedirectedRequest
  simp only
  split
  · apply grounded_andThen
    · exact grounded_some _ _ _ _ _ h hstored
    · intro l1 h1
      exact didFailLoading_grounded env _ _ _ l1 _ h1
  · exact grounded_some _ _ _ _ _ h (noRetrieve_append _ _ hstored (noRetrieve_of_all _ rfl))

theorem willSendRedirectedRequest_grounded (env : Env) (cache : Option Cache)
    (parameters : NetworkResourceLoadParameters) (validating : Bool)
    (l : NetworkResourceLoader) (request redirectRequest : ResourceRequest)
    (redirectResponse : ResourceResponse) (h : l.GroundedIn cache parameters validating) :
    Outcome.Grounded cache parameters validating
      (l.willSendRedirectedRequest env request redirectRequest redirectResponse) := by
  unfold willSendRedirectedRequest
  simp only
  split
  · exact grounded_some _ _ _ _ _ (by exact h) (noRetrieve_of_all _ rfl)
  · exact continueWillSendRedirectedRequest_grounded env _ _ _ _ _ _ _ (by exact h)

theorem bufferingTimerFired_grounded (cache : Option Cache)
    (parameters : NetworkResourceLoadParameters) (validating : Bool)
    (l : NetworkResourceLoader) (h : l.GroundedIn cache parameters validating) :
    Outcome.Grounded cache parameters validating l.bufferingTimerFired := by
  unfold bufferingTimerFired
  split
  · exact grounded_none _ _ _
  · split
    · exact grounded_some _ _ _ _ _ h (by simp)
    · exact grounded_some _ _ _ _ _ (by exact h) (noRetrieve_of_all _ rfl)

theorem checkRedirectionCompletion_grounded (env : Env) (cache : Option Cache)
    (parameters : NetworkResourceLoadParameters) (validating : Bool)
    (l : NetworkResourceLoader) (storedCredentialsPolicy : StoredCredentialsPolicy)
    (request : ResourceRequest) (redirectResponse : ResourceResponse) (result : RequestOrError)
    (h : l.GroundedIn cache parameters validating) :
    Outcome.Grounded cache parameters validating
      (l.checkRedirectionCompletion env storedCredentialsPolicy request redirectResponse
        result) := by
  unfold checkRedirectionCompletion
  split
  · split
    · exact grounded_some _ _ _ l [] h (by simp)
    · exact didFailLoading_grounded env _ _ _ l _ h
  · split
    · exact grounded_none _ _ _
    · split
      · split
        · exact grounded_none _ _ _
        · apply grounded_andThen
          · exact grounded_some _ _ _ _ _ h (noRetrieve_of_all _ rfl)
          · intro l1 h1
            exact startNetworkLoad_grounded env _ _ _ l1 _ _ h1
      · split
        · exact continueWillSendRequest_grounded env _ _ _ l _ _ h
        · exact continueWillSendRedirectedRequest_grounded env _ _ _ l _ _ _ h

theorem dispatchedDidFailLoading_grounded (env : Env) (cache : Option Cache)
    (parameters : NetworkResourceLoadParameters) (validating : Bool)
    (l : NetworkResourceLoader) (error : ResourceError)
    (h : l.GroundedIn cache parameters validating) :
    Outcome.Grounded cache parameters validating (l.dispatchedDidFailLoading env error) := by
  unfold dispatchedDidFailLoading
  split
  · exact didFailLoading_grounded env _ _ _ l _ h
  · exact grounded_some _ _ _ l [] h (by simp)

theorem retrieveDataCompletion_grounded (env : Env) (cache : Option Cache)
    (parameters : NetworkResourceLoadParameters) (validating : Bool)
    (l : NetworkResourceLoader) (hasOneRef : Bool) (entry : Entry) (type : String)
    (retrieveCount : Nat) (data : Option SharedBuffer)
    (h : l.GroundedIn cache parameters validating) :
    Outcome.Grounded cache parameters validating
      (some (l.retrieveDataCompletion env hasOneRef entry type retrieveCount data)) := by
  have hsent : ∀ e ∈ ((match data with
      | some d => [Effect.send (Message.DidRetrieveDerivedData type d)]
      | none => []) : List Effect), e.isRetrieve = false := by
    split
    · exact noRetrieve_of_all _ rfl
    · simp
  unfold retrieveDataCompletion
  simp only
  split
  · exact grounded_some _ _ _ _ _ (by exact h) (by simp)
  · split
    · apply grounded_some
      · rw [sendResultForCacheEntry_fst]
        exact cleanup_groundedIn _ _ _ _ (by exact h)
      · exact noRetrieve_append _ _
          (noRetrieve_append _ _ hsent
            (fun e he => noRetrieve_of_quiet e (sendResultForCacheEntry_quiet env _ entry e he)))
          (cleanup_noRetrieve _)
    · exact grounded_some _ _ _ _ _ (by exact h) hsent

theorem storeCompletion_grounded (env : Env) (cache : Option Cache)
    (parameters : NetworkResourceLoadParameters) (validating : Bool)
    (l : NetworkResourceLoader) (handle : Option Nat)
    (h : l.GroundedIn cache parameters validating) :
    Outcome.Grounded cache parameters validating (some (l.storeCompletion env handle)) := by
  unfold storeCompletion
  split
  · split
    · exact grounded_some _ _ _ l [] h (by simp)
    · exact grounded_some _ _ _ _ _ h (noRetrieve_of_all _ rfl)
  · exact grounded_some _ _ _ l [] h (by simp)

theorem didSendData_grounded (cache : Option Cache)
    (parameters : NetworkResourceLoadParameters) (validating : Bool)
    (l : NetworkResourceLoader) (bytesSent totalBytesToBeSent : Nat)
    (h : l.GroundedIn cache parameters validating) :
    Outcome.Grounded cache parameters validating
      (some (l.didSendData bytesSent totalBytesToBeSent)) := by
  unfold didSendData
  split
  · exact grounded_some _ _ _ _ _ h (noRetrieve_of_all _ rfl)
  · exact grounded_some _ _ _ l [] h (by simp)

theorem didBlockAuthenticationChallenge_grounded (cache : Option Cache)
    (parameters : NetworkResourceLoadParameters) (validating : Bool)
    (l : NetworkResourceLoader) (h : l.GroundedIn cache parameters validating) :
    Outcome.Grounded cache parameters validating (some l.didBlockAuthenticationChallenge) :=
  grounded_some _ _ _ _ _ h (noRetrieve_of_all _ rfl)

theorem validateCacheEntry_grounded (env : Env) (cache : Option Cache)
    (parameters : NetworkResourceLoadParameters) (validating : Bool)
    (l : NetworkResourceLoader) (entry : Entry)
    (h : l.GroundedIn cache parameters validating) :
    Outcome.Grounded cache parameters true (l.validateCacheEntry env entry) := by
  unfold validateCacheEntry
  exact startNetworkLoad_grounded env _ _ _ _ _ _ ⟨h.1, h.2.1, fun _ => rfl⟩

theorem dispatchWillSendRequestForCacheEntry_grounded (env : Env) (cache : Option Cache)
    (parameters : NetworkResourceLoadParameters) (validating : Bool)
    (l : NetworkResourceLoader) (entry : Entry)
    (h : l.GroundedIn cache parameters validating) :
    Outcome.Grounded cache parameters validating
      (l.dispatchWillSendRequestForCacheEntry env entry) := by
  unfold dispatchWillSendRequestForCacheEntry
  split
  · exact didFailLoading_grounded env _ _ _ l _ h
  · split
    · exact grounded_none _ _ _
    · exact grounded_some _ _ _ _ _ (by exact h) (noRetrieve_of_all _ rfl)

theorem retrieveCacheEntryCompletion_grounded (env : Env) (cache : Option Cache)
    (parameters : NetworkResourceLoadParameters) (validating : Bool)
    (l : NetworkResourceLoader) (hasOneRef : Bool) (request : ResourceRequest)
    (entry : Option Entry) (h : l.GroundedIn cache parameters validating) :
    Outcome.Grounded cache parameters true
      (l.retrieveCacheEntryCompletion env hasOneRef request entry) := by
  have h1 := groundedIn_mono l cache parameters validating h
  unfold retrieveCacheEntryCompletion
  split
  · exact grounded_some _ _ _ l [] h1 (by simp)
  · split
    · exact startNetworkLoad_grounded env _ _ _ _ _ _ h1
    · split
      · exact dispatchWillSendRequestForCacheEntry_grounded env _ _ _ l _ h1
      · split
        · exact startNetworkLoad_grounded env _ _ _ _ _ _ h1
        · split
          · exact validateCacheEntry_grounded env _ _ _ l _ h1
          · exact didRetrieveCacheEntry_grounded env _ _ _ l _ h1

/-- C21: the completion handler of `retrieveCacheEntry` takes the one action the
specification names, chosen by first match: nothing when the loader is
orphaned, else `startNetworkLoad` (the request of the lookup, first attempt)
without an entry, else `dispatchWillSendRequestForCacheEntry` for an entry with
a redirect request, else `startNetworkLoad` when certificate info is needed and
absent, else `validateCacheEntry` when the entry needs validation or the cache
policy of the request is RefreshAnyCacheData, else `didRetrieveCacheEntry`.  A
redirect entry is replayed whether or not it needs validation. -/
theorem retrieveCacheEntryCompletion_eq (env : Env) (l : NetworkResourceLoader)
    (hasOneRef : Bool) (request : ResourceRequest) (entry : Option Entry) :
    l.retrieveCacheEntryCompletion env hasOneRef request entry
        = (retrieveActionSpec hasOneRef entry l.m_parameters.needsCertificateInfo
            request.cachePolicy).call env l request entry
    ∧ (∀ e : Entry, e.redirectRequest.isSome = true →
        l.retrieveCacheEntryCompletion env false request (some e)
          = l.dispatchWillSendRequestForCacheEntry env e)
    ∧ l.retrieveCacheEntryCompletion env false request (some sampleStaleRedirectEntry)
        = l.dispatchWillSendRequestForCacheEntry env sampleStaleRedirectEntry := by
  have hredirect : ∀ e : Entry, e.redirectRequest.isSome = true →
      l.retrieveCacheEntryCompletion env false request (some e)
        = l.dispatchWillSendRequestForCacheEntry env e := by
    intro e he
    simp [retrieveCacheEntryCompletion, he]
  refine ⟨?_, hredirect, hredirect _ rfl⟩
  unfold retrieveCacheEntryCompletion retrieveActionSpec
  cases hasOneRef with
  | true => rfl
  | false =>
    cases entry with
    | none => rfl
    | some e =>
      cases hr : e.redirectRequest.isSome with
      | true => simp [RetrieveAction.call, hr]
      | false =>
        cases hn : l.m_parameters.needsCertificateInfo <;>
          cases hc : e.response.hasCertificateInfo <;>
          cases hv : e.needsValidation <;>
          by_cases hp : request.cachePolicy = ResourceRequestCachePolicy.RefreshAnyCacheData <;>
          simp [RetrieveAction.call, hr, hn, hc, hv, hp]

theorem responseError_congr (env : Env) (l1 l : NetworkResourceLoader)
    (response : ResourceResponse) (hp : l1.m_parameters = l.m_parameters)
    (hc : l1.m_networkLoadChecker = l.m_networkLoadChecker) :
    l1.responseError env response = l.responseError env response := by
  simp only [responseError, hp, hc]

theorem revalidate_pending (env : Env) (l : NetworkResourceLoader) (entry : Option Entry)
    (updates : List Effect) (hrev : revalidate env l = some (entry, updates)) :
    entry.isSome = (l.m_cacheEntryForValidation.isSome && l.m_response.httpStatusCode == 304
        && !l.originalRequest.isConditional)
      ∧ ∀ e ∈ updates, ∀ sent flag, e ≠ Effect.send (Message.DidReceiveResponse sent flag) := by
  unfold revalidate at hrev
  cases he : l.m_cacheEntryForValidation with
  | none =>
    simp only [he, Option.some.injEq, Prod.mk.injEq] at hrev
    obtain ⟨rfl, rfl⟩ := hrev
    exact ⟨rfl, by simp⟩
  | some entry0 =>
    by_cases hst : l.m_response.httpStatusCode = 304
    · cases hcache : l.m_cache with
      | none => simp [he, hcache, hst] at hrev
      | some cache =>
        cases hcond : l.originalRequest.isConditional <;>
          simp only [he, hcache, hst, if_true, hcond, Option.some.injEq, Prod.mk.injEq] at hrev <;>
          obtain ⟨rfl, rfl⟩ := hrev <;>
          refine ⟨by simp [he, hst, hcond], ?_⟩ <;>
          intro e he1 sent flag <;>
          simp only [List.mem_singleton] at he1 <;>
          subst he1 <;>
          exact Effect.noConfusion
    · simp only [he, hst, if_false, Option.some.injEq, Prod.mk.injEq] at hrev
      obtain ⟨rfl, rfl⟩ := hrev
      exact ⟨by simp [hst], by simp⟩

theorem didReceiveResponse_unfold (env : Env) (l : NetworkResourceLoader)
    (response : ResourceResponse) :
    ∃ (l3 : NetworkResourceLoader) (capture : List Effect),
      l3.m_parameters = l.m_parameters
      ∧ l3.m_cacheEntryForValidation = l.m_cacheEntryForValidation
      ∧ l3.m_response = response
      ∧ l3.m_cache = l.m_cache
      ∧ (∀ e ∈ capture, ∀ sent flag, e ≠ Effect.send (Message.DidReceiveResponse sent flag))
      ∧ l.didReceiveResponse env response =
        match revalidate env l3 with
        | none => none
        | some (entry, updates) =>
          if entry.isNone then
            if !(l.responseError env response).isNull then
              some ({ l3 with m_cacheEntryForValidation := entry },
                    capture ++ updates
                      ++ [Effect.dispatchDidFailLoading (l.responseError env response)],
                    ShouldContinueDidReceiveResponse.No)
            else
              match l3.m_synchronousLoadData with
              | some data =>
                some ({ l3 with
                        m_cacheEntryForValidation := entry,
                        m_synchronousLoadData := some { data with
                          response := (sanitizeResponseIfPossible env l response
                            SanitizationType.CrossOriginSafe) } },
                      capture ++ updates,
                      if !l.isMainResource || entry.isSome then ShouldContinueDidReceiveResponse.Yes
                      else ShouldContinueDidReceiveResponse.No)
              | none =>
                some ({ l3 with m_cacheEntryForValidation := entry },
                      capture ++ updates
                        ++ [Effect.send (Message.DidReceiveResponse
                              (sanitizeResponseIfPossible env l response
                                SanitizationType.CrossOriginSafe) l.isMainResource)],
                      if !l.isMainResource || entry.isSome then ShouldContinueDidReceiveResponse.Yes
                      else ShouldContinueDidReceiveResponse.No)
          else
            some ({ l3 with m_cacheEntryForValidation := entry }, capture ++ updates,
                  if !l.isMainResource || entry.isSome then ShouldContinueDidReceiveResponse.Yes
                  else ShouldContinueDidReceiveResponse.No) := by
  refine ⟨{ l with
            m_response := response
            m_bufferedData :=
              if !l.isSynchronous && response.isMultipart then none else l.m_bufferedData
            m_bufferedDataForCache :=
              if response.isMultipart then none else l.m_bufferedDataForCache },
    if env.captureExtraNetworkLoadMetricsEnabled then
      [Effect.addNetworkLoadInformationResponse l.identifier response]
    else [], rfl, rfl, rfl, rfl, ?_, ?_⟩
  · intro e he sent flag
    split at he
    · simp only [List.mem_singleton] at he
      subst he
      exact Effect.noConfusion
    · simp at he
  · rfl

/-- C23: `didReceiveResponse` returns whenever the 304 handling has a cache to
update.  It returns No (wait for the continue signal of the client) if and only
if a validation error was found (no revalidation entry remains pending, so the
response is validated, and the error is not null), or the load is a main
resource and no revalidation entry remains pending after the 304 handling; in
every other case it returns Yes.  The entry remains pending exactly for a 304
answer to a revalidation of a request that is not conditional.  The flag of
every DidReceiveResponse message sent is `isMainResource()`. -/
theorem didReceiveResponse_result (env : Env) (l : NetworkResourceLoader)
    (response : ResourceResponse) :
    ((l.m_cacheEntryForValidation = none ∨ response.httpStatusCode ≠ 304
        ∨ l.m_cache.isSome = true) → (l.didReceiveResponse env response).isSome = true)
    ∧ ∀ r, l.didReceiveResponse env response = some r →
        (r.2.2 = ShouldContinueDidReceiveResponse.No ↔
          ((r.1.m_cacheEntryForValidation = none
              ∧ (l.responseError env response).isNull = false)
            ∨ (l.isMainResource = true ∧ r.1.m_cacheEntryForValidation = none)))
        ∧ (r.2.2 ≠ ShouldContinueDidReceiveResponse.No →
            r.2.2 = ShouldContinueDidReceiveResponse.Yes)
        ∧ (r.1.m_cacheEntryForValidation.isSome
            = (l.m_cacheEntryForValidation.isSome && response.httpStatusCode == 304
                && !l.originalRequest.isConditional))
        ∧ (∀ sent flag, Effect.send (Message.DidReceiveResponse sent flag) ∈ r.2.1 →
            flag = l.isMainResource) := by
  constructor
  · intro h
    obtain ⟨l3, capture, hp, he, hresp, hc, hcap, heq⟩ := didReceiveResponse_unfold env l response
    rw [heq]
    split
    · next hnone =>
      rw [revalidate_eq_none_iff, he, hresp, hc] at hnone
      obtain ⟨h1, h2, h3⟩ := hnone
      rcases h with h | h | h
      · simp [h] at h1
      · exact absurd h2 h
      · simp [h3] at h
    · (repeat' split) <;> rfl
  · intro r hr
    obtain ⟨l3, capture, hp, he, hresp, hc, hcap, heq⟩ := didReceiveResponse_unfold env l response
    rw [heq] at hr
    split at hr
    · exact Option.noConfusion hr
    next entry updates hrev =>
    obtain ⟨hsome, hup⟩ := revalidate_pending env _ entry updates hrev
    rw [he, hresp, originalRequest, hp] at hsome
    clear heq hrev
    cases hm : l.isMainResource <;> cases hn : (l.responseError env response).isNull <;>
      cases entry <;> cases hs : l3.m_synchronousLoadData <;>
      simp [hm, hn, hs] at hr <;>
      subst hr <;>
      refine ⟨by simp [hm, hn], by simp [hm, hn], hsome, ?_⟩ <;>
      intro sent flag hmem <;>
      simp only [List.mem_append, List.mem_singleton] at hmem <;>
      (try casesm* _ ∨ _) <;>
      first
        | exact absurd rfl (hcap _ (by assumption) sent flag)
        | exact absurd rfl (hup _ (by assumption) sent flag)
        | simp_all

/-- C26: `shouldCancelCrossOriginLoad(response, ancestors)` returns false when
the From-Origin directive of the response is None or Invalid.  For Same it
returns true if and only if some frame-ancestor origin is not same-origin with
the origin of the response URL.  For SameSite, with the public-suffix list
enabled, it returns true if and only if some ancestor is a unique origin or has
a partition name different from that of the response host (without the list it
returns true).  Hence for an empty list of ancestors Same never cancels, and
SameSite never cancels with the public-suffix list enabled. -/
theorem shouldCancelCrossOriginLoad_iff (env : Env) (response : ResourceResponse)
    (frameAncestorOrigins : List SecurityOrigin) :
    ((env.parseFromOriginHeader (response.httpHeaderField HTTPHeaderName.FromOrigin)
          = FromOriginDisposition.None
        ∨ env.parseFromOriginHeader (response.httpHeaderField HTTPHeaderName.FromOrigin)
          = FromOriginDisposition.Invalid) →
      shouldCancelCrossOriginLoad env response frameAncestorOrigins = false)
    ∧ (env.parseFromOriginHeader (response.httpHeaderField HTTPHeaderName.FromOrigin)
          = FromOriginDisposition.Same →
        (shouldCancelCrossOriginLoad env response frameAncestorOrigins = true
          ↔ ∃ ancestor ∈ frameAncestorOrigins,
              env.isSameOriginAs ancestor (env.securityOriginCreate response.url) = false)
        ∧ shouldCancelCrossOriginLoad env response [] = false)
    ∧ (env.parseFromOriginHeader (response.httpHeaderField HTTPHeaderName.FromOrigin)
          = FromOriginDisposition.SameSite →
        (env.enablePublicSuffixList = true →
          (shouldCancelCrossOriginLoad env response frameAncestorOrigins = true
            ↔ ∃ ancestor ∈ frameAncestorOrigins,
                ancestor.isUnique = true
                ∨ env.partitionName ancestor.host ≠ env.partitionName response.url.host)
          ∧ shouldCancelCrossOriginLoad env response [] = false)
        ∧ (env.enablePublicSuffixList = false →
            shouldCancelCrossOriginLoad env response frameAncestorOrigins = true)) := by
  refine ⟨?_, ?_, ?_⟩
  · rintro (h | h) <;> simp [shouldCancelCrossOriginLoad, h]
  · intro h
    simp [shouldCancelCrossOriginLoad, h, areFrameAncestorsSameOrigin]
  · intro h
    constructor
    · intro hlist
      simp [shouldCancelCrossOriginLoad, h, areFrameAncestorsSameSite, hlist]
    · intro hlist
      simp [shouldCancelCrossOriginLoad, h, areFrameAncestorsSameSite, hlist]

theorem httpHeaderFieldOf_set_same (headers : HTTPHeaderMap) (name : HTTPHeaderName)
    (value : String) : httpHeaderFieldOf (setHTTPHeaderFieldOf headers name value) name = value := by
  simp [httpHeaderFieldOf, setHTTPHeaderFieldOf]

theorem find_filter_other (headers : HTTPHeaderMap) (name other : HTTPHeaderName)
    (h : other ≠ name) :
    (headers.filter (fun p => !(p.1 == name))).find? (fun p => p.1 == other)
      = headers.find? (fun p => p.1 == other) := by
  induction headers with
  | nil => rfl
  | cons p rest ih =>
    by_cases hp : p.1 = name
    · have hpo : (p.1 == other) = false := by
        simp only [beq_eq_false_iff_ne]
        exact fun hx => h (hx.symm.trans hp)
      have hpn : (p.1 == name) = true := by simp [hp]
      rw [List.filter_cons, List.find?_cons]
      simp only [hpn, hpo, Bool.not_true]
      exact ih
    · have hpn : (p.1 == name) = false := by
        simp only [beq_eq_false_iff_ne]
        exact hp
      rw [List.filter_cons]
      simp only [hpn, Bool.not_false, if_true]
      rw [List.find?_cons, List.find?_cons, ih]

theorem httpHeaderFieldOf_set_other (headers : HTTPHeaderMap) (name other : HTTPHeaderName)
    (value : String) (h : other ≠ name) :
    httpHeaderFieldOf (setHTTPHeaderFieldOf headers name value) other
      = httpHeaderFieldOf headers other := by
  have hne : (name == other) = false := by
    simp only [beq_eq_false_iff_ne]
    exact fun hx => h hx.symm
  unfold httpHeaderFieldOf setHTTPHeaderFieldOf
  rw [List.find?_cons]
  simp only [hne]
  rw [find_filter_other headers name other h]

/-- C27: `validateCacheEntry(entry)` starts the network load (first attempt) on
the loader whose pending validation entry is already `entry`, with a request
that has the URL, cache policy, cache partition and body of the original
request.  When the original request is conditional the request is the original
one, headers untouched.  When it is not, If-None-Match is the ETag of the entry
when that is not empty, If-Modified-Since is its Last-Modified when that is not
empty, and every other header field (these two included, when the value of the
entry is empty) is that of the original request.  When the load starts, the
transport holds this request and the entry is the pending validation entry. -/
theorem validateCacheEntry_request (env : Env) (l : NetworkResourceLoader) (entry : Entry) :
    ∃ revalidationRequest : ResourceRequest,
      l.validateCacheEntry env entry
        = startNetworkLoad env { l with m_cacheEntryForValidation := some entry }
            revalidationRequest FirstLoad.Yes
      ∧ revalidationRequest.url = l.originalRequest.url
      ∧ revalidationRequest.cachePolicy = l.originalRequest.cachePolicy
      ∧ revalidationRequest.cachePartition = l.originalRequest.cachePartition
      ∧ revalidationRequest.httpBody = l.originalRequest.httpBody
      ∧ (l.originalRequest.isConditional = true → revalidationRequest = l.originalRequest)
      ∧ (l.originalRequest.isConditional = false →
          httpHeaderFieldOf revalidationRequest.httpHeaderFields HTTPHeaderName.IfNoneMatch
            = (if (entry.response.httpHeaderField HTTPHeaderName.ETag).isEmpty then
                httpHeaderFieldOf l.originalRequest.httpHeaderFields HTTPHeaderName.IfNoneMatch
               else entry.response.httpHeaderField HTTPHeaderName.ETag)
          ∧ httpHeaderFieldOf revalidationRequest.httpHeaderFields HTTPHeaderName.IfModifiedSince
            = (if (entry.response.httpHeaderField HTTPHeaderName.LastModified).isEmpty then
                httpHeaderFieldOf l.originalRequest.httpHeaderFields
                  HTTPHeaderName.IfModifiedSince
               else entry.response.httpHeaderField HTTPHeaderName.LastModified)
          ∧ (∀ name, name ≠ HTTPHeaderName.IfNoneMatch → name ≠ HTTPHeaderName.IfModifiedSince →
              httpHeaderFieldOf revalidationRequest.httpHeaderFields name
                = httpHeaderFieldOf l.originalRequest.httpHeaderFields name)
          ∧ ((entry.response.httpHeaderField HTTPHeaderName.ETag).isEmpty = true →
              (entry.response.httpHeaderField HTTPHeaderName.LastModified).isEmpty = true →
              revalidationRequest = l.originalRequest))
      ∧ (∀ r, l.validateCacheEntry env entry = some r → r.1.m_networkLoad.isSome = true →
          r.1.m_networkLoad = some { currentRequest := revalidationRequest }
          ∧ r.1.m_cacheEntryForValidation = some entry) := by
  refine ⟨_, rfl, ?_, ?_, ?_, ?_, ?_, ?_, ?_⟩
  · simp only [originalRequest]; (repeat' split) <;> rfl
  · simp only [originalRequest]; (repeat' split) <;> rfl
  · simp only [originalRequest]; (repeat' split) <;> rfl
  · simp only [originalRequest]; (repeat' split) <;> rfl
  · intro h
    simp [h]
  · intro h
    have hI : HTTPHeaderName.IfNoneMatch ≠ HTTPHeaderName.IfModifiedSince := by decide
    cases he : (entry.response.httpHeaderField HTTPHeaderName.ETag).isEmpty <;>
      cases hm : (entry.response.httpHeaderField HTTPHeaderName.LastModified).isEmpty <;>
      simp only [h, he, hm, Bool.not_false, Bool.not_true, if_true, if_false,
        ResourceRequest.setHTTPHeaderField] <;>
      refine ⟨?_, ?_, ?_, ?_⟩ <;>
      (try intro name h1 h2) <;>
      simp [httpHeaderFieldOf_set_same, httpHeaderFieldOf_set_other, hI, hI.symm, *]
  · intro r hr hload
    obtain ⟨l1, es1⟩ := r
    have h := startNetworkLoad_started env _ l1 _ es1 hr hload
    exact ⟨h.1, h.2.2.1⟩

theorem didFailLoading_m_isAllowedToAskUserForCredentials (env : Env)
    (l : NetworkResourceLoader) (error : ResourceError)
    (o : NetworkResourceLoader × List Effect) (h : l.didFailLoading env error = some o) :
    o.1.m_isAllowedToAskUserForCredentials = l.m_isAllowedToAskUserForCredentials := by
  cases hs : l.m_synchronousLoadData with
  | none =>
    simp only [didFailLoading, hs, Option.some.injEq] at h
    subst h
    simp [cleanup, invalidateSandboxExtensions]
    split <;> rfl
  | some data =>
    cases hr : data.delayedReply with
    | false => simp [didFailLoading, hs, sendReplyToSynchronousRequest, hr] at h
    | true =>
      simp only [didFailLoading, hs, sendReplyToSynchronousRequest, hr, if_true,
        Option.some.injEq] at h
      subst h
      simp [cleanup, invalidateSandboxExtensions]
      split <;> rfl

theorem not_isTransportCall_of_inFailure (e : Effect) (h : e.inFailure = true) :
    e.isTransportCall = false := by
  cases e <;> simp_all [Effect.inFailure, Effect.inCleanup, Effect.isTransportCall]

theorem startNetworkLoad_first_attempt (env : Env) (l : NetworkResourceLoader)
    (request : ResourceRequest) (r : NetworkResourceLoader × List Effect)
    (h : l.startNetworkLoad env request FirstLoad.Yes = some r) :
    r.1.m_isAllowedToAskUserForCredentials = l.m_isAllowedToAskUserForCredentials
    ∧ r.1.m_isWaitingContinueWillSendRequestForCachedRedirect
        = l.m_isWaitingContinueWillSendRequestForCachedRedirect
    ∧ ∀ e ∈ r.2, e.isTransportCall = false := by
  have hfirst : (l.firstLoadSetup request).1.m_isAllowedToAskUserForCredentials
      = l.m_isAllowedToAskUserForCredentials := by
    simp only [firstLoadSetup, consumeSandboxExtensions]
  have hwait := (firstLoadSetup_state l request).2.2.2.2.2
  have hconsume : ∀ e ∈ (l.firstLoadSetup request).2, e.isTransportCall = false := by
    intro e he
    simp only [firstLoadSetup, consumeSandboxExtensions, List.mem_append, List.mem_map] at he
    rcases he with (⟨x, -, rfl⟩ | he) | ⟨x, -, rfl⟩
    · rfl
    · split at he
      · simp only [List.mem_singleton] at he
        subst he
        rfl
      · simp at he
    · rfl
  have hlookup : ∀ e ∈ (lookUpNetworkSession env
      (l.firstLoadSetup request).1.m_parameters.sessionID).2, e.isTransportCall = false := by
    intro e he
    simp only [lookUpNetworkSession] at he
    split at he
    · simp only [List.mem_singleton] at he
      subst he
      rfl
    · simp at he
  unfold startNetworkLoad at h
  simp only [if_true] at h
  split at h
  · simp only [Outcome.andThen] at h
    split at h
    · exact Option.noConfusion h
    · next l2 es2 hfail =>
      simp only [Option.some.injEq] at h
      subst h
      have h1 := didFailLoading_m_isAllowedToAskUserForCredentials env _ _ _ hfail
      have h2 := (didFailLoading_state env _ _ _ hfail).2.2.2.2
      have h3 := didFailLoading_effects_inFailure env _ _ _ hfail
      refine ⟨h1.trans hfirst, h2.trans hwait, ?_⟩
      intro e he
      simp only [List.mem_append, List.mem_singleton] at he
      rcases he with ((he | he) | he) | he
      · exact hconsume e he
      · exact hlookup e he
      · subst he
        rfl
      · exact not_isTransportCall_of_inFailure e (h3 e he)
  · simp only [Option.some.injEq] at h
    subst h
    refine ⟨hfirst, hwait, ?_⟩
    intro e he
    simp only [List.mem_append, List.mem_singleton] at he
    rcases he with (he | he) | he
    · exact hconsume e he
    · exact hlookup e he
    · subst he
      rfl

/-- C28: `continueWillSendRequest(newRequest, allow)` goes on with newRequest
under the cache policy and cache partition of the original request (nothing
else of it changes) and records `allow` as the permission to ask the user for
credentials.  If the loader was waiting for the answer of the client to a
cached redirect, the flag is cleared and the call is `retrieveCacheEntry` with
that request when `canUseCachedRedirect` holds of it, and `startNetworkLoad`
with that request as a first attempt otherwise; no call is made on a transport
(a first attempt creates its own).  If it was not waiting, the request is
forwarded to the transport when there is one, and nothing else happens. -/
theorem continueWillSendRequest_cases (env : Env) (l : NetworkResourceLoader)
    (newRequest : ResourceRequest) (allow : Bool) :
    ∃ adopted : ResourceRequest,
      adopted = { newRequest with cachePolicy := l.originalRequest.cachePolicy
                                  cachePartition := l.originalRequest.cachePartition }
      ∧ l.canUseCachedRedirect adopted = l.canUseCachedRedirect newRequest
      ∧ (l.m_isWaitingContinueWillSendRequestForCachedRedirect = true →
          (l.canUseCachedRedirect adopted = true →
            l.continueWillSendRequest env newRequest allow
              = retrieveCacheEntry
                  { l with m_isAllowedToAskUserForCredentials := allow
                           m_isWaitingContinueWillSendRequestForCachedRedirect := false }
                  adopted)
          ∧ (l.canUseCachedRedirect adopted = false →
              l.continueWillSendRequest env newRequest allow
                = startNetworkLoad env
                    { l with m_isAllowedToAskUserForCredentials := allow
                             m_isWaitingContinueWillSendRequestForCachedRedirect := false }
                    adopted FirstLoad.Yes)
          ∧ ∀ r, l.continueWillSendRequest env newRequest allow = some r →
              r.1.m_isWaitingContinueWillSendRequestForCachedRedirect = false
              ∧ ∀ e ∈ r.2, e.isTransportCall = false)
      ∧ (l.m_isWaitingContinueWillSendRequestForCachedRedirect = false →
          l.continueWillSendRequest env newRequest allow
            = some ({ l with m_isAllowedToAskUserForCredentials := allow },
                    if l.m_networkLoad.isSome then
                      [Effect.networkLoadContinueWillSendRequest adopted]
                    else []))
      ∧ ∀ r, l.continueWillSendRequest env newRequest allow = some r →
          r.1.m_isAllowedToAskUserForCredentials = allow := by
  refine ⟨_, rfl, ?_, ?_, ?_, ?_⟩
  · simp [canUseCachedRedirect_eq_and, canUseCache_eq]
  · intro hwait
    have hyes : l.canUseCachedRedirect
          { newRequest with cachePolicy := l.originalRequest.cachePolicy
                            cachePartition := l.originalRequest.cachePartition } = true →
        l.continueWillSendRequest env newRequest allow
          = retrieveCacheEntry
              { l with m_isAllowedToAskUserForCredentials := allow
                       m_isWaitingContinueWillSendRequestForCachedRedirect := false }
              { newRequest with cachePolicy := l.originalRequest.cachePolicy
                                cachePartition := l.originalRequest.cachePartition } := by
      intro hcan
      have hcan1 : canUseCachedRedirect
          { l with m_isAllowedToAskUserForCredentials := allow
                   m_isWaitingContinueWillSendRequestForCachedRedirect := false }
          { newRequest with cachePolicy := l.originalRequest.cachePolicy
                            cachePartition := l.originalRequest.cachePartition } = true := hcan
      unfold continueWillSendRequest
      simp only [hwait, if_true]
      exact if_pos hcan1
    have hno : l.canUseCachedRedirect
          { newRequest with cachePolicy := l.originalRequest.cachePolicy
                            cachePartition := l.originalRequest.cachePartition } = false →
        l.continueWillSendRequest env newRequest allow
          = startNetworkLoad env
              { l with m_isAllowedToAskUserForCredentials := allow
                       m_isWaitingContinueWillSendRequestForCachedRedirect := false }
              { newRequest with cachePolicy := l.originalRequest.cachePolicy
                                cachePartition := l.originalRequest.cachePartition }
              FirstLoad.Yes := by
      intro hcan
      have hcan1 : ¬ canUseCachedRedirect
          { l with m_isAllowedToAskUserForCredentials := allow
                   m_isWaitingContinueWillSendRequestForCachedRedirect := false }
          { newRequest with cachePolicy := l.originalRequest.cachePolicy
                            cachePartition := l.originalRequest.cachePartition } = true := by
        intro hx
        exact Bool.noConfusion (hcan.symm.trans hx)
      unfold continueWillSendRequest
      simp only [hwait, if_true]
      exact if_neg hcan1
    refine ⟨hyes, hno, ?_⟩
    intro r hr
    cases hcan : l.canUseCachedRedirect
          { newRequest with cachePolicy := l.originalRequest.cachePolicy
                            cachePartition := l.originalRequest.cachePartition } with
    | true =>
      rw [hyes hcan] at hr
      unfold retrieveCacheEntry at hr
      split at hr
      · exact Option.noConfusion hr
      · simp only [Option.some.injEq] at hr
        subst hr
        refine ⟨rfl, ?_⟩
        intro e he
        simp only [List.mem_singleton] at he
        subst he
        rfl
    | false =>
      rw [hno hcan] at hr
      have h := startNetworkLoad_first_attempt env _ _ r hr
      exact ⟨h.2.1, h.2.2⟩
  · intro hwait
    unfold continueWillSendRequest
    simp only [hwait]
    cases l.m_networkLoad <;> rfl
  · intro r hr
    unfold continueWillSendRequest at hr
    simp only [] at hr
    split at hr
    · split at hr
      · unfold retrieveCacheEntry at hr
        split at hr
        · exact Option.noConfusion hr
        · simp only [Option.some.injEq] at hr
          subst hr
          rfl
      · exact (startNetworkLoad_first_attempt env _ _ r hr).1
    · split at hr <;> simp only [Option.some.injEq] at hr <;> subst hr <;> rfl

theorem not_isStoreRedirect_of_inFailure (e : Effect) (h : e.inFailure = true) :
    e.isStoreRedirect = false := by
  cases e <;> simp_all [Effect.inFailure, Effect.inCleanup, Effect.isStoreRedirect]

/-- C30: in `continueWillSendRedirectedRequest`, whenever
`canUseCachedRedirect(request)` holds, the first call is
`storeRedirect(request, redirectResponse, redirectRequest)` with the redirect
response as received, and no other call of the function stores a redirect; the
From-Origin check comes after it.  When that check fails the load (the feature
is enabled, the check cancels and a transport exists) the rest is
`didFailLoading` with the From-Origin error and no WillSendRequest is sent;
otherwise the only other call sends WillSendRequest with the redirect request
and the redirect response sanitized in the Redirection mode.  When
`canUseCachedRedirect(request)` does not hold nothing is stored.  The function
returns for every asynchronous load. -/
theorem continueWillSendRedirectedRequest_stores_first (env : Env)
    (l : NetworkResourceLoader) (request redirectRequest : ResourceRequest)
    (redirectResponse : ResourceResponse) :
    (l.isSynchronous = false →
      (l.continueWillSendRedirectedRequest env request redirectRequest redirectResponse).isSome
        = true)
    ∧ (∀ r, l.continueWillSendRedirectedRequest env request redirectRequest redirectResponse
          = some r →
        ∃ rest,
          r.2 = (if l.canUseCachedRedirect request then
                   [Effect.cacheStoreRedirect request redirectResponse redirectRequest]
                 else []) ++ rest
          ∧ (∀ e ∈ rest, e.isStoreRedirect = false)
          ∧ ((l.m_parameters.shouldEnableFromOriginResponseHeader = true
                ∧ shouldCancelCrossOriginLoad env redirectResponse
                    l.m_parameters.frameAncestorOrigins = true
                ∧ l.m_networkLoad.isSome = true) →
              l.didFailLoading env (fromOriginResourceError redirectResponse.url)
                = some (r.1, rest)
              ∧ ∀ e ∈ r.2, e.isWillSendRequest = false)
          ∧ (¬ (l.m_parameters.shouldEnableFromOriginResponseHeader = true
                ∧ shouldCancelCrossOriginLoad env redirectResponse
                    l.m_parameters.frameAncestorOrigins = true
                ∧ l.m_networkLoad.isSome = true) →
              r.1 = l
              ∧ rest = [Effect.send (Message.WillSendRequest redirectRequest
                  (sanitizeResponseIfPossible env l redirectResponse
                    SanitizationType.Redirection))])) := by
  by_cases hcond : l.m_parameters.shouldEnableFromOriginResponseHeader = true
      ∧ shouldCancelCrossOriginLoad env redirectResponse
          l.m_parameters.frameAncestorOrigins = true
      ∧ l.m_networkLoad.isSome = true
  · have hif : (l.m_parameters.shouldEnableFromOriginResponseHeader
        && shouldCancelCrossOriginLoad env redirectResponse l.m_parameters.frameAncestorOrigins
        && l.m_networkLoad.isSome) = true := by
      simp [hcond.1, hcond.2.1, hcond.2.2]
    constructor
    · intro hs
      unfold continueWillSendRedirectedRequest
      simp only [hif, if_true, Outcome.andThen]
      have hsome := didFailLoading_isSome_of_asynchronous env l
        (fromOriginResourceError redirectResponse.url) hs
      cases hfail : l.didFailLoading env (fromOriginResourceError redirectResponse.url) with
      | none => rw [hfail] at hsome; exact Bool.noConfusion hsome
      | some o => rfl
    · intro r hr
      unfold continueWillSendRedirectedRequest at hr
      simp only [hif, if_true, Outcome.andThen] at hr
      split at hr
      · exact Option.noConfusion hr
      · next l2 es2 hfail =>
        simp only [Option.some.injEq] at hr
        subst hr
        have hin := didFailLoading_effects_inFailure env _ _ _ hfail
        refine ⟨es2, rfl, fun e he => not_isStoreRedirect_of_inFailure e (hin e he), ?_, ?_⟩
        · intro _
          refine ⟨hfail, ?_⟩
          intro e he
          simp only [List.mem_append] at he
          rcases he with he | he
          · split at he
            · simp only [List.mem_singleton] at he
              subst he
              rfl
            · simp at he
          · exact didFailLoading_no_redirect env _ _ _ hfail e he
        · intro hn
          exact absurd hcond hn
  · have hif : (l.m_parameters.shouldEnableFromOriginResponseHeader
        && shouldCancelCrossOriginLoad env redirectResponse l.m_parameters.frameAncestorOrigins
        && l.m_networkLoad.isSome) = false := by
      cases h1 : l.m_parameters.shouldEnableFromOriginResponseHeader <;>
        cases h2 : shouldCancelCrossOriginLoad env redirectResponse
          l.m_parameters.frameAncestorOrigins <;>
        cases h3 : l.m_networkLoad.isSome <;> simp_all
    constructor
    · intro _
      unfold continueWillSendRedirectedRequest
      simp only [hif]
      rfl
    · intro r hr
      unfold continueWillSendRedirectedRequest at hr
      simp only [hif, Bool.false_eq_true, if_false, Option.some.injEq] at hr
      subst hr
      refine ⟨_, rfl, ?_, fun h => absurd h hcond, fun _ => ⟨rfl, rfl⟩⟩
      intro e he
      simp only [List.mem_singleton] at he
      subst he
      rfl

theorem cleanup_filter_isClientMessage (l : NetworkResourceLoader) :
    l.cleanup.2.filter Effect.isClientMessage = [] := by
  rw [List.filter_eq_nil_iff]
  intro e he
  have h := cleanup_effects_inCleanup l e he
  cases e <;> simp_all [Effect.isClientMessage, Effect.inCleanup]

/-- For every loader state in which a synchronous load still has
its delayed reply, and every error e, one call of `didFailLoading(e)` returns,
leaves no pending validation entry, makes exactly one failure reply (for a
synchronous load the delayed reply with e, the recorded response and an empty
body, after which the delayed reply is cleared; for an asynchronous load the
message DidFailResourceLoad(e)) and then runs `cleanup`, once; the reply is the
only message the call sends to the client. -/
theorem didFailLoading_replies_once (env : Env) (l : NetworkResourceLoader)
    (error : ResourceError)
    (hreply : ∀ data, l.m_synchronousLoadData = some data → data.delayedReply = true) :
    ∃ (l1 l2 : NetworkResourceLoader) (before : List Effect) (reply : Effect),
      l.didFailLoading env error = some (l1, before ++ [reply] ++ l2.cleanup.2)
      ∧ l1 = l2.cleanup.1
      ∧ l1.m_cacheEntryForValidation = none
      ∧ reply = (match l.m_synchronousLoadData with
                 | some data => Effect.sendSynchronousReply error data.response []
                 | none => Effect.send (Message.DidFailResourceLoad error))
      ∧ (∀ data, l.m_synchronousLoadData = some data →
          l1.m_synchronousLoadData
            = some { data with error := error, delayedReply := false })
      ∧ (before ++ [reply] ++ l2.cleanup.2).filter Effect.isClientMessage = [reply]
      ∧ (before ++ [reply] ++ l2.cleanup.2).count Effect.didCleanupResourceLoader = 1 := by
  have hcapture : ∀ capture : List Effect,
      capture = (if env.captureExtraNetworkLoadMetricsEnabled then
                   [Effect.removeNetworkLoadInformation l.identifier] else []) →
      capture.filter Effect.isClientMessage = []
      ∧ capture.count Effect.didCleanupResourceLoader = 0 := by
    intro capture hc
    subst hc
    split <;> exact ⟨rfl, rfl⟩
  cases hs : l.m_synchronousLoadData with
  | none =>
    obtain ⟨h1, h2⟩ := hcapture _ rfl
    refine ⟨_, { l with m_cacheEntryForValidation := none }, _, _,
      didFailLoading_asynchronous env l error hs, rfl, ?_, rfl, ?_, ?_, ?_⟩
    · simp [cleanup, invalidateSandboxExtensions]
      split <;> rfl
    · intro data hd
      exact Option.noConfusion hd
    · simp only [List.filter_append, cleanup_filter_isClientMessage, List.append_nil, h1,
        List.nil_append]
      rfl
    · simp only [List.count_append, cleanup_count_notification, h2]
      rfl
  | some data =>
    have hr := hreply data hs
    obtain ⟨h1, h2⟩ := hcapture _ rfl
    refine ⟨_, { l with m_cacheEntryForValidation := none
                        m_synchronousLoadData :=
                          some { data with error := error, delayedReply := false } },
      (if env.captureExtraNetworkLoadMetricsEnabled then
         [Effect.removeNetworkLoadInformation l.identifier] else []),
      Effect.sendSynchronousReply error data.response [],
      ?_, rfl, ?_, rfl, ?_, ?_, ?_⟩
    · simp only [didFailLoading, hs, sendReplyToSynchronousRequest, hr, if_true]
    · simp [cleanup, invalidateSandboxExtensions]
      split <;> rfl
    · intro data1 hd
      simp only [Option.some.injEq] at hd
      subst hd
      simp [cleanup, invalidateSandboxExtensions]
      split <;> rfl
    · simp only [List.filter_append, cleanup_filter_isClientMessage, List.append_nil, h1,
        List.nil_append]
      rfl
    · simp only [List.count_append, cleanup_count_notification, h2]
      rfl

theorem derivedDataMessages_cons (completion : String × Option SharedBuffer)
    (rest : List (String × Option SharedBuffer)) :
    derivedDataMessages (completion :: rest)
      = derivedDataMessages [completion] ++ derivedDataMessages rest := by
  obtain ⟨type, data⟩ := completion
  cases data <;> simp [derivedDataMessages]

theorem retrieveDataCompletions_before (env : Env) (entry : Entry) (retrieveCount : Nat)
    (completions : List (String × Option SharedBuffer)) :
    ∀ l : NetworkResourceLoader,
      l.m_retrievedDerivedDataCount + completions.length < retrieveCount →
      retrieveDataCompletions env entry retrieveCount l completions
        = ({ l with m_retrievedDerivedDataCount
                      := l.m_retrievedDerivedDataCount + completions.length },
           derivedDataMessages completions) := by
  induction completions with
  | nil => intro l _; rfl
  | cons completion rest ih =>
    intro l hlt
    obtain ⟨type, data⟩ := completion
    simp only [List.length_cons] at hlt
    have hne : (l.m_retrievedDerivedDataCount + 1 == retrieveCount) = false := by
      simp only [beq_eq_false_iff_ne]
      omega
    have hstep : l.retrieveDataCompletion env false entry type retrieveCount data
        = ({ l with m_retrievedDerivedDataCount := l.m_retrievedDerivedDataCount + 1 },
           derivedDataMessages [(type, data)]) := by
      simp only [retrieveDataCompletion, hne, Bool.false_eq_true, if_false, derivedDataMessages]
      cases data <;> rfl
    have hrest := ih { l with m_retrievedDerivedDataCount := l.m_retrievedDerivedDataCount + 1 }
      (by simp only []; omega)
    rw [retrieveDataCompletions]
    dsimp only
    rw [hstep]
    dsimp only
    rw [hrest]
    refine Prod.ext ?_ ?_
    · simp only [List.length_cons, Nat.add_assoc, Nat.add_comm 1]
    · exact (derivedDataMessages_cons _ _).symm

theorem retrieveDataCompletions_all (env : Env) (entry : Entry) (retrieveCount : Nat)
    (completions : List (String × Option SharedBuffer)) :
    ∀ l : NetworkResourceLoader, completions ≠ [] →
      l.m_retrievedDerivedDataCount + completions.length = retrieveCount →
      retrieveDataCompletions env entry retrieveCount l completions
        = ((cleanup { l with m_retrievedDerivedDataCount := retrieveCount }).1,
           derivedDataMessages completions
             ++ (sendResultForCacheEntry env
                  { l with m_retrievedDerivedDataCount := retrieveCount } entry).2
             ++ (cleanup { l with m_retrievedDerivedDataCount := retrieveCount }).2) := by
  induction completions with
  | nil => intro l h; exact absurd rfl h
  | cons completion rest ih =>
    intro l _ hlen
    obtain ⟨type, data⟩ := completion
    simp only [List.length_cons] at hlen
    cases rest with
    | nil =>
      simp only [List.length_nil, Nat.zero_add] at hlen
      subst hlen
      simp only [retrieveDataCompletions, retrieveDataCompletion, beq_self_eq_true, if_true,
        Bool.false_eq_true, if_false, sendResultForCacheEntry_fst, List.append_nil,
        derivedDataMessages]
      cases data <;> rfl
    | cons next rest1 =>
      have hne : (l.m_retrievedDerivedDataCount + 1 == retrieveCount) = false := by
        simp only [beq_eq_false_iff_ne, List.length_cons] at hlen ⊢
        omega
      have hstep : l.retrieveDataCompletion env false entry type retrieveCount data
          = ({ l with m_retrievedDerivedDataCount := l.m_retrievedDerivedDataCount + 1 },
             derivedDataMessages [(type, data)]) := by
        simp only [retrieveDataCompletion, hne, Bool.false_eq_true, if_false,
          derivedDataMessages]
        cases data <;> rfl
      have hrest := ih { l with m_retrievedDerivedDataCount := l.m_retrievedDerivedDataCount + 1 }
        (List.cons_ne_nil _ _) (by simp only [List.length_cons] at hlen ⊢; omega)
      rw [retrieveDataCompletions]
      dsimp only
      rw [hstep]
      dsimp only
      rw [hrest]
      refine Prod.ext rfl ?_
      dsimp only
      rw [derivedDataMessages_cons (type, data) (next :: rest1)]
      simp only [List.append_assoc]

/-- C25: for a cache hit with a body hash and N >= 1 types of derived data to
retrieve (the loader has its cache), the call of
`continueProcessingCachedEntryAfterDidReceiveResponse` makes exactly the N
`retrieveData` lookups, one per type, and nothing else.  When no completion has
been counted yet and the N completion handlers then run on the live loader, in
whatever order of the types and with whatever data: the first k < N of them
send only the DidRetrieveDerivedData messages of the lookups that found data,
and the N-th, which raises the count to N, sends its message, if any, and then
runs `sendResultForCacheEntry` and `cleanup`, each once.  With no body hash or
no type to retrieve, the call itself is `sendResultForCacheEntry` followed by
`cleanup`. -/
theorem derived_data_then_result (env : Env) (l : NetworkResourceLoader) (entry : Entry) :
    (∀ bodyHash, entry.bodyHash = some bodyHash →
      l.m_parameters.derivedCachedDataTypesToRetrieve ≠ [] →
      l.m_cache.isSome = true →
      l.continueProcessingCachedEntryAfterDidReceiveResponse env entry
        = some (l, l.m_parameters.derivedCachedDataTypesToRetrieve.map (fun type =>
            Effect.cacheRetrieveData
              { partition := l.originalRequest.cachePartition, type := type,
                bodyHash := bodyHash }
              entry l.m_parameters.derivedCachedDataTypesToRetrieve.length))
      ∧ ∀ completions : List (String × Option SharedBuffer),
          l.m_retrievedDerivedDataCount = 0 →
          (completions.map Prod.fst).Perm l.m_parameters.derivedCachedDataTypesToRetrieve →
          (∀ k, k < l.m_parameters.derivedCachedDataTypesToRetrieve.length →
            retrieveDataCompletions env entry
                l.m_parameters.derivedCachedDataTypesToRetrieve.length l (completions.take k)
              = ({ l with m_retrievedDerivedDataCount := k },
                 derivedDataMessages (completions.take k)))
          ∧ retrieveDataCompletions env entry
                l.m_parameters.derivedCachedDataTypesToRetrieve.length l completions
              = ((cleanup { l with m_retrievedDerivedDataCount
                              := l.m_parameters.derivedCachedDataTypesToRetrieve.length }).1,
                 derivedDataMessages completions
                   ++ (sendResultForCacheEntry env
                        { l with m_retrievedDerivedDataCount
                            := l.m_parameters.derivedCachedDataTypesToRetrieve.length }
                        entry).2
                   ++ (cleanup { l with m_retrievedDerivedDataCount
                          := l.m_parameters.derivedCachedDataTypesToRetrieve.length }).2))
    ∧ ((entry.bodyHash = none ∨ l.m_parameters.derivedCachedDataTypesToRetrieve = []) →
        l.continueProcessingCachedEntryAfterDidReceiveResponse env entry
          = some (l.cleanup.1, (sendResultForCacheEntry env l entry).2 ++ l.cleanup.2)) := by
  constructor
  · intro bodyHash hhash htypes hcache
    constructor
    · unfold continueProcessingCachedEntryAfterDidReceiveResponse
      have hne : l.m_parameters.derivedCachedDataTypesToRetrieve.isEmpty = false := by
        cases h : l.m_parameters.derivedCachedDataTypesToRetrieve with
        | nil => exact absurd h htypes
        | cons a b => rfl
      cases hc : l.m_cache with
      | none => rw [hc] at hcache; exact Bool.noConfusion hcache
      | some cache => simp only [hhash, hne, Bool.not_false, if_true]
    · intro completions hcount horder
      have hlen : completions.length = l.m_parameters.derivedCachedDataTypesToRetrieve.length := by
        rw [← horder.length_eq, List.length_map]
      constructor
      · intro k hk
        have h := retrieveDataCompletions_before env entry
          l.m_parameters.derivedCachedDataTypesToRetrieve.length (completions.take k) l
          (by rw [hcount, List.length_take]; omega)
        rw [h, hcount, List.length_take, Nat.zero_add, Nat.min_eq_left (by omega)]
      · have hnonempty : completions ≠ [] := by
          intro h
          rw [h] at hlen
          exact htypes (List.length_eq_zero.mp hlen.symm)
        exact retrieveDataCompletions_all env entry _ completions l hnonempty
          (by rw [hcount, hlen, Nat.zero_add])
  · intro h
    unfold continueProcessingCachedEntryAfterDidReceiveResponse
    rcases h with h | h
    · simp only [h, sendResultForCacheEntry_fst]
    · cases entry.bodyHash <;>
        simp only [h, List.isEmpty_nil, Bool.not_true, Bool.false_eq_true, if_false,
          sendResultForCacheEntry_fst]

/-- C25 at concrete inputs: two types to retrieve, the completions arriving in
the reverse order, the first with data and the second without. -/
theorem derived_data_then_result_witness :
    sampleHashedEntry.bodyHash = some 42
    ∧ sampleDerivedDataLoader.m_parameters.derivedCachedDataTypesToRetrieve
        = ["bytecode", "index"]
    ∧ sampleDerivedDataLoader.m_cache.isSome = true
    ∧ sampleDerivedDataLoader.m_retrievedDerivedDataCount = 0
    ∧ retrieveDataCompletions sampleEnv sampleHashedEntry
          sampleDerivedDataLoader.m_parameters.derivedCachedDataTypesToRetrieve.length
          sampleDerivedDataLoader [("index", some [9]), ("bytecode", none)]
        = ((cleanup { sampleDerivedDataLoader with m_retrievedDerivedDataCount
              := sampleDerivedDataLoader.m_parameters.derivedCachedDataTypesToRetrieve.length }).1,
           derivedDataMessages [("index", some [9]), ("bytecode", none)]
             ++ (sendResultForCacheEntry sampleEnv
                  { sampleDerivedDataLoader with m_retrievedDerivedDataCount
                      := sampleDerivedDataLoader.m_parameters.derivedCachedDataTypesToRetrieve.length }
                  sampleHashedEntry).2
             ++ (cleanup { sampleDerivedDataLoader with m_retrievedDerivedDataCount
                    := sampleDerivedDataLoader.m_parameters.derivedCachedDataTypesToRetrieve.length }).2)
    ∧ derivedDataMessages [("index", some [9]), ("bytecode", none)]
        = [Effect.send (Message.DidRetrieveDerivedData "index" [9])] :=
  ⟨rfl, rfl, rfl, rfl,
    ((((derived_data_then_result sampleEnv sampleDerivedDataLoader sampleHashedEntry).1 42 rfl
        (by decide) rfl).2 [("index", some [9]), ("bytecode", none)] rfl
        (List.Perm.swap "bytecode" "index" [])).2),
    rfl⟩

theorem sentBytes_append (xs ys : List Effect) :
    sentBytes (xs ++ ys) = sentBytes xs ++ sentBytes ys := by
  induction xs with
  | nil => rfl
  | cons e rest ih =>
    cases e with
    | send message =>
      cases message <;> simp [sentBytes, ih]
    | _ => simpa [sentBytes] using ih

theorem sentBytes_eq_nil (xs : List Effect) (h : ∀ e ∈ xs, e.isDidReceiveData = false) :
    sentBytes xs = [] := by
  induction xs with
  | nil => rfl
  | cons e rest ih =>
    have he := h e (List.mem_cons_self _ _)
    have hrest := ih (fun x hx => h x (List.mem_cons_of_mem _ hx))
    cases e with
    | send message =>
      cases message <;> simp_all [sentBytes, Effect.isDidReceiveData]
    | _ => simpa [sentBytes] using hrest

theorem didReceiveBuffer_bytes (l : NetworkResourceLoader) (buffer : SharedBuffer)
    (reported : Int) :
    sentBytes (l.didReceiveBuffer buffer reported).2
        ++ (l.didReceiveBuffer buffer reported).1.bufferedBytes
      = l.bufferedBytes ++ buffer
    ∧ (l.didReceiveBuffer buffer reported).1.m_synchronousLoadData = l.m_synchronousLoadData
    ∧ (l.didReceiveBuffer buffer reported).1.m_cacheEntryForValidation
        = l.m_cacheEntryForValidation := by
  cases hb : l.m_bufferedData with
  | none =>
    simp only [didReceiveBuffer, hb, sendBuffer, bufferedBytes, sentBytes, List.append_nil,
      List.nil_append, and_self]
  | some buffered =>
    simp only [didReceiveBuffer, hb, startBufferingTimerIfNeeded, bufferedBytes, sentBytes,
      List.nil_append]
    (repeat' split) <;> simp_all

theorem bufferingTimerFired_bytes (l : NetworkResourceLoader)
    (r : NetworkResourceLoader × List Effect) (h : l.bufferingTimerFired = some r) :
    sentBytes r.2 ++ r.1.bufferedBytes = l.bufferedBytes
    ∧ r.1.m_synchronousLoadData = l.m_synchronousLoadData
    ∧ r.1.m_cacheEntryForValidation = l.m_cacheEntryForValidation := by
  unfold bufferingTimerFired at h
  split at h
  · exact Option.noConfusion h
  · next buffered hb =>
    split at h
    · next hempty =>
      simp only [Option.some.injEq] at h
      subst h
      simp [bufferedBytes, hb, sentBytes]
    · simp only [Option.some.injEq] at h
      subst h
      simp [bufferedBytes, hb, sentBytes]

theorem tryStoreAsCacheEntry_sends_no_data (l : NetworkResourceLoader)
    (r : NetworkResourceLoader × List Effect) (h : l.tryStoreAsCacheEntry = some r) :
    ∀ e ∈ r.2, e.isDidReceiveData = false := by
  unfold tryStoreAsCacheEntry at h
  split at h
  · exact Option.noConfusion h
  · split at h
    · simp only [Option.some.injEq] at h
      subst h
      simp
    · split at h
      · simp only [Option.some.injEq] at h
        subst h
        simp
      · simp only [Option.some.injEq] at h
        subst h
        intro e he
        simp only [List.mem_singleton] at he
        subst he
        rfl

theorem didFinishLoading_bytes (env : Env) (l : NetworkResourceLoader)
    (metrics : NetworkLoadMetrics) (r : NetworkResourceLoader × List Effect)
    (hasync : l.isSynchronous = false) (hentry : l.m_cacheEntryForValidation = none)
    (h : l.didFinishLoading env metrics = some r) :
    ∃ before after,
      r.2 = before ++ [Effect.send (Message.DidFinishResourceLoad metrics)] ++ after
      ∧ sentBytes before = l.bufferedBytes
      ∧ ∀ e ∈ after, e.isDidReceiveData = false := by
  have hs : l.m_synchronousLoadData = none := by
    unfold isSynchronous at hasync
    cases hd : l.m_synchronousLoadData with
    | none => rfl
    | some d => rw [hd] at hasync; exact Bool.noConfusion hasync
  unfold didFinishLoading at h
  simp only [hentry, hs, Outcome.andThen] at h
  split at h
  · exact Option.noConfusion h
  · next l2 es2 hstore =>
    simp only [Option.some.injEq] at h
    subst h
    split at hstore
    · exact Option.noConfusion hstore
    · next l3 es3 hstored =>
      simp only [Option.some.injEq, Prod.mk.injEq] at hstore
      obtain ⟨rfl, rfl⟩ := hstore
      refine ⟨(if env.captureExtraNetworkLoadMetricsEnabled then
            [Effect.addNetworkLoadInformationMetrics l.identifier metrics] else [])
          ++ (match l.m_bufferedData with
              | some buffered =>
                if !buffered.isEmpty then (sendBuffer l buffered sizeTMinusOne).2 else []
              | none => []),
        es3 ++ l3.cleanup.2, ?_, ?_, ?_⟩
      · (simp only [List.append_assoc]) <;> rfl
      · rw [sentBytes_append]
        have hcapture : sentBytes (if env.captureExtraNetworkLoadMetricsEnabled then
            [Effect.addNetworkLoadInformationMetrics l.identifier metrics] else []) = [] := by
          split <;> rfl
        rw [hcapture]
        cases hb : l.m_bufferedData with
        | none => simp [bufferedBytes, hb, sentBytes]
        | some buffered =>
          cases buffered with
          | nil => simp [bufferedBytes, hb, sentBytes]
          | cons b rest => simp [bufferedBytes, hb, sentBytes, sendBuffer]
      · intro e he
        simp only [List.mem_append] at he
        rcases he with he | he
        · exact tryStoreAsCacheEntry_sends_no_data _ _ hstored e he
        · have := cleanup_effects_inCleanup l3 e he
          cases e <;> simp_all [Effect.inCleanup, Effect.isDidReceiveData]

/-! ### A synchronous load keeps its checker and stores no redirect -/

theorem synchronous_some (l : NetworkResourceLoader) (es : List Effect)
    (h : l.SynchronousWithChecker) (hq : ∀ e ∈ es, e.isStoreRedirect = false) :
    Outcome.StaysSynchronous (some (l, es)) := by
  intro r hr
  simp only [Option.some.injEq] at hr
  subst hr
  exact ⟨h, hq⟩

theorem synchronous_none : Outcome.StaysSynchronous none := by
  intro r hr
  simp at hr

theorem synchronous_andThen (o : Outcome) (f : NetworkResourceLoader → Outcome)
    (ho : Outcome.StaysSynchronous o)
    (hf : ∀ l : NetworkResourceLoader, l.SynchronousWithChecker →
      Outcome.StaysSynchronous (f l)) :
    Outcome.StaysSynchronous (o.andThen f) := by
  intro r hr
  unfold Outcome.andThen at hr
  split at hr
  · simp at hr
  · next l es =>
    obtain ⟨h1, q1⟩ := ho _ rfl
    split at hr
    · simp at hr
    · next l2 es2 h2 =>
      simp only [Option.some.injEq] at hr
      subst hr
      obtain ⟨h3, q3⟩ := hf l h1 _ h2
      refine ⟨h3, fun e he => ?_⟩
      rcases List.mem_append.1 he with he | he
      · exact q1 e he
      · exact q3 e he

theorem noStoreRedirect_of_all (es : List Effect)
    (h : es.all (fun e => !e.isStoreRedirect) = true) :
    ∀ e ∈ es, e.isStoreRedirect = false := by
  intro e he
  have := List.all_eq_true.1 h e he
  simpa using this

theorem noStoreRedirect_append (es1 es2 : List Effect)
    (h1 : ∀ e ∈ es1, e.isStoreRedirect = false)
    (h2 : ∀ e ∈ es2, e.isStoreRedirect = false) :
    ∀ e ∈ es1 ++ es2, e.isStoreRedirect = false := by
  intro e he
  rcases List.mem_append.1 he with he | he
  · exact h1 e he
  · exact h2 e he

theorem cleanup_noStoreRedirect (l : NetworkResourceLoader) :
    ∀ e ∈ l.cleanup.2, e.isStoreRedirect = false := by
  intro e he
  have h := cleanup_effects_inCleanup l e he
  cases e <;> simp_all [Effect.inCleanup, Effect.isStoreRedirect]

theorem cleanup_synchronous (l : NetworkResourceLoader) (h : l.SynchronousWithChecker) :
    l.cleanup.1.SynchronousWithChecker := by
  unfold cleanup invalidateSandboxExtensions
  simp only
  split <;> exact h

theorem didFailLoading_synchronous (env : Env) (l : NetworkResourceLoader)
    (error : ResourceError) (h : l.SynchronousWithChecker) :
    Outcome.StaysSynchronous (l.didFailLoading env error) := by
  intro r hr
  refine ⟨?_, fun e he =>
    not_isStoreRedirect_of_inFailure e (didFailLoading_effects_inFailure env l error r hr e he)⟩
  cases hs : l.m_synchronousLoadData with
  | none =>
    have := h.1
    rw [hs] at this
    exact Bool.noConfusion this
  | some data =>
    cases hd : data.delayedReply with
    | false => simp [didFailLoading, hs, sendReplyToSynchronousRequest, hd] at hr
    | true =>
      simp only [didFailLoading, hs, sendReplyToSynchronousRequest, hd, if_true,
        Option.some.injEq] at hr
      subst hr
      exact cleanup_synchronous _ ⟨rfl, h.2⟩

theorem lookUpNetworkSession_noStoreRedirect (env : Env) (sessionID : SessionID) :
    ∀ e ∈ (lookUpNetworkSession env sessionID).2, e.isStoreRedirect = false := by
  intro e he
  unfold lookUpNetworkSession at he
  split at he
  · simp only [List.mem_singleton] at he
    subst he
    rfl
  · simp at he

theorem firstLoadSetup_noStoreRedirect (l : NetworkResourceLoader) (request : ResourceRequest) :
    ∀ e ∈ (l.firstLoadSetup request).2, e.isStoreRedirect = false := by
  intro e he
  simp only [firstLoadSetup, consumeSandboxExtensions, List.mem_append, List.mem_map] at he
  rcases he with (⟨x, -, rfl⟩ | he) | ⟨x, -, rfl⟩
  · rfl
  · split at he
    · simp only [List.mem_singleton] at he
      subst he
      rfl
    · simp at he
  · rfl

theorem firstLoadSetup_synchronous (l : NetworkResourceLoader) (request : ResourceRequest)
    (h : l.SynchronousWithChecker) : (l.firstLoadSetup request).1.SynchronousWithChecker := h

theorem startNetworkLoad_synchronous (env : Env) (l : NetworkResourceLoader)
    (request : ResourceRequest) (load : FirstLoad) (h : l.SynchronousWithChecker) :
    Outcome.StaysSynchronous (l.startNetworkLoad env request load) := by
  have hfirst : (if load = FirstLoad.Yes then l.firstLoadSetup request
        else (l, [])).1.SynchronousWithChecker
      ∧ ∀ e ∈ (if load = FirstLoad.Yes then l.firstLoadSetup request else (l, [])).2,
          e.isStoreRedirect = false := by
    split
    · exact ⟨firstLoadSetup_synchronous l request h, firstLoadSetup_noStoreRedirect l request⟩
    · exact ⟨h, by simp⟩
  unfold startNetworkLoad
  simp only
  generalize (if load = FirstLoad.Yes then l.firstLoadSetup request else (l, [])) = first
    at hfirst
  split
  · apply synchronous_andThen
    · apply synchronous_some _ _ hfirst.1
      intro e he
      simp only [List.mem_append, List.mem_singleton] at he
      rcases he with (he | he) | rfl
      · exact hfirst.2 e he
      · exact lookUpNetworkSession_noStoreRedirect env _ e he
      · rfl
    · intro l1 h1
      exact didFailLoading_synchronous env l1 _ h1
  · apply synchronous_some
    · exact ⟨hfirst.1.1, hfirst.1.2⟩
    · intro e he
      simp only [List.mem_append, List.mem_singleton] at he
      rcases he with (he | he) | rfl
      · exact hfirst.2 e he
      · exact lookUpNetworkSession_noStoreRedirect env _ e he
      · rfl

theorem retrieveCacheEntry_synchronous (l : NetworkResourceLoader) (request : ResourceRequest)
    (h : l.SynchronousWithChecker) : Outcome.StaysSynchronous (l.retrieveCacheEntry request) := by
  unfold retrieveCacheEntry
  split
  · exact synchronous_none
  · exact synchronous_some _ _ h (noStoreRedirect_of_all _ rfl)

theorem start_synchronous (env : Env) (l : NetworkResourceLoader)
    (h : l.SynchronousWithChecker) : Outcome.StaysSynchronous (l.start env) := by
  unfold start
  split
  · exact synchronous_some l [] h (by simp)
  · simp only
    split
    · exact synchronous_some _ _ (by exact h) (noStoreRedirect_of_all _ rfl)
    · split
      · exact retrieveCacheEntry_synchronous _ _ (by exact h)
      · exact startNetworkLoad_synchronous env _ _ _ (by exact h)

theorem startCheckCompletion_synchronous (env : Env) (l : NetworkResourceLoader)
    (result : RequestOrError) (h : l.SynchronousWithChecker) :
    Outcome.StaysSynchronous (l.startCheckCompletion env result) := by
  unfold startCheckCompletion
  split
  · split
    · exact didFailLoading_synchronous env l _ h
    · exact synchronous_some l [] h (by simp)
  · split
    · exact retrieveCacheEntry_synchronous _ _ h
    · exact startNetworkLoad_synchronous env _ _ _ h

theorem setDefersLoading_synchronous (env : Env) (l : NetworkResourceLoader) (defers : Bool)
    (h : l.SynchronousWithChecker) : Outcome.StaysSynchronous (l.setDefersLoading env defers) := by
  unfold setDefersLoading
  split
  · exact synchronous_some l [] h (by simp)
  · simp only
    split
    · exact synchronous_some _ _ (by exact h) (noStoreRedirect_of_all _ rfl)
    · split
      · exact start_synchronous env _ (by exact h)
      · exact synchronous_some _ _ (by exact h) (by simp)

theorem abort_synchronous (l : NetworkResourceLoader) (h : l.SynchronousWithChecker) :
    Outcome.StaysSynchronous (some l.abort) := by
  apply synchronous_some
  · exact cleanup_synchronous l h
  · apply noStoreRedirect_append
    · split
      · apply noStoreRedirect_append
        · split
          · split
            · exact noStoreRedirect_of_all _ rfl
            · simp
          · simp
        · exact noStoreRedirect_of_all _ rfl
      · simp
    · exact cleanup_noStoreRedirect l

theorem convertToDownload_synchronous (env : Env) (l : NetworkResourceLoader) (downloadID : Nat)
    (request : ResourceRequest) (response : ResourceResponse) (h : l.SynchronousWithChecker) :
    Outcome.StaysSynchronous (some (l.convertToDownload env downloadID request response)) :=
  synchronous_some _ _ (by exact h) (noStoreRedirect_of_all _ rfl)

theorem continueWillSendRequest_synchronous (env : Env) (l : NetworkResourceLoader)
    (newRequest : ResourceRequest) (allowed : Bool) (h : l.SynchronousWithChecker) :
    Outcome.StaysSynchronous (l.continueWillSendRequest env newRequest allowed) := by
  unfold continueWillSendRequest
  simp only
  split
  · split
    · exact retrieveCacheEntry_synchronous _ _ (by exact h)
    · exact startNetworkLoad_synchronous env _ _ _ (by exact h)
  · split
    · exact synchronous_some _ _ (by exact h) (noStoreRedirect_of_all _ rfl)
    · exact synchronous_some _ _ (by exact h) (by simp)

theorem sendResultForCacheEntry_noStoreRedirect (env : Env) (l : NetworkResourceLoader)
    (entry : Entry) : ∀ e ∈ (l.sendResultForCacheEntry env entry).2, e.isStoreRedirect = false := by
  unfold sendResultForCacheEntry
  split
  · exact noStoreRedirect_of_all _ rfl
  · exact noStoreRedirect_of_all _ rfl

theorem sendReplyToSynchronousRequest_noStoreRedirect (data data1 : SynchronousLoadData)
    (buffer : Option SharedBuffer) (es : List Effect)
    (h : sendReplyToSynchronousRequest data buffer = some (data1, es)) :
    ∀ e ∈ es, e.isStoreRedirect = false := by
  unfold sendReplyToSynchronousRequest at h
  simp only at h
  split at h
  · simp only [Option.some.injEq, Prod.mk.injEq] at h
    obtain ⟨-, rfl⟩ := h
    exact noStoreRedirect_of_all _ rfl
  · exact Option.noConfusion h

theorem continueProcessingCachedEntryAfterDidReceiveResponse_synchronous (env : Env)
    (l : NetworkResourceLoader) (entry : Entry) (h : l.SynchronousWithChecker) :
    Outcome.StaysSynchronous (l.continueProcessingCachedEntryAfterDidReceiveResponse env entry) := by
  have hresult : Outcome.StaysSynchronous
      (some ((l.sendResultForCacheEntry env entry).1.cleanup.1,
             (l.sendResultForCacheEntry env entry).2
               ++ (l.sendResultForCacheEntry env entry).1.cleanup.2)) := by
    apply synchronous_some
    · rw [sendResultForCacheEntry_fst]
      exact cleanup_synchronous l h
    · exact noStoreRedirect_append _ _ (sendResultForCacheEntry_noStoreRedirect env l entry)
        (cleanup_noStoreRedirect _)
  unfold continueProcessingCachedEntryAfterDidReceiveResponse
  split
  · split
    · split
      · exact synchronous_none
      · apply synchronous_some _ _ h
        intro e he
        simp only [List.mem_map] at he
        obtain ⟨x, -, rfl⟩ := he
        rfl
    · exact hresult
  · exact hresult

theorem continueDidReceiveResponse_synchronous (env : Env) (l : NetworkResourceLoader)
    (h : l.SynchronousWithChecker) : Outcome.StaysSynchronous (l.continueDidReceiveResponse env) := by
  unfold continueDidReceiveResponse
  split
  · exact continueProcessingCachedEntryAfterDidReceiveResponse_synchronous env _ _ (by exact h)
  · split
    · exact synchronous_some _ _ h (noStoreRedirect_of_all _ rfl)
    · exact synchronous_some _ _ h (by simp)

theorem didReceiveBuffer_synchronous (l : NetworkResourceLoader) (buffer : SharedBuffer)
    (reported : Int) (h : l.SynchronousWithChecker) :
    Outcome.StaysSynchronous (some (l.didReceiveBuffer buffer reported)) := by
  intro r hr
  simp only [Option.some.injEq] at hr
  subst hr
  constructor
  · unfold didReceiveBuffer startBufferingTimerIfNeeded sendBuffer
    simp only
    (repeat' split) <;> exact h
  · unfold didReceiveBuffer
    simp only
    split
    · simp
    · exact noStoreRedirect_of_all _ rfl

theorem didRetrieveCacheEntry_synchronous (env : Env) (l : NetworkResourceLoader)
    (entry : Entry) (h : l.SynchronousWithChecker) :
    Outcome.StaysSynchronous (l.didRetrieveCacheEntry env entry) := by
  unfold didRetrieveCacheEntry
  simp only
  split
  · exact didFailLoading_synchronous env l _ h
  · split
    · split
      · exact synchronous_none
      · next data data1 es hs =>
        apply synchronous_some
        · exact cleanup_synchronous _ ⟨rfl, h.2⟩
        · exact noStoreRedirect_append _ _
            (sendReplyToSynchronousRequest_noStoreRedirect _ _ _ _ hs)
            (cleanup_noStoreRedirect _)
    · split
      · exact synchronous_some _ _ (by exact h) (noStoreRedirect_of_all _ rfl)
      · apply synchronous_andThen
        · exact synchronous_some _ _ h (noStoreRedirect_of_all _ rfl)
        · intro l1 h1
          exact continueProcessingCachedEntryAfterDidReceiveResponse_synchronous env l1 _ h1

theorem tryStoreAsCacheEntry_synchronous (l : NetworkResourceLoader)
    (h : l.SynchronousWithChecker) : Outcome.StaysSynchronous l.tryStoreAsCacheEntry := by
  unfold tryStoreAsCacheEntry
  split
  · exact synchronous_none
  · split
    · exact synchronous_some l [] h (by simp)
    · split
      · exact synchronous_some l [] h (by simp)
      · exact synchronous_some _ _ (by exact h) (noStoreRedirect_of_all _ rfl)

theorem didFinishLoading_synchronous (env : Env) (l : NetworkResourceLoader)
    (metrics : NetworkLoadMetrics) (h : l.SynchronousWithChecker) :
    Outcome.StaysSynchronous (l.didFinishLoading env metrics) := by
  have hcapture : ∀ e ∈ (if env.captureExtraNetworkLoadMetricsEnabled then
      [Effect.addNetworkLoadInformationMetrics l.identifier metrics] else []),
      e.isStoreRedirect = false := by
    split
    · exact noStoreRedirect_of_all _ rfl
    · simp
  unfold didFinishLoading
  simp only
  split
  · apply synchronous_andThen
    · exact synchronous_some _ _ (by exact h) hcapture
    · intro l1 h1
      exact didRetrieveCacheEntry_synchronous env l1 _ h1
  · apply synchronous_andThen
    · apply synchronous_andThen
      · split
        · split
          · exact synchronous_none
          · next data data1 es hs =>
            refine synchronous_some _ _ ⟨rfl, h.2⟩ ?_
            exact noStoreRedirect_append _ _ hcapture
              (sendReplyToSynchronousRequest_noStoreRedirect _ _ _ _ hs)
        · apply synchronous_some _ _ h
          apply noStoreRedirect_append
          · apply noStoreRedirect_append _ _ hcapture
            split
            · split
              · exact noStoreRedirect_of_all _ rfl
              · simp
            · simp
          · exact noStoreRedirect_of_all _ rfl
      · intro l1 h1
        exact tryStoreAsCacheEntry_synchronous l1 h1
    · intro l1 h1
      exact synchronous_some _ _ (cleanup_synchronous l1 h1) (cleanup_noStoreRedirect l1)

theorem revalidate_noStoreRedirect (env : Env) (l : NetworkResourceLoader)
    (entry : Option Entry) (updates : List Effect)
    (h : revalidate env l = some (entry, updates)) :
    ∀ e ∈ updates, e.isStoreRedirect = false := by
  unfold revalidate at h
  (repeat' split at h) <;>
    first
      | exact Option.noConfusion h
      | (simp only [Option.some.injEq, Prod.mk.injEq] at h
         obtain ⟨-, rfl⟩ := h
         exact noStoreRedirect_of_all _ rfl)

theorem didReceiveResponse_synchronous (env : Env) (l : NetworkResourceLoader)
    (response : ResourceResponse) (h : l.SynchronousWithChecker) :
    Outcome.StaysSynchronous
      ((l.didReceiveResponse env response).map (fun r => (r.1, r.2.1))) := by
  intro r hr
  unfold didReceiveResponse at hr
  simp only at hr
  split at hr
  · simp at hr
  · next entry updates hrev =>
    have hu := revalidate_noStoreRedirect env _ _ _ hrev
    (repeat' split at hr) <;>
      simp only [Option.map_some', Option.some.injEq] at hr <;>
      subst hr <;>
      refine ⟨⟨by first | exact h.1 | rfl, h.2⟩, fun e he => ?_⟩ <;>
      simp only [List.mem_append, List.mem_singleton, List.mem_cons, List.mem_nil_iff, or_false,
        false_or, List.nil_append, List.append_nil] at he <;>
      (try casesm* _ ∨ _) <;>
      first
        | exact hu e (by assumption)
        | (subst_vars; rfl)

theorem willSendRedirectedRequest_synchronous (env : Env) (l : NetworkResourceLoader)
    (request redirectRequest : ResourceRequest) (redirectResponse : ResourceResponse)
    (h : l.SynchronousWithChecker) :
    Outcome.StaysSynchronous
      (l.willSendRedirectedRequest env request redirectRequest redirectResponse) := by
  unfold willSendRedirectedRequest
  simp only
  split
  · exact synchronous_some _ _ (by exact h) (noStoreRedirect_of_all _ rfl)
  · next hnone =>
    have := h.2
    rw [hnone] at this
    exact Bool.noConfusion this

theorem bufferingTimerFired_synchronous (l : NetworkResourceLoader)
    (h : l.SynchronousWithChecker) : Outcome.StaysSynchronous l.bufferingTimerFired := by
  unfold bufferingTimerFired
  split
  · exact synchronous_none
  · split
    · exact synchronous_some _ _ h (by simp)
    · exact synchronous_some _ _ (by exact h) (noStoreRedirect_of_all _ rfl)

theorem checkRedirectionCompletion_synchronous (env : Env) (l : NetworkResourceLoader)
    (storedCredentialsPolicy : StoredCredentialsPolicy) (request : ResourceRequest)
    (redirectResponse : ResourceResponse) (result : RequestOrError)
    (h : l.SynchronousWithChecker) :
    Outcome.StaysSynchronous
      (l.checkRedirectionCompletion env storedCredentialsPolicy request redirectResponse
        result) := by
  unfold checkRedirectionCompletion
  split
  · split
    · exact synchronous_some l [] h (by simp)
    · exact didFailLoading_synchronous env l _ h
  · split
    · exact synchronous_none
    · split
      · split
        · exact synchronous_none
        · apply synchronous_andThen
          · exact synchronous_some _ _ h (noStoreRedirect_of_all _ rfl)
          · intro l1 h1
            exact startNetworkLoad_synchronous env l1 _ _ h1
      · split
        · exact continueWillSendRequest_synchronous env l _ _ h
        · next hasync =>
          exact absurd h.1 hasync

theorem dispatchedDidFailLoading_synchronous (env : Env) (l : NetworkResourceLoader)
    (error : ResourceError) (h : l.SynchronousWithChecker) :
    Outcome.StaysSynchronous (l.dispatchedDidFailLoading env error) := by
  unfold dispatchedDidFailLoading
  split
  · exact didFailLoading_synchronous env l _ h
  · exact synchronous_some l [] h (by simp)

theorem retrieveDataCompletion_synchronous (env : Env) (l : NetworkResourceLoader)
    (hasOneRef : Bool) (entry : Entry) (type : String) (retrieveCount : Nat)
    (data : Option SharedBuffer) (h : l.SynchronousWithChecker) :
    Outcome.StaysSynchronous
      (some (l.retrieveDataCompletion env hasOneRef entry type retrieveCount data)) := by
  have hsent : ∀ e ∈ ((match data with
      | some d => [Effect.send (Message.DidRetrieveDerivedData type d)]
      | none => []) : List Effect), e.isStoreRedirect = false := by
    split
    · exact noStoreRedirect_of_all _ rfl
    · simp
  unfold retrieveDataCompletion
  simp only
  split
  · exact synchronous_some _ _ (by exact h) (by simp)
  · split
    · apply synchronous_some
      · rw [sendResultForCacheEntry_fst]
        exact cleanup_synchronous _ (by exact h)
      · exact noStoreRedirect_append _ _
          (noStoreRedirect_append _ _ hsent (sendResultForCacheEntry_noStoreRedirect env _ entry))
          (cleanup_noStoreRedirect _)
    · exact synchronous_some _ _ (by exact h) hsent

theorem storeCompletion_synchronous (env : Env) (l : NetworkResourceLoader)
    (handle : Option Nat) (h : l.SynchronousWithChecker) :
    Outcome.StaysSynchronous (some (l.storeCompletion env handle)) := by
  unfold storeCompletion
  split
  · split
    · exact synchronous_some l [] h (by simp)
    · exact synchronous_some _ _ h (noStoreRedirect_of_all _ rfl)
  · exact synchronous_some l [] h (by simp)

theorem didSendData_synchronous (l : NetworkResourceLoader) (bytesSent totalBytesToBeSent : Nat)
    (h : l.SynchronousWithChecker) :
    Outcome.StaysSynchronous (some (l.didSendData bytesSent totalBytesToBeSent)) := by
  unfold didSendData
  split
  · exact synchronous_some _ _ h (noStoreRedirect_of_all _ rfl)
  · exact synchronous_some l [] h (by simp)

theorem didBlockAuthenticationChallenge_synchronous (l : NetworkResourceLoader)
    (h : l.SynchronousWithChecker) :
    Outcome.StaysSynchronous (some l.didBlockAuthenticationChallenge) :=
  synchronous_some _ _ h (noStoreRedirect_of_all _ rfl)

theorem validateCacheEntry_synchronous (env : Env) (l : NetworkResourceLoader) (entry : Entry)
    (h : l.SynchronousWithChecker) : Outcome.StaysSynchronous (l.validateCacheEntry env entry) := by
  unfold validateCacheEntry
  exact startNetworkLoad_synchronous env _ _ _ (by exact h)

theorem dispatchWillSendRequestForCacheEntry_synchronous (env : Env)
    (l : NetworkResourceLoader) (entry : Entry) (h : l.SynchronousWithChecker) :
    Outcome.StaysSynchronous (l.dispatchWillSendRequestForCacheEntry env entry) := by
  unfold dispatchWillSendRequestForCacheEntry
  split
  · exact didFailLoading_synchronous env l _ h
  · split
    · exact synchronous_none
    · exact synchronous_some _ _ (by exact h) (noStoreRedirect_of_all _ rfl)

theorem retrieveCacheEntryCompletion_synchronous (env : Env) (l : NetworkResourceLoader)
    (hasOneRef : Bool) (request : ResourceRequest) (entry : Option Entry)
    (h : l.SynchronousWithChecker) :
    Outcome.StaysSynchronous (l.retrieveCacheEntryCompletion env hasOneRef request entry) := by
  unfold retrieveCacheEntryCompletion
  split
  · exact synchronous_some l [] h (by simp)
  · split
    · exact startNetworkLoad_synchronous env _ _ _ h
    · split
      · exact dispatchWillSendRequestForCacheEntry_synchronous env l _ h
      · split
        · exact startNetworkLoad_synchronous env _ _ _ h
        · split
          · exact validateCacheEntry_synchronous env l _ h
          · exact didRetrieveCacheEntry_synchronous env l _ h

theorem startNetworkLoad_no_redirect (env : Env) (l : NetworkResourceLoader)
    (request : ResourceRequest) (load : FirstLoad) (r : NetworkResourceLoader × List Effect)
    (h : l.startNetworkLoad env request load = some r) :
    ∀ e ∈ r.2, e.isWillSendRequest = false := by
  have hfirst : ∀ e ∈ (if load = FirstLoad.Yes then l.firstLoadSetup request else (l, [])).2,
      e.isWillSendRequest = false := by
    intro e he
    split at he
    · simp only [firstLoadSetup, consumeSandboxExtensions, List.mem_append, List.mem_map] at he
      rcases he with (⟨x, -, rfl⟩ | he) | ⟨x, -, rfl⟩
      · rfl
      · split at he
        · simp only [List.mem_singleton] at he
          subst he
          rfl
        · simp at he
      · rfl
    · simp at he
  have hlookup : ∀ sessionID, ∀ e ∈ (lookUpNetworkSession env sessionID).2,
      e.isWillSendRequest = false := by
    intro sessionID e he
    unfold lookUpNetworkSession at he
    split at he
    · simp only [List.mem_singleton] at he
      subst he
      rfl
    · simp at he
  unfold startNetworkLoad at h
  simp only at h
  generalize (if load = FirstLoad.Yes then l.firstLoadSetup request else (l, [])) = first
    at hfirst h
  split at h
  · simp only [Outcome.andThen] at h
    split at h
    · exact Option.noConfusion h
    · next l2 es2 hfail =>
      simp only [Option.some.injEq] at h
      subst h
      intro e he
      simp only [List.mem_append, List.mem_singleton] at he
      rcases he with ((he | he) | he) | he
      · exact hfirst e he
      · exact hlookup _ e he
      · subst he
        rfl
      · exact didFailLoading_no_redirect env _ _ _ hfail e he
  · simp only [Option.some.injEq] at h
    subst h
    intro e he
    simp only [List.mem_append, List.mem_singleton] at he
    rcases he with (he | he) | he
    · exact hfirst e he
    · exact hlookup _ e he
    · subst he
      rfl

theorem continueWillSendRequest_no_redirect (env : Env) (l : NetworkResourceLoader)
    (newRequest : ResourceRequest) (allowed : Bool) (r : NetworkResourceLoader × List Effect)
    (h : l.continueWillSendRequest env newRequest allowed = some r) :
    ∀ e ∈ r.2, e.isWillSendRequest = false := by
  unfold continueWillSendRequest at h
  simp only at h
  split at h
  · split at h
    · unfold retrieveCacheEntry at h
      split at h
      · exact Option.noConfusion h
      · simp only [Option.some.injEq] at h
        subst h
        intro e he
        simp only [List.mem_singleton] at he
        subst he
        rfl
    · exact startNetworkLoad_no_redirect env _ _ _ r h
  · split at h <;>
      simp only [Option.some.injEq] at h <;>
      subst h <;>
      intro e he
    · simp only [List.mem_singleton] at he
      subst he
      rfl
    · simp at he

theorem checkRedirectionCompletion_of_synchronous (env : Env) (l : NetworkResourceLoader)
    (storedCredentialsPolicy : StoredCredentialsPolicy) (request : ResourceRequest)
    (redirectResponse : ResourceResponse) (result : RequestOrError)
    (r : NetworkResourceLoader × List Effect) (hs : l.isSynchronous = true)
    (h : l.checkRedirectionCompletion env storedCredentialsPolicy request redirectResponse result
          = some r) :
    ∀ e ∈ r.2, e.isWillSendRequest = false := by
  unfold checkRedirectionCompletion at h
  split at h
  · split at h
    · simp only [Option.some.injEq] at h
      subst h
      simp
    · exact didFailLoading_no_redirect env _ _ _ h
  · split at h
    · exact Option.noConfusion h
    · split at h
      · split at h
        · exact Option.noConfusion h
        · simp only [Outcome.andThen] at h
          split at h
          · exact Option.noConfusion h
          · next l2 es2 hstart =>
            simp only [Option.some.injEq] at h
            subst h
            intro e he
            simp only [List.mem_append, List.mem_singleton] at he
            rcases he with he | he
            · subst he
              rfl
            · exact startNetworkLoad_no_redirect env _ _ _ _ hstart e he
      · exact continueWillSendRequest_no_redirect env _ _ _ r h

theorem continueWillSendRequest_records_permission (env : Env) (l : NetworkResourceLoader)
    (newRequest : ResourceRequest) (allowed : Bool) (r : NetworkResourceLoader × List Effect)
    (h : l.continueWillSendRequest env newRequest allowed = some r) :
    r.1.m_isAllowedToAskUserForCredentials = allowed := by
  unfold continueWillSendRequest at h
  simp only [] at h
  split at h
  · split at h
    · unfold retrieveCacheEntry at h
      split at h
      · exact Option.noConfusion h
      · simp only [Option.some.injEq] at h
        subst h
        rfl
    · exact (startNetworkLoad_first_attempt env _ _ r h).1
  · split at h <;> simp only [Option.some.injEq] at h <;> subst h <;> rfl

theorem didFinishLoading_no_store (env : Env) (l : NetworkResourceLoader)
    (metrics : NetworkLoadMetrics) (networkLoad : NetworkLoad)
    (hload : l.m_networkLoad = some networkLoad)
    (hentry : l.m_cacheEntryForValidation = none)
    (hcache : l.canUseCache networkLoad.currentRequest = false)
    (hreply : ∀ data, l.m_synchronousLoadData = some data → data.delayedReply = true) :
    ∃ o, l.didFinishLoading env metrics = some o
      ∧ o.2.filter Effect.isStore = []
      ∧ (l.m_synchronousLoadData = none →
          Effect.send (Message.DidFinishResourceLoad metrics) ∈ o.2) := by
  simp only [canUseCache_eq] at hcache
  cases hs : l.m_synchronousLoadData with
  | none =>
    simp only [didFinishLoading, hentry, hs, Outcome.andThen, tryStoreAsCacheEntry, hload,
      canUseCache_eq, hcache, Bool.not_false, if_true]
    refine ⟨_, rfl, ?_, fun _ => ?_⟩
    · simp only [List.filter_append, cleanup_filter_isStore, sendBuffer]
      cases env.captureExtraNetworkLoadMetricsEnabled <;> cases hb : l.m_bufferedData <;>
        simp [Effect.isStore]
    · simp
  | some data =>
    have hd := hreply data hs
    simp only [didFinishLoading, hentry, hs, Outcome.andThen, tryStoreAsCacheEntry, hload,
      sendReplyToSynchronousRequest, hd, if_true, canUseCache_eq, hcache, Bool.not_false]
    refine ⟨_, rfl, ?_, fun h => by simp at h⟩
    simp only [List.filter_append, cleanup_filter_isStore]
    cases env.captureExtraNetworkLoadMetricsEnabled <;> simp [Effect.isStore]

/-- C10 (amended): a first-attempt network load (`startNetworkLoad` created the
transport) for a request that can use the cache, with no revalidation pending;
the current request of the transport becomes `current` (the request the load
was started with, or the one a redirect led to); the load gets a non-multipart
response and buffers of at most 10 MiB in total.  Then `didFinishLoading`
returns, and an asynchronous load sends `DidFinishResourceLoad`.  If `current`
can use the cache, `didFinishLoading` calls `CacheStore.store` exactly once,
with `current`, the response received and the buffers concatenated in arrival
order; if it cannot, nothing is stored. -/
theorem network_load_is_stored (env : Env) (l l1 : NetworkResourceLoader)
    (request current : ResourceRequest) (response : ResourceResponse)
    (buffers : List (SharedBuffer × Int)) (metrics : NetworkLoadMetrics) (es1 : List Effect)
    (hstart : l.startNetworkLoad env request FirstLoad.Yes = some (l1, es1))
    (hload : l1.m_networkLoad.isSome = true)
    (hcache : l.canUseCache request = true)
    (hentry : l.m_cacheEntryForValidation = none)
    (hmultipart : response.isMultipart = false)
    (hreply : ∀ data, l.m_synchronousLoadData = some data → data.delayedReply = true)
    (hsize : (buffers.map (fun b => b.1.length)).sum ≤ 10 * 1024 * 1024) :
    ∃ l2 es2 c o,
      l1.m_networkLoad = some { currentRequest := request }
      ∧ NetworkResourceLoader.didReceiveResponse env
          { l1 with m_networkLoad := some { currentRequest := current } } response
          = some (l2, es2, c)
      ∧ (l2.didReceiveBuffers buffers).1.m_networkLoad = some { currentRequest := current }
      ∧ (l2.didReceiveBuffers buffers).1.didFinishLoading env metrics = some o
      ∧ o.2.filter Effect.isStore
          = (if l.canUseCache current then
               [Effect.cacheStore current response (buffers.map (fun b => b.1)).flatten]
             else [])
      ∧ (l.isSynchronous = false →
          Effect.send (Message.DidFinishResourceLoad metrics) ∈ o.2) := by
  obtain ⟨hn1, hb1, he1, hc1, hp1, hs1⟩ := startNetworkLoad_started env l l1 request es1 hstart hload
  rw [hcache] at hb1
  simp only [if_true] at hb1
  obtain ⟨⟨l2, es2, c⟩, hr, hresp2, hb2, hn2, he2, hc2, hp2, hs2, hd2⟩ :=
    didReceiveResponse_plain env { l1 with m_networkLoad := some { currentRequest := current } }
      response (he1.trans hentry) hmultipart
  simp only at hresp2 hb2 hn2 he2 hc2 hp2 hs2 hd2
  have hb3 := didReceiveBuffers_accumulate buffers l2 [] (hb2.trans hb1)
    (by simpa [maximumCacheBufferSize] using hsize)
  simp only [List.nil_append] at hb3
  have hcache3 : (l2.didReceiveBuffers buffers).1.canUseCache current = l.canUseCache current :=
    canUseCache_congr l _ current (by simp [hc2, hc1]) (by simp [hp2, hp1])
  have hreply3 : ∀ data, (l2.didReceiveBuffers buffers).1.m_synchronousLoadData = some data →
      data.delayedReply = true := by
    intro data hdata
    simp only [didReceiveBuffers_m_synchronousLoadData] at hdata
    obtain ⟨data0, h0, heq⟩ := hd2 data hdata
    rw [heq]
    exact hreply data0 (hs1 ▸ h0)
  have hasync3 : l.isSynchronous = false →
      (l2.didReceiveBuffers buffers).1.m_synchronousLoadData = none := by
    intro hasync
    have hs : l.m_synchronousLoadData = none := by
      unfold isSynchronous at hasync
      cases h : l.m_synchronousLoadData <;> simp_all
    simp only [didReceiveBuffers_m_synchronousLoadData]
    exact hs2 (hs1.trans hs)
  cases hcurrent : l.canUseCache current with
  | true =>
    obtain ⟨o, ho, hstore, hfinish⟩ :=
      didFinishLoading_store env (l2.didReceiveBuffers buffers).1 metrics
        { currentRequest := current } _ (by simp [hn2]) (by simp [he2])
        (hcache3.trans hcurrent) hb3 hreply3
    refine ⟨l2, es2, c, o, hn1, hr, by simp [hn2], ho, ?_, fun h => hfinish (hasync3 h)⟩
    simpa [hresp2] using hstore
  | false =>
    obtain ⟨o, ho, hstore, hfinish⟩ :=
      didFinishLoading_no_store env (l2.didReceiveBuffers buffers).1 metrics
        { currentRequest := current } (by simp [hn2]) (by simp [he2])
        (hcache3.trans hcurrent) hreply3
    refine ⟨l2, es2, c, o, hn1, hr, by simp [hn2], ho, ?_, fun h => hfinish (hasync3 h)⟩
    simpa using hstore

/-- C10 (amended) at a concrete input: two buffers on the sample loader, the
current request of the transport being the request the load was started
with. -/
theorem network_load_is_stored_witness :
    ∃ l2 es2 c o,
      sampleLoadingLoader.m_networkLoad = some { currentRequest := sampleRequest }
      ∧ NetworkResourceLoader.didReceiveResponse sampleEnv
          { sampleLoadingLoader with m_networkLoad := some { currentRequest := sampleRequest } }
          sampleResponse = some (l2, es2, c)
      ∧ (l2.didReceiveBuffers [([1, 2], 2), ([3], 1)]).1.m_networkLoad
          = some { currentRequest := sampleRequest }
      ∧ (l2.didReceiveBuffers [([1, 2], 2), ([3], 1)]).1.didFinishLoading sampleEnv
          { ident := 5 } = some o
      ∧ o.2.filter Effect.isStore
          = (if sampleLoader.canUseCache sampleRequest then
               [Effect.cacheStore sampleRequest sampleResponse
                  ([([1, 2], 2), ([3], 1)].map (fun b : SharedBuffer × Int => b.1)).flatten]
             else [])
      ∧ (sampleLoader.isSynchronous = false →
          Effect.send (Message.DidFinishResourceLoad { ident := 5 }) ∈ o.2) :=
  network_load_is_stored sampleEnv sampleLoader sampleLoadingLoader sampleRequest sampleRequest
    sampleResponse [([1, 2], 2), ([3], 1)] { ident := 5 } _ rfl rfl rfl rfl rfl
    (fun data h => Option.noConfusion h) (by decide)

theorem sameGrants_refl (l : NetworkResourceLoader) : l.SameGrants l := ⟨rfl, rfl, rfl⟩

@[simp] theorem occurrences_nil (x : SandboxExtension ⊕ BlobDataFileReference) :
    occurrences x [] = 0 := rfl

@[simp] theorem occurrences_append (x : SandboxExtension ⊕ BlobDataFileReference)
    (xs ys : List (SandboxExtension ⊕ BlobDataFileReference)) :
    occurrences x (xs ++ ys) = occurrences x xs + occurrences x ys := by
  simp [occurrences, List.countP_append]

theorem eq_nil_of_occurrences (xs ys : List (SandboxExtension ⊕ BlobDataFileReference))
    (h : ∀ x, occurrences x xs + occurrences x ys ≤ 0) : xs = [] ∧ ys = [] := by
  have key : ∀ zs : List (SandboxExtension ⊕ BlobDataFileReference),
      (∀ x, occurrences x zs = 0) → zs = [] := by
    intro zs hz
    rw [List.eq_nil_iff_forall_not_mem]
    intro x hx
    have h1 := hz x
    simp only [occurrences, List.countP_eq_zero, decide_eq_true_eq] at h1
    exact h1 x hx rfl
  exact ⟨key xs (fun x => by have := h x; omega), key ys (fun x => by have := h x; omega)⟩

theorem outstanding_congr (l0 l : NetworkResourceLoader) (h : l0.SameGrants l) :
    l.outstanding = l0.outstanding := by
  obtain ⟨h1, h2, h3⟩ := h
  simp only [outstanding, held, h1, h2, h3]

theorem untouched_filterMap (es : List Effect) (hq : ∀ e ∈ es, e.touchesSandbox = false) :
    es.filterMap Effect.consumed = [] ∧ es.filterMap Effect.revoked = [] := by
  have h : ∀ e ∈ es, e.consumed = none ∧ e.revoked = none := by
    intro e he
    have := hq e he
    simp only [Effect.touchesSandbox, Bool.or_eq_false_iff] at this
    exact ⟨by simpa using this.1, by simpa using this.2⟩
  constructor
  · rw [List.filterMap_eq_nil_iff]
    exact fun e he => (h e he).1
  · rw [List.filterMap_eq_nil_iff]
    exact fun e he => (h e he).2

theorem untouched_of_all (es : List Effect)
    (h : es.all (fun e => !e.touchesSandbox) = true) :
    ∀ e ∈ es, e.touchesSandbox = false := by
  intro e he
  have := List.all_eq_true.1 h e he
  simpa using this

theorem untouched_append (es1 es2 : List Effect)
    (h1 : ∀ e ∈ es1, e.touchesSandbox = false)
    (h2 : ∀ e ∈ es2, e.touchesSandbox = false) :
    ∀ e ∈ es1 ++ es2, e.touchesSandbox = false := by
  intro e he
  rcases List.mem_append.1 he with he | he
  · exact h1 e he
  · exact h2 e he

theorem accountsFor_same (l0 l : NetworkResourceLoader) (es : List Effect)
    (h : l0.SameGrants l) (hq : ∀ e ∈ es, e.touchesSandbox = false) :
    l0.AccountsFor l es := by
  obtain ⟨hc, hr⟩ := untouched_filterMap es hq
  refine ⟨h.1, Or.inl h.2.1, ?_, fun _ h0 => h.2.2.trans h0, fun _ => h.2.1⟩
  intro x
  rw [hc, hr, outstanding_congr l0 l h]

theorem accountsFor_trans (l0 l1 l2 : NetworkResourceLoader) (es1 es2 : List Effect)
    (h1 : l0.AccountsFor l1 es1) (h2 : l1.AccountsFor l2 es2) :
    l0.AccountsFor l2 (es1 ++ es2) := by
  obtain ⟨p1, f1, b1, c1, k1⟩ := h1
  obtain ⟨p2, f2, b2, c2, k2⟩ := h2
  refine ⟨p2.trans p1, ?_, ?_, ?_, ?_⟩
  · rcases f2 with f2 | f2
    · rcases f1 with f1 | f1
      · exact Or.inl (f2.trans f1)
      · exact Or.inr (f2.trans f1)
    · exact Or.inr f2
  · intro x
    have := b1 x
    have := b2 x
    simp only [List.filterMap_append, occurrences_append]
    omega
  · intro hq h0
    exact c2 (fun he => hq (List.mem_append_right _ he))
      (c1 (fun he => hq (List.mem_append_left _ he)) h0)
  · intro hq
    have hq1 : ∀ e ∈ es1, e.releases = false := fun e he => hq e (List.mem_append_left _ he)
    have hq2 : ∀ e ∈ es2, e.releases = false := fun e he => hq e (List.mem_append_right _ he)
    exact (k2 hq2).trans (k1 hq1)

theorem accountsFor_congr (l0 l1 l : NetworkResourceLoader) (es : List Effect)
    (h : l0.SameGrants l1) (h1 : l1.AccountsFor l es) : l0.AccountsFor l es := by
  have := accountsFor_trans l0 l1 l [] es (accountsFor_same l0 l1 [] h (by simp)) h1
  simpa using this

theorem held_congr (l0 l : NetworkResourceLoader) (h : l0.SameGrants l) : l.held = l0.held := by
  obtain ⟨h1, h2, -⟩ := h
  simp only [held, h1, h2]

theorem sameGrants_trans (l0 l1 l2 : NetworkResourceLoader) (h1 : l0.SameGrants l1)
    (h2 : l1.SameGrants l2) : l0.SameGrants l2 :=
  ⟨h2.1.trans h1.1, h2.2.1.trans h1.2.1, h2.2.2.trans h1.2.2⟩

theorem converted_append_left (es1 es2 : List Effect) (h : converted es1) :
    converted (es1 ++ es2) := by
  obtain ⟨e, he, h1⟩ := h
  exact ⟨e, List.mem_append_left _ he, h1⟩

theorem converted_append_right (es1 es2 : List Effect) (h : converted es2) :
    converted (es1 ++ es2) := by
  obtain ⟨e, he, h1⟩ := h
  exact ⟨e, List.mem_append_right _ he, h1⟩

theorem releases_of_isConversion (e : Effect) (h : e.isConversion = true) :
    e.releases = true := by
  cases e <;> simp_all [Effect.isConversion, Effect.releases]

theorem shape_same (l0 l : NetworkResourceLoader) (es : List Effect)
    (h : l0.SameGrants l) (hq : ∀ e ∈ es, e.touchesSandbox = false) : l0.Shape l es :=
  ⟨h.1, Or.inl ⟨h, untouched_filterMap es hq⟩⟩

theorem shape_prepend (l0 l1 l : NetworkResourceLoader) (es es2 : List Effect)
    (h : l0.SameGrants l1) (hq : ∀ e ∈ es, e.touchesSandbox = false)
    (hs : l1.Shape l es2) : l0.Shape l (es ++ es2) := by
  obtain ⟨hc, hr⟩ := untouched_filterMap es hq
  obtain ⟨hp, hs⟩ := hs
  refine ⟨hp.trans h.1, ?_⟩
  simp only [List.filterMap_append, hc, hr, List.nil_append]
  rw [← held_congr l0 l1 h, ← outstanding_congr l0 l1 h]
  rcases hs with ⟨a, b, c⟩ | ⟨a, b, c, d⟩ | ⟨a, b, c, d, e⟩ | ⟨a, b, c, d, e⟩ | ⟨a, b, c, d, e⟩
  · exact Or.inl ⟨sameGrants_trans l0 l1 l h a, b, c⟩
  · exact Or.inr (Or.inl ⟨a, b, c, d.trans h.2.1⟩)
  · exact Or.inr (Or.inr (Or.inl ⟨a, b, c, d, List.mem_append_right _ e⟩))
  · exact Or.inr (Or.inr (Or.inr (Or.inl ⟨a, b, c, d, List.mem_append_right _ e⟩)))
  · refine Or.inr (Or.inr (Or.inr (Or.inr ⟨a, b, c.trans h.2.2, ?_, converted_append_right _ _ e⟩)))
    rcases d with d | d
    · exact Or.inl (d.trans h.2.1)
    · exact Or.inr d

theorem shape_append (l0 l1 l2 : NetworkResourceLoader) (es es2 : List Effect)
    (hs : l0.Shape l1 es) (h : l1.SameGrants l2)
    (hq : ∀ e ∈ es2, e.touchesSandbox = false) : l0.Shape l2 (es ++ es2) := by
  obtain ⟨hc, hr⟩ := untouched_filterMap es2 hq
  obtain ⟨hp, hs⟩ := hs
  refine ⟨h.1.trans hp, ?_⟩
  simp only [List.filterMap_append, hc, hr, List.append_nil]
  rcases hs with ⟨a, b, c⟩ | ⟨a, b, c, d⟩ | ⟨a, b, c, d, e⟩ | ⟨a, b, c, d, e⟩ | ⟨a, b, c, d, e⟩
  · exact Or.inl ⟨sameGrants_trans l0 l1 l2 a h, b, c⟩
  · exact Or.inr (Or.inl ⟨a, b, h.2.2.trans c, h.2.1.trans d⟩)
  · exact Or.inr (Or.inr (Or.inl ⟨a, b, h.2.2.trans c, h.2.1.trans d,
      List.mem_append_left _ e⟩))
  · exact Or.inr (Or.inr (Or.inr (Or.inl ⟨a, b, h.2.2.trans c, h.2.1.trans d,
      List.mem_append_left _ e⟩)))
  · refine Or.inr (Or.inr (Or.inr (Or.inr ⟨a, b, h.2.2.trans c, ?_,
      converted_append_left _ _ e⟩)))
    rcases d with d | d
    · exact Or.inl (h.2.1.trans d)
    · exact Or.inr (h.2.1.trans d)

theorem accountsFor_of_shape (l0 l : NetworkResourceLoader) (es : List Effect)
    (hs : l0.Shape l es) : l0.AccountsFor l es := by
  obtain ⟨hp, hs⟩ := hs
  have hrel : (∃ e ∈ es, e.releases = true) → (∀ e ∈ es, e.releases = false) →
      l.m_fileReferences = l0.m_fileReferences := by
    rintro ⟨e, he, h1⟩ hq
    rw [hq e he] at h1
    exact Bool.noConfusion h1
  have hclean : Effect.didCleanupResourceLoader ∈ es → ∃ e ∈ es, e.releases = true :=
    fun he => ⟨_, he, rfl⟩
  have hconv : converted es → ∃ e ∈ es, e.releases = true :=
    fun ⟨e, he, h1⟩ => ⟨e, he, releases_of_isConversion e h1⟩
  rcases hs with ⟨a, b, c⟩ | ⟨a, b, c, d⟩ | ⟨a, b, c, d, e⟩ | ⟨a, b, c, d, e⟩ | ⟨a, b, c, d, e⟩
  · refine ⟨hp, Or.inl a.2.1, ?_, fun _ h0 => a.2.2.trans h0, fun _ => a.2.1⟩
    intro x
    rw [b, c, outstanding_congr l0 l a]
  · refine ⟨hp, Or.inl d, ?_, fun _ _ => c, fun _ => d⟩
    intro x
    have hh : l.outstanding = l0.held := by
      simp only [outstanding, c, if_true, held, hp, d]
    rw [a, b, hh]
    simp
  · refine ⟨hp, Or.inr d, ?_, fun hn => absurd e hn, hrel (hclean e)⟩
    intro x
    have hh : l.outstanding = [] := by simp [outstanding, c]
    rw [a, b, hh]
    simp
  · refine ⟨hp, Or.inr d, ?_, fun hn => absurd e hn, hrel (hclean e)⟩
    intro x
    have hh : l.outstanding = [] := by simp [outstanding, c]
    rw [a, b, hh]
    simp
  · refine ⟨hp, d, ?_, fun _ h0 => c.trans h0, hrel (hconv e)⟩
    intro x
    rw [a, b]
    simp only [outstanding, c, held, hp, occurrences_nil, Nat.zero_add]
    split
    · rcases d with d | d
      · rw [d]
      · rw [d]
        simp
    · exact Nat.le_refl _

theorem shaped_some (l0 l : NetworkResourceLoader) (es : List Effect)
    (h : l0.SameGrants l) (hq : ∀ e ∈ es, e.touchesSandbox = false) :
    Outcome.Shaped l0 (some (l, es)) := by
  intro r hr
  simp only [Option.some.injEq] at hr
  subst hr
  exact shape_same l0 l es h hq

theorem shaped_none (l0 : NetworkResourceLoader) : Outcome.Shaped l0 none := by
  intro r hr
  simp at hr

theorem untouching_some (l0 l : NetworkResourceLoader) (es : List Effect)
    (h : l0.SameGrants l) (hq : ∀ e ∈ es, e.touchesSandbox = false) :
    Outcome.Untouching l0 (some (l, es)) := by
  intro r hr
  simp only [Option.some.injEq] at hr
  subst hr
  exact ⟨h, hq⟩

theorem untouching_none (l0 : NetworkResourceLoader) : Outcome.Untouching l0 none := by
  intro r hr
  simp at hr

theorem untouching_andThen (l0 : NetworkResourceLoader) (o : Outcome)
    (f : NetworkResourceLoader → Outcome) (ho : Outcome.Untouching l0 o)
    (hf : ∀ l : NetworkResourceLoader, l0.SameGrants l → Outcome.Untouching l0 (f l)) :
    Outcome.Untouching l0 (o.andThen f) := by
  intro r hr
  unfold Outcome.andThen at hr
  split at hr
  · simp at hr
  · next l es =>
    obtain ⟨h1, q1⟩ := ho _ rfl
    split at hr
    · simp at hr
    · next l2 es2 h2 =>
      simp only [Option.some.injEq] at hr
      subst hr
      obtain ⟨h3, q3⟩ := hf l h1 _ h2
      exact ⟨h3, untouched_append _ _ q1 q3⟩

theorem shaped_andThen (l0 : NetworkResourceLoader) (o : Outcome)
    (f : NetworkResourceLoader → Outcome) (ho : Outcome.Untouching l0 o)
    (hf : ∀ l : NetworkResourceLoader, l0.SameGrants l → Outcome.Shaped l0 (f l)) :
    Outcome.Shaped l0 (o.andThen f) := by
  intro r hr
  unfold Outcome.andThen at hr
  split at hr
  · simp at hr
  · next l es =>
    obtain ⟨h1, q1⟩ := ho _ rfl
    split at hr
    · simp at hr
    · next l2 es2 h2 =>
      simp only [Option.some.injEq] at hr
      subst hr
      exact shape_prepend l0 l0 l2 es es2 (sameGrants_refl l0) q1 (hf l h1 _ h2)

theorem consumeSandboxExtensions_consumed (l : NetworkResourceLoader) :
    l.consumeSandboxExtensions.2.filterMap Effect.consumed = l.held
    ∧ l.consumeSandboxExtensions.2.filterMap Effect.revoked = [] := by
  cases hr : l.m_parameters.resourceSandboxExtension <;>
    simp [consumeSandboxExtensions, held, NetworkResourceLoadParameters.sandboxExtensions, hr,
      List.filterMap_append, List.filterMap_map, Function.comp_def, Effect.consumed,
      Effect.revoked, filterMap_some_eq_map]

theorem cleanup_consumed (l : NetworkResourceLoader) :
    l.cleanup.2.filterMap Effect.consumed = [] := by
  rw [List.filterMap_eq_nil_iff]
  intro e he
  have h := cleanup_effects_inCleanup l e he
  cases e <;> simp_all [Effect.inCleanup, Effect.consumed]

theorem cleanup_outstanding (l : NetworkResourceLoader) :
    l.cleanup.2.filterMap Effect.revoked = l.outstanding := by
  rw [cleanup_revoked]
  rfl

theorem cleanup_notifies (l : NetworkResourceLoader) :
    Effect.didCleanupResourceLoader ∈ l.cleanup.2 := by
  simp [cleanup]

theorem shaped_then_cleanup (l0 l : NetworkResourceLoader) (es : List Effect)
    (h : l0.SameGrants l) (hq : ∀ e ∈ es, e.touchesSandbox = false) :
    Outcome.Shaped l0 (some (l.cleanup.1, es ++ l.cleanup.2)) := by
  intro r hr
  simp only [Option.some.injEq] at hr
  subst hr
  apply shape_prepend l0 l _ es _ h hq
  exact ⟨cleanup_m_parameters l, Or.inr (Or.inr (Or.inl ⟨cleanup_consumed l,
    cleanup_outstanding l, cleanup_m_didConsumeSandboxExtensions l, cleanup_m_fileReferences l,
    cleanup_notifies l⟩))⟩

theorem cleanup_shaped (l0 l : NetworkResourceLoader) (h : l0.SameGrants l) :
    Outcome.Shaped l0 (some l.cleanup) := by
  have := shaped_then_cleanup l0 l [] h (by simp)
  simpa using this

theorem didFailLoading_cleans (env : Env) (l : NetworkResourceLoader) (error : ResourceError)
    (r : NetworkResourceLoader × List Effect) (hr : l.didFailLoading env error = some r) :
    r.1.m_parameters = l.m_parameters
    ∧ r.2.filterMap Effect.consumed = [] ∧ r.2.filterMap Effect.revoked = l.outstanding
    ∧ r.1.m_didConsumeSandboxExtensions = false ∧ r.1.m_fileReferences = []
    ∧ Effect.didCleanupResourceLoader ∈ r.2 := by
  have hcapture : ∀ e ∈ (if env.captureExtraNetworkLoadMetricsEnabled then
      [Effect.removeNetworkLoadInformation l.identifier] else []), e.touchesSandbox = false := by
    split
    · exact untouched_of_all _ rfl
    · simp
  have key : ∀ (l1 : NetworkResourceLoader) (reply : Effect), l.SameGrants l1 →
      reply.touchesSandbox = false →
      r = (l1.cleanup.1,
           (if env.captureExtraNetworkLoadMetricsEnabled then
              [Effect.removeNetworkLoadInformation l.identifier] else [])
             ++ [reply] ++ l1.cleanup.2) →
      r.1.m_parameters = l.m_parameters
      ∧ r.2.filterMap Effect.consumed = [] ∧ r.2.filterMap Effect.revoked = l.outstanding
      ∧ r.1.m_didConsumeSandboxExtensions = false ∧ r.1.m_fileReferences = []
      ∧ Effect.didCleanupResourceLoader ∈ r.2 := by
    intro l1 reply h1 hreply hr1
    subst hr1
    obtain ⟨hc, hrv⟩ := untouched_filterMap _
      (untouched_append _ [reply] hcapture
        (by intro e he; simp only [List.mem_singleton] at he; subst he; exact hreply))
    refine ⟨(cleanup_m_parameters l1).trans h1.1, ?_, ?_, cleanup_m_didConsumeSandboxExtensions l1,
      cleanup_m_fileReferences l1, List.mem_append_right _ (cleanup_notifies l1)⟩
    · rw [List.filterMap_append, hc, cleanup_consumed]
      rfl
    · rw [List.filterMap_append, hrv, cleanup_outstanding, outstanding_congr l l1 h1]
      rfl
  cases hs : l.m_synchronousLoadData with
  | none =>
    rw [didFailLoading_asynchronous env l error hs] at hr
    simp only [Option.some.injEq] at hr
    exact key _ (Effect.send (Message.DidFailResourceLoad error))
      (by exact sameGrants_refl l) rfl hr.symm
  | some data =>
    cases hd : data.delayedReply with
    | false => simp [didFailLoading, hs, sendReplyToSynchronousRequest, hd] at hr
    | true =>
      simp only [didFailLoading, hs, sendReplyToSynchronousRequest, hd, if_true,
        Option.some.injEq] at hr
      exact key _ (Effect.sendSynchronousReply error data.response [])
        (by exact sameGrants_refl l) rfl hr.symm

theorem didFailLoading_shaped (env : Env) (l0 l : NetworkResourceLoader)
    (error : ResourceError) (h : l0.SameGrants l) :
    Outcome.Shaped l0 (l.didFailLoading env error) := by
  intro r hr
  obtain ⟨h1, h2, h3, h4, h5, h6⟩ := didFailLoading_cleans env l error r hr
  rw [outstanding_congr l0 l h] at h3
  exact ⟨h1.trans h.1, Or.inr (Or.inr (Or.inl ⟨h2, h3, h4, h5, h6⟩))⟩

theorem firstLoadSetup_shape (l : NetworkResourceLoader) (request : ResourceRequest) :
    l.Shape (l.firstLoadSetup request).1 (l.firstLoadSetup request).2 := by
  obtain ⟨hc, hr⟩ := consumeSandboxExtensions_consumed l
  exact ⟨rfl, Or.inr (Or.inl ⟨hc, hr, rfl, rfl⟩)⟩

theorem lookUpNetworkSession_untouched (env : Env) (sessionID : SessionID) :
    ∀ e ∈ (lookUpNetworkSession env sessionID).2, e.touchesSandbox = false := by
  unfold lookUpNetworkSession
  split
  · exact untouched_of_all _ rfl
  · simp

theorem shape_then_failure (env : Env) (l0 l1 : NetworkResourceLoader) (es : List Effect)
    (error : ResourceError) (r : NetworkResourceLoader × List Effect)
    (hs : l0.Shape l1 es)
    (hfirst : l0.SameGrants l1 ∨ (l1.m_didConsumeSandboxExtensions = true
      ∧ es.filterMap Effect.consumed = l0.held))
    (hr : l1.didFailLoading env error = some r) : l0.Shape r.1 (es ++ r.2) := by
  obtain ⟨h1, h2, h3, h4, h5, h6⟩ := didFailLoading_cleans env l1 error r hr
  obtain ⟨hp, hs⟩ := hs
  refine ⟨h1.trans hp, ?_⟩
  simp only [List.filterMap_append, h2, h3, List.append_nil]
  rcases hs with ⟨a, b, c⟩ | ⟨a, b, c, d⟩ | ⟨a, b, c, d, e⟩ | ⟨a, b, c, d, e⟩ | ⟨a, b, c, d, e⟩
  · refine Or.inr (Or.inr (Or.inl ⟨b, ?_, h4, h5, List.mem_append_right _ h6⟩))
    rw [c, outstanding_congr l0 l1 a]
    rfl
  · refine Or.inr (Or.inr (Or.inr (Or.inl ⟨a, ?_, h4, h5, List.mem_append_right _ h6⟩)))
    have hh : l1.outstanding = l0.held := by
      simp only [outstanding, c, if_true, held, hp, d]
    rw [b, hh]
    rfl
  · refine Or.inr (Or.inr (Or.inl ⟨a, ?_, h4, h5, List.mem_append_right _ h6⟩))
    have hh : l1.outstanding = [] := by simp [outstanding, c]
    rw [b, hh]
    simp
  · refine Or.inr (Or.inr (Or.inr (Or.inl ⟨a, ?_, h4, h5, List.mem_append_right _ h6⟩)))
    have hh : l1.outstanding = [] := by simp [outstanding, c]
    rw [b, hh]
    simp
  · rcases hfirst with hsame | ⟨hflag, hcons⟩
    · refine Or.inr (Or.inr (Or.inl ⟨a, ?_, h4, h5, List.mem_append_right _ h6⟩))
      rw [b, outstanding_congr l0 l1 hsame]
      rfl
    · refine Or.inr (Or.inr (Or.inr (Or.inl ⟨hcons, ?_, h4, h5,
        List.mem_append_right _ h6⟩)))
      have hheld : l0.held = [] := by rw [← hcons, a]
      have hh : l1.outstanding = [] := by
        have hsub : l1.held = [] := by
          have h0 := hheld
          simp only [held, List.append_eq_nil, List.map_eq_nil_iff] at h0 ⊢
          obtain ⟨x1, x3⟩ := h0
          refine ⟨by rw [hp]; exact x1, ?_⟩
          rcases d with d | d
          · rw [d]; exact x3
          · exact d
        simp only [outstanding, hsub]
        split <;> rfl
      rw [b, hh, hheld]
      rfl

theorem startNetworkLoad_shaped (env : Env) (l0 l : NetworkResourceLoader)
    (request : ResourceRequest) (load : FirstLoad) (h : l0.SameGrants l) :
    Outcome.Shaped l0 (l.startNetworkLoad env request load) := by
  have hfirst : l0.Shape
      (if load = FirstLoad.Yes then l.firstLoadSetup request else (l, [])).1
      (if load = FirstLoad.Yes then l.firstLoadSetup request else (l, [])).2
      ∧ (l0.SameGrants (if load = FirstLoad.Yes then l.firstLoadSetup request else (l, [])).1
        ∨ ((if load = FirstLoad.Yes then l.firstLoadSetup request
              else (l, [])).1.m_didConsumeSandboxExtensions = true
          ∧ (if load = FirstLoad.Yes then l.firstLoadSetup request
              else (l, [])).2.filterMap Effect.consumed = l0.held)) := by
    split
    · have := shape_prepend l0 l _ [] _ h (by simp) (firstLoadSetup_shape l request)
      refine ⟨by simpa using this, Or.inr ⟨rfl, ?_⟩⟩
      rw [← held_congr l0 l h]
      exact (consumeSandboxExtensions_consumed l).1
    · exact ⟨shape_same l0 l [] h (by simp), Or.inl h⟩
  unfold startNetworkLoad
  simp only
  generalize (if load = FirstLoad.Yes then l.firstLoadSetup request else (l, [])) = first
    at hfirst
  obtain ⟨hshape, hkind⟩ := hfirst
  split
  · intro r hr
    simp only [Outcome.andThen] at hr
    split at hr
    · simp at hr
    · next l2 es2 hfail =>
      simp only [Option.some.injEq] at hr
      subst hr
      have hmid : l0.Shape first.1
          (first.2 ++ (lookUpNetworkSession env first.1.m_parameters.sessionID).2
            ++ [Effect.logInvalidSessionID first.1.m_parameters.webPageID]) := by
        rw [List.append_assoc]
        exact shape_append l0 first.1 first.1 _ _ hshape (sameGrants_refl _)
          (untouched_append _ _ (lookUpNetworkSession_untouched env _) (untouched_of_all _ rfl))
      refine shape_then_failure env l0 first.1 _ _ (l2, es2) hmid ?_ hfail
      rcases hkind with hk | ⟨hk1, hk2⟩
      · exact Or.inl hk
      · refine Or.inr ⟨hk1, ?_⟩
        obtain ⟨hc, -⟩ := untouched_filterMap _
          (untouched_append _ _ (lookUpNetworkSession_untouched env
            first.1.m_parameters.sessionID)
            (untouched_of_all [Effect.logInvalidSessionID first.1.m_parameters.webPageID] rfl))
        rw [List.append_assoc, List.filterMap_append, hc, List.append_nil]
        exact hk2
  · intro r hr
    simp only [Option.some.injEq] at hr
    subst hr
    rw [List.append_assoc]
    exact shape_append l0 first.1 _ _ _ hshape ⟨rfl, rfl, rfl⟩
      (untouched_append _ _ (lookUpNetworkSession_untouched env _) (untouched_of_all _ rfl))

theorem retrieveCacheEntry_shaped (l0 l : NetworkResourceLoader) (request : ResourceRequest)
    (h : l0.SameGrants l) : Outcome.Shaped l0 (l.retrieveCacheEntry request) := by
  unfold retrieveCacheEntry
  split
  · exact shaped_none l0
  · exact shaped_some _ _ _ h (untouched_of_all _ rfl)

theorem start_shaped (env : Env) (l0 l : NetworkResourceLoader) (h : l0.SameGrants l) :
    Outcome.Shaped l0 (l.start env) := by
  unfold start
  split
  · exact shaped_some _ l [] h (by simp)
  · simp only
    split
    · exact shaped_some _ _ _ (by exact h) (untouched_of_all _ rfl)
    · split
      · exact retrieveCacheEntry_shaped _ _ _ (by exact h)
      · exact startNetworkLoad_shaped env _ _ _ _ (by exact h)

theorem startCheckCompletion_shaped (env : Env) (l0 l : NetworkResourceLoader)
    (result : RequestOrError) (h : l0.SameGrants l) :
    Outcome.Shaped l0 (l.startCheckCompletion env result) := by
  unfold startCheckCompletion
  split
  · split
    · exact didFailLoading_shaped env _ l _ h
    · exact shaped_some _ l [] h (by simp)
  · split
    · exact retrieveCacheEntry_shaped _ _ _ h
    · exact startNetworkLoad_shaped env _ _ _ _ h

theorem setDefersLoading_shaped (env : Env) (l0 l : NetworkResourceLoader) (defers : Bool)
    (h : l0.SameGrants l) : Outcome.Shaped l0 (l.setDefersLoading env defers) := by
  unfold setDefersLoading
  split
  · exact shaped_some _ l [] h (by simp)
  · simp only
    split
    · exact shaped_some _ _ _ (by exact h) (untouched_of_all _ rfl)
    · split
      · exact start_shaped env _ _ (by exact h)
      · exact shaped_some _ _ _ (by exact h) (by simp)

theorem abort_shaped (l0 l : NetworkResourceLoader) (h : l0.SameGrants l) :
    Outcome.Shaped l0 (some l.abort) := by
  unfold abort
  simp only
  apply shaped_then_cleanup _ _ _ h
  split
  · apply untouched_append
    · split
      · split
        · exact untouched_of_all _ rfl
        · simp
      · simp
    · exact untouched_of_all _ rfl
  · simp

theorem convertToDownload_shaped (env : Env) (l0 l : NetworkResourceLoader) (downloadID : Nat)
    (request : ResourceRequest) (response : ResourceResponse) (h : l0.SameGrants l) :
    Outcome.Shaped l0 (some (l.convertToDownload env downloadID request response)) := by
  intro r hr
  simp only [Option.some.injEq] at hr
  subst hr
  refine ⟨h.1, Or.inr (Or.inr (Or.inr (Or.inr ⟨rfl, rfl, h.2.2, ?_,
    ⟨_, List.mem_singleton.2 rfl, rfl⟩⟩)))⟩
  simp only [convertToDownload]
  split
  · exact Or.inr rfl
  · exact Or.inl h.2.1

theorem continueWillSendRequest_shaped (env : Env) (l0 l : NetworkResourceLoader)
    (newRequest : ResourceRequest) (allowed : Bool) (h : l0.SameGrants l) :
    Outcome.Shaped l0 (l.continueWillSendRequest env newRequest allowed) := by
  unfold continueWillSendRequest
  simp only
  split
  · split
    · exact retrieveCacheEntry_shaped _ _ _ (by exact h)
    · exact startNetworkLoad_shaped env _ _ _ _ (by exact h)
  · split
    · exact shaped_some _ _ _ (by exact h) (untouched_of_all _ rfl)
    · exact shaped_some _ _ _ (by exact h) (by simp)

theorem sendResultForCacheEntry_untouched (env : Env) (l : NetworkResourceLoader)
    (entry : Entry) : ∀ e ∈ (l.sendResultForCacheEntry env entry).2, e.touchesSandbox = false := by
  unfold sendResultForCacheEntry
  split
  · exact untouched_of_all _ rfl
  · exact untouched_of_all _ rfl

theorem sendReplyToSynchronousRequest_untouched (data data1 : SynchronousLoadData)
    (buffer : Option SharedBuffer) (es : List Effect)
    (h : sendReplyToSynchronousRequest data buffer = some (data1, es)) :
    ∀ e ∈ es, e.touchesSandbox = false := by
  unfold sendReplyToSynchronousRequest at h
  simp only at h
  split at h
  · simp only [Option.some.injEq, Prod.mk.injEq] at h
    obtain ⟨-, rfl⟩ := h
    exact untouched_of_all _ rfl
  · exact Option.noConfusion h

theorem continueProcessingCachedEntryAfterDidReceiveResponse_shaped (env : Env)
    (l0 l : NetworkResourceLoader) (entry : Entry) (h : l0.SameGrants l) :
    Outcome.Shaped l0 (l.continueProcessingCachedEntryAfterDidReceiveResponse env entry) := by
  have hresult : Outcome.Shaped l0
      (some ((l.sendResultForCacheEntry env entry).1.cleanup.1,
             (l.sendResultForCacheEntry env entry).2
               ++ (l.sendResultForCacheEntry env entry).1.cleanup.2)) := by
    rw [sendResultForCacheEntry_fst]
    exact shaped_then_cleanup l0 l _ h (sendResultForCacheEntry_untouched env l entry)
  unfold continueProcessingCachedEntryAfterDidReceiveResponse
  split
  · split
    · split
      · exact shaped_none l0
      · apply shaped_some _ _ _ h
        intro e he
        simp only [List.mem_map] at he
        obtain ⟨x, -, rfl⟩ := he
        rfl
    · exact hresult
  · exact hresult

theorem continueDidReceiveResponse_shaped (env : Env) (l0 l : NetworkResourceLoader)
    (h : l0.SameGrants l) : Outcome.Shaped l0 (l.continueDidReceiveResponse env) := by
  unfold continueDidReceiveResponse
  split
  · exact continueProcessingCachedEntryAfterDidReceiveResponse_shaped env _ _ _ (by exact h)
  · split
    · exact shaped_some _ _ _ h (untouched_of_all _ rfl)
    · exact shaped_some _ _ _ h (by simp)

theorem didReceiveBuffer_shaped (l0 l : NetworkResourceLoader) (buffer : SharedBuffer)
    (reported : Int) (h : l0.SameGrants l) :
    Outcome.Shaped l0 (some (l.didReceiveBuffer buffer reported)) := by
  intro r hr
  simp only [Option.some.injEq] at hr
  subst hr
  apply shape_same
  · unfold didReceiveBuffer startBufferingTimerIfNeeded sendBuffer
    simp only
    (repeat' split) <;> exact h
  · unfold didReceiveBuffer
    simp only
    split
    · simp
    · exact untouched_of_all _ rfl

theorem didRetrieveCacheEntry_shaped (env : Env) (l0 l : NetworkResourceLoader)
    (entry : Entry) (h : l0.SameGrants l) :
    Outcome.Shaped l0 (l.didRetrieveCacheEntry env entry) := by
  unfold didRetrieveCacheEntry
  simp only
  split
  · exact didFailLoading_shaped env _ l _ h
  · split
    · split
      · exact shaped_none l0
      · next data data1 es hs =>
        exact shaped_then_cleanup l0 _ _ (by exact h)
          (sendReplyToSynchronousRequest_untouched _ _ _ _ hs)
    · split
      · exact shaped_some _ _ _ (by exact h) (untouched_of_all _ rfl)
      · apply shaped_andThen
        · exact untouching_some _ _ _ h (untouched_of_all _ rfl)
        · intro l1 h1
          exact continueProcessingCachedEntryAfterDidReceiveResponse_shaped env _ l1 _ h1

theorem tryStoreAsCacheEntry_untouching (l0 l : NetworkResourceLoader) (h : l0.SameGrants l) :
    Outcome.Untouching l0 l.tryStoreAsCacheEntry := by
  unfold tryStoreAsCacheEntry
  split
  · exact untouching_none l0
  · split
    · exact untouching_some _ l [] h (by simp)
    · split
      · exact untouching_some _ l [] h (by simp)
      · exact untouching_some _ _ _ (by exact h) (untouched_of_all _ rfl)

theorem didFinishLoading_shaped (env : Env) (l0 l : NetworkResourceLoader)
    (metrics : NetworkLoadMetrics) (h : l0.SameGrants l) :
    Outcome.Shaped l0 (l.didFinishLoading env metrics) := by
  have hcapture : ∀ e ∈ (if env.captureExtraNetworkLoadMetricsEnabled then
      [Effect.addNetworkLoadInformationMetrics l.identifier metrics] else []),
      e.touchesSandbox = false := by
    split
    · exact untouched_of_all _ rfl
    · simp
  unfold didFinishLoading
  simp only
  split
  · apply shaped_andThen
    · exact untouching_some _ _ _ (by exact h) hcapture
    · intro l1 h1
      exact didRetrieveCacheEntry_shaped env _ l1 _ h1
  · apply shaped_andThen
    · apply untouching_andThen
      · split
        · split
          · exact untouching_none l0
          · next data data1 es hs =>
            refine untouching_some _ _ _ (by exact h) ?_
            exact untouched_append _ _ hcapture
              (sendReplyToSynchronousRequest_untouched _ _ _ _ hs)
        · apply untouching_some _ _ _ h
          apply untouched_append
          · apply untouched_append _ _ hcapture
            split
            · split
              · exact untouched_of_all _ rfl
              · simp
            · simp
          · exact untouched_of_all _ rfl
      · intro l1 h1
        exact tryStoreAsCacheEntry_untouching _ l1 h1
    · intro l1 h1
      exact cleanup_shaped _ l1 h1

theorem revalidate_untouched (env : Env) (l : NetworkResourceLoader)
    (entry : Option Entry) (updates : List Effect)
    (h : revalidate env l = some (entry, updates)) :
    ∀ e ∈ updates, e.touchesSandbox = false := by
  unfold revalidate at h
  (repeat' split at h) <;>
    first
      | exact Option.noConfusion h
      | (simp only [Option.some.injEq, Prod.mk.injEq] at h
         obtain ⟨-, rfl⟩ := h
         exact untouched_of_all _ rfl)

theorem didReceiveResponse_shaped (env : Env) (l0 l : NetworkResourceLoader)
    (response : ResourceResponse) (h : l0.SameGrants l) :
    Outcome.Shaped l0
      ((l.didReceiveResponse env response).map (fun r => (r.1, r.2.1))) := by
  intro r hr
  unfold didReceiveResponse at hr
  simp only at hr
  split at hr
  · simp at hr
  · next entry updates hrev =>
    have hu := revalidate_untouched env _ _ _ hrev
    (repeat' split at hr) <;>
      simp only [Option.map_some', Option.some.injEq] at hr <;>
      subst hr <;>
      refine shape_same _ _ _ (by exact h) (fun e he => ?_) <;>
      simp only [List.mem_append, List.mem_singleton, List.mem_cons, List.mem_nil_iff, or_false,
        false_or, List.nil_append, List.append_nil] at he <;>
      (try casesm* _ ∨ _) <;>
      first
        | exact hu e (by assumption)
        | (subst_vars; rfl)

theorem continueWillSendRedirectedRequest_shaped (env : Env) (l0 l : NetworkResourceLoader)
    (request redirectRequest : ResourceRequest) (redirectResponse : ResourceResponse)
    (h : l0.SameGrants l) :
    Outcome.Shaped l0
      (l.continueWillSendRedirectedRequest env request redirectRequest redirectResponse) := by
  have hstored : ∀ e ∈ (if l.canUseCachedRedirect request then
      [Effect.cacheStoreRedirect request redirectResponse redirectRequest] else []),
      e.touchesSandbox = false := by
    split
    · exact untouched_of_all _ rfl
    · simp
  unfold continueWillSendRedirectedRequest
  simp only
  split
  · apply shaped_andThen
    · exact untouching_some _ _ _ h hstored
    · intro l1 h1
      exact didFailLoading_shaped env _ l1 _ h1
  · exact shaped_some _ _ _ h (untouched_append _ _ hstored (untouched_of_all _ rfl))

theorem willSendRedirectedRequest_shaped (env : Env) (l0 l : NetworkResourceLoader)
    (request redirectRequest : ResourceRequest) (redirectResponse : ResourceResponse)
    (h : l0.SameGrants l) :
    Outcome.Shaped l0
      (l.willSendRedirectedRequest env request redirectRequest redirectResponse) := by
  unfold willSendRedirectedRequest
  simp only
  split
  · exact shaped_some _ _ _ (by exact h) (untouched_of_all _ rfl)
  · exact continueWillSendRedirectedRequest_shaped env _ _ _ _ _ (by exact h)

theorem bufferingTimerFired_shaped (l0 l : NetworkResourceLoader) (h : l0.SameGrants l) :
    Outcome.Shaped l0 l.bufferingTimerFired := by
  unfold bufferingTimerFired
  split
  · exact shaped_none l0
  · split
    · exact shaped_some _ _ _ h (by simp)
    · exact shaped_some _ _ _ (by exact h) (untouched_of_all _ rfl)

theorem checkRedirectionCompletion_shaped (env : Env) (l0 l : NetworkResourceLoader)
    (storedCredentialsPolicy : StoredCredentialsPolicy) (request : ResourceRequest)
    (redirectResponse : ResourceResponse) (result : RequestOrError) (h : l0.SameGrants l) :
    Outcome.Shaped l0
      (l.checkRedirectionCompletion env storedCredentialsPolicy request redirectResponse
        result) := by
  unfold checkRedirectionCompletion
  split
  · split
    · exact shaped_some _ l [] h (by simp)
    · exact didFailLoading_shaped env _ l _ h
  · split
    · exact shaped_none l0
    · split
      · split
        · exact shaped_none l0
        · apply shaped_andThen
          · exact untouching_some _ _ _ h (untouched_of_all _ rfl)
          · intro l1 h1
            exact startNetworkLoad_shaped env _ l1 _ _ h1
      · split
        · exact continueWillSendRequest_shaped env _ l _ _ h
        · exact continueWillSendRedirectedRequest_shaped env _ l _ _ _ h

theorem dispatchedDidFailLoading_shaped (env : Env) (l0 l : NetworkResourceLoader)
    (error : ResourceError) (h : l0.SameGrants l) :
    Outcome.Shaped l0 (l.dispatchedDidFailLoading env error) := by
  unfold dispatchedDidFailLoading
  split
  · exact didFailLoading_shaped env _ l _ h
  · exact shaped_some _ l [] h (by simp)

theorem retrieveDataCompletion_shaped (env : Env) (l0 l : NetworkResourceLoader)
    (hasOneRef : Bool) (entry : Entry) (type : String) (retrieveCount : Nat)
    (data : Option SharedBuffer) (h : l0.SameGrants l) :
    Outcome.Shaped l0
      (some (l.retrieveDataCompletion env hasOneRef entry type retrieveCount data)) := by
  have hsent : ∀ e ∈ ((match data with
      | some d => [Effect.send (Message.DidRetrieveDerivedData type d)]
      | none => []) : List Effect), e.touchesSandbox = false := by
    split
    · exact untouched_of_all _ rfl
    · simp
  unfold retrieveDataCompletion
  simp only
  split
  · exact shaped_some _ _ _ (by exact h) (by simp)
  · split
    · rw [sendResultForCacheEntry_fst]
      exact shaped_then_cleanup l0 _ _ (by exact h)
        (untouched_append _ _ hsent (sendResultForCacheEntry_untouched env _ entry))
    · exact shaped_some _ _ _ (by exact h) hsent

theorem storeCompletion_shaped (env : Env) (l0 l : NetworkResourceLoader)
    (handle : Option Nat) (h : l0.SameGrants l) :
    Outcome.Shaped l0 (some (l.storeCompletion env handle)) := by
  unfold storeCompletion
  split
  · split
    · exact shaped_some _ l [] h (by simp)
    · exact shaped_some _ _ _ h (untouched_of_all _ rfl)
  · exact shaped_some _ l [] h (by simp)

theorem didSendData_shaped (l0 l : NetworkResourceLoader) (bytesSent totalBytesToBeSent : Nat)
    (h : l0.SameGrants l) :
    Outcome.Shaped l0 (some (l.didSendData bytesSent totalBytesToBeSent)) := by
  unfold didSendData
  split
  · exact shaped_some _ _ _ h (untouched_of_all _ rfl)
  · exact shaped_some _ l [] h (by simp)

theorem didBlockAuthenticationChallenge_shaped (l0 l : NetworkResourceLoader)
    (h : l0.SameGrants l) : Outcome.Shaped l0 (some l.didBlockAuthenticationChallenge) :=
  shaped_some _ _ _ h (untouched_of_all _ rfl)

theorem validateCacheEntry_shaped (env : Env) (l0 l : NetworkResourceLoader) (entry : Entry)
    (h : l0.SameGrants l) : Outcome.Shaped l0 (l.validateCacheEntry env entry) := by
  unfold validateCacheEntry
  exact startNetworkLoad_shaped env _ _ _ _ (by exact h)

theorem dispatchWillSendRequestForCacheEntry_shaped (env : Env)
    (l0 l : NetworkResourceLoader) (entry : Entry) (h : l0.SameGrants l) :
    Outcome.Shaped l0 (l.dispatchWillSendRequestForCacheEntry env entry) := by
  unfold dispatchWillSendRequestForCacheEntry
  split
  · exact didFailLoading_shaped env _ l _ h
  · split
    · exact shaped_none l0
    · exact shaped_some _ _ _ (by exact h) (untouched_of_all _ rfl)

theorem retrieveCacheEntryCompletion_shaped (env : Env) (l0 l : NetworkResourceLoader)
    (hasOneRef : Bool) (request : ResourceRequest) (entry : Option Entry)
    (h : l0.SameGrants l) :
    Outcome.Shaped l0 (l.retrieveCacheEntryCompletion env hasOneRef request entry) := by
  unfold retrieveCacheEntryCompletion
  split
  · exact shaped_some _ l [] h (by simp)
  · split
    · exact startNetworkLoad_shaped env _ _ _ _ h
    · split
      · exact dispatchWillSendRequestForCacheEntry_shaped env _ l _ h
      · split
        · exact startNetworkLoad_shaped env _ _ _ _ h
        · split
          · exact validateCacheEntry_shaped env _ l _ h
          · exact didRetrieveCacheEntry_shaped env _ l _ h

theorem sameCredit_refl (l : NetworkResourceLoader) : l.SameCredit l := ⟨rfl, rfl, rfl⟩

theorem credit_congr (l0 l : NetworkResourceLoader) (h : l0.SameCredit l) :
    l.credit = l0.credit := by
  simp only [credit, h.1, h.2.1]

theorem idle_of_all (es : List Effect) (h : es.all Effect.isIdle = true) :
    ∀ e ∈ es, e.isIdle = true := fun e he => List.all_eq_true.1 h e he

theorem idle_append (es1 es2 : List Effect) (h1 : ∀ e ∈ es1, e.isIdle = true)
    (h2 : ∀ e ∈ es2, e.isIdle = true) : ∀ e ∈ es1 ++ es2, e.isIdle = true := by
  intro e he
  rcases List.mem_append.1 he with he | he
  · exact h1 e he
  · exact h2 e he

theorem idle_effects (es : List Effect) (h : ∀ e ∈ es, e.isIdle = true) :
    es.countP Effect.spawns = 0 ∧ es.filterMap Effect.consumed = [] := by
  constructor
  · rw [List.countP_eq_zero]
    intro e he
    have := h e he
    simp only [Effect.isIdle, Bool.and_eq_true, Bool.not_eq_true'] at this
    simp [this.1]
  · rw [List.filterMap_eq_nil_iff]
    intro e he
    have := h e he
    simp only [Effect.isIdle, Bool.and_eq_true, Option.isNone_iff_eq_none] at this
    exact this.2

theorem idle_some (l0 l : NetworkResourceLoader) (es : List Effect)
    (h : l0.SameCredit l) (hq : ∀ e ∈ es, e.isIdle = true) :
    Outcome.Idle l0 (some (l, es)) := by
  intro r hr
  simp only [Option.some.injEq] at hr
  subst hr
  exact ⟨hq, h.1, fun h1 => h.2.1 ▸ h1, h.2.2⟩

theorem idle_none (l0 : NetworkResourceLoader) : Outcome.Idle l0 none := by
  intro r hr
  simp at hr

theorem idle_andThen (l0 : NetworkResourceLoader) (o : Outcome)
    (f : NetworkResourceLoader → Outcome) (ho : Outcome.Idle l0 o)
    (hf : ∀ l : NetworkResourceLoader, Outcome.Idle l (f l)) :
    Outcome.Idle l0 (o.andThen f) := by
  intro r hr
  unfold Outcome.andThen at hr
  split at hr
  · simp at hr
  · next l es =>
    obtain ⟨q1, w1, c1, s1⟩ := ho _ rfl
    split at hr
    · simp at hr
    · next l2 es2 h2 =>
      simp only [Option.some.injEq] at hr
      subst hr
      obtain ⟨q2, w2, c2, s2⟩ := hf l _ h2
      exact ⟨idle_append _ _ q1 q2, w2.trans w1, fun h => c1 (c2 h), s2.trans s1⟩

theorem idle_congr (l0 l1 : NetworkResourceLoader) (o : Outcome) (h : l0.SameCredit l1)
    (h1 : Outcome.Idle l1 o) : Outcome.Idle l0 o := by
  intro r hr
  obtain ⟨q, w, c, s⟩ := h1 r hr
  exact ⟨q, w.trans h.1, fun hc => h.2.1 ▸ c hc, s.trans h.2.2⟩

theorem idle_of_inCleanup (e : Effect) (h : e.inCleanup = true) : e.isIdle = true := by
  cases e <;> simp_all [Effect.inCleanup, Effect.isIdle, Effect.spawns, Effect.consumed]

theorem cleanup_idle_effects (l : NetworkResourceLoader) : ∀ e ∈ l.cleanup.2, e.isIdle = true :=
  fun e he => idle_of_inCleanup e (cleanup_effects_inCleanup l e he)

theorem idle_then_cleanup (l0 l : NetworkResourceLoader) (es : List Effect)
    (h : l0.SameCredit l) (hq : ∀ e ∈ es, e.isIdle = true) :
    Outcome.Idle l0 (some (l.cleanup.1, es ++ l.cleanup.2)) := by
  intro r hr
  simp only [Option.some.injEq] at hr
  subst hr
  refine ⟨idle_append _ _ hq (cleanup_idle_effects l), ?_, ?_, ?_⟩
  · simp only [cleanup_m_isWaitingContinueWillSendRequestForCachedRedirect]
    exact h.1
  · intro hc
    simp at hc
  · simp only [cleanup_m_wasStarted]
    exact h.2.2

theorem cleanup_idle (l0 l : NetworkResourceLoader) (h : l0.SameCredit l) :
    Outcome.Idle l0 (some l.cleanup) := by
  have := idle_then_cleanup l0 l [] h (by simp)
  simpa using this

theorem didFailLoading_idle (env : Env) (l0 l : NetworkResourceLoader)
    (error : ResourceError) (h : l0.SameCredit l) :
    Outcome.Idle l0 (l.didFailLoading env error) := by
  have hcapture : ∀ e ∈ (if env.captureExtraNetworkLoadMetricsEnabled then
      [Effect.removeNetworkLoadInformation l.identifier] else []), e.isIdle = true := by
    split
    · exact idle_of_all _ rfl
    · simp
  cases hs : l.m_synchronousLoadData with
  | none =>
    rw [didFailLoading_asynchronous env l error hs]
    exact idle_then_cleanup l0 _ _ (by exact h)
      (idle_append _ _ hcapture (idle_of_all _ rfl))
  | some data =>
    cases hd : data.delayedReply with
    | false =>
      have : l.didFailLoading env error = none := by
        simp [didFailLoading, hs, sendReplyToSynchronousRequest, hd]
      rw [this]
      exact idle_none l0
    | true =>
      have : l.didFailLoading env error
          = some ((cleanup { l with m_cacheEntryForValidation := none
                                    m_synchronousLoadData :=
                                      some { data with error := error, delayedReply := false } }).1,
                  (if env.captureExtraNetworkLoadMetricsEnabled then
                     [Effect.removeNetworkLoadInformation l.identifier] else [])
                    ++ [Effect.sendSynchronousReply error data.response []]
                    ++ (cleanup { l with m_cacheEntryForValidation := none
                                         m_synchronousLoadData :=
                                           some { data with error := error,
                                                            delayedReply := false } }).2) := by
        simp [didFailLoading, hs, sendReplyToSynchronousRequest, hd]
      rw [this]
      exact idle_then_cleanup l0 _ _ (by exact h)
        (idle_append _ _ hcapture (idle_of_all _ rfl))

theorem lookUpNetworkSession_idle (env : Env) (sessionID : SessionID) :
    ∀ e ∈ (lookUpNetworkSession env sessionID).2, e.isIdle = true := by
  unfold lookUpNetworkSession
  split
  · exact idle_of_all _ rfl
  · simp

theorem restart_idle (env : Env) (l0 l : NetworkResourceLoader)
    (request : ResourceRequest) (h : l0.SameCredit l) :
    Outcome.Idle l0 (l.startNetworkLoad env request FirstLoad.No) := by
  unfold startNetworkLoad
  simp only [reduceCtorEq, if_false, List.nil_append]
  split
  · apply idle_andThen
    · exact idle_some _ _ _ h
        (idle_append _ _ (lookUpNetworkSession_idle env _) (idle_of_all _ rfl))
    · intro l1
      exact didFailLoading_idle env l1 l1 _ (sameCredit_refl l1)
  · exact idle_some _ _ _ (by exact h)
      (idle_append _ _ (lookUpNetworkSession_idle env _) (idle_of_all _ rfl))

theorem abort_idle (l0 l : NetworkResourceLoader) (h : l0.SameCredit l) :
    Outcome.Idle l0 (some l.abort) := by
  unfold abort
  simp only
  apply idle_then_cleanup _ _ _ h
  split
  · apply idle_append
    · split
      · split
        · exact idle_of_all _ rfl
        · simp
      · simp
    · exact idle_of_all _ rfl
  · simp

theorem convertToDownload_idle (env : Env) (l0 l : NetworkResourceLoader) (downloadID : Nat)
    (request : ResourceRequest) (response : ResourceResponse) (h : l0.SameCredit l) :
    Outcome.Idle l0 (some (l.convertToDownload env downloadID request response)) :=
  idle_some _ _ _ (by exact h) (idle_of_all _ rfl)

theorem sendResultForCacheEntry_idle (env : Env) (l : NetworkResourceLoader)
    (entry : Entry) : ∀ e ∈ (l.sendResultForCacheEntry env entry).2, e.isIdle = true := by
  unfold sendResultForCacheEntry
  split
  · exact idle_of_all _ rfl
  · exact idle_of_all _ rfl

theorem sendReplyToSynchronousRequest_idle (data data1 : SynchronousLoadData)
    (buffer : Option SharedBuffer) (es : List Effect)
    (h : sendReplyToSynchronousRequest data buffer = some (data1, es)) :
    ∀ e ∈ es, e.isIdle = true := by
  unfold sendReplyToSynchronousRequest at h
  simp only at h
  split at h
  · simp only [Option.some.injEq, Prod.mk.injEq] at h
    obtain ⟨-, rfl⟩ := h
    exact idle_of_all _ rfl
  · exact Option.noConfusion h

theorem continueProcessingCachedEntryAfterDidReceiveResponse_idle (env : Env)
    (l0 l : NetworkResourceLoader) (entry : Entry) (h : l0.SameCredit l) :
    Outcome.Idle l0 (l.continueProcessingCachedEntryAfterDidReceiveResponse env entry) := by
  have hresult : Outcome.Idle l0
      (some ((l.sendResultForCacheEntry env entry).1.cleanup.1,
             (l.sendResultForCacheEntry env entry).2
               ++ (l.sendResultForCacheEntry env entry).1.cleanup.2)) := by
    rw [sendResultForCacheEntry_fst]
    exact idle_then_cleanup l0 l _ h (sendResultForCacheEntry_idle env l entry)
  unfold continueProcessingCachedEntryAfterDidReceiveResponse
  split
  · split
    · split
      · exact idle_none l0
      · apply idle_some _ _ _ h
        intro e he
        simp only [List.mem_map] at he
        obtain ⟨x, -, rfl⟩ := he
        rfl
    · exact hresult
  · exact hresult

theorem continueDidReceiveResponse_idle (env : Env) (l0 l : NetworkResourceLoader)
    (h : l0.SameCredit l) : Outcome.Idle l0 (l.continueDidReceiveResponse env) := by
  unfold continueDidReceiveResponse
  split
  · exact continueProcessingCachedEntryAfterDidReceiveResponse_idle env _ _ _ (by exact h)
  · split
    · exact idle_some _ _ _ h (idle_of_all _ rfl)
    · exact idle_some _ _ _ h (by simp)

theorem didReceiveBuffer_idle (l0 l : NetworkResourceLoader) (buffer : SharedBuffer)
    (reported : Int) (h : l0.SameCredit l) :
    Outcome.Idle l0 (some (l.didReceiveBuffer buffer reported)) := by
  have hstate : l0.SameCredit (l.didReceiveBuffer buffer reported).1 := by
    unfold didReceiveBuffer startBufferingTimerIfNeeded sendBuffer
    simp only
    (repeat' split) <;> exact h
  have heffects : ∀ e ∈ (l.didReceiveBuffer buffer reported).2, e.isIdle = true := by
    unfold didReceiveBuffer
    simp only
    split
    · simp
    · exact idle_of_all _ rfl
  exact idle_some _ _ _ hstate heffects

theorem didRetrieveCacheEntry_idle (env : Env) (l0 l : NetworkResourceLoader)
    (entry : Entry) (h : l0.SameCredit l) :
    Outcome.Idle l0 (l.didRetrieveCacheEntry env entry) := by
  unfold didRetrieveCacheEntry
  simp only
  split
  · exact didFailLoading_idle env _ l _ h
  · split
    · split
      · exact idle_none l0
      · next data data1 es hs =>
        exact idle_then_cleanup l0 _ _ (by exact h)
          (sendReplyToSynchronousRequest_idle _ _ _ _ hs)
    · split
      · exact idle_some _ _ _ (by exact h) (idle_of_all _ rfl)
      · apply idle_andThen
        · exact idle_some _ _ _ h (idle_of_all _ rfl)
        · intro l1
          exact continueProcessingCachedEntryAfterDidReceiveResponse_idle env l1 l1 _
            (sameCredit_refl l1)

theorem tryStoreAsCacheEntry_idle (l0 l : NetworkResourceLoader) (h : l0.SameCredit l) :
    Outcome.Idle l0 l.tryStoreAsCacheEntry := by
  unfold tryStoreAsCacheEntry
  split
  · exact idle_none l0
  · split
    · exact idle_some _ l [] h (by simp)
    · split
      · exact idle_some _ l [] h (by simp)
      · exact idle_some _ _ _ (by exact h) (idle_of_all _ rfl)

theorem didFinishLoading_idle (env : Env) (l0 l : NetworkResourceLoader)
    (metrics : NetworkLoadMetrics) (h : l0.SameCredit l) :
    Outcome.Idle l0 (l.didFinishLoading env metrics) := by
  have hcapture : ∀ e ∈ (if env.captureExtraNetworkLoadMetricsEnabled then
      [Effect.addNetworkLoadInformationMetrics l.identifier metrics] else []),
      e.isIdle = true := by
    split
    · exact idle_of_all _ rfl
    · simp
  unfold didFinishLoading
  simp only
  split
  · apply idle_andThen
    · exact idle_some _ _ _ (by exact h) hcapture
    · intro l1
      exact didRetrieveCacheEntry_idle env l1 l1 _ (sameCredit_refl l1)
  · apply idle_andThen
    · apply idle_andThen
      · split
        · split
          · exact idle_none l0
          · next data data1 es hs =>
            refine idle_some _ _ _ (by exact h) ?_
            exact idle_append _ _ hcapture
              (sendReplyToSynchronousRequest_idle _ _ _ _ hs)
        · apply idle_some _ _ _ h
          apply idle_append
          · apply idle_append _ _ hcapture
            split
            · split
              · exact idle_of_all _ rfl
              · simp
            · simp
          · exact idle_of_all _ rfl
      · intro l1
        exact tryStoreAsCacheEntry_idle l1 l1 (sameCredit_refl l1)
    · intro l1
      exact cleanup_idle l1 l1 (sameCredit_refl l1)

theorem revalidate_idle (env : Env) (l : NetworkResourceLoader)
    (entry : Option Entry) (updates : List Effect)
    (h : revalidate env l = some (entry, updates)) :
    ∀ e ∈ updates, e.isIdle = true := by
  unfold revalidate at h
  (repeat' split at h) <;>
    first
      | exact Option.noConfusion h
      | (simp only [Option.some.injEq, Prod.mk.injEq] at h
         obtain ⟨-, rfl⟩ := h
         exact idle_of_all _ rfl)

theorem didReceiveResponse_idle (env : Env) (l0 l : NetworkResourceLoader)
    (response : ResourceResponse) (h : l0.SameCredit l) :
    Outcome.Idle l0
      ((l.didReceiveResponse env response).map (fun r => (r.1, r.2.1))) := by
  intro r hr
  unfold didReceiveResponse at hr
  simp only at hr
  split at hr
  · simp at hr
  · next entry updates hrev =>
    have hu := revalidate_idle env _ _ _ hrev
    (repeat' split at hr) <;>
      simp only [Option.map_some', Option.some.injEq] at hr <;>
      subst hr <;>
      refine ⟨fun e he => ?_, h.1, fun h1 => h.2.1 ▸ h1, h.2.2⟩ <;>
      simp only [List.mem_append, List.mem_singleton, List.mem_cons, List.mem_nil_iff, or_false,
        false_or, List.nil_append, List.append_nil] at he <;>
      (try casesm* _ ∨ _) <;>
      first
        | exact hu e (by assumption)
        | (subst_vars; rfl)

theorem continueWillSendRedirectedRequest_idle (env : Env) (l0 l : NetworkResourceLoader)
    (request redirectRequest : ResourceRequest) (redirectResponse : ResourceResponse)
    (h : l0.SameCredit l) :
    Outcome.Idle l0
      (l.continueWillSendRedirectedRequest env request redirectRequest redirectResponse) := by
  have hstored : ∀ e ∈ (if l.canUseCachedRedirect request then
      [Effect.cacheStoreRedirect request redirectResponse redirectRequest] else []),
      e.isIdle = true := by
    split
    · exact idle_of_all _ rfl
    · simp
  unfold continueWillSendRedirectedRequest
  simp only
  split
  · apply idle_andThen
    · exact idle_some _ _ _ h hstored
    · intro l1
      exact didFailLoading_idle env l1 l1 _ (sameCredit_refl l1)
  · exact idle_some _ _ _ h (idle_append _ _ hstored (idle_of_all _ rfl))

theorem willSendRedirectedRequest_idle (env : Env) (l0 l : NetworkResourceLoader)
    (request redirectRequest : ResourceRequest) (redirectResponse : ResourceResponse)
    (h : l0.SameCredit l) :
    Outcome.Idle l0
      (l.willSendRedirectedRequest env request redirectRequest redirectResponse) := by
  unfold willSendRedirectedRequest
  simp only
  split
  · exact idle_some _ _ _ (by exact h) (idle_of_all _ rfl)
  · exact continueWillSendRedirectedRequest_idle env _ _ _ _ _ (by exact h)

theorem bufferingTimerFired_idle (l0 l : NetworkResourceLoader) (h : l0.SameCredit l) :
    Outcome.Idle l0 l.bufferingTimerFired := by
  unfold bufferingTimerFired
  split
  · exact idle_none l0
  · split
    · exact idle_some _ _ _ h (by simp)
    · exact idle_some _ _ _ (by exact h) (idle_of_all _ rfl)

theorem dispatchedDidFailLoading_idle (env : Env) (l0 l : NetworkResourceLoader)
    (error : ResourceError) (h : l0.SameCredit l) :
    Outcome.Idle l0 (l.dispatchedDidFailLoading env error) := by
  unfold dispatchedDidFailLoading
  split
  · exact didFailLoading_idle env _ l _ h
  · exact idle_some _ l [] h (by simp)

theorem retrieveDataCompletion_idle (env : Env) (l0 l : NetworkResourceLoader)
    (hasOneRef : Bool) (entry : Entry) (type : String) (retrieveCount : Nat)
    (data : Option SharedBuffer) (h : l0.SameCredit l) :
    Outcome.Idle l0
      (some (l.retrieveDataCompletion env hasOneRef entry type retrieveCount data)) := by
  have hsent : ∀ e ∈ ((match data with
      | some d => [Effect.send (Message.DidRetrieveDerivedData type d)]
      | none => []) : List Effect), e.isIdle = true := by
    split
    · exact idle_of_all _ rfl
    · simp
  unfold retrieveDataCompletion
  simp only
  split
  · exact idle_some _ _ _ (by exact h) (by simp)
  · split
    · rw [sendResultForCacheEntry_fst]
      exact idle_then_cleanup l0 _ _ (by exact h)
        (idle_append _ _ hsent (sendResultForCacheEntry_idle env _ entry))
    · exact idle_some _ _ _ (by exact h) hsent

theorem storeCompletion_idle (env : Env) (l0 l : NetworkResourceLoader)
    (handle : Option Nat) (h : l0.SameCredit l) :
    Outcome.Idle l0 (some (l.storeCompletion env handle)) := by
  unfold storeCompletion
  split
  · split
    · exact idle_some _ l [] h (by simp)
    · exact idle_some _ _ _ h (idle_of_all _ rfl)
  · exact idle_some _ l [] h (by simp)

theorem didSendData_idle (l0 l : NetworkResourceLoader) (bytesSent totalBytesToBeSent : Nat)
    (h : l0.SameCredit l) :
    Outcome.Idle l0 (some (l.didSendData bytesSent totalBytesToBeSent)) := by
  unfold didSendData
  split
  · exact idle_some _ _ _ h (idle_of_all _ rfl)
  · exact idle_some _ l [] h (by simp)

theorem didBlockAuthenticationChallenge_idle (l0 l : NetworkResourceLoader)
    (h : l0.SameCredit l) : Outcome.Idle l0 (some l.didBlockAuthenticationChallenge) :=
  idle_some _ _ _ h (idle_of_all _ rfl)

theorem keepsCredit_refl (l : NetworkResourceLoader) : l.KeepsCredit l := ⟨rfl, rfl, id⟩

theorem keepsCredit_of_same (l0 l : NetworkResourceLoader) (h : l0.SameCredit l) :
    l0.KeepsCredit l := ⟨h.1, h.2.1, fun hs => h.2.2 ▸ hs⟩

theorem credit_le_two (l : NetworkResourceLoader) : l.credit ≤ 2 := by
  unfold credit
  split <;> split <;> simp

theorem credit_eq_zero (l : NetworkResourceLoader) (h : l.credit = 0) :
    l.m_isWaitingContinueWillSendRequestForCachedRedirect = false
    ∧ l.m_didConsumeSandboxExtensions = false := by
  unfold credit at h
  cases hw : l.m_isWaitingContinueWillSendRequestForCachedRedirect <;>
    cases hc : l.m_didConsumeSandboxExtensions <;> simp_all

theorem credit_of_flags (l : NetworkResourceLoader) (w c : Bool)
    (hw : l.m_isWaitingContinueWillSendRequestForCachedRedirect = w)
    (hc : l.m_didConsumeSandboxExtensions = c) :
    l.credit = (if w then 1 else 0) + (if c then 1 else 0) := by
  simp only [credit, hw, hc]

theorem spawns_of_idle (es : List Effect) (h : ∀ e ∈ es, e.isIdle = true) :
    ∀ e ∈ es, e.spawns = false := by
  intro e he
  have := h e he
  simp only [Effect.isIdle, Bool.and_eq_true, Bool.not_eq_true'] at this
  exact this.1

theorem countP_spawns (es : List Effect) (h : ∀ e ∈ es, e.spawns = false) :
    es.countP Effect.spawns = 0 := by
  rw [List.countP_eq_zero]
  intro e he
  simp [h e he]

theorem thrifty_none (g : Nat) (l0 : NetworkResourceLoader) : Outcome.Thrifty g l0 none := by
  intro r hr
  simp at hr

theorem thrifty_of_idle (g : Nat) (l0 : NetworkResourceLoader) (o : Outcome)
    (h : Outcome.Idle l0 o) : Outcome.Thrifty g l0 o := by
  intro r hr
  obtain ⟨q, w, c, s⟩ := h r hr
  obtain ⟨q1, q2⟩ := idle_effects _ q
  refine ⟨fun _ => ⟨?_, fun hc => absurd q2 hc⟩, fun hs => s.trans hs⟩
  rw [q1]
  have : r.1.credit ≤ l0.credit := by
    unfold credit
    rw [w]
    cases h1 : r.1.m_didConsumeSandboxExtensions
    · simp
    · rw [c h1]
  omega

theorem thrifty_congr (g : Nat) (l0 l1 : NetworkResourceLoader) (o : Outcome)
    (h : l0.KeepsCredit l1) (h1 : Outcome.Thrifty g l1 o) : Outcome.Thrifty g l0 o := by
  intro r hr
  obtain ⟨a, b⟩ := h1 r hr
  have hcredit : l1.credit = l0.credit := by simp only [credit, h.1, h.2.1]
  rw [hcredit, h.2.1] at a
  exact ⟨a, fun hs => b (h.2.2 hs)⟩

theorem thrifty_mono (g g1 : Nat) (l0 : NetworkResourceLoader) (o : Outcome) (hg : g ≤ g1)
    (h1 : Outcome.Thrifty g l0 o) : Outcome.Thrifty g1 l0 o := by
  intro r hr
  obtain ⟨a, b⟩ := h1 r hr
  refine ⟨fun hle => ?_, b⟩
  obtain ⟨a1, a2⟩ := a (by omega)
  exact ⟨by omega, a2⟩

theorem thrifty_of_calm (l0 : NetworkResourceLoader) (o : Outcome)
    (h : ∀ r, o = some r → (∀ e ∈ r.2, e.spawns = false)
      ∧ r.1.m_isWaitingContinueWillSendRequestForCachedRedirect
          = l0.m_isWaitingContinueWillSendRequestForCachedRedirect
      ∧ (l0.m_wasStarted = true → r.1.m_wasStarted = true)) :
    Outcome.Thrifty 1 l0 o := by
  intro r hr
  obtain ⟨q, w, s⟩ := h r hr
  refine ⟨fun hle => ?_, s⟩
  obtain ⟨z1, z2⟩ := credit_eq_zero l0 (by omega)
  refine ⟨?_, fun _ => z2⟩
  rw [countP_spawns _ q]
  have : r.1.credit ≤ 1 := by
    simp only [credit, w, z1, Bool.false_eq_true, if_false, Nat.zero_add]
    split <;> omega
  omega

theorem thrifty_spawn (l0 l : NetworkResourceLoader) (es : List Effect)
    (h : l0.KeepsCredit l) (hes : es.countP Effect.spawns ≤ 1)
    (hc : es.filterMap Effect.consumed = []) : Outcome.Thrifty 1 l0 (some (l, es)) := by
  intro r hr
  simp only [Option.some.injEq] at hr
  subst hr
  refine ⟨fun _ => ⟨?_, fun hne => absurd hc hne⟩, h.2.2⟩
  have : l.credit = l0.credit := by simp only [credit, h.1, h.2.1]
  simp only [this]
  omega

theorem thrifty_spend_waiting (l0 l2 : NetworkResourceLoader) (o : Outcome)
    (hw : l0.m_isWaitingContinueWillSendRequestForCachedRedirect = true)
    (h2 : l2.m_isWaitingContinueWillSendRequestForCachedRedirect = false)
    (hc : l2.m_didConsumeSandboxExtensions = l0.m_didConsumeSandboxExtensions)
    (hs : l0.m_wasStarted = true → l2.m_wasStarted = true)
    (h : Outcome.Thrifty 1 l2 o) : Outcome.Thrifty 0 l0 o := by
  intro r hr
  obtain ⟨a, b⟩ := h r hr
  refine ⟨fun hle => ?_, fun h0 => b (hs h0)⟩
  have hflag : l0.m_didConsumeSandboxExtensions = false := by
    cases hf : l0.m_didConsumeSandboxExtensions
    · rfl
    · simp [credit, hw, hf] at hle
  have h0 : l0.credit = 1 := by simp [credit, hw, hflag]
  have h2c : l2.credit = 0 := by simp [credit, h2, hc, hflag]
  obtain ⟨a1, a2⟩ := a (by omega)
  exact ⟨by omega, fun hne => hflag⟩

theorem firstLoadSetup_spawns (l : NetworkResourceLoader) (request : ResourceRequest) :
    ∀ e ∈ (l.firstLoadSetup request).2, e.spawns = false := by
  intro e he
  simp only [firstLoadSetup, consumeSandboxExtensions, List.mem_append, List.mem_map] at he
  rcases he with (⟨x, -, rfl⟩ | he) | ⟨x, -, rfl⟩
  · rfl
  · split at he
    · simp only [List.mem_singleton] at he
      subst he
      rfl
    · simp at he
  · rfl

theorem spawns_append (es1 es2 : List Effect) (h1 : ∀ e ∈ es1, e.spawns = false)
    (h2 : ∀ e ∈ es2, e.spawns = false) : ∀ e ∈ es1 ++ es2, e.spawns = false := by
  intro e he
  rcases List.mem_append.1 he with he | he
  · exact h1 e he
  · exact h2 e he

theorem startNetworkLoad_thrifty (env : Env) (l0 l : NetworkResourceLoader)
    (request : ResourceRequest) (h : l0.KeepsCredit l) :
    Outcome.Thrifty 1 l0 (l.startNetworkLoad env request FirstLoad.Yes) := by
  apply thrifty_of_calm
  intro r hr
  have hw : (l.firstLoadSetup request).1.m_isWaitingContinueWillSendRequestForCachedRedirect
      = l.m_isWaitingContinueWillSendRequestForCachedRedirect := by
    simp [firstLoadSetup, consumeSandboxExtensions]
  have hs : (l.firstLoadSetup request).1.m_wasStarted = l.m_wasStarted := by
    simp [firstLoadSetup, consumeSandboxExtensions]
  have hq := firstLoadSetup_spawns l request
  unfold startNetworkLoad at hr
  simp only [if_true] at hr
  generalize l.firstLoadSetup request = first at hr hw hs hq
  split at hr
  · simp only [Outcome.andThen] at hr
    split at hr
    · simp at hr
    · next l2 es2 hfail =>
      simp only [Option.some.injEq] at hr
      subst hr
      obtain ⟨q, w, -, s⟩ := didFailLoading_idle env first.1 first.1 _ (sameCredit_refl _) _ hfail
      refine ⟨?_, (w.trans hw).trans h.1, fun h0 => (s.trans hs).trans (h.2.2 h0)⟩
      exact spawns_append _ _
        (spawns_append _ _
          (spawns_append _ _ hq
            (spawns_of_idle _ (lookUpNetworkSession_idle env _)))
          (spawns_of_idle _ (idle_of_all _ rfl)))
        (spawns_of_idle _ q)
  · simp only [Option.some.injEq] at hr
    subst hr
    refine ⟨?_, hw.trans h.1, fun h0 => hs.trans (h.2.2 h0)⟩
    exact spawns_append _ _
      (spawns_append _ _ hq (spawns_of_idle _ (lookUpNetworkSession_idle env _)))
      (spawns_of_idle _ (idle_of_all _ rfl))

theorem retrieveCacheEntry_thrifty (l0 l : NetworkResourceLoader) (request : ResourceRequest)
    (h : l0.KeepsCredit l) : Outcome.Thrifty 1 l0 (l.retrieveCacheEntry request) := by
  unfold retrieveCacheEntry
  split
  · exact thrifty_none 1 l0
  · exact thrifty_spawn _ _ _ h (by simp [Effect.spawns]) rfl

theorem start_thrifty (env : Env) (l0 l : NetworkResourceLoader) (h : l0.KeepsCredit l) :
    Outcome.Thrifty 1 l0 (l.start env) := by
  unfold start
  split
  · exact thrifty_spawn _ l [] h (by simp) rfl
  · simp only
    split
    · exact thrifty_spawn _ _ _ (by exact ⟨h.1, h.2.1, fun _ => rfl⟩)
        (by simp [Effect.spawns]) rfl
    · split
      · exact retrieveCacheEntry_thrifty _ _ _ (by exact ⟨h.1, h.2.1, fun _ => rfl⟩)
      · exact startNetworkLoad_thrifty env _ _ _ (by exact ⟨h.1, h.2.1, fun _ => rfl⟩)

theorem start_started (env : Env) (l : NetworkResourceLoader)
    (r : NetworkResourceLoader × List Effect) (hd : l.m_defersLoading = false)
    (hr : l.start env = some r) : r.1.m_wasStarted = true := by
  unfold start at hr
  split at hr
  · next h =>
    rw [hd] at h
    cases h
  · simp only at hr
    split at hr
    · simp only [Option.some.injEq] at hr
      subst hr
      rfl
    · split at hr
      · unfold retrieveCacheEntry at hr
        split at hr
        · simp at hr
        · simp only [Option.some.injEq] at hr
          subst hr
          rfl
      · have hth := startNetworkLoad_thrifty env { l with m_wasStarted := true }
          { l with m_wasStarted := true } _ (keepsCredit_refl _) r (by exact hr)
        exact hth.2 rfl

theorem startCheckCompletion_thrifty (env : Env) (l0 l : NetworkResourceLoader)
    (result : RequestOrError) (h : l0.KeepsCredit l) :
    Outcome.Thrifty 1 l0 (l.startCheckCompletion env result) := by
  apply thrifty_congr 1 l0 l _ h
  unfold startCheckCompletion
  split
  · split
    · exact thrifty_of_idle _ _ _ (didFailLoading_idle env l l _ (sameCredit_refl l))
    · exact thrifty_spawn _ l [] (keepsCredit_refl l) (by simp) rfl
  · split
    · exact retrieveCacheEntry_thrifty _ _ _ (keepsCredit_refl l)
    · exact startNetworkLoad_thrifty env _ _ _ (keepsCredit_refl l)

theorem continueWillSendRequest_thrifty (env : Env) (l0 l : NetworkResourceLoader)
    (newRequest : ResourceRequest) (allowed : Bool) (h : l0.KeepsCredit l) :
    Outcome.Thrifty 0 l0 (l.continueWillSendRequest env newRequest allowed) := by
  unfold continueWillSendRequest
  simp only
  split
  · next hw =>
    have hw0 : l0.m_isWaitingContinueWillSendRequestForCachedRedirect = true := by
      rw [← h.1]
      exact hw
    have key : ∀ o : Outcome,
        Outcome.Thrifty 1
          { l with
            m_isAllowedToAskUserForCredentials := allowed
            m_isWaitingContinueWillSendRequestForCachedRedirect := false } o →
        Outcome.Thrifty 0 l0 o :=
      fun o ho =>
        thrifty_spend_waiting l0
          { l with
            m_isAllowedToAskUserForCredentials := allowed
            m_isWaitingContinueWillSendRequestForCachedRedirect := false }
          o hw0 rfl h.2.1 h.2.2 ho
    split
    · exact key _ (retrieveCacheEntry_thrifty _ _ _ (keepsCredit_refl _))
    · exact key _ (startNetworkLoad_thrifty env _ _ _ (keepsCredit_refl _))
  · apply thrifty_congr 0 l0 l _ h
    split
    · exact thrifty_of_idle _ _ _ (idle_some _ _ _ ⟨rfl, rfl, rfl⟩ (idle_of_all _ rfl))
    · exact thrifty_of_idle _ _ _ (idle_some _ _ _ ⟨rfl, rfl, rfl⟩ (by simp))

theorem checkRedirectionCompletion_thrifty (env : Env) (l0 l : NetworkResourceLoader)
    (storedCredentialsPolicy : StoredCredentialsPolicy) (request : ResourceRequest)
    (redirectResponse : ResourceResponse) (result : RequestOrError) (h : l0.KeepsCredit l) :
    Outcome.Thrifty 0 l0
      (l.checkRedirectionCompletion env storedCredentialsPolicy request redirectResponse
        result) := by
  apply thrifty_congr 0 l0 l _ h
  unfold checkRedirectionCompletion
  split
  · split
    · exact thrifty_of_idle _ _ _ (idle_some _ l [] (sameCredit_refl l) (by simp))
    · exact thrifty_of_idle _ _ _ (didFailLoading_idle env l l _ (sameCredit_refl l))
  · split
    · exact thrifty_none 0 l
    · split
      · split
        · exact thrifty_none 0 l
        · apply thrifty_of_idle
          apply idle_andThen
          · exact idle_some _ _ _ (sameCredit_refl l) (idle_of_all _ rfl)
          · intro l1
            exact restart_idle env l1 l1 _ (sameCredit_refl l1)
      · split
        · exact continueWillSendRequest_thrifty env l l _ _ (keepsCredit_refl l)
        · exact thrifty_of_idle _ _ _
            (continueWillSendRedirectedRequest_idle env l l _ _ _ (sameCredit_refl l))

theorem validateCacheEntry_thrifty (env : Env) (l0 l : NetworkResourceLoader) (entry : Entry)
    (h : l0.KeepsCredit l) : Outcome.Thrifty 1 l0 (l.validateCacheEntry env entry) := by
  unfold validateCacheEntry
  exact startNetworkLoad_thrifty env _ _ _ (by exact h)

theorem dispatchWillSendRequestForCacheEntry_thrifty (env : Env)
    (l0 l : NetworkResourceLoader) (entry : Entry) (h : l0.KeepsCredit l) :
    Outcome.Thrifty 1 l0 (l.dispatchWillSendRequestForCacheEntry env entry) := by
  unfold dispatchWillSendRequestForCacheEntry
  split
  · exact thrifty_congr 1 l0 l _ h
      (thrifty_of_idle _ _ _ (didFailLoading_idle env l l _ (sameCredit_refl l)))
  · split
    · exact thrifty_none 1 l0
    · intro r hr
      simp only [Option.some.injEq] at hr
      subst hr
      refine ⟨fun hle => ?_, h.2.2⟩
      obtain ⟨z1, z2⟩ := credit_eq_zero l0 (by omega)
      refine ⟨?_, fun _ => z2⟩
      have hz : l.m_didConsumeSandboxExtensions = false := h.2.1.trans z2
      simp [credit, hz, Effect.spawns]

theorem retrieveCacheEntryCompletion_thrifty (env : Env) (l0 l : NetworkResourceLoader)
    (hasOneRef : Bool) (request : ResourceRequest) (entry : Option Entry)
    (h : l0.KeepsCredit l) :
    Outcome.Thrifty 1 l0 (l.retrieveCacheEntryCompletion env hasOneRef request entry) := by
  unfold retrieveCacheEntryCompletion
  split
  · exact thrifty_spawn _ l [] h (by simp) rfl
  · split
    · exact startNetworkLoad_thrifty env _ _ _ h
    · split
      · exact dispatchWillSendRequestForCacheEntry_thrifty env _ _ _ h
      · split
        · exact startNetworkLoad_thrifty env _ _ _ h
        · split
          · exact validateCacheEntry_thrifty env _ _ _ h
          · exact thrifty_congr 1 l0 l _ h
              (thrifty_of_idle _ _ _
                (didRetrieveCacheEntry_idle env l l _ (sameCredit_refl l)))

theorem setDefersLoading_cases (env : Env) (l : NetworkResourceLoader) (defers : Bool)
    (r : NetworkResourceLoader × List Effect) (hr : l.setDefersLoading env defers = some r) :
    Outcome.Idle l (some r)
    ∨ (l.m_wasStarted = false ∧ r.1.m_wasStarted = true ∧ Outcome.Thrifty 1 l (some r)) := by
  unfold setDefersLoading at hr
  split at hr
  · simp only [Option.some.injEq] at hr
    subst hr
    exact Or.inl (idle_some _ _ _ (sameCredit_refl l) (by simp))
  · simp only at hr
    split at hr
    · simp only [Option.some.injEq] at hr
      subst hr
      exact Or.inl (idle_some _ _ _ ⟨rfl, rfl, rfl⟩ (idle_of_all _ rfl))
    · split at hr
      · next hcond =>
        simp only [Bool.and_eq_true, Bool.not_eq_true'] at hcond
        refine Or.inr ⟨hcond.2, start_started env _ r hcond.1 hr, ?_⟩
        rw [← hr]
        exact start_thrifty env l _ ⟨rfl, rfl, fun h0 => by rw [hcond.2] at h0; cases h0⟩
      · simp only [Option.some.injEq] at hr
        subst hr
        exact Or.inl (idle_some _ _ _ ⟨rfl, rfl, rfl⟩ (by simp))

end NetworkResourceLoader

namespace System

theorem record_quiet (l0 : NetworkResourceLoader) (s : System) (pending : List Pending)
    (o : NetworkResourceLoader × List Effect) (hs : s.Quiet l0)
    (hpending : ∀ p ∈ pending, p ∈ s.pending) (ho : Outcome.Keeps l0 (some o)) :
    (s.record pending o).Quiet l0 := by
  obtain ⟨hu, hq⟩ := ho o rfl
  refine ⟨hu, ?_, ?_⟩
  · intro p hp request heq
    subst heq
    simp only [record, List.mem_append, List.mem_filterMap] at hp
    rcases hp with hp | ⟨e, he, hpe⟩
    · exact hs.2.1 _ (hpending _ hp) request rfl
    · have := hq e he
      cases e <;> simp_all [Effect.pending, Effect.isLookupOrStore, Effect.isRetrieve]
  · intro e he
    simp only [record, List.mem_append] at he
    rcases he with he | he
    · exact hs.2.2 e he
    · exact hq e he

theorem record_quiet_of_map (l0 : NetworkResourceLoader) (s s1 : System)
    (pending : List Pending) (o : Outcome) (hs : s.Quiet l0)
    (hpending : ∀ p ∈ pending, p ∈ s.pending) (ho : Outcome.Keeps l0 o)
    (h : o.map (s.record pending) = some s1) : s1.Quiet l0 := by
  obtain ⟨r, hr, rfl⟩ := Option.map_eq_some'.1 h
  subst hr
  exact record_quiet l0 s pending r hs hpending ho

theorem step_quiet (env : Env) (l0 : NetworkResourceLoader) (s s1 : System) (ev : Event)
    (hs : s.Quiet l0) (hno : l0.canUseCache l0.originalRequest = false)
    (hcheck : ∀ value, ev.checkedRequest = some value → l0.canUseCache value = false)
    (hstep : s.step env ev = some s1) : s1.Quiet l0 := by
  have hu := hs.1
  have hsame : ∀ p ∈ s.pending, p ∈ s.pending := fun _ hp => hp
  have herase : ∀ index, ∀ p ∈ s.pending.eraseIdx index, p ∈ s.pending :=
    fun _ _ hp => List.mem_of_mem_eraseIdx hp
  unfold step at hstep
  split at hstep
  · simp at hstep
  · simp only at hstep
    cases ev with
    | start =>
      simp only at hstep
      split at hstep
      · exact record_quiet_of_map l0 s s1 _ _ hs hsame (NetworkResourceLoader.start_keeps env l0 _ hu hno) hstep
      · simp at hstep
    | setDefersLoading defers =>
      simp only at hstep
      split at hstep
      · exact record_quiet_of_map l0 s s1 _ _ hs hsame
          (NetworkResourceLoader.setDefersLoading_keeps env l0 _ defers hu hno) hstep
      · simp at hstep
    | abort =>
      simp only at hstep
      split at hstep
      · cases hstep
        exact record_quiet l0 s _ _ hs hsame (NetworkResourceLoader.abort_keeps l0 _ hu)
      · simp at hstep
    | convertToDownload downloadID request response =>
      simp only at hstep
      split at hstep
      · cases hstep
        exact record_quiet l0 s _ _ hs hsame
          (NetworkResourceLoader.convertToDownload_keeps env l0 _ downloadID request response hu)
      · simp at hstep
    | continueWillSendRequest newRequest allowed =>
      simp only at hstep
      split at hstep
      · exact record_quiet_of_map l0 s s1 _ _ hs hsame
          (NetworkResourceLoader.continueWillSendRequest_keeps env l0 _ newRequest allowed hu) hstep
      · simp at hstep
    | continueDidReceiveResponse =>
      simp only at hstep
      split at hstep
      · exact record_quiet_of_map l0 s s1 _ _ hs hsame
          (NetworkResourceLoader.continueDidReceiveResponse_keeps env l0 _ hu) hstep
      · simp at hstep
    | didReceiveResponse response =>
      simp only at hstep
      split at hstep
      · obtain ⟨r, hr, rfl⟩ := Option.map_eq_some'.1 hstep
        have := NetworkResourceLoader.didReceiveResponse_keeps env l0 _ response hu r hr
        exact record_quiet l0 s _ _ hs hsame
          (NetworkResourceLoader.keeps_some l0 _ _ this.1 this.2)
      · simp at hstep
    | didReceiveBuffer buffer reported =>
      simp only at hstep
      split at hstep
      · cases hstep
        exact record_quiet l0 s _ _ hs hsame
          (NetworkResourceLoader.didReceiveBuffer_keeps l0 _ buffer reported hu)
      · simp at hstep
    | didFinishLoading metrics =>
      simp only at hstep
      split at hstep
      · exact record_quiet_of_map l0 s s1 _ _ hs hsame
          (NetworkResourceLoader.didFinishLoading_keeps env l0 _ metrics hu) hstep
      · simp at hstep
    | didFailLoading error =>
      simp only at hstep
      split at hstep
      · exact record_quiet_of_map l0 s s1 _ _ hs hsame
          (NetworkResourceLoader.didFailLoading_keeps env l0 _ error hu) hstep
      · simp at hstep
    | willSendRedirectedRequest request redirectRequest redirectResponse =>
      simp only at hstep
      split at hstep
      · exact record_quiet_of_map l0 s s1 _ _ hs hsame
          (NetworkResourceLoader.willSendRedirectedRequest_keeps env l0 _ request redirectRequest
            redirectResponse hu) hstep
      · simp at hstep
    | didSendData bytesSent totalBytesToBeSent =>
      simp only at hstep
      split at hstep
      · cases hstep
        exact record_quiet l0 s _ _ hs hsame
          (NetworkResourceLoader.didSendData_keeps l0 _ bytesSent totalBytesToBeSent hu)
      · simp at hstep
    | didBlockAuthenticationChallenge =>
      simp only at hstep
      split at hstep
      · cases hstep
        exact record_quiet l0 s _ _ hs hsame
          (NetworkResourceLoader.didBlockAuthenticationChallenge_keeps l0 _ hu)
      · simp at hstep
    | transportRequestChanged request =>
      simp only at hstep
      split at hstep
      · cases hstep
        exact record_quiet l0 s _ _ hs hsame
          (NetworkResourceLoader.keeps_some l0 _ _ ⟨hu.1, hu.2.1, hu.2.2.1, hu.2.2.2⟩ (by simp))
      · simp at hstep
    | bufferingTimerFired =>
      simp only at hstep
      split at hstep
      · refine record_quiet_of_map l0 s s1 _ _ hs hsame ?_ hstep
        exact NetworkResourceLoader.bufferingTimerFired_keeps l0 _
          ⟨hu.1, hu.2.1, hu.2.2.1, hu.2.2.2⟩
      · simp at hstep
    | checkCompleted index result =>
      simp only at hstep
      split at hstep
      · refine record_quiet_of_map l0 s s1 _ _ hs (herase index)
          (NetworkResourceLoader.startCheckCompletion_keeps env l0 _ result hu hno ?_) hstep
        intro value hvalue
        subst hvalue
        exact hcheck value rfl
      · simp at hstep
    | checkRedirectionCompleted index result checkerPolicy =>
      simp only at hstep
      split at hstep
      · refine record_quiet_of_map l0 s s1 _ _ hs (herase index) ?_ hstep
        exact NetworkResourceLoader.checkRedirectionCompletion_keeps env l0 _ _ _ _ result
          ⟨hu.1, hu.2.1, hu.2.2.1, hu.2.2.2⟩
      · simp at hstep
    | retrieveCompleted index entry =>
      simp only at hstep
      split at hstep
      · next request hget =>
        exact absurd rfl (hs.2.1 _ (List.get?_mem hget) request)
      · simp at hstep
    | dispatchedTaskRun index =>
      simp only at hstep
      split at hstep
      · exact record_quiet_of_map l0 s s1 _ _ hs (herase index)
          (NetworkResourceLoader.dispatchedDidFailLoading_keeps env l0 _ _ hu) hstep
      · simp at hstep
    | retrieveDataCompleted index data =>
      simp only at hstep
      split at hstep
      · cases hstep
        exact record_quiet l0 s _ _ hs (herase index)
          (NetworkResourceLoader.retrieveDataCompletion_keeps env l0 _ _ _ _ _ data hu)
      · simp at hstep
    | storeCompleted index handle =>
      simp only at hstep
      split at hstep
      · cases hstep
        exact record_quiet l0 s _ _ hs (herase index)
          (NetworkResourceLoader.storeCompletion_keeps env l0 _ handle hu)
      · simp at hstep

theorem run_quiet (env : Env) (l0 : NetworkResourceLoader) (events : List Event) :
    ∀ s : System, s.Quiet l0 → l0.canUseCache l0.originalRequest = false →
      (∀ ev ∈ events, ∀ value, ev.checkedRequest = some value → l0.canUseCache value = false) →
      (run env s events).Quiet l0 := by
  induction events with
  | nil => intro s hs _ _; exact hs
  | cons ev rest ih =>
    intro s hs hno hcheck
    unfold run
    split
    · next s1 hstep =>
      exact ih s1
        (step_quiet env l0 s s1 ev hs hno (hcheck ev (List.mem_cons_self _ _)) hstep) hno
        (fun ev1 h1 => hcheck ev1 (List.mem_cons_of_mem _ h1))
    · exact hs

/-- C7 (as stated, refuted): the original request (a URL outside the HTTP
family) cannot use the cache, the checker hands back a request that can, and
the load started with that request ends in a `CacheStore.store` call. -/
theorem checked_request_is_stored :
    (NetworkResourceLoader.create sampleEnv sampleOtherParameters true).canUseCache
        sampleOtherParameters.request = false
    ∧ (run sampleEnv (init sampleEnv sampleOtherParameters true)
        [Event.start, Event.checkCompleted 0 (Except.ok sampleRequest),
         Event.didReceiveResponse sampleResponse, Event.didReceiveBuffer [1, 2, 3] 3,
         Event.didFinishLoading { ident := 1 }]).trace.filter Effect.isStore
      = [Effect.cacheStore sampleRequest sampleResponse [1, 2, 3]] :=
  ⟨rfl, rfl⟩

/-- C7 (amended): for every load whose original request does not satisfy
`canUseCache` and to which the checker started by `start()` hands back no
request that satisfies it, and for every sequence of loader operations,
transport events, timer firings and completions, the loader never calls
`CacheStore.retrieve` and never calls `CacheStore.store`. -/
theorem no_cache_use_without_cacheable_request (env : Env)
    (parameters : NetworkResourceLoadParameters) (synchronousReply : Bool)
    (events : List Event)
    (hno : (NetworkResourceLoader.create env parameters synchronousReply).canUseCache
      parameters.request = false)
    (hcheck : ∀ ev ∈ events, ∀ value, ev.checkedRequest = some value →
      (NetworkResourceLoader.create env parameters synchronousReply).canUseCache value = false) :
    ∀ e ∈ (run env (init env parameters synchronousReply) events).trace,
      e.isRetrieve = false ∧ e.isStore = false := by
  have hinit : (init env parameters synchronousReply).Quiet
      (NetworkResourceLoader.create env parameters synchronousReply) :=
    ⟨⟨rfl, rfl, rfl, rfl⟩, by simp [init], by simp [init]⟩
  have := (run_quiet env _ events _ hinit hno hcheck).2.2
  intro e he
  have hq := this e he
  simpa [Effect.isLookupOrStore] using hq

/-- C7 (amended) at a concrete input: the run of the refutation, with a checker
that hands back the original request. -/
theorem no_cache_use_without_cacheable_request_witness :
    (NetworkResourceLoader.create sampleEnv sampleOtherParameters true).canUseCache
        sampleOtherParameters.request = false
    ∧ (run sampleEnv (init sampleEnv sampleOtherParameters true)
        [Event.start, Event.checkCompleted 0 (Except.ok sampleOtherParameters.request),
         Event.didReceiveResponse sampleResponse, Event.didReceiveBuffer [1, 2, 3] 3,
         Event.didFinishLoading { ident := 1 }]).trace.all
          (fun e => !e.isRetrieve && !e.isStore) = true := by
  refine ⟨rfl, List.all_eq_true.2 (fun e he => ?_)⟩
  have h := no_cache_use_without_cacheable_request sampleEnv sampleOtherParameters true
    [Event.start, Event.checkCompleted 0 (Except.ok sampleOtherParameters.request),
     Event.didReceiveResponse sampleResponse, Event.didReceiveBuffer [1, 2, 3] 3,
     Event.didFinishLoading { ident := 1 }] rfl
    (by
      intro ev hev value hvalue
      simp only [List.mem_cons, List.mem_singleton, List.mem_nil_iff, or_false] at hev
      rcases hev with rfl | rfl | rfl | rfl | rfl
      · exact Option.noConfusion hvalue
      · cases hvalue
        rfl
      · exact Option.noConfusion hvalue
      · exact Option.noConfusion hvalue
      · exact Option.noConfusion hvalue) e he
  simp [h.1, h.2]

/-- C16 (the code at the failing input): the callbacks that test for a live
load are no-ops after `abort()`: the dispatched validation failure, because no
transport exists any more, and the cache lookup, when the loader is held by
its lambda alone.  The completion handler of `checkRedirection` has no such
test.  A load with a checker is aborted while the checker examines a redirect
(`sampleAbortedRedirect`: the connection has dropped the loader, the transport
is gone, `cleanup` has run once, the handler is outstanding).  When the checker
then accepts the redirect, the loader calls `storeRedirect` and sends
`WillSendRequest` to the client; when it rejects the redirect with an error
that is not a cancellation, the loader sends `DidFailResourceLoad` and runs
`cleanup` a second time; when it accepts with a changed credentials policy, the
handler dereferences the transport, which is null. -/
theorem redirect_check_after_abort :
    (∀ (env : Env) (l : NetworkResourceLoader) (error : ResourceError),
      l.abort.1.dispatchedDidFailLoading env error = some (l.abort.1, []))
    ∧ (∀ (env : Env) (l : NetworkResourceLoader) (request : ResourceRequest)
        (entry : Option Entry),
        l.retrieveCacheEntryCompletion env true request entry = some (l, []))
    ∧ sampleAbortedRedirect.registered = false
    ∧ sampleAbortedRedirect.loader.m_networkLoad = none
    ∧ sampleAbortedRedirect.trace.count Effect.didCleanupResourceLoader = 1
    ∧ sampleAbortedRedirect.pending
        = [Pending.checkRedirection samplePlainRedirectResponse sampleRedirectRequest
             StoredCredentialsPolicy.Use sampleRequest]
    ∧ (sampleAbortedRedirect.step sampleEnv
          (Event.checkRedirectionCompleted 0 (Except.ok sampleRedirectRequest)
            StoredCredentialsPolicy.Use)).map
          (fun s => s.trace.drop sampleAbortedRedirect.trace.length)
        = some [Effect.cacheStoreRedirect sampleRequest samplePlainRedirectResponse
                  sampleRedirectRequest,
                Effect.send
                  (Message.WillSendRequest sampleRedirectRequest samplePlainRedirectResponse)]
    ∧ (sampleAbortedRedirect.step sampleEnv
          (Event.checkRedirectionCompleted 0 (Except.error sampleAccessControlError)
            StoredCredentialsPolicy.Use)).map
          (fun s => (s.trace.drop sampleAbortedRedirect.trace.length,
                     s.trace.count Effect.didCleanupResourceLoader))
        = some ([Effect.send (Message.DidFailResourceLoad sampleAccessControlError),
                 Effect.didCleanupResourceLoader], 2)
    ∧ NetworkResourceLoader.checkRedirectionCompletion sampleEnv
          { sampleAbortedRedirect.loader with
            m_networkLoadChecker := some { storedCredentialsPolicy := StoredCredentialsPolicy.DoNotUse } }
          StoredCredentialsPolicy.Use sampleRequest samplePlainRedirectResponse
          (Except.ok sampleRedirectRequest)
        = none := by
  refine ⟨?_, ?_, rfl, rfl, rfl, rfl, rfl, rfl, rfl⟩
  · intro env l error
    simp [NetworkResourceLoader.dispatchedDidFailLoading, NetworkResourceLoader.abort]
  · intro env l request entry
    simp [NetworkResourceLoader.retrieveCacheEntryCompletion]

theorem record_handsOver (s : System) (pending : List Pending)
    (o : NetworkResourceLoader × List Effect) (response : ResourceResponse)
    (ho : Outcome.CachesOnly response (some o)) :
    s.HandsOver (s.record pending o) response :=
  ⟨(ho o rfl).1, o.2, rfl, (ho o rfl).2⟩

theorem record_handsOver_of_map (s s1 : System) (pending : List Pending) (o : Outcome)
    (response : ResourceResponse) (ho : Outcome.CachesOnly response o)
    (h : o.map (s.record pending) = some s1) : s.HandsOver s1 response := by
  obtain ⟨r, hr, rfl⟩ := Option.map_eq_some'.1 h
  subst hr
  exact record_handsOver s pending r response ho

theorem step_handsOver (env : Env) (s s1 : System) (ev : Event)
    (hstep : s.step env ev = some s1) :
    s.HandsOver s1 (ev.received.getD s.loader.m_response) := by
  unfold step at hstep
  split at hstep
  · simp at hstep
  · simp only at hstep
    cases ev with
    | start =>
      simp only at hstep
      split at hstep
      · exact record_handsOver_of_map s s1 _ _ _
          (NetworkResourceLoader.start_cachesOnly env _ _ rfl) hstep
      · simp at hstep
    | setDefersLoading defers =>
      simp only at hstep
      split at hstep
      · exact record_handsOver_of_map s s1 _ _ _
          (NetworkResourceLoader.setDefersLoading_cachesOnly env _ _ defers rfl) hstep
      · simp at hstep
    | abort =>
      simp only at hstep
      split at hstep
      · cases hstep
        exact record_handsOver s _ _ _ (NetworkResourceLoader.abort_cachesOnly _ _ rfl)
      · simp at hstep
    | convertToDownload downloadID request response =>
      simp only at hstep
      split at hstep
      · cases hstep
        exact record_handsOver s _ _ _
          (NetworkResourceLoader.convertToDownload_cachesOnly env _ _ downloadID request response
            rfl)
      · simp at hstep
    | continueWillSendRequest newRequest allowed =>
      simp only at hstep
      split at hstep
      · exact record_handsOver_of_map s s1 _ _ _
          (NetworkResourceLoader.continueWillSendRequest_cachesOnly env _ _ newRequest allowed
            rfl) hstep
      · simp at hstep
    | continueDidReceiveResponse =>
      simp only at hstep
      split at hstep
      · exact record_handsOver_of_map s s1 _ _ _
          (NetworkResourceLoader.continueDidReceiveResponse_cachesOnly env _ _ rfl) hstep
      · simp at hstep
    | didReceiveResponse response =>
      simp only at hstep
      split at hstep
      · obtain ⟨r, hr, rfl⟩ := Option.map_eq_some'.1 hstep
        have h := NetworkResourceLoader.didReceiveResponse_cachesOnly env s.loader response
        rw [hr] at h
        exact record_handsOver s _ _ _ h
      · simp at hstep
    | didReceiveBuffer buffer reported =>
      simp only at hstep
      split at hstep
      · cases hstep
        exact record_handsOver s _ _ _
          (NetworkResourceLoader.didReceiveBuffer_cachesOnly _ _ buffer reported rfl)
      · simp at hstep
    | didFinishLoading metrics =>
      simp only at hstep
      split at hstep
      · exact record_handsOver_of_map s s1 _ _ _
          (NetworkResourceLoader.didFinishLoading_cachesOnly env _ _ metrics rfl) hstep
      · simp at hstep
    | didFailLoading error =>
      simp only at hstep
      split at hstep
      · exact record_handsOver_of_map s s1 _ _ _
          (NetworkResourceLoader.didFailLoading_cachesOnly env _ _ error rfl) hstep
      · simp at hstep
    | willSendRedirectedRequest request redirectRequest redirectResponse =>
      simp only at hstep
      split at hstep
      · exact record_handsOver_of_map s s1 _ _ _
          (NetworkResourceLoader.willSendRedirectedRequest_cachesOnly env _ _ request
            redirectRequest redirectResponse rfl) hstep
      · simp at hstep
    | didSendData bytesSent totalBytesToBeSent =>
      simp only at hstep
      split at hstep
      · cases hstep
        exact record_handsOver s _ _ _
          (NetworkResourceLoader.didSendData_cachesOnly _ _ bytesSent totalBytesToBeSent rfl)
      · simp at hstep
    | didBlockAuthenticationChallenge =>
      simp only at hstep
      split at hstep
      · cases hstep
        exact record_handsOver s _ _ _
          (NetworkResourceLoader.didBlockAuthenticationChallenge_cachesOnly _ _ rfl)
      · simp at hstep
    | transportRequestChanged request =>
      simp only at hstep
      split at hstep
      · cases hstep
        exact record_handsOver s _ _ _
          (NetworkResourceLoader.cachesOnly_some _ _ _ rfl (by simp))
      · simp at hstep
    | bufferingTimerFired =>
      simp only at hstep
      split at hstep
      · refine record_handsOver_of_map s s1 _ _ _ ?_ hstep
        exact NetworkResourceLoader.bufferingTimerFired_cachesOnly _ _ rfl
      · simp at hstep
    | checkCompleted index result =>
      simp only at hstep
      split at hstep
      · exact record_handsOver_of_map s s1 _ _ _
          (NetworkResourceLoader.startCheckCompletion_cachesOnly env _ _ result rfl) hstep
      · simp at hstep
    | checkRedirectionCompleted index result checkerPolicy =>
      simp only at hstep
      split at hstep
      · refine record_handsOver_of_map s s1 _ _ _ ?_ hstep
        exact NetworkResourceLoader.checkRedirectionCompletion_cachesOnly env _ _ _ _ _ result rfl
      · simp at hstep
    | retrieveCompleted index entry =>
      simp only at hstep
      split at hstep
      · exact record_handsOver_of_map s s1 _ _ _
          (NetworkResourceLoader.retrieveCacheEntryCompletion_cachesOnly env _ _ _ _ entry rfl)
          hstep
      · simp at hstep
    | dispatchedTaskRun index =>
      simp only at hstep
      split at hstep
      · exact record_handsOver_of_map s s1 _ _ _
          (NetworkResourceLoader.dispatchedDidFailLoading_cachesOnly env _ _ _ rfl) hstep
      · simp at hstep
    | retrieveDataCompleted index data =>
      simp only at hstep
      split at hstep
      · cases hstep
        exact record_handsOver s _ _ _
          (NetworkResourceLoader.retrieveDataCompletion_cachesOnly env _ _ _ _ _ _ data rfl)
      · simp at hstep
    | storeCompleted index handle =>
      simp only at hstep
      split at hstep
      · cases hstep
        exact record_handsOver s _ _ _
          (NetworkResourceLoader.storeCompletion_cachesOnly env _ _ handle rfl)
      · simp at hstep

/-- C19: in every state of every load, whatever the parameters
(`shouldRestrictHTTPResponseAccess`, source origin, destination) and whatever
happens next (a call of the connection, a transport event, the timer, a
completion handler): the response recorded in the loader is written by
`didReceiveResponse` alone, which records the response exactly as the transport
delivered it; and every response handed to `CacheStore.store` or to
`CacheStore.update` during the step is that recorded response, not a sanitized
copy. -/
theorem cache_gets_received_response (env : Env) (s s1 : System) (ev : Event)
    (hstep : s.step env ev = some s1) :
    (∀ received, ev = Event.didReceiveResponse received → s1.loader.m_response = received)
    ∧ ((∀ received, ev ≠ Event.didReceiveResponse received) →
        s1.loader.m_response = s.loader.m_response)
    ∧ ∃ es, s1.trace = s.trace ++ es
        ∧ ∀ e ∈ es,
            (∀ request response body, e = Effect.cacheStore request response body →
              response = s1.loader.m_response)
            ∧ (∀ request webPageID webFrameID existing response,
                e = Effect.cacheUpdate request webPageID webFrameID existing response →
                response = s1.loader.m_response) := by
  obtain ⟨h1, es, h2, h3⟩ := step_handsOver env s s1 ev hstep
  refine ⟨?_, ?_, es, h2, fun e he => ⟨?_, ?_⟩⟩
  · rintro received rfl
    exact h1
  · intro hne
    rw [h1]
    cases ev with
    | didReceiveResponse response => exact absurd rfl (hne response)
    | _ => rfl
  · rintro request response body rfl
    rw [h1]
    exact h3 _ he response rfl
  · rintro request webPageID webFrameID existing response rfl
    rw [h1]
    exact h3 _ he response rfl

/-- C19 at a concrete input: a load with restricted response access in an
environment where sanitizing strips the header fields.  The client was sent
the response without its cookie header; `didFinishLoading` hands the response
with the header to `CacheStore.store`. -/
theorem cache_gets_received_response_witness :
    ∃ s1, sampleRestrictedLoad.step sampleSanitizingEnv (Event.didFinishLoading { ident := 1 })
        = some s1
      ∧ s1.loader.m_response = sampleCookieResponse
      ∧ s1.trace.filter (fun e => e.isDidReceiveResponse || e.isStore)
          = [Effect.send
               (Message.DidReceiveResponse { sampleCookieResponse with httpHeaderFields := [] }
                 false),
             Effect.cacheStore sampleRequest sampleCookieResponse [1, 2, 3]] :=
  ⟨_, rfl,
   ((cache_gets_received_response sampleSanitizingEnv sampleRestrictedLoad _
      (Event.didFinishLoading { ident := 1 }) rfl).2.1
      (fun _ h => Event.noConfusion h)).trans rfl,
   rfl⟩

theorem record_grounded (s : System) (pending : List Pending)
    (o : NetworkResourceLoader × List Effect) (validating : Bool) (hs : s.Grounded)
    (hpending : ∀ p ∈ pending, p ∈ s.pending)
    (hv : validating = true → s.loader.m_cache.isSome = true)
    (ho : Outcome.Grounded s.loader.m_cache s.loader.m_parameters validating (some o)) :
    (s.record pending o).Grounded
    ∧ (s.record pending o).loader.m_cache = s.loader.m_cache
    ∧ (s.record pending o).loader.m_parameters = s.loader.m_parameters := by
  obtain ⟨⟨h1, h2, h3⟩, h4⟩ := ho o rfl
  refine ⟨⟨fun hval => ?_, fun p hp request heq => ?_⟩, h1, h2⟩
  · show o.1.m_cache.isSome = true
    rw [h1]
    exact hv (h3 hval)
  · show o.1.m_cache.isSome = true
    rw [h1]
    subst heq
    simp only [record, List.mem_append, List.mem_filterMap] at hp
    rcases hp with hp | ⟨e, he, hpe⟩
    · exact hs.2 _ (hpending _ hp) request rfl
    · apply h4 e he
      cases e <;> simp_all [Effect.pending, Effect.isRetrieve]

theorem record_grounded_of_map (s s1 : System) (pending : List Pending) (o : Outcome)
    (validating : Bool) (hs : s.Grounded) (hpending : ∀ p ∈ pending, p ∈ s.pending)
    (hv : validating = true → s.loader.m_cache.isSome = true)
    (ho : Outcome.Grounded s.loader.m_cache s.loader.m_parameters validating o)
    (h : o.map (s.record pending) = some s1) :
    s1.Grounded ∧ s1.loader.m_cache = s.loader.m_cache
    ∧ s1.loader.m_parameters = s.loader.m_parameters := by
  obtain ⟨r, hr, rfl⟩ := Option.map_eq_some'.1 h
  subst hr
  exact record_grounded s pending r validating hs hpending hv ho

theorem step_grounded (env : Env) (s s1 : System) (ev : Event) (hs : s.Grounded)
    (hstep : s.step env ev = some s1) :
    s1.Grounded ∧ s1.loader.m_cache = s.loader.m_cache
    ∧ s1.loader.m_parameters = s.loader.m_parameters := by
  have hg : s.loader.GroundedIn s.loader.m_cache s.loader.m_parameters
      s.loader.m_cacheEntryForValidation.isSome := ⟨rfl, rfl, id⟩
  have hv := hs.1
  have hsame : ∀ p ∈ s.pending, p ∈ s.pending := fun _ hp => hp
  have herase : ∀ index, ∀ p ∈ s.pending.eraseIdx index, p ∈ s.pending :=
    fun _ _ hp => List.mem_of_mem_eraseIdx hp
  unfold step at hstep
  split at hstep
  · simp at hstep
  · simp only at hstep
    cases ev with
    | start =>
      simp only at hstep
      split at hstep
      · exact record_grounded_of_map s s1 _ _ _ hs hsame hv
          (NetworkResourceLoader.start_grounded env _ _ _ _ hg) hstep
      · simp at hstep
    | setDefersLoading defers =>
      simp only at hstep
      split at hstep
      · exact record_grounded_of_map s s1 _ _ _ hs hsame hv
          (NetworkResourceLoader.setDefersLoading_grounded env _ _ _ _ defers hg) hstep
      · simp at hstep
    | abort =>
      simp only at hstep
      split at hstep
      · cases hstep
        exact record_grounded s _ _ _ hs hsame hv
          (NetworkResourceLoader.abort_grounded _ _ _ _ hg)
      · simp at hstep
    | convertToDownload downloadID request response =>
      simp only at hstep
      split at hstep
      · cases hstep
        exact record_grounded s _ _ _ hs hsame hv
          (NetworkResourceLoader.convertToDownload_grounded env _ _ _ _ downloadID request
            response hg)
      · simp at hstep
    | continueWillSendRequest newRequest allowed =>
      simp only at hstep
      split at hstep
      · exact record_grounded_of_map s s1 _ _ _ hs hsame hv
          (NetworkResourceLoader.continueWillSendRequest_grounded env _ _ _ _ newRequest allowed
            hg) hstep
      · simp at hstep
    | continueDidReceiveResponse =>
      simp only at hstep
      split at hstep
      · exact record_grounded_of_map s s1 _ _ _ hs hsame hv
          (NetworkResourceLoader.continueDidReceiveResponse_grounded env _ _ _ _ hg) hstep
      · simp at hstep
    | didReceiveResponse response =>
      simp only at hstep
      split at hstep
      · obtain ⟨r, hr, rfl⟩ := Option.map_eq_some'.1 hstep
        have h := NetworkResourceLoader.didReceiveResponse_grounded env _ _ _ s.loader response hg
        rw [hr] at h
        exact record_grounded s _ _ _ hs hsame hv h
      · simp at hstep
    | didReceiveBuffer buffer reported =>
      simp only at hstep
      split at hstep
      · cases hstep
        exact record_grounded s _ _ _ hs hsame hv
          (NetworkResourceLoader.didReceiveBuffer_grounded _ _ _ _ buffer reported hg)
      · simp at hstep
    | didFinishLoading metrics =>
      simp only at hstep
      split at hstep
      · exact record_grounded_of_map s s1 _ _ _ hs hsame hv
          (NetworkResourceLoader.didFinishLoading_grounded env _ _ _ _ metrics hg) hstep
      · simp at hstep
    | didFailLoading error =>
      simp only at hstep
      split at hstep
      · exact record_grounded_of_map s s1 _ _ _ hs hsame hv
          (NetworkResourceLoader.didFailLoading_grounded env _ _ _ _ error hg) hstep
      · simp at hstep
    | willSendRedirectedRequest request redirectRequest redirectResponse =>
      simp only at hstep
      split at hstep
      · exact record_grounded_of_map s s1 _ _ _ hs hsame hv
          (NetworkResourceLoader.willSendRedirectedRequest_grounded env _ _ _ _ request
            redirectRequest redirectResponse hg) hstep
      · simp at hstep
    | didSendData bytesSent totalBytesToBeSent =>
      simp only at hstep
      split at hstep
      · cases hstep
        exact record_grounded s _ _ _ hs hsame hv
          (NetworkResourceLoader.didSendData_grounded _ _ _ _ bytesSent totalBytesToBeSent hg)
      · simp at hstep
    | didBlockAuthenticationChallenge =>
      simp only at hstep
      split at hstep
      · cases hstep
        exact record_grounded s _ _ _ hs hsame hv
          (NetworkResourceLoader.didBlockAuthenticationChallenge_grounded _ _ _ _ hg)
      · simp at hstep
    | transportRequestChanged request =>
      simp only at hstep
      split at hstep
      · cases hstep
        exact record_grounded s _ _ _ hs hsame hv
          (NetworkResourceLoader.grounded_some _ _ _ _ _ ⟨rfl, rfl, id⟩ (by simp))
      · simp at hstep
    | bufferingTimerFired =>
      simp only at hstep
      split at hstep
      · refine record_grounded_of_map s s1 _ _ _ hs hsame hv ?_ hstep
        exact NetworkResourceLoader.bufferingTimerFired_grounded _ _ _ _ ⟨rfl, rfl, id⟩
      · simp at hstep
    | checkCompleted index result =>
      simp only at hstep
      split at hstep
      · exact record_grounded_of_map s s1 _ _ _ hs (herase index) hv
          (NetworkResourceLoader.startCheckCompletion_grounded env _ _ _ _ result hg) hstep
      · simp at hstep
    | checkRedirectionCompleted index result checkerPolicy =>
      simp only at hstep
      split at hstep
      · refine record_grounded_of_map s s1 _ _ _ hs (herase index) hv ?_ hstep
        exact NetworkResourceLoader.checkRedirectionCompletion_grounded env _ _ _ _ _ _ _ result
          ⟨rfl, rfl, id⟩
      · simp at hstep
    | retrieveCompleted index entry =>
      simp only at hstep
      split at hstep
      · next request hget =>
        exact record_grounded_of_map s s1 _ _ true hs (herase index)
          (fun _ => hs.2 _ (List.get?_mem hget) request rfl)
          (NetworkResourceLoader.retrieveCacheEntryCompletion_grounded env _ _ _ _ _ _ entry hg)
          hstep
      · simp at hstep
    | dispatchedTaskRun index =>
      simp only at hstep
      split at hstep
      · exact record_grounded_of_map s s1 _ _ _ hs (herase index) hv
          (NetworkResourceLoader.dispatchedDidFailLoading_grounded env _ _ _ _ _ hg) hstep
      · simp at hstep
    | retrieveDataCompleted index data =>
      simp only at hstep
      split at hstep
      · cases hstep
        exact record_grounded s _ _ _ hs (herase index) hv
          (NetworkResourceLoader.retrieveDataCompletion_grounded env _ _ _ _ _ _ _ _ data hg)
      · simp at hstep
    | storeCompleted index handle =>
      simp only at hstep
      split at hstep
      · cases hstep
        exact record_grounded s _ _ _ hs (herase index) hv
          (NetworkResourceLoader.storeCompletion_grounded env _ _ _ _ handle hg)
      · simp at hstep

theorem run_grounded (env : Env) (events : List Event) :
    ∀ s : System, s.Grounded →
      (run env s events).Grounded
      ∧ (run env s events).loader.m_cache = s.loader.m_cache
      ∧ (run env s events).loader.m_parameters = s.loader.m_parameters := by
  induction events with
  | nil => intro s hs; exact ⟨hs, rfl, rfl⟩
  | cons ev rest ih =>
    intro s hs
    unfold run
    split
    · next s1 hstep =>
      obtain ⟨h1, h2, h3⟩ := step_grounded env s s1 ev hs hstep
      obtain ⟨i1, i2, i3⟩ := ih s1 h1
      exact ⟨i1, i2.trans h2, i3.trans h3⟩
    · exact ⟨hs, rfl, rfl⟩

theorem reachable_grounded (env : Env) (parameters : NetworkResourceLoadParameters)
    (synchronousReply : Bool) (events : List Event) :
    ((run env (init env parameters synchronousReply) events).loader.m_cacheEntryForValidation.isSome
        = true →
      (run env (init env parameters synchronousReply) events).loader.m_cache.isSome = true)
    ∧ (run env (init env parameters synchronousReply) events).loader.m_parameters = parameters := by
  have hinit : (init env parameters synchronousReply).Grounded :=
    ⟨fun h => Bool.noConfusion h, fun p hp => by simp [init] at hp⟩
  obtain ⟨h1, -, h3⟩ := run_grounded env events _ hinit
  exact ⟨h1.1, h3⟩

/-- C11: let `l` be the loader of a load after any sequence of events, waiting
for the revalidation of a cache entry, the original request not being
conditional.  `didReceiveResponse` with status 304 returns "continue", replaces
the pending entry by the result of `CacheStore.update` (called with the pending
entry and the 304 as received), sends no `DidReceiveResponse` and records no
response for a synchronous reply.  The `didFinishLoading` that follows is the
extra-metrics call, if enabled, followed by `didRetrieveCacheEntry` on the
updated entry, the pending entry being cleared; it returns whenever the delayed
reply of a synchronous load is still there; none of its calls is a
`CacheStore.store`, and every body it sends (data message or synchronous reply)
is the body of the updated entry, not the client-side buffer of the network
load. -/
theorem not_modified_serves_updated_entry (env : Env)
    (parameters : NetworkResourceLoadParameters) (synchronousReply : Bool)
    (events : List Event) (l : NetworkResourceLoader) (response : ResourceResponse)
    (entry : Entry) (metrics : NetworkLoadMetrics)
    (hl : l = (run env (init env parameters synchronousReply) events).loader)
    (hentry : l.m_cacheEntryForValidation = some entry)
    (hstatus : response.httpStatusCode = 304)
    (hconditional : parameters.request.isConditional = false) :
    ∃ l1 es,
      l.didReceiveResponse env response = some (l1, es, NetworkResourceLoader.ShouldContinueDidReceiveResponse.Yes)
      ∧ l1.m_cacheEntryForValidation
          = some (env.cacheUpdate l.originalRequest l.m_parameters.webPageID
              l.m_parameters.webFrameID entry response)
      ∧ Effect.cacheUpdate l.originalRequest l.m_parameters.webPageID l.m_parameters.webFrameID
          entry response ∈ es
      ∧ (∀ e ∈ es, e.isDidReceiveResponse = false)
      ∧ l1.m_synchronousLoadData = l.m_synchronousLoadData
      ∧ l1.didFinishLoading env metrics
          = Outcome.andThen
              (some ({ l1 with m_cacheEntryForValidation := none },
                     if env.captureExtraNetworkLoadMetricsEnabled then
                       [Effect.addNetworkLoadInformationMetrics l.identifier metrics]
                     else []))
              (fun l2 => l2.didRetrieveCacheEntry env
                (env.cacheUpdate l.originalRequest l.m_parameters.webPageID
                  l.m_parameters.webFrameID entry response))
      ∧ ((∀ data, l.m_synchronousLoadData = some data → data.delayedReply = true) →
          (l1.didFinishLoading env metrics).isSome = true)
      ∧ ∀ o, l1.didFinishLoading env metrics = some o →
          ∀ e ∈ o.2, e.isStore = false
            ∧ e.bodyFrom (env.cacheUpdate l.originalRequest l.m_parameters.webPageID
                l.m_parameters.webFrameID entry response).buffer = true := by
  obtain ⟨hcache, hparameters⟩ := reachable_grounded env parameters synchronousReply events
  rw [← hl] at hcache hparameters
  have hsome : l.m_cache.isSome = true := hcache (by rw [hentry]; rfl)
  obtain ⟨cache, hc⟩ := Option.isSome_iff_exists.1 hsome
  have hcond : l.originalRequest.isConditional = false := by
    unfold NetworkResourceLoader.originalRequest
    rw [hparameters]
    exact hconditional
  exact NetworkResourceLoader.not_modified_then_finish env l response entry cache
    metrics hentry hc hstatus hcond

/-- C11 at a concrete input: the cache lookup of `start()` answers with
`sampleEntry`, which needs validation; the 304 is not forwarded, and
`didFinishLoading` sends the response and the three bytes of the entry. -/
theorem not_modified_serves_updated_entry_witness :
    ∃ l l1 es,
      l = (run sampleEnv (init sampleEnv sampleParameters false)
            [Event.start, Event.retrieveCompleted 0 (some sampleEntry)]).loader
      ∧ l.m_cacheEntryForValidation = some sampleEntry
      ∧ l.didReceiveResponse sampleEnv sampleNotModifiedResponse
          = some (l1, es, NetworkResourceLoader.ShouldContinueDidReceiveResponse.Yes)
      ∧ es.all (fun e => !e.isDidReceiveResponse) = true
      ∧ (l1.didFinishLoading sampleEnv { ident := 1 }).map Prod.snd
          = some [Effect.send (Message.DidReceiveResponse sampleNotModifiedResponse false),
                  Effect.send (Message.DidReceiveData [1, 2, 3] 3),
                  Effect.send (Message.DidFinishResourceLoad completeZeroMetrics),
                  Effect.extensionRevoke { ident := 7 }, Effect.extensionRevoke { ident := 8 },
                  Effect.didCleanupResourceLoader] := by
  obtain ⟨l1, es, h1, -, -, h4, -, -, -, -⟩ :=
    not_modified_serves_updated_entry sampleEnv sampleParameters false
      [Event.start, Event.retrieveCompleted 0 (some sampleEntry)] _ sampleNotModifiedResponse
      sampleEntry { ident := 1 } rfl rfl rfl rfl
  refine ⟨_, l1, es, rfl, rfl, h1, List.all_eq_true.2 (fun e he => by simp [h4 e he]), ?_⟩
  have h : some (l1, es, NetworkResourceLoader.ShouldContinueDidReceiveResponse.Yes)
      = NetworkResourceLoader.didReceiveResponse sampleEnv
          (run sampleEnv (init sampleEnv sampleParameters false)
            [Event.start, Event.retrieveCompleted 0 (some sampleEntry)]).loader
          sampleNotModifiedResponse :=
    h1.symm
  injection h with h
  injection h with hl hes
  subst hl
  rfl

theorem runAll_append (env : Env) (xs ys : List Event) :
    ∀ s : System, runAll env s (xs ++ ys) = (runAll env s xs).bind (fun s1 => runAll env s1 ys) := by
  induction xs with
  | nil => intro s; rfl
  | cons ev rest ih =>
    intro s
    simp only [List.cons_append, runAll]
    cases s.step env ev with
    | none => rfl
    | some s1 => exact ih s1

theorem data_step (env : Env) (s s1 : System) (ev : Event)
    (hdata : ev.isData = true) (hstep : s.step env ev = some s1) :
    ∃ es, s1.trace = s.trace ++ es
      ∧ sentBytes es ++ s1.loader.bufferedBytes = s.loader.bufferedBytes ++ receivedBytes [ev]
      ∧ s1.loader.m_synchronousLoadData = s.loader.m_synchronousLoadData
      ∧ s1.loader.m_cacheEntryForValidation = s.loader.m_cacheEntryForValidation := by
  unfold step at hstep
  split at hstep
  · exact Option.noConfusion hstep
  cases ev with
  | didReceiveBuffer buffer reported =>
    simp only [] at hstep
    split at hstep
    · simp only [Option.some.injEq] at hstep
      subst hstep
      obtain ⟨h1, h2, h3⟩ := NetworkResourceLoader.didReceiveBuffer_bytes s.loader buffer reported
      refine ⟨_, rfl, ?_, h2, h3⟩
      simp only [record, receivedBytes, List.append_nil]
      exact h1
    · exact Option.noConfusion hstep
  | bufferingTimerFired =>
    simp only [] at hstep
    split at hstep
    · cases hfired : NetworkResourceLoader.bufferingTimerFired
          { s.loader with m_bufferingTimer := false } with
      | none => rw [hfired] at hstep; exact Option.noConfusion hstep
      | some r =>
        rw [hfired] at hstep
        simp only [Option.map_some', Option.some.injEq] at hstep
        subst hstep
        obtain ⟨h1, h2, h3⟩ := NetworkResourceLoader.bufferingTimerFired_bytes _ r hfired
        refine ⟨_, rfl, ?_, h2, h3⟩
        simp only [record, receivedBytes, List.append_nil]
        exact h1
    · exact Option.noConfusion hstep
  | _ => exact Bool.noConfusion hdata

theorem receivedBytes_cons (ev : Event) (rest : List Event) :
    receivedBytes (ev :: rest) = receivedBytes [ev] ++ receivedBytes rest := by
  cases ev <;> simp [receivedBytes]

theorem data_run (env : Env) (events : List Event) :
    ∀ s s1 : System, (∀ ev ∈ events, ev.isData = true) → runAll env s events = some s1 →
      ∃ es, s1.trace = s.trace ++ es
        ∧ sentBytes es ++ s1.loader.bufferedBytes
            = s.loader.bufferedBytes ++ receivedBytes events
        ∧ s1.loader.m_synchronousLoadData = s.loader.m_synchronousLoadData
        ∧ s1.loader.m_cacheEntryForValidation = s.loader.m_cacheEntryForValidation := by
  induction events with
  | nil =>
    intro s s1 _ hrun
    simp only [runAll, Option.some.injEq] at hrun
    subst hrun
    exact ⟨[], by simp, by simp [sentBytes, receivedBytes], rfl, rfl⟩
  | cons ev rest ih =>
    intro s s1 hdata hrun
    simp only [runAll] at hrun
    cases hstep : s.step env ev with
    | none => rw [hstep] at hrun; exact Option.noConfusion hrun
    | some s2 =>
      rw [hstep] at hrun
      simp only [Option.some_bind] at hrun
      obtain ⟨es1, ht1, hb1, hs1, he1⟩ :=
        data_step env s s2 ev (hdata ev (List.mem_cons_self _ _)) hstep
      obtain ⟨es2, ht2, hb2, hs2, he2⟩ :=
        ih s2 s1 (fun x hx => hdata x (List.mem_cons_of_mem _ hx)) hrun
      refine ⟨es1 ++ es2, ?_, ?_, hs2.trans hs1, he2.trans he1⟩
      · rw [ht2, ht1, List.append_assoc]
      · rw [NetworkResourceLoader.sentBytes_append, List.append_assoc, hb2,
          ← List.append_assoc, hb1, receivedBytes_cons ev rest, List.append_assoc]

/-- C29: for an asynchronous load with no pending revalidation and nothing in
its client-side buffer, every sequence of `didReceiveBuffer` calls and firings
of the buffering timer that ends in `didFinishLoading`: the payloads of the
DidReceiveData messages sent up to DidFinishResourceLoad, concatenated, are the
buffers passed to `didReceiveBuffer`, concatenated in order, and no
DidReceiveData is sent after DidFinishResourceLoad.  Nothing is assumed of the
cache-side buffer. -/
theorem received_data_is_forwarded (env : Env) (s s1 : System) (events : List Event)
    (metrics : NetworkLoadMetrics)
    (hasync : s.loader.isSynchronous = false)
    (hentry : s.loader.m_cacheEntryForValidation = none)
    (hempty : s.loader.bufferedBytes = [])
    (hdata : ∀ ev ∈ events, ev.isData = true)
    (hrun : runAll env s (events ++ [Event.didFinishLoading metrics]) = some s1) :
    ∃ before after,
      s1.trace = s.trace ++ before ++ [Effect.send (Message.DidFinishResourceLoad metrics)]
          ++ after
      ∧ sentBytes before = receivedBytes events
      ∧ ∀ e ∈ after, e.isDidReceiveData = false := by
  rw [runAll_append] at hrun
  cases hdone : runAll env s events with
  | none => rw [hdone] at hrun; exact Option.noConfusion hrun
  | some s2 =>
    rw [hdone] at hrun
    simp only [Option.some_bind, runAll] at hrun
    cases hstep : s2.step env (Event.didFinishLoading metrics) with
    | none => rw [hstep] at hrun; exact Option.noConfusion hrun
    | some s3 =>
      rw [hstep] at hrun
      simp only [Option.some_bind, Option.some.injEq] at hrun
      subst hrun
      obtain ⟨es, ht, hb, hs, he⟩ := data_run env events s s2 hdata hdone
      have hasync2 : s2.loader.isSynchronous = false := by
        unfold NetworkResourceLoader.isSynchronous at hasync ⊢
        rw [hs]
        exact hasync
      unfold step at hstep
      split at hstep
      · exact Option.noConfusion hstep
      simp only [] at hstep
      split at hstep
      · cases hfinish : s2.loader.didFinishLoading env metrics with
        | none => rw [hfinish] at hstep; exact Option.noConfusion hstep
        | some r =>
          rw [hfinish] at hstep
          simp only [Option.map_some', Option.some.injEq] at hstep
          subst hstep
          obtain ⟨before, after, hr, hsent, hafter⟩ :=
            NetworkResourceLoader.didFinishLoading_bytes env s2.loader metrics r hasync2
              (he.trans hentry) hfinish
          refine ⟨es ++ before, after, ?_, ?_, hafter⟩
          · simp only [record, ht, hr, List.append_assoc]
          · rw [NetworkResourceLoader.sentBytes_append, hsent, hb, hempty, List.nil_append]
      · exact Option.noConfusion hstep

/-- C29 at a concrete input: a buffering load receives [1, 2], the timer
fires, then [3] and [4, 5] arrive and the load finishes. -/
theorem received_data_is_forwarded_witness :
    sampleBufferingSystem.loader.isSynchronous = false
    ∧ sampleBufferingSystem.loader.m_cacheEntryForValidation = none
    ∧ sampleBufferingSystem.loader.m_bufferedData = some []
    ∧ sampleDataEvents.all Event.isData = true
    ∧ receivedBytes sampleDataEvents = [1, 2, 3, 4, 5]
    ∧ ∃ s1, runAll sampleEnv sampleBufferingSystem
          (sampleDataEvents ++ [Event.didFinishLoading completeZeroMetrics]) = some s1
        ∧ ∃ before after,
            s1.trace = sampleBufferingSystem.trace ++ before
                ++ [Effect.send (Message.DidFinishResourceLoad completeZeroMetrics)] ++ after
            ∧ sentBytes before = receivedBytes sampleDataEvents
            ∧ ∀ e ∈ after, e.isDidReceiveData = false := by
  have hdata : ∀ ev ∈ sampleDataEvents, ev.isData = true := by decide
  obtain ⟨s1, hrun⟩ := Option.isSome_iff_exists.mp
    (show (runAll sampleEnv sampleBufferingSystem
      (sampleDataEvents ++ [Event.didFinishLoading completeZeroMetrics])).isSome = true from rfl)
  exact ⟨rfl, rfl, rfl, rfl, rfl, s1, hrun,
    received_data_is_forwarded sampleEnv sampleBufferingSystem s1 sampleDataEvents
      completeZeroMetrics rfl rfl rfl hdata hrun⟩

theorem record_synchronous (s : System) (pending : List Pending)
    (o : NetworkResourceLoader × List Effect) (hs : s.SynchronousLoad)
    (ho : Outcome.StaysSynchronous (some o)) : (s.record pending o).SynchronousLoad := by
  obtain ⟨h1, h2⟩ := ho o rfl
  refine ⟨h1, fun e he => ?_⟩
  simp only [record, List.mem_append] at he
  rcases he with he | he
  · exact hs.2 e he
  · exact h2 e he

theorem record_synchronous_of_map (s s1 : System) (pending : List Pending) (o : Outcome)
    (hs : s.SynchronousLoad) (ho : Outcome.StaysSynchronous o)
    (h : o.map (s.record pending) = some s1) : s1.SynchronousLoad := by
  obtain ⟨r, hr, rfl⟩ := Option.map_eq_some'.1 h
  subst hr
  exact record_synchronous s pending r hs ho

theorem step_synchronous (env : Env) (s s1 : System) (ev : Event) (hs : s.SynchronousLoad)
    (hstep : s.step env ev = some s1) : s1.SynchronousLoad := by
  have hg : s.loader.SynchronousWithChecker := hs.1
  unfold step at hstep
  split at hstep
  · simp at hstep
  · simp only at hstep
    cases ev with
    | start =>
      simp only at hstep
      split at hstep
      · exact record_synchronous_of_map s s1 _ _ hs
          (NetworkResourceLoader.start_synchronous env _ hg) hstep
      · simp at hstep
    | setDefersLoading defers =>
      simp only at hstep
      split at hstep
      · exact record_synchronous_of_map s s1 _ _ hs
          (NetworkResourceLoader.setDefersLoading_synchronous env _ defers hg) hstep
      · simp at hstep
    | abort =>
      simp only at hstep
      split at hstep
      · cases hstep
        exact record_synchronous s _ _ hs (NetworkResourceLoader.abort_synchronous _ hg)
      · simp at hstep
    | convertToDownload downloadID request response =>
      simp only at hstep
      split at hstep
      · cases hstep
        exact record_synchronous s _ _ hs
          (NetworkResourceLoader.convertToDownload_synchronous env _ downloadID request
            response hg)
      · simp at hstep
    | continueWillSendRequest newRequest allowed =>
      simp only at hstep
      split at hstep
      · exact record_synchronous_of_map s s1 _ _ hs
          (NetworkResourceLoader.continueWillSendRequest_synchronous env _ newRequest allowed
            hg) hstep
      · simp at hstep
    | continueDidReceiveResponse =>
      simp only at hstep
      split at hstep
      · exact record_synchronous_of_map s s1 _ _ hs
          (NetworkResourceLoader.continueDidReceiveResponse_synchronous env _ hg) hstep
      · simp at hstep
    | didReceiveResponse response =>
      simp only at hstep
      split at hstep
      · obtain ⟨r, hr, rfl⟩ := Option.map_eq_some'.1 hstep
        have h := NetworkResourceLoader.didReceiveResponse_synchronous env s.loader response hg
        rw [hr] at h
        exact record_synchronous s _ _ hs h
      · simp at hstep
    | didReceiveBuffer buffer reported =>
      simp only at hstep
      split at hstep
      · cases hstep
        exact record_synchronous s _ _ hs
          (NetworkResourceLoader.didReceiveBuffer_synchronous _ buffer reported hg)
      · simp at hstep
    | didFinishLoading metrics =>
      simp only at hstep
      split at hstep
      · exact record_synchronous_of_map s s1 _ _ hs
          (NetworkResourceLoader.didFinishLoading_synchronous env _ metrics hg) hstep
      · simp at hstep
    | didFailLoading error =>
      simp only at hstep
      split at hstep
      · exact record_synchronous_of_map s s1 _ _ hs
          (NetworkResourceLoader.didFailLoading_synchronous env _ error hg) hstep
      · simp at hstep
    | willSendRedirectedRequest request redirectRequest redirectResponse =>
      simp only at hstep
      split at hstep
      · exact record_synchronous_of_map s s1 _ _ hs
          (NetworkResourceLoader.willSendRedirectedRequest_synchronous env _ request
            redirectRequest redirectResponse hg) hstep
      · simp at hstep
    | didSendData bytesSent totalBytesToBeSent =>
      simp only at hstep
      split at hstep
      · cases hstep
        exact record_synchronous s _ _ hs
          (NetworkResourceLoader.didSendData_synchronous _ bytesSent totalBytesToBeSent hg)
      · simp at hstep
    | didBlockAuthenticationChallenge =>
      simp only at hstep
      split at hstep
      · cases hstep
        exact record_synchronous s _ _ hs
          (NetworkResourceLoader.didBlockAuthenticationChallenge_synchronous _ hg)
      · simp at hstep
    | transportRequestChanged request =>
      simp only at hstep
      split at hstep
      · cases hstep
        exact record_synchronous s _ _ hs
          (NetworkResourceLoader.synchronous_some _ _ (by exact hg) (by simp))
      · simp at hstep
    | bufferingTimerFired =>
      simp only at hstep
      split at hstep
      · refine record_synchronous_of_map s s1 _ _ hs ?_ hstep
        exact NetworkResourceLoader.bufferingTimerFired_synchronous _ (by exact hg)
      · simp at hstep
    | checkCompleted index result =>
      simp only at hstep
      split at hstep
      · exact record_synchronous_of_map s s1 _ _ hs
          (NetworkResourceLoader.startCheckCompletion_synchronous env _ result hg) hstep
      · simp at hstep
    | checkRedirectionCompleted index result checkerPolicy =>
      simp only at hstep
      split at hstep
      · refine record_synchronous_of_map s s1 _ _ hs ?_ hstep
        apply NetworkResourceLoader.checkRedirectionCompletion_synchronous
        refine ⟨hg.1, ?_⟩
        show (s.loader.m_networkLoadChecker.map _).isSome = true
        rw [Option.isSome_map']
        exact hg.2
      · simp at hstep
    | retrieveCompleted index entry =>
      simp only at hstep
      split at hstep
      · exact record_synchronous_of_map s s1 _ _ hs
          (NetworkResourceLoader.retrieveCacheEntryCompletion_synchronous env _ _ _ entry hg)
          hstep
      · simp at hstep
    | dispatchedTaskRun index =>
      simp only at hstep
      split at hstep
      · exact record_synchronous_of_map s s1 _ _ hs
          (NetworkResourceLoader.dispatchedDidFailLoading_synchronous env _ _ hg) hstep
      · simp at hstep
    | retrieveDataCompleted index data =>
      simp only at hstep
      split at hstep
      · cases hstep
        exact record_synchronous s _ _ hs
          (NetworkResourceLoader.retrieveDataCompletion_synchronous env _ _ _ _ _ data hg)
      · simp at hstep
    | storeCompleted index handle =>
      simp only at hstep
      split at hstep
      · cases hstep
        exact record_synchronous s _ _ hs
          (NetworkResourceLoader.storeCompletion_synchronous env _ handle hg)
      · simp at hstep

theorem run_synchronous (env : Env) (events : List Event) :
    ∀ s : System, s.SynchronousLoad → (run env s events).SynchronousLoad := by
  induction events with
  | nil => intro s hs; exact hs
  | cons ev rest ih =>
    intro s hs
    unfold run
    split
    · next s1 hstep => exact ih s1 (step_synchronous env s s1 ev hs hstep)
    · exact hs

theorem init_synchronous (env : Env) (parameters : NetworkResourceLoadParameters) :
    (init env parameters true).SynchronousLoad :=
  ⟨⟨rfl, rfl⟩, fun e he => by simp [init] at he⟩

/-- Let `l` be the loader of a synchronous load after any sequence of
events.  It is still synchronous and has its checker, and no call so far has
stored a redirect.  `willSendRedirectedRequest` only counts the redirect and
hands it to the checker: `continueWillSendRedirectedRequest` is not reached,
nothing is sent to the client and nothing is stored.  Whatever the result of
the check and the policy the checker has by then, the completion handler sends
no WillSendRequest and stores no redirect; when the check succeeds with the
policy unchanged, the handler is `continueWillSendRequest` with the checked
request and `false`, which records that the user may not be asked for
credentials. -/
theorem synchronous_redirect_is_checked (env : Env)
    (parameters : NetworkResourceLoadParameters) (events : List Event)
    (l : NetworkResourceLoader)
    (hl : l = (run env (init env parameters true) events).loader) :
    (l.isSynchronous = true ∧ l.m_networkLoadChecker.isSome = true)
    ∧ (∀ e ∈ (run env (init env parameters true) events).trace, e.isStoreRedirect = false)
    ∧ (∀ request redirectRequest redirectResponse,
        ∃ checker, l.m_networkLoadChecker = some checker
          ∧ l.willSendRedirectedRequest env request redirectRequest redirectResponse
              = some ({ l with m_redirectCount := l.m_redirectCount + 1 },
                      [Effect.loadCheckerCheckRedirection redirectResponse redirectRequest
                         checker.storedCredentialsPolicy request]))
    ∧ (∀ checkerPolicy policy request redirectResponse result r,
        NetworkResourceLoader.checkRedirectionCompletion env
            { l with m_networkLoadChecker := some { storedCredentialsPolicy := checkerPolicy } }
            policy request redirectResponse result = some r →
        ∀ e ∈ r.2, e.isWillSendRequest = false ∧ e.isStoreRedirect = false)
    ∧ (∀ checkerPolicy request redirectResponse value,
        NetworkResourceLoader.checkRedirectionCompletion env
            { l with m_networkLoadChecker := some { storedCredentialsPolicy := checkerPolicy } }
            checkerPolicy request redirectResponse (Except.ok value)
          = NetworkResourceLoader.continueWillSendRequest env
              { l with m_networkLoadChecker := some { storedCredentialsPolicy := checkerPolicy } }
              value false
        ∧ ∀ r, NetworkResourceLoader.continueWillSendRequest env
              { l with m_networkLoadChecker := some { storedCredentialsPolicy := checkerPolicy } }
              value false = some r →
            r.1.m_isAllowedToAskUserForCredentials = false) := by
  have hrun := run_synchronous env events _ (init_synchronous env parameters)
  obtain ⟨⟨hs, hc⟩, htrace⟩ := hrun
  rw [← hl] at hs hc
  have hsync : l.isSynchronous = true := hs
  refine ⟨⟨hsync, hc⟩, htrace, ?_, ?_, ?_⟩
  · intro request redirectRequest redirectResponse
    obtain ⟨checker, hchecker⟩ := Option.isSome_iff_exists.1 hc
    refine ⟨checker, hchecker, ?_⟩
    unfold NetworkResourceLoader.willSendRedirectedRequest
    simp only [hchecker]
  · intro checkerPolicy policy request redirectResponse result r hr e he
    have hchecked : NetworkResourceLoader.SynchronousWithChecker
        { l with m_networkLoadChecker := some { storedCredentialsPolicy := checkerPolicy } } :=
      ⟨hs, rfl⟩
    exact ⟨NetworkResourceLoader.checkRedirectionCompletion_of_synchronous env _ policy request
        redirectResponse result r (by exact hsync) hr e he,
      (NetworkResourceLoader.checkRedirectionCompletion_synchronous env _ policy request
        redirectResponse result hchecked r hr).2 e he⟩
  · intro checkerPolicy request redirectResponse value
    constructor
    · have hsync1 : NetworkResourceLoader.isSynchronous
          { l with m_networkLoadChecker := some { storedCredentialsPolicy := checkerPolicy } }
          = true := hsync
      unfold NetworkResourceLoader.checkRedirectionCompletion
      simp only [ne_eq, not_true_eq_false, if_false, hsync1, if_true]
    · intro r hr
      exact NetworkResourceLoader.continueWillSendRequest_records_permission env _ value false r hr

/-- C22 (the code at the failing input): the transport of a load fails while
the checker examines a redirect, and the checker then rejects the redirect.
The completion handler of `checkRedirection` does not ask whether the load is
still there and calls `didFailLoading` a second time.  An asynchronous client
is sent `DidFailResourceLoad` twice.  For a synchronous load the first five
events happen, and the second `didFailLoading` has no outcome: the delayed
reply was sent by the first one, and `sendReplyToSynchronousRequest` calls
through it (on `sampleRepliedLoader`, the loader such a first failure leaves,
`didFailLoading` has no outcome either). -/
theorem didFailLoading_without_delayed_reply :
    sampleAccessControlError.isNull = false
    ∧ sampleRepliedLoader.isSynchronous = true
    ∧ sampleRepliedLoader.m_synchronousLoadData.map (fun data => data.delayedReply) = some false
    ∧ (sampleSynchronousLoader.didFailLoading sampleEnv sampleAccessControlError).map
        (fun r => r.1) = some sampleRepliedLoader
    ∧ sampleRepliedLoader.didFailLoading sampleEnv sampleAccessControlError = none
    ∧ (runAll sampleEnv (init sampleEnv sampleCheckedParameters false)
          sampleFailedTwiceEvents).map (fun s => s.trace.filter Effect.isFailureReply)
        = some [Effect.send (Message.DidFailResourceLoad sampleAccessControlError),
                Effect.send (Message.DidFailResourceLoad sampleAccessControlError)]
    ∧ (runAll sampleEnv (init sampleEnv sampleParameters true)
          (sampleFailedTwiceEvents.take 5)).isSome = true
    ∧ runAll sampleEnv (init sampleEnv sampleParameters true) sampleFailedTwiceEvents = none := by
  refine ⟨rfl, rfl, rfl, rfl, rfl, rfl, rfl, rfl⟩

/-- C10 (as stated, refuted): the load is started over the network on its
first attempt with a request that can use the cache; the transport is
redirected to an ftp URL, which cannot; the response is not multipart, no
revalidation is pending, and the three bytes received are still held for the
cache when the load ends.  `didFinishLoading` sends `DidFinishResourceLoad` and
calls no `store`.  Without the redirect, the same load is stored. -/
theorem redirected_load_is_not_stored :
    sampleLoader.canUseCache sampleRequest = true
    ∧ sampleLoader.canUseCache sampleOtherRequest = false
    ∧ sampleResponse.isMultipart = false
    ∧ (runAll sampleEnv (init sampleEnv sampleParameters false)
        (sampleRedirectedLoadEvents.take 2)).map
        (fun s => (s.loader.m_networkLoad, s.loader.m_bufferedDataForCache,
                   s.loader.m_cacheEntryForValidation))
      = some (some { currentRequest := sampleRequest }, some [], none)
    ∧ (runAll sampleEnv (init sampleEnv sampleParameters false)
        (sampleRedirectedLoadEvents.take 8)).map
        (fun s => (s.loader.m_networkLoad, s.loader.m_bufferedDataForCache,
                   s.loader.m_cacheEntryForValidation))
      = some (some { currentRequest := sampleOtherRequest }, some [1, 2, 3], none)
    ∧ (runAll sampleEnv (init sampleEnv sampleParameters false)
        sampleRedirectedLoadEvents).map
        (fun s => (s.trace.filter Effect.isStore,
                   s.trace.contains (Effect.send (Message.DidFinishResourceLoad { ident := 5 }))))
      = some ([], true)
    ∧ (runAll sampleEnv (init sampleEnv sampleParameters false)
        (sampleRedirectedLoadEvents.take 2 ++ sampleRedirectedLoadEvents.drop 5)).map
        (fun s => s.trace.filter Effect.isStore)
      = some [Effect.cacheStore sampleRequest sampleResponse [1, 2, 3]] :=
  ⟨rfl, rfl, rfl, rfl, rfl, rfl, rfl⟩

/-- C13 (the code at the failing input): the From-Origin feature is enabled and
the frame ancestor is of another origin; the cache lookup of `start()` answers
with a cached redirect whose response carries `From-Origin: same`.  No
transport exists at that point, so the test of line 842 fails on its last
conjunct: the redirect is sent to the client with `WillSendRequest`, nothing
fails, and the loader waits for the client to continue.  The same response
fails the load where the test does not ask for a transport (served as a plain
cache entry, `didRetrieveCacheEntry`) and where a transport exists (reported by
the transport as a redirect). -/
theorem cached_redirect_is_forwarded_without_transport :
    sampleFromOriginParameters.shouldEnableFromOriginResponseHeader = true
    ∧ shouldCancelCrossOriginLoad sampleFromOriginEnv sampleRedirectEntry.response
        sampleFromOriginParameters.frameAncestorOrigins = true
    ∧ (runAll sampleFromOriginEnv (init sampleFromOriginEnv sampleFromOriginParameters false)
        [Event.start, Event.retrieveCompleted 0 (some sampleRedirectEntry)]).map
        (fun s => (s.trace.filter Effect.isClientMessage, s.loader.m_networkLoad,
                   s.loader.m_isWaitingContinueWillSendRequestForCachedRedirect, s.registered))
      = some ([Effect.send (Message.WillSendRequest sampleRedirectRequest sampleRedirectResponse)],
              none, true, true)
    ∧ (runAll sampleFromOriginEnv (init sampleFromOriginEnv sampleFromOriginParameters false)
        [Event.start,
         Event.retrieveCompleted 0 (some { sampleRedirectEntry with redirectRequest := none })]).map
        (fun s => s.trace.filter Effect.isClientMessage)
      = some [Effect.send
                (Message.DidFailResourceLoad (fromOriginResourceError sampleRedirectResponse.url))]
    ∧ (runAll sampleFromOriginEnv (init sampleFromOriginEnv sampleFromOriginParameters false)
        [Event.start, Event.retrieveCompleted 0 none,
         Event.willSendRedirectedRequest sampleRequest sampleRedirectRequest
           sampleRedirectResponse]).map
        (fun s => s.trace.filter Effect.isClientMessage)
      = some [Effect.send
                (Message.DidFailResourceLoad (fromOriginResourceError sampleRedirectResponse.url))] :=
  ⟨rfl, rfl, rfl, rfl, rfl⟩

/-- C24 (the code at the failing input): a synchronous load is checked and
looked up in the cache, and the lookup answers with a cached redirect.
`dispatchWillSendRequestForCacheEntry` does not ask whether the load is
synchronous: it sends `WillSendRequest` to the client and sets the flag by
which the loader waits for the client to continue; the load is neither replied
to nor continued.  A redirect that the transport reports on the same load goes
to the checker, and on its success the loader continues the transport at once
and sends the client nothing. -/
theorem cached_redirect_on_synchronous_load :
    (init sampleEnv sampleParameters true).loader.isSynchronous = true
    ∧ (runAll sampleEnv (init sampleEnv sampleParameters true)
        [Event.start, Event.checkCompleted 0 (Except.ok sampleRequest),
         Event.retrieveCompleted 0 (some samplePlainRedirectEntry)]).map
        (fun s => (s.trace.filter Effect.isClientMessage,
                   s.trace.filter Effect.isTransportCall,
                   s.loader.m_isWaitingContinueWillSendRequestForCachedRedirect,
                   s.loader.m_networkLoad, s.pending))
      = some ([Effect.send
                 (Message.WillSendRequest sampleRedirectRequest samplePlainRedirectResponse)],
              [], true, none, [])
    ∧ (runAll sampleEnv (init sampleEnv sampleParameters true)
        [Event.start, Event.checkCompleted 0 (Except.ok sampleRequest),
         Event.retrieveCompleted 0 none,
         Event.willSendRedirectedRequest sampleRequest sampleRedirectRequest
           samplePlainRedirectResponse,
         Event.checkRedirectionCompleted 0 (Except.ok sampleRedirectRequest)
           StoredCredentialsPolicy.Use]).map
        (fun s => (s.trace.filter Effect.isClientMessage,
                   s.trace.filter Effect.isTransportCall,
                   s.loader.m_isAllowedToAskUserForCredentials))
      = some ([], [Effect.networkLoadContinueWillSendRequest sampleRedirectRequest], false) :=
  ⟨rfl, rfl, rfl⟩

theorem record_shaped (s : System) (pending : List Pending)
    (o : NetworkResourceLoader × List Effect)
    (ho : Outcome.Shaped s.loader (some o)) : s.Shaped (s.record pending o) :=
  ⟨o.2, rfl, ho o rfl⟩

theorem record_shaped_of_map (s s1 : System) (pending : List Pending) (o : Outcome)
    (ho : Outcome.Shaped s.loader o)
    (h : o.map (s.record pending) = some s1) : s.Shaped s1 := by
  obtain ⟨r, hr, rfl⟩ := Option.map_eq_some'.1 h
  subst hr
  exact record_shaped s pending r ho

theorem step_shaped (env : Env) (s s1 : System) (ev : Event)
    (hstep : s.step env ev = some s1) : s.Shaped s1 := by
  have hg : s.loader.SameGrants s.loader := NetworkResourceLoader.sameGrants_refl _
  unfold step at hstep
  split at hstep
  · simp at hstep
  · simp only at hstep
    cases ev with
    | start =>
      simp only at hstep
      split at hstep
      · exact record_shaped_of_map s s1 _ _
          (NetworkResourceLoader.start_shaped env _ _ hg) hstep
      · simp at hstep
    | setDefersLoading defers =>
      simp only at hstep
      split at hstep
      · exact record_shaped_of_map s s1 _ _
          (NetworkResourceLoader.setDefersLoading_shaped env _ _ defers hg) hstep
      · simp at hstep
    | abort =>
      simp only at hstep
      split at hstep
      · cases hstep
        exact record_shaped s _ _ (NetworkResourceLoader.abort_shaped _ _ hg)
      · simp at hstep
    | convertToDownload downloadID request response =>
      simp only at hstep
      split at hstep
      · cases hstep
        exact record_shaped s _ _
          (NetworkResourceLoader.convertToDownload_shaped env _ _ downloadID request
            response hg)
      · simp at hstep
    | continueWillSendRequest newRequest allowed =>
      simp only at hstep
      split at hstep
      · exact record_shaped_of_map s s1 _ _
          (NetworkResourceLoader.continueWillSendRequest_shaped env _ _ newRequest allowed
            hg) hstep
      · simp at hstep
    | continueDidReceiveResponse =>
      simp only at hstep
      split at hstep
      · exact record_shaped_of_map s s1 _ _
          (NetworkResourceLoader.continueDidReceiveResponse_shaped env _ _ hg) hstep
      · simp at hstep
    | didReceiveResponse response =>
      simp only at hstep
      split at hstep
      · obtain ⟨r, hr, rfl⟩ := Option.map_eq_some'.1 hstep
        have h := NetworkResourceLoader.didReceiveResponse_shaped env s.loader s.loader
          response hg
        rw [hr] at h
        exact record_shaped s _ _ h
      · simp at hstep
    | didReceiveBuffer buffer reported =>
      simp only at hstep
      split at hstep
      · cases hstep
        exact record_shaped s _ _
          (NetworkResourceLoader.didReceiveBuffer_shaped _ _ buffer reported hg)
      · simp at hstep
    | didFinishLoading metrics =>
      simp only at hstep
      split at hstep
      · exact record_shaped_of_map s s1 _ _
          (NetworkResourceLoader.didFinishLoading_shaped env _ _ metrics hg) hstep
      · simp at hstep
    | didFailLoading error =>
      simp only at hstep
      split at hstep
      · exact record_shaped_of_map s s1 _ _
          (NetworkResourceLoader.didFailLoading_shaped env _ _ error hg) hstep
      · simp at hstep
    | willSendRedirectedRequest request redirectRequest redirectResponse =>
      simp only at hstep
      split at hstep
      · exact record_shaped_of_map s s1 _ _
          (NetworkResourceLoader.willSendRedirectedRequest_shaped env _ _ request
            redirectRequest redirectResponse hg) hstep
      · simp at hstep
    | didSendData bytesSent totalBytesToBeSent =>
      simp only at hstep
      split at hstep
      · cases hstep
        exact record_shaped s _ _
          (NetworkResourceLoader.didSendData_shaped _ _ bytesSent totalBytesToBeSent hg)
      · simp at hstep
    | didBlockAuthenticationChallenge =>
      simp only at hstep
      split at hstep
      · cases hstep
        exact record_shaped s _ _
          (NetworkResourceLoader.didBlockAuthenticationChallenge_shaped _ _ hg)
      · simp at hstep
    | transportRequestChanged request =>
      simp only at hstep
      split at hstep
      · cases hstep
        exact record_shaped s _ _
          (NetworkResourceLoader.shaped_some _ _ _ (by exact hg) (by simp))
      · simp at hstep
    | bufferingTimerFired =>
      simp only at hstep
      split at hstep
      · refine record_shaped_of_map s s1 _ _ ?_ hstep
        exact NetworkResourceLoader.bufferingTimerFired_shaped _ _ (by exact hg)
      · simp at hstep
    | checkCompleted index result =>
      simp only at hstep
      split at hstep
      · exact record_shaped_of_map s s1 _ _
          (NetworkResourceLoader.startCheckCompletion_shaped env _ _ result hg) hstep
      · simp at hstep
    | checkRedirectionCompleted index result checkerPolicy =>
      simp only at hstep
      split at hstep
      · refine record_shaped_of_map s s1 _ _ ?_ hstep
        exact NetworkResourceLoader.checkRedirectionCompletion_shaped env _ _ _ _ _ _
          (by exact hg)
      · simp at hstep
    | retrieveCompleted index entry =>
      simp only at hstep
      split at hstep
      · exact record_shaped_of_map s s1 _ _
          (NetworkResourceLoader.retrieveCacheEntryCompletion_shaped env _ _ _ _ entry hg)
          hstep
      · simp at hstep
    | dispatchedTaskRun index =>
      simp only at hstep
      split at hstep
      · exact record_shaped_of_map s s1 _ _
          (NetworkResourceLoader.dispatchedDidFailLoading_shaped env _ _ _ hg) hstep
      · simp at hstep
    | retrieveDataCompleted index data =>
      simp only at hstep
      split at hstep
      · cases hstep
        exact record_shaped s _ _
          (NetworkResourceLoader.retrieveDataCompletion_shaped env _ _ _ _ _ _ data hg)
      · simp at hstep
    | storeCompleted index handle =>
      simp only at hstep
      split at hstep
      · cases hstep
        exact record_shaped s _ _
          (NetworkResourceLoader.storeCompletion_shaped env _ _ handle hg)
      · simp at hstep

theorem accounts_of_shaped (s s1 : System) (h : s.Shaped s1) : s.Accounts s1 := by
  obtain ⟨es, h1, h2⟩ := h
  exact ⟨es, h1, NetworkResourceLoader.accountsFor_of_shape _ _ _ h2⟩

theorem accounts_refl (s : System) : s.Accounts s :=
  ⟨[], by simp, NetworkResourceLoader.accountsFor_same _ _ [] (NetworkResourceLoader.sameGrants_refl _)
    (by simp)⟩

theorem accounts_trans (s s1 s2 : System) (h1 : s.Accounts s1) (h2 : s1.Accounts s2) :
    s.Accounts s2 := by
  obtain ⟨es1, t1, a1⟩ := h1
  obtain ⟨es2, t2, a2⟩ := h2
  exact ⟨es1 ++ es2, by rw [t2, t1, List.append_assoc],
    NetworkResourceLoader.accountsFor_trans _ _ _ _ _ a1 a2⟩

theorem run_accounts (env : Env) (events : List Event) :
    ∀ s : System, s.Accounts (run env s events) := by
  induction events with
  | nil => intro s; exact accounts_refl s
  | cons ev rest ih =>
    intro s
    unfold run
    split
    · next s1 hstep => exact accounts_trans s s1 _ (accounts_of_shaped s s1 (step_shaped env s s1 ev hstep)) (ih s1)
    · exact accounts_refl s

theorem init_accounts (env : Env) (parameters : NetworkResourceLoadParameters)
    (synchronousReply : Bool) (events : List Event) :
    (run env (init env parameters synchronousReply) events).loader.m_parameters = parameters
    ∧ ((run env (init env parameters synchronousReply) events).loader.m_fileReferences
          = NetworkResourceLoader.constructorFileReferences env parameters.request
        ∨ (run env (init env parameters synchronousReply) events).loader.m_fileReferences = [])
    ∧ ∀ x,
        occurrences x
            ((run env (init env parameters synchronousReply) events).trace.filterMap
              Effect.revoked)
          + occurrences x
              (run env (init env parameters synchronousReply) events).loader.outstanding
          ≤ occurrences x
              ((run env (init env parameters synchronousReply) events).trace.filterMap
                Effect.consumed) := by
  obtain ⟨es, htrace, hp, hf, hb, -⟩ :=
    run_accounts env events (init env parameters synchronousReply)
  refine ⟨hp, hf, fun x => ?_⟩
  have := hb x
  rw [htrace]
  simpa [init, NetworkResourceLoader.outstanding, NetworkResourceLoader.create] using this

theorem countP_eraseIdx_token (xs : List Pending) (i : Nat) (x : Pending)
    (h : xs.get? i = some x) :
    (xs.eraseIdx i).countP Pending.isToken + (if x.isToken then 1 else 0)
      = xs.countP Pending.isToken := by
  induction xs generalizing i with
  | nil => simp at h
  | cons y ys ih =>
    cases i with
    | zero =>
      simp only [List.get?_cons_zero, Option.some.injEq] at h
      subst h
      simp [List.countP_cons]
    | succ j =>
      simp only [List.get?_cons_succ] at h
      have := ih j h
      simp only [List.eraseIdx_cons_succ, List.countP_cons]
      omega

theorem countP_pending (es : List Effect) :
    (es.filterMap Effect.pending).countP Pending.isToken = es.countP Effect.spawns := by
  induction es with
  | nil => rfl
  | cons e es ih =>
    cases e <;>
      simp [List.filterMap_cons, Effect.pending, Effect.spawns, Pending.isToken,
        List.countP_cons, ih]

theorem stake_record (s : System) (pending : List Pending)
    (r : NetworkResourceLoader × List Effect) :
    (s.record pending r).stake
      = pending.countP Pending.isToken + r.2.countP Effect.spawns + r.1.credit := by
  simp [stake, record, List.countP_append, countP_pending]

theorem record_steady (s : System) (pending : List Pending) (g : Nat)
    (r : NetworkResourceLoader × List Effect)
    (hbudget : pending.countP Pending.isToken + s.loader.credit + g ≤ 1)
    (hth : Outcome.Thrifty g s.loader (some r))
    (hstarted : r.1.m_wasStarted = false →
      pending.countP Pending.isToken + s.loader.credit + g = 0) :
    s.Steady (s.record pending r) := by
  obtain ⟨a, -⟩ := hth r rfl
  obtain ⟨a1, a2⟩ := a (by omega)
  refine ⟨⟨?_, fun hs => ?_⟩, fun es hes hne => ?_⟩
  · rw [stake_record]
    omega
  · have := hstarted hs
    rw [stake_record]
    omega
  · have : es = r.2 := (List.append_cancel_left hes).symm
    subst this
    exact a2 hne

theorem record_steady_zero (s : System) (pending : List Pending)
    (r : NetworkResourceLoader × List Effect) (hJ : s.Single)
    (hcount : pending.countP Pending.isToken ≤ s.pending.countP Pending.isToken)
    (hth : Outcome.Thrifty 0 s.loader (some r)) : s.Steady (s.record pending r) := by
  have hle : s.pending.countP Pending.isToken + s.loader.credit ≤ 1 := hJ.1
  apply record_steady s pending 0 r (by omega) hth
  intro hs
  have h0 : s.loader.m_wasStarted = false := by
    cases hw : s.loader.m_wasStarted
    · rfl
    · rw [(hth r rfl).2 hw] at hs
      cases hs
  have : s.pending.countP Pending.isToken + s.loader.credit = 0 := hJ.2 h0
  omega

theorem record_steady_idle (s : System) (pending : List Pending)
    (r : NetworkResourceLoader × List Effect) (hJ : s.Single)
    (hcount : pending.countP Pending.isToken ≤ s.pending.countP Pending.isToken)
    (h : Outcome.Idle s.loader (some r)) : s.Steady (s.record pending r) :=
  record_steady_zero s pending r hJ hcount (NetworkResourceLoader.thrifty_of_idle 0 _ _ h)

theorem record_steady_token (s : System) (pending : List Pending)
    (r : NetworkResourceLoader × List Effect) (hJ : s.Single)
    (hcount : pending.countP Pending.isToken + 1 = s.pending.countP Pending.isToken)
    (hth : Outcome.Thrifty 1 s.loader (some r)) : s.Steady (s.record pending r) := by
  have hle : s.pending.countP Pending.isToken + s.loader.credit ≤ 1 := hJ.1
  apply record_steady s pending 1 r (by omega) hth
  intro hs
  have h0 : s.loader.m_wasStarted = false := by
    cases hw : s.loader.m_wasStarted
    · rfl
    · rw [(hth r rfl).2 hw] at hs
      cases hs
  have : s.pending.countP Pending.isToken + s.loader.credit = 0 := hJ.2 h0
  omega

theorem steady_of_map (s s1 : System) (pending : List Pending) (o : Outcome)
    (h : o.map (s.record pending) = some s1)
    (hk : ∀ r, o = some r → s.Steady (s.record pending r)) : s.Steady s1 := by
  obtain ⟨r, hr, rfl⟩ := Option.map_eq_some'.1 h
  exact hk r hr

theorem countP_eraseIdx_le (xs : List Pending) (i : Nat) :
    (xs.eraseIdx i).countP Pending.isToken ≤ xs.countP Pending.isToken :=
  (List.eraseIdx_sublist xs i).countP_le _

theorem step_steady (env : Env) (s s1 : System) (ev : Event) (hJ : s.Single)
    (hmay : s.mayHappen ev = true) (hstep : s.step env ev = some s1) : s.Steady s1 := by
  have hg : s.loader.SameCredit s.loader := NetworkResourceLoader.sameCredit_refl _
  have hk : s.loader.KeepsCredit s.loader := NetworkResourceLoader.keepsCredit_refl _
  have hle : s.pending.countP Pending.isToken ≤ s.pending.countP Pending.isToken :=
    Nat.le_refl _
  unfold step at hstep
  split at hstep
  · simp at hstep
  · simp only at hstep
    cases ev with
    | start =>
      simp only at hstep
      split at hstep
      · apply steady_of_map s s1 _ _ hstep
        intro r hr
        cases hd : s.loader.m_defersLoading with
        | true =>
          have : s.loader.start env = some (s.loader, []) := by
            simp [NetworkResourceLoader.start, hd]
          rw [this] at hr
          exact record_steady_idle s _ r hJ hle
            (hr ▸ NetworkResourceLoader.idle_some _ _ _ hg (by simp))
        | false =>
          have hw : s.loader.m_wasStarted = false := by
            simpa [mayHappen, hd] using hmay
          have h0 : s.pending.countP Pending.isToken + s.loader.credit = 0 := hJ.2 hw
          apply record_steady s _ 1 r (by omega)
            (hr ▸ NetworkResourceLoader.start_thrifty env _ _ hk)
          intro hs
          rw [NetworkResourceLoader.start_started env _ r hd hr] at hs
          cases hs
      · simp at hstep
    | setDefersLoading defers =>
      simp only at hstep
      split at hstep
      · apply steady_of_map s s1 _ _ hstep
        intro r hr
        rcases NetworkResourceLoader.setDefersLoading_cases env _ defers r hr with h | ⟨h1, h2, h3⟩
        · exact record_steady_idle s _ r hJ hle h
        · have h0 : s.pending.countP Pending.isToken + s.loader.credit = 0 := hJ.2 h1
          apply record_steady s _ 1 r (by omega) h3
          intro hs
          rw [h2] at hs
          cases hs
      · simp at hstep
    | abort =>
      simp only at hstep
      split at hstep
      · cases hstep
        exact record_steady_idle s _ _ hJ hle (NetworkResourceLoader.abort_idle _ _ hg)
      · simp at hstep
    | convertToDownload downloadID request response =>
      simp only at hstep
      split at hstep
      · cases hstep
        exact record_steady_idle s _ _ hJ hle
          (NetworkResourceLoader.convertToDownload_idle env _ _ _ _ _ hg)
      · simp at hstep
    | continueWillSendRequest newRequest allowed =>
      simp only at hstep
      split at hstep
      · apply steady_of_map s s1 _ _ hstep
        intro r hr
        exact record_steady_zero s _ r hJ hle
          (hr ▸ NetworkResourceLoader.continueWillSendRequest_thrifty env _ _ _ _ hk)
      · simp at hstep
    | continueDidReceiveResponse =>
      simp only at hstep
      split at hstep
      · apply steady_of_map s s1 _ _ hstep
        intro r hr
        exact record_steady_idle s _ r hJ hle
          (hr ▸ NetworkResourceLoader.continueDidReceiveResponse_idle env _ _ hg)
      · simp at hstep
    | didReceiveResponse response =>
      simp only at hstep
      split at hstep
      · obtain ⟨r, hr, rfl⟩ := Option.map_eq_some'.1 hstep
        have hi := NetworkResourceLoader.didReceiveResponse_idle env _ _ response hg
        rw [hr] at hi
        exact record_steady_idle s _ _ hJ hle hi
      · simp at hstep
    | didReceiveBuffer buffer reported =>
      simp only at hstep
      split at hstep
      · cases hstep
        exact record_steady_idle s _ _ hJ hle
          (NetworkResourceLoader.didReceiveBuffer_idle _ _ _ _ hg)
      · simp at hstep
    | didFinishLoading metrics =>
      simp only at hstep
      split at hstep
      · apply steady_of_map s s1 _ _ hstep
        intro r hr
        exact record_steady_idle s _ r hJ hle
          (hr ▸ NetworkResourceLoader.didFinishLoading_idle env _ _ _ hg)
      · simp at hstep
    | didFailLoading error =>
      simp only at hstep
      split at hstep
      · apply steady_of_map s s1 _ _ hstep
        intro r hr
        exact record_steady_idle s _ r hJ hle
          (hr ▸ NetworkResourceLoader.didFailLoading_idle env _ _ _ hg)
      · simp at hstep
    | willSendRedirectedRequest request redirectRequest redirectResponse =>
      simp only at hstep
      split at hstep
      · apply steady_of_map s s1 _ _ hstep
        intro r hr
        exact record_steady_idle s _ r hJ hle
          (hr ▸ NetworkResourceLoader.willSendRedirectedRequest_idle env _ _ _ _ _ hg)
      · simp at hstep
    | didSendData bytesSent totalBytesToBeSent =>
      simp only at hstep
      split at hstep
      · cases hstep
        exact record_steady_idle s _ _ hJ hle
          (NetworkResourceLoader.didSendData_idle _ _ _ _ hg)
      · simp at hstep
    | didBlockAuthenticationChallenge =>
      simp only at hstep
      split at hstep
      · cases hstep
        exact record_steady_idle s _ _ hJ hle
          (NetworkResourceLoader.didBlockAuthenticationChallenge_idle _ _ hg)
      · simp at hstep
    | transportRequestChanged request =>
      simp only at hstep
      split at hstep
      · cases hstep
        exact record_steady_idle s _ _ hJ hle
          (NetworkResourceLoader.idle_some _ _ _ (by exact hg) (by simp))
      · simp at hstep
    | bufferingTimerFired =>
      simp only at hstep
      split at hstep
      · apply steady_of_map s s1 _ _ hstep
        intro r hr
        exact record_steady_idle s _ r hJ hle
          (hr ▸ NetworkResourceLoader.bufferingTimerFired_idle _ _ (by exact hg))
      · simp at hstep
    | checkCompleted index result =>
      simp only at hstep
      split at hstep
      · next request hget =>
        apply steady_of_map s s1 _ _ hstep
        intro r hr
        have hc := countP_eraseIdx_token s.pending index _ hget
        exact record_steady_token s _ r hJ (by simpa [Pending.isToken] using hc)
          (hr ▸ NetworkResourceLoader.startCheckCompletion_thrifty env _ _ _ hk)
      · simp at hstep
    | checkRedirectionCompleted index result checkerPolicy =>
      simp only at hstep
      split at hstep
      · apply steady_of_map s s1 _ _ hstep
        intro r hr
        exact record_steady_zero s _ r hJ (countP_eraseIdx_le _ _)
          (hr ▸ NetworkResourceLoader.checkRedirectionCompletion_thrifty env _ _ _ _ _ _
            (by exact hk))
      · simp at hstep
    | retrieveCompleted index entry =>
      simp only at hstep
      split at hstep
      · next request hget =>
        apply steady_of_map s s1 _ _ hstep
        intro r hr
        have hc := countP_eraseIdx_token s.pending index _ hget
        exact record_steady_token s _ r hJ (by simpa [Pending.isToken] using hc)
          (hr ▸ NetworkResourceLoader.retrieveCacheEntryCompletion_thrifty env _ _ _ _ _ hk)
      · simp at hstep
    | dispatchedTaskRun index =>
      simp only at hstep
      split at hstep
      · apply steady_of_map s s1 _ _ hstep
        intro r hr
        exact record_steady_idle s _ r hJ (countP_eraseIdx_le _ _)
          (hr ▸ NetworkResourceLoader.dispatchedDidFailLoading_idle env _ _ _ hg)
      · simp at hstep
    | retrieveDataCompleted index data =>
      simp only at hstep
      split at hstep
      · cases hstep
        exact record_steady_idle s _ _ hJ (countP_eraseIdx_le _ _)
          (NetworkResourceLoader.retrieveDataCompletion_idle env _ _ _ _ _ _ _ hg)
      · simp at hstep
    | storeCompleted index handle =>
      simp only at hstep
      split at hstep
      · cases hstep
        exact record_steady_idle s _ _ hJ (countP_eraseIdx_le _ _)
          (NetworkResourceLoader.storeCompletion_idle env _ _ _ hg)
      · simp at hstep

theorem occurrences_inl_files (e : SandboxExtension) (files : List BlobDataFileReference) :
    occurrences (Sum.inl e) (files.map Sum.inr) = 0 := by
  induction files with
  | nil => rfl
  | cons f fs ih =>
    simp only [List.map_cons, occurrences, List.countP_cons] at ih ⊢
    simp [ih]

theorem outstanding_nil_of_clear (l : NetworkResourceLoader)
    (h : l.m_didConsumeSandboxExtensions = false) : l.outstanding = [] := by
  simp [NetworkResourceLoader.outstanding, h]

theorem balanced_of_step (s s1 : System) (hshaped : s.Shaped s1) (hsteady : s.Steady s1) :
    s.Balanced s1 := by
  obtain ⟨es, htrace, hp, hshape⟩ := hshaped
  have hsafe := hsteady.2 es htrace
  refine ⟨es, htrace, fun x hx => ?_⟩
  rcases hshape with ⟨a, b, c⟩ | ⟨a, b, c, d⟩ | ⟨a, b, c, d, -⟩ | ⟨a, b, c, d, -⟩
      | ⟨a, b, c, d, e⟩
  · rw [b, c, NetworkResourceLoader.outstanding_congr _ _ a]
  · have hout : s1.loader.outstanding = s.loader.held := by
      simp only [NetworkResourceLoader.outstanding, c, if_true, NetworkResourceLoader.held, hp, d]
    rw [a, b, hout]
    by_cases hh : s.loader.held = []
    · have : s.loader.outstanding = [] := by
        simp only [NetworkResourceLoader.outstanding, hh]
        split <;> rfl
      rw [this]
      simp
    · rw [outstanding_nil_of_clear _ (hsafe (by rw [a]; exact hh))]
      simp
  · rw [a, b]
    simp
  · rw [a, b]
    by_cases hh : s.loader.held = []
    · have : s.loader.outstanding = [] := by
        simp only [NetworkResourceLoader.outstanding, hh]
        split <;> rfl
      rw [this]
      simp
    · rw [outstanding_nil_of_clear _ (hsafe (by rw [a]; exact hh))]
      simp
  · rcases hx with hx | hx
    · rw [a, b]
      cases x with
      | inr f => cases hx
      | inl ext =>
        simp only [NetworkResourceLoader.outstanding, NetworkResourceLoader.held, c, hp]
        split
        · simp only [NetworkResourceLoader.occurrences_append, occurrences_inl_files]
          omega
        · simp
    · exact absurd e hx

theorem balanced_refl (s : System) : s.Balanced s :=
  ⟨[], by simp, fun x _ => by simp⟩

theorem balanced_trans (s s1 s2 : System) (h1 : s.Balanced s1) (h2 : s1.Balanced s2) :
    s.Balanced s2 := by
  obtain ⟨es1, t1, a1⟩ := h1
  obtain ⟨es2, t2, a2⟩ := h2
  refine ⟨es1 ++ es2, by rw [t2, t1, List.append_assoc], fun x hx => ?_⟩
  have hx1 : x.isLeft = true ∨ ¬ converted es1 := by
    rcases hx with hx | hx
    · exact Or.inl hx
    · exact Or.inr (fun hc => hx (NetworkResourceLoader.converted_append_left _ _ hc))
  have hx2 : x.isLeft = true ∨ ¬ converted es2 := by
    rcases hx with hx | hx
    · exact Or.inl hx
    · exact Or.inr (fun hc => hx (NetworkResourceLoader.converted_append_right _ _ hc))
  have b1 := a1 x hx1
  have b2 := a2 x hx2
  simp only [List.filterMap_append, NetworkResourceLoader.occurrences_append]
  omega

theorem run_balanced (env : Env) (events : List Event) :
    ∀ s : System, s.Single → startsOnce env s events = true →
      s.Balanced (run env s events) ∧ (run env s events).Single := by
  induction events with
  | nil => intro s hJ _; exact ⟨balanced_refl s, hJ⟩
  | cons ev rest ih =>
    intro s hJ hstart
    unfold startsOnce at hstart
    simp only [Bool.and_eq_true] at hstart
    obtain ⟨hmay, hrest⟩ := hstart
    unfold run
    split
    · next s1 hstep =>
      rw [hstep] at hrest
      have hsteady := step_steady env s s1 ev hJ hmay hstep
      obtain ⟨b, j⟩ := ih s1 hsteady.1 hrest
      exact ⟨balanced_trans s s1 _
        (balanced_of_step s s1 (step_shaped env s s1 ev hstep) hsteady) b, j⟩
    · exact ⟨balanced_refl s, hJ⟩

theorem init_single (env : Env) (parameters : NetworkResourceLoadParameters)
    (synchronousReply : Bool) : (init env parameters synchronousReply).Single := by
  have : (init env parameters synchronousReply).stake = 0 := rfl
  exact ⟨by omega, fun _ => this⟩

end System

end WebKit
